import Mathlib

/-!
PandoraPFA content API: dispatch, reclustering and list persistence.

A shallow embedding of `src/src/Api/PandoraContentApiImpl.cc`.

* The functions of `PandoraContentApiImpl` are translated statement by statement.  A C++
  member function returning a `StatusCode` while mutating the managers becomes a function
  from the state before the call to the returned status, the final value of every
  reference parameter and the state after the call.
* The managers (`CaloHitManager`, `ClusterManager`, `TrackManager`) and `StatusCodes.h` are
  not among the sources.  Their member functions are fields of the records `CaloHitManager`,
  `ClusterManager` and `TrackManager`, so that the API functions are defined for every
  implementation of the managers; the instances `specCaloHitManager`, `specClusterManager`
  and `specTrackManager` follow the description of the named list store in the specification.
-/

namespace pandora

/-! ## Status codes and the result macros -/

/-- Modelled from the spec: the status codes of `StatusCodes.h` (not among the sources),
those the sources name: success, `Failure`, `NotFound` and `InvalidParameter`. -/
inductive StatusCode where
  | STATUS_CODE_SUCCESS
  | STATUS_CODE_FAILURE
  | STATUS_CODE_NOT_FOUND
  | STATUS_CODE_INVALID_PARAMETER
  deriving DecidableEq, Repr

open StatusCode

/-- Modelled from the spec: the macros `PANDORA_RETURN_RESULT_IF` and
`PANDORA_THROW_RESULT_IF` of `StatusCodes.h` (not among the sources).  This is the condition
under which `PANDORA_RETURN_RESULT_IF(STATUS_CODE_SUCCESS, !=, Command)` returns, and
`PANDORA_THROW_RESULT_IF(STATUS_CODE_SUCCESS, !=, Command)` throws, the status of `Command`:
a result that is not success "abort[s] the current algorithm's remaining work". -/
def resultIf (statusCode : StatusCode) : Bool :=
  decide (STATUS_CODE_SUCCESS ≠ statusCode)

/-- Modelled from the spec: the macro `PANDORA_RETURN_RESULT_IF_AND_IF` of `StatusCodes.h`
(not among the sources).  This is the condition under which
`PANDORA_RETURN_RESULT_IF_AND_IF(STATUS_CODE_SUCCESS, STATUS_CODE_NOT_FOUND, !=, Command)`
returns the status of `Command`: the status differs from both codes, `NotFound` being
"treated as success, not an error". -/
def resultIfAndIf (statusCode : StatusCode) : Bool :=
  decide (STATUS_CODE_SUCCESS ≠ statusCode) && decide (STATUS_CODE_NOT_FOUND ≠ statusCode)

/-! ## Objects -/

/-- A calo hit, identified by its address. -/
abbrev CaloHit := Nat

/-- A track, identified by its address. -/
abbrev Track := Nat

/-- A cluster: its address and the calo hits it aggregates. -/
structure Cluster where
  address : Nat
  caloHits : List CaloHit
  deriving DecidableEq, Repr

abbrev ClusterList := List Cluster
abbrev TrackList := List Track
abbrev OrderedCaloHitList := List CaloHit

/-- The address of an algorithm instance (`const Algorithm *`). -/
abbrev AlgorithmAddress := Nat

/-! ## The named list store -/

/-- One record of the scope stack of a store. -/
structure ScopeFrame where
  owningAlgorithm : AlgorithmAddress
  createdListNames : List String
  savedCurrentName : String
  deriving DecidableEq, Repr

/-- The state of a named list store holding objects of type `α`. -/
structure NamedListStore (α : Type) where
  /-- the live objects owned by the store -/
  objects : List α
  /-- the name default queries resolve to -/
  currentName : String
  /-- name to list -/
  lists : List (String × List α)
  /-- names of the lists saved under a permanent name -/
  savedNames : List String
  scopeStack : List ScopeFrame
  /-- the counter temporary list names are derived from -/
  counter : Nat
  deriving DecidableEq, Repr

abbrev CaloHitStore := NamedListStore CaloHit
abbrev TrackStore := NamedListStore Track

/-- The state of the cluster store: a named list store and the recluster context. -/
structure ClusterStore where
  store : NamedListStore Cluster
  /-- the parent list name of the active recluster context, if one is active -/
  reclusterListName : Option String
  deriving DecidableEq, Repr

/-! ## Managers (not among the sources): the functions the API calls -/

/-- The member functions of `CaloHitManager` called by the content API. -/
structure CaloHitManager where
  ResetAfterAlgorithmCompletion : AlgorithmAddress → CaloHitStore → StatusCode × CaloHitStore
  /-- arguments: algorithm, cluster list, value of `temporaryListName` on entry -/
  CreateTemporaryListAndSetCurrent :
    AlgorithmAddress → ClusterList → String → CaloHitStore → StatusCode × String × CaloHitStore
  RemoveCaloHitsFromCurrentList : ClusterList → CaloHitStore → StatusCode × CaloHitStore

/-- The member functions of `TrackManager` called by the content API. -/
structure TrackManager where
  ResetAfterAlgorithmCompletion : AlgorithmAddress → TrackStore → StatusCode × TrackStore
  /-- arguments: algorithm, track list, value of `temporaryListName` on entry -/
  CreateTemporaryListAndSetCurrent :
    AlgorithmAddress → TrackList → String → TrackStore → StatusCode × String × TrackStore

/-- The member functions of `ClusterManager` called by the content API.  A reference
parameter is passed as its value on entry and returned as its value on exit. -/
structure ClusterManager where
  ResetAfterAlgorithmCompletion : AlgorithmAddress → ClusterStore → StatusCode × ClusterStore
  /-- arguments: algorithm, value of `temporaryListName` on entry -/
  MakeTemporaryListAndSetCurrent :
    AlgorithmAddress → String → ClusterStore → StatusCode × String × ClusterStore
  /-- arguments: values of `*pClusterList` and `clusterListName` on entry -/
  GetCurrentList : ClusterList → String → ClusterStore → StatusCode × ClusterList × String
  /-- arguments: list name, value of `pClusterList` on entry (`none` for `NULL`) -/
  GetList : String → Option ClusterList → ClusterStore → StatusCode × Option ClusterList
  /-- argument: value of `reclusterListName` on entry -/
  GetReclusterListName : String → ClusterStore → StatusCode × String × ClusterStore
  /-- argument: value of `reclusterListName` on entry -/
  GetAndResetReclusterListName : String → ClusterStore → StatusCode × String × ClusterStore
  /-- arguments: algorithm, old list name, value of `temporaryListName` on entry, clusters to
  move (`none` for `NULL`) -/
  MoveClustersToTemporaryListAndSetCurrent :
    AlgorithmAddress → String → String → Option ClusterList → ClusterStore →
      StatusCode × String × ClusterStore
  /-- arguments: algorithm, new list name, temporary list name, clusters to save (`none` for
  `NULL`, the default) -/
  SaveTemporaryClusters :
    AlgorithmAddress → String → String → Option ClusterList → ClusterStore →
      StatusCode × ClusterStore
  SetCurrentList : AlgorithmAddress → String → ClusterStore → StatusCode × ClusterStore

/-! ## The state of a Pandora instance -/

/-- Which manager a call is made on. -/
inductive StoreKind where
  | caloHit
  | cluster
  | track
  deriving DecidableEq, Repr

/-- What an execution writes to `std::cout`, and the calls it makes that the claims talk
about. -/
inductive Event where
  /-- the line `Running Algorithm: name` -/
  | running (algorithmName : String)
  /-- the line `Failure in algorithm name, ` followed by the text of the status code
  exception -/
  | failure (algorithmName : String) (statusCode : StatusCode)
  /-- the line `Failure in algorithm name, unrecognized exception` -/
  | failureUnrecognized (algorithmName : String)
  /-- the call `ResetAfterAlgorithmCompletion(algorithm)` on a manager -/
  | reset (store : StoreKind) (algorithm : AlgorithmAddress)
  deriving DecidableEq, Repr

/-- The mutable state reachable from `m_pPandora`: the three stores and the events so far. -/
structure State where
  caloHits : CaloHitStore
  clusters : ClusterStore
  tracks : TrackStore
  events : List Event
  deriving DecidableEq, Repr

/-- How a call of a C++ function ends: it returns a status code, or an exception leaves it. -/
inductive Outcome where
  | returned (statusCode : StatusCode)
  | threwStatusCodeException (statusCode : StatusCode)
  | threwOther
  deriving DecidableEq, Repr

/-- A registered algorithm: its address and the effect of its `Run()`. -/
structure Algorithm where
  address : AlgorithmAddress
  Run : State → Outcome × State

/-- The part of a Pandora instance that the content API reads: the algorithm map and the
three managers. -/
structure Pandora where
  m_algorithmMap : List (String × Algorithm)
  m_pCaloHitManager : CaloHitManager
  m_pClusterManager : ClusterManager
  m_pTrackManager : TrackManager

/-- The lookup `m_algorithmMap.find(algorithmName)`; `none` stands for `end()`. -/
def findAlgorithm (algorithmName : String) : List (String × Algorithm) → Option Algorithm
  | [] => none
  | (name, algorithm) :: rest =>
    if name = algorithmName then some algorithm else findAlgorithm algorithmName rest

/-! ## `PandoraContentApiImpl::RunAlgorithm` -/

/-- The `try` block of `RunAlgorithm` with its two handlers: the line `Running Algorithm`,
the call of `Run()`, `PANDORA_THROW_RESULT_IF(STATUS_CODE_SUCCESS, !=, ...)` on its result,
and the handlers for `StatusCodeException &` and for `...`.  The result is how control
leaves the whole `try`/`catch` statement: `none` when it falls through to the next
statement, `some o` when an exception `o` leaves it. -/
def runAlgorithmTryBlock (algorithmName : String) (algorithm : Algorithm) (s : State) :
    Option Outcome × State :=
  let s1 : State := { s with events := s.events ++ [Event.running algorithmName] }
  match algorithm.Run s1 with
  | (Outcome.returned statusCode, s2) =>
    if resultIf statusCode then
      -- thrown by the macro, caught by `catch (StatusCodeException &)`
      (none, { s2 with events := s2.events ++ [Event.failure algorithmName statusCode] })
    else
      (none, s2)
  | (Outcome.threwStatusCodeException statusCode, s2) =>
    (none, { s2 with events := s2.events ++ [Event.failure algorithmName statusCode] })
  | (Outcome.threwOther, s2) =>
    (none, { s2 with events := s2.events ++ [Event.failureUnrecognized algorithmName] })

/-- The call `m_pCaloHitManager->ResetAfterAlgorithmCompletion(algorithm)`. -/
def resetCaloHits (p : Pandora) (algorithm : Algorithm) (s : State) : StatusCode × State :=
  let r := p.m_pCaloHitManager.ResetAfterAlgorithmCompletion algorithm.address s.caloHits
  (r.1, { s with caloHits := r.2,
                 events := s.events ++ [Event.reset StoreKind.caloHit algorithm.address] })

/-- The call `m_pClusterManager->ResetAfterAlgorithmCompletion(algorithm)`. -/
def resetClusters (p : Pandora) (algorithm : Algorithm) (s : State) : StatusCode × State :=
  let r := p.m_pClusterManager.ResetAfterAlgorithmCompletion algorithm.address s.clusters
  (r.1, { s with clusters := r.2,
                 events := s.events ++ [Event.reset StoreKind.cluster algorithm.address] })

/-- The call `m_pTrackManager->ResetAfterAlgorithmCompletion(algorithm)`. -/
def resetTracks (p : Pandora) (algorithm : Algorithm) (s : State) : StatusCode × State :=
  let r := p.m_pTrackManager.ResetAfterAlgorithmCompletion algorithm.address s.tracks
  (r.1, { s with tracks := r.2,
                 events := s.events ++ [Event.reset StoreKind.track algorithm.address] })

/-- The statements of `RunAlgorithm` after the `try`/`catch` statement: the three resets,
each under `PANDORA_RETURN_RESULT_IF_AND_IF(STATUS_CODE_SUCCESS, STATUS_CODE_NOT_FOUND, !=,
...)`, then `return STATUS_CODE_SUCCESS`. -/
def runAlgorithmResets (p : Pandora) (algorithm : Algorithm) (s : State) : StatusCode × State :=
  let r1 := resetCaloHits p algorithm s
  if resultIfAndIf r1.1 then (r1.1, r1.2) else
  let r2 := resetClusters p algorithm r1.2
  if resultIfAndIf r2.1 then (r2.1, r2.2) else
  let r3 := resetTracks p algorithm r2.2
  if resultIfAndIf r3.1 then (r3.1, r3.2) else
  (STATUS_CODE_SUCCESS, r3.2)

/-- Embedding of `PandoraContentApiImpl::RunAlgorithm`. -/
def RunAlgorithm (p : Pandora) (algorithmName : String) (s : State) : Outcome × State :=
  match findAlgorithm algorithmName p.m_algorithmMap with
  | none => (Outcome.returned STATUS_CODE_NOT_FOUND, s)
  | some algorithm =>
    match runAlgorithmTryBlock algorithmName algorithm s with
    | (some exception, s1) => (exception, s1)
    | (none, s1) =>
      let r := runAlgorithmResets p algorithm s1
      (Outcome.returned r.1, r.2)

/-! ## The named list store of the specification -/

section NamedList

variable {α : Type}

/-- The list stored under `name`, if there is one. -/
def findList (name : String) : List (String × List α) → Option (List α)
  | [] => none
  | (n, l) :: rest => if n = name then some l else findList name rest

/-- Store `l` under `name`, replacing the list already stored under that name if there is
one. -/
def setList (name : String) (l : List α) : List (String × List α) → List (String × List α)
  | [] => [(name, l)]
  | (n, x) :: rest => if n = name then (name, l) :: rest else (n, x) :: setList name l rest

/-- Modelled from the spec: the name of a temporary list (the managers are not among the
sources), "a unique name derived from `owner` identity plus a monotonically increasing
counter". -/
def temporaryListName (owner : AlgorithmAddress) (counter : Nat) : String :=
  toString owner ++ "_" ++ toString counter

/-- Whether `name` was created in a scope of an algorithm other than `owner`. -/
def createdByOther (owner : AlgorithmAddress) (name : String) (scopeStack : List ScopeFrame) :
    Bool :=
  scopeStack.any fun frame =>
    decide (frame.owningAlgorithm ≠ owner) && decide (name ∈ frame.createdListNames)

variable [DecidableEq α]

/-- Modelled from the spec: `createTemporaryListAndSetCurrent(owner, inputObjects) -> name`
of the named list store (the managers are not among the sources).  It "allocates a unique
name derived from `owner` identity plus a monotonically increasing counter, copies
`inputObjects` references into a new list, records it in the top scope frame for `owner`,
and sets it current.  Fails with `NotFound` if any input reference is already deleted."
The second argument is the value of the name parameter on entry. -/
def NamedListStore.createTemporaryListAndSetCurrent (owner : AlgorithmAddress)
    (inputObjects : List α) (temporaryName : String) (st : NamedListStore α) :
    StatusCode × String × NamedListStore α :=
  if inputObjects.all (fun o => decide (o ∈ st.objects)) then
    let name := temporaryListName owner st.counter
    (STATUS_CODE_SUCCESS, name,
      { st with
        currentName := name
        lists := setList name inputObjects st.lists
        scopeStack :=
          { owningAlgorithm := owner, createdListNames := [name],
            savedCurrentName := st.currentName } :: st.scopeStack
        counter := st.counter + 1 })
  else
    (STATUS_CODE_NOT_FOUND, temporaryName, st)

/-- Modelled from the spec: `makeTemporaryListAndSetCurrent(owner) -> name` of the named
list store (the managers are not among the sources): "as above but the list starts empty". -/
def NamedListStore.makeTemporaryListAndSetCurrent (owner : AlgorithmAddress)
    (temporaryName : String) (st : NamedListStore α) : StatusCode × String × NamedListStore α :=
  st.createTemporaryListAndSetCurrent owner [] temporaryName

/-- Modelled from the spec: `getList(name) -> list` of the named list store (the managers
are not among the sources), which "fails with `NotFound` if absent". -/
def NamedListStore.getList (name : String) (list : Option (List α)) (st : NamedListStore α) :
    StatusCode × Option (List α) :=
  match findList name st.lists with
  | some l => (STATUS_CODE_SUCCESS, some l)
  | none => (STATUS_CODE_NOT_FOUND, list)

/-- Modelled from the spec: `getCurrentList() -> (list, name)` of the named list store (the
managers are not among the sources); `NotFound` when no list is stored under the current
name. -/
def NamedListStore.getCurrentList (list : List α) (name : String) (st : NamedListStore α) :
    StatusCode × List α × String :=
  match findList st.currentName st.lists with
  | some l => (STATUS_CODE_SUCCESS, l, st.currentName)
  | none => (STATUS_CODE_NOT_FOUND, list, name)

/-- Modelled from the spec: `setCurrentList(owner, name)` of the named list store (the
managers are not among the sources), which "fails if `name` unknown". -/
def NamedListStore.setCurrentList ( _owner : AlgorithmAddress) (name : String)
    (st : NamedListStore α) : StatusCode × NamedListStore α :=
  match findList name st.lists with
  | some _ => (STATUS_CODE_SUCCESS, { st with currentName := name })
  | none => (STATUS_CODE_NOT_FOUND, st)

/-- Modelled from the spec: `moveToTemporaryListAndSetCurrent(owner, sourceName, subset) ->
newName` of the named list store (the managers are not among the sources).  It "removes
`subset` (must be ⊆ source list) from `sourceName`, creates a new temporary list holding
them, sets it current; the remainder stays addressable under `sourceName`".  A null subset
pointer (`none`) moves the whole list. -/
def NamedListStore.moveToTemporaryListAndSetCurrent (owner : AlgorithmAddress)
    (sourceName : String) (temporaryName : String) (subset : Option (List α))
    (st : NamedListStore α) : StatusCode × String × NamedListStore α :=
  match findList sourceName st.lists with
  | none => (STATUS_CODE_NOT_FOUND, temporaryName, st)
  | some source =>
    let moved := subset.getD source
    if moved.all (fun o => decide (o ∈ source)) then
      let name := temporaryListName owner st.counter
      let remainder := source.filter (fun o => decide (o ∉ moved))
      (STATUS_CODE_SUCCESS, name,
        { st with
          currentName := name
          lists := setList name moved (setList sourceName remainder st.lists)
          scopeStack :=
            { owningAlgorithm := owner, createdListNames := [name],
              savedCurrentName := st.currentName } :: st.scopeStack
          counter := st.counter + 1 })
    else
      (STATUS_CODE_INVALID_PARAMETER, temporaryName, st)

/-- The copy of a list that a save commits: the whole list without a filter (a null
`pClustersToSave`), otherwise the members that are also in the filter, "only clusters in both
this and the current lists will be saved" (`PandoraContentApiImpl.h`). -/
def filteredCopy (subsetFilter : Option (List α)) (source : List α) : List α :=
  match subsetFilter with
  | none => source
  | some subset => source.filter (fun o => decide (o ∈ subset))

/-- Modelled from the spec: `saveList(owner, newName, sourceName, subsetFilter?)` of the
named list store (the managers are not among the sources).  It "commits a (possibly
filtered) copy of `sourceName`'s contents under a permanent name"; with a filter "only
clusters in both this and the current lists will be saved" (`PandoraContentApiImpl.h`).
`NotFound` when `sourceName` is absent; saving from a scope another algorithm owns "is an
error". -/
def NamedListStore.saveList (owner : AlgorithmAddress) (newName sourceName : String)
    (subsetFilter : Option (List α)) (st : NamedListStore α) : StatusCode × NamedListStore α :=
  match findList sourceName st.lists with
  | none => (STATUS_CODE_NOT_FOUND, st)
  | some source =>
    if createdByOther owner sourceName st.scopeStack then
      (STATUS_CODE_FAILURE, st)
    else
      (STATUS_CODE_SUCCESS,
        { st with
          lists := setList newName (filteredCopy subsetFilter source) st.lists
          savedNames := newName :: st.savedNames })

/-- Modelled from the spec: `resetAfterAlgorithmCompletion(owner)` of the named list store
(the managers are not among the sources).  It "pops scope frames belonging to `owner`
(innermost first); for each popped temporary list not subsequently saved, deletes its member
objects from the store (unless still referenced by a surviving permanent list ...) and
restores `currentName` to the value recorded when the scope was pushed"; `NotFound` when the
store has nothing to reset. -/
def NamedListStore.resetAfterAlgorithmCompletion (owner : AlgorithmAddress)
    (st : NamedListStore α) : StatusCode × NamedListStore α :=
  let popped := st.scopeStack.filter (fun frame => decide (frame.owningAlgorithm = owner))
  match popped.getLast? with
  | none => (STATUS_CODE_NOT_FOUND, st)
  | some outermost =>
    let remaining := st.scopeStack.filter (fun frame => decide (frame.owningAlgorithm ≠ owner))
    let dropped :=
      (popped.map ScopeFrame.createdListNames).flatten.filter
        (fun name => decide (name ∉ st.savedNames))
    let surviving := st.lists.filter (fun entry => decide (entry.1 ∉ dropped))
    let permanent :=
      surviving.filter fun entry =>
        !(remaining.any fun frame => decide (entry.1 ∈ frame.createdListNames))
    let droppedLists := st.lists.filter (fun entry => decide (entry.1 ∈ dropped))
    let deleted :=
      (droppedLists.map Prod.snd).flatten.filter fun o =>
        !(permanent.any fun entry => decide (o ∈ entry.2))
    (STATUS_CODE_SUCCESS,
      { st with
        objects := st.objects.filter (fun o => decide (o ∉ deleted))
        currentName := outermost.savedCurrentName
        lists := surviving
        scopeStack := remaining })

end NamedList

/-! ## The managers of the specification -/

/-- The calo hits of the clusters of a list. -/
def constituentCaloHits (clusterList : ClusterList) : List CaloHit :=
  (clusterList.map Cluster.caloHits).flatten

/-- Modelled from the spec: `TrackManager` (not among the sources), a named list store of
tracks. -/
def specTrackManager : TrackManager where
  ResetAfterAlgorithmCompletion := fun algorithm st => st.resetAfterAlgorithmCompletion algorithm
  CreateTemporaryListAndSetCurrent := fun algorithm trackList temporaryListName st =>
    st.createTemporaryListAndSetCurrent algorithm trackList temporaryListName

/-- Modelled from the spec: `CaloHitManager` (not among the sources), a named list store of
calo hits.  A temporary list created from a cluster list holds the constituent hits of the
clusters; `RemoveCaloHitsFromCurrentList` "remove[s] its constituent hits from the live hit
list", `NotFound` when no list is stored under the current name. -/
def specCaloHitManager : CaloHitManager where
  ResetAfterAlgorithmCompletion := fun algorithm st => st.resetAfterAlgorithmCompletion algorithm
  CreateTemporaryListAndSetCurrent := fun algorithm clusterList temporaryListName st =>
    st.createTemporaryListAndSetCurrent algorithm (constituentCaloHits clusterList)
      temporaryListName
  RemoveCaloHitsFromCurrentList := fun clusterList st =>
    match findList st.currentName st.lists with
    | none => (STATUS_CODE_NOT_FOUND, st)
    | some current =>
      (STATUS_CODE_SUCCESS,
        { st with
          lists :=
            setList st.currentName
              (current.filter fun hit => decide (hit ∉ constituentCaloHits clusterList))
              st.lists })

/-- Apply a function of the named list store to the store of the cluster manager. -/
def ClusterStore.onStore {β : Type}
    (f : NamedListStore Cluster → StatusCode × β × NamedListStore Cluster) (st : ClusterStore) :
    StatusCode × β × ClusterStore :=
  let r := f st.store
  (r.1, r.2.1, { st with store := r.2.2 })

/-- Modelled from the spec: `ClusterManager` (not among the sources), a named list store of
clusters with the recluster context, "an at-most-one-active record `{parentListName}` set by
*begin* and cleared by *end*; attempting to begin while already set is an error".
`GetReclusterListName` is the begin step: `Failure` when a context is active, otherwise it
records the current list name as parent list name and returns it.
`GetAndResetReclusterListName` is the end step: it "reads and clears the recluster
context's parent-list name", `Failure` when no context is active. -/
def specClusterManager : ClusterManager where
  ResetAfterAlgorithmCompletion := fun algorithm st =>
    let r := st.store.resetAfterAlgorithmCompletion algorithm
    (r.1, { st with store := r.2 })
  MakeTemporaryListAndSetCurrent := fun algorithm temporaryListName st =>
    st.onStore (NamedListStore.makeTemporaryListAndSetCurrent algorithm temporaryListName)
  GetCurrentList := fun clusterList clusterListName st =>
    st.store.getCurrentList clusterList clusterListName
  GetList := fun listName clusterList st => st.store.getList listName clusterList
  GetReclusterListName := fun reclusterListName st =>
    match st.reclusterListName with
    | some _ => (STATUS_CODE_FAILURE, reclusterListName, st)
    | none =>
      (STATUS_CODE_SUCCESS, st.store.currentName,
        { st with reclusterListName := some st.store.currentName })
  GetAndResetReclusterListName := fun reclusterListName st =>
    match st.reclusterListName with
    | none => (STATUS_CODE_FAILURE, reclusterListName, st)
    | some parentListName =>
      (STATUS_CODE_SUCCESS, parentListName, { st with reclusterListName := none })
  MoveClustersToTemporaryListAndSetCurrent :=
    fun algorithm oldListName temporaryListName clustersToMove st =>
      st.onStore
        (NamedListStore.moveToTemporaryListAndSetCurrent algorithm oldListName temporaryListName
          clustersToMove)
  SaveTemporaryClusters := fun algorithm newListName temporaryListName clustersToSave st =>
    let r := st.store.saveList algorithm newListName temporaryListName clustersToSave
    (r.1, { st with store := r.2 })
  SetCurrentList := fun algorithm listName st =>
    let r := st.store.setCurrentList algorithm listName
    (r.1, { st with store := r.2 })

/-- A Pandora instance with the managers of the specification. -/
def specPandora (algorithmMap : List (String × Algorithm)) : Pandora where
  m_algorithmMap := algorithmMap
  m_pCaloHitManager := specCaloHitManager
  m_pClusterManager := specClusterManager
  m_pTrackManager := specTrackManager

/-- The line the handlers of `RunAlgorithm` write for an algorithm whose `Run()` ended with
`o`: the status code exception thrown by `PANDORA_THROW_RESULT_IF` for a returned status or
by the algorithm itself, or `unrecognized exception`. -/
def failureLine (algorithmName : String) (o : Outcome) : Event :=
  match o with
  | Outcome.returned statusCode => Event.failure algorithmName statusCode
  | Outcome.threwStatusCodeException statusCode => Event.failure algorithmName statusCode
  | Outcome.threwOther => Event.failureUnrecognized algorithmName

/-! ## Reclustering -/

/-- Embedding of `PandoraContentApiImpl::InitializeReclustering`.  The argument before the state is the
value of `originalClustersListName` on entry; the result holds its value on exit. -/
def InitializeReclustering (p : Pandora) (algorithm : AlgorithmAddress)
    (inputTrackList : TrackList) (inputClusterList : ClusterList)
    (originalClustersListName : String) (s : State) : StatusCode × String × State :=
  let temporaryListName : String := ""
  let r1 := p.m_pTrackManager.CreateTemporaryListAndSetCurrent algorithm inputTrackList
    temporaryListName s.tracks
  let s1 : State := { s with tracks := r1.2.2 }
  if resultIf r1.1 then (r1.1, originalClustersListName, s1) else
  let r2 := p.m_pCaloHitManager.CreateTemporaryListAndSetCurrent algorithm inputClusterList
    r1.2.1 s1.caloHits
  let s2 : State := { s1 with caloHits := r2.2.2 }
  if resultIf r2.1 then (r2.1, originalClustersListName, s2) else
  let parentClusterListName : String := ""
  let r3 := p.m_pClusterManager.GetReclusterListName parentClusterListName s2.clusters
  let s3 : State := { s2 with clusters := r3.2.2 }
  if resultIf r3.1 then (r3.1, originalClustersListName, s3) else
  let r4 := p.m_pClusterManager.MoveClustersToTemporaryListAndSetCurrent algorithm r3.2.1
    originalClustersListName (some inputClusterList) s3.clusters
  let s4 : State := { s3 with clusters := r4.2.2 }
  if resultIf r4.1 then (r4.1, r4.2.1, s4) else
  (STATUS_CODE_SUCCESS, r4.2.1, s4)

/-- Embedding of `PandoraContentApiImpl::EndReclustering`. -/
def EndReclustering (p : Pandora) (algorithm : AlgorithmAddress)
    (selectedClusterListName : String) (s : State) : StatusCode × State :=
  let parentClusterListName : String := ""
  let r1 := p.m_pClusterManager.GetAndResetReclusterListName parentClusterListName s.clusters
  let s1 : State := { s with clusters := r1.2.2 }
  if resultIf r1.1 then (r1.1, s1) else
  let r2 := p.m_pClusterManager.SaveTemporaryClusters algorithm r1.2.1 selectedClusterListName
    none s1.clusters
  let s2 : State := { s1 with clusters := r2.2 }
  if resultIf r2.1 then (r2.1, s2) else
  (STATUS_CODE_SUCCESS, s2)

/-! ## Clustering algorithms and saving cluster lists -/

/-- The result of `RunClusteringAlgorithm`: how the call ends, the values of
`*pNewClusterList` and `newClusterListName` on exit, and the state. -/
structure RunClusteringResult where
  outcome : Outcome
  newClusterList : ClusterList
  newClusterListName : String
  state : State

/-- Embedding of `PandoraContentApiImpl::RunClusteringAlgorithm`.  `newClusterList` and
`newClusterListName` are the values of `*pNewClusterList` and `newClusterListName` on
entry. -/
def RunClusteringAlgorithm (p : Pandora) (algorithm : AlgorithmAddress)
    (clusteringAlgorithmName : String) (newClusterList : ClusterList)
    (newClusterListName : String) (s : State) : RunClusteringResult :=
  let r1 := p.m_pClusterManager.MakeTemporaryListAndSetCurrent algorithm newClusterListName
    s.clusters
  let s1 : State := { s with clusters := r1.2.2 }
  if resultIf r1.1 then ⟨Outcome.returned r1.1, newClusterList, r1.2.1, s1⟩ else
  match RunAlgorithm p clusteringAlgorithmName s1 with
  | (Outcome.returned statusCode, s2) =>
    if resultIf statusCode then ⟨Outcome.returned statusCode, newClusterList, r1.2.1, s2⟩ else
    let r3 := p.m_pClusterManager.GetCurrentList newClusterList r1.2.1 s2.clusters
    if resultIf r3.1 then ⟨Outcome.returned r3.1, r3.2.1, r3.2.2, s2⟩ else
    ⟨Outcome.returned STATUS_CODE_SUCCESS, r3.2.1, r3.2.2, s2⟩
  | (exception, s2) => ⟨exception, newClusterList, r1.2.1, s2⟩

/-- The composition the specification gives for `runClusteringAlgorithm`:
`makeTemporaryListAndSetCurrent`, then the dispatch of the named algorithm, then
`getCurrentList`, a step being performed only when every step before it returned success and
the first status that is not success being the result.  The list and the name are those of
the caller until a step writes them. -/
def runClusteringAlgorithmComposition (p : Pandora) (caller : AlgorithmAddress)
    (name : String) (list : ClusterList) (listName : String) (s : State) :
    RunClusteringResult :=
  match p.m_pClusterManager.MakeTemporaryListAndSetCurrent caller listName s.clusters with
  | (STATUS_CODE_SUCCESS, temporaryName, clusters) =>
    match RunAlgorithm p name { s with clusters := clusters } with
    | (Outcome.returned STATUS_CODE_SUCCESS, dispatched) =>
      match p.m_pClusterManager.GetCurrentList list temporaryName dispatched.clusters with
      | (STATUS_CODE_SUCCESS, currentList, currentName) =>
        { outcome := Outcome.returned STATUS_CODE_SUCCESS, newClusterList := currentList,
          newClusterListName := currentName, state := dispatched }
      | (statusCode, currentList, currentName) =>
        { outcome := Outcome.returned statusCode, newClusterList := currentList,
          newClusterListName := currentName, state := dispatched }
    | (notSuccess, dispatched) =>
      { outcome := notSuccess, newClusterList := list, newClusterListName := temporaryName,
        state := dispatched }
  | (statusCode, temporaryName, clusters) =>
    { outcome := Outcome.returned statusCode, newClusterList := list,
      newClusterListName := temporaryName, state := { s with clusters := clusters } }

/-- Embedding of `PandoraContentApiImpl::SaveClusterListAndRemoveCaloHits`.  The result is `none` when
`*pNewClusterList` dereferences a null pointer, that is when `GetList` reports success and
leaves `pNewClusterList` at `NULL`. -/
def SaveClusterListAndRemoveCaloHits (p : Pandora) (algorithm : AlgorithmAddress)
    (newClusterListName currentClusterListName : String) (pClustersToSave : Option ClusterList)
    (s : State) : Option (StatusCode × State) :=
  let r1 := p.m_pClusterManager.SaveTemporaryClusters algorithm newClusterListName
    currentClusterListName pClustersToSave s.clusters
  let s1 : State := { s with clusters := r1.2 }
  if resultIf r1.1 then some (r1.1, s1) else
  let pNewClusterList : Option ClusterList := none
  let r2 := p.m_pClusterManager.GetList newClusterListName pNewClusterList s1.clusters
  if resultIf r2.1 then some (r2.1, s1) else
  match r2.2 with
  | none => none
  | some newClusterList =>
    let r3 := p.m_pCaloHitManager.RemoveCaloHitsFromCurrentList newClusterList s1.caloHits
    let s3 : State := { s1 with caloHits := r3.2 }
    if resultIf r3.1 then some (r3.1, s3) else
    some (STATUS_CODE_SUCCESS, s3)

/-- Embedding of `PandoraContentApiImpl::SaveClusterListAndReplaceCurrent`. -/
def SaveClusterListAndReplaceCurrent (p : Pandora) (algorithm : AlgorithmAddress)
    (newClusterListName currentClusterListName : String) (pClustersToSave : Option ClusterList)
    (s : State) : StatusCode × State :=
  let r1 := p.m_pClusterManager.SaveTemporaryClusters algorithm newClusterListName
    currentClusterListName pClustersToSave s.clusters
  let s1 : State := { s with clusters := r1.2 }
  if resultIf r1.1 then (r1.1, s1) else
  let r2 := p.m_pClusterManager.SetCurrentList algorithm newClusterListName s1.clusters
  let s2 : State := { s1 with clusters := r2.2 }
  if resultIf r2.1 then (r2.1, s2) else
  (STATUS_CODE_SUCCESS, s2)

/-! ## Example instances -/

/-- An empty named list store whose current list is `Input`. -/
def emptyStore (α : Type) : NamedListStore α where
  objects := []
  currentName := "Input"
  lists := [("Input", [])]
  savedNames := ["Input"]
  scopeStack := []
  counter := 0

/-- A state with empty stores, no recluster context and no events. -/
def emptyState : State where
  caloHits := emptyStore CaloHit
  clusters := { store := emptyStore Cluster, reclusterListName := none }
  tracks := emptyStore Track
  events := []

/-- An algorithm whose `Run()` returns `STATUS_CODE_FAILURE` and changes nothing. -/
def failingAlgorithm : Algorithm where
  address := 1
  Run := fun s => (Outcome.returned STATUS_CODE_FAILURE, s)

/-- An algorithm whose `Run()` throws something that is not a `StatusCodeException`. -/
def throwingAlgorithm : Algorithm where
  address := 2
  Run := fun s => (Outcome.threwOther, s)

/-- A Pandora instance with the managers of the specification and two registered
algorithms. -/
def examplePandora : Pandora :=
  specPandora [("Failing", failingAlgorithm), ("Throwing", throwingAlgorithm)]

/-- Three clusters over five calo hits. -/
def cluster1 : Cluster := { address := 10, caloHits := [1, 2] }

def cluster2 : Cluster := { address := 11, caloHits := [3] }

def cluster3 : Cluster := { address := 12, caloHits := [4, 5] }

/-- A state with five calo hits, three clusters and two tracks, each store holding them in
its saved list `Input`, with no recluster context. -/
def exampleState : State where
  caloHits :=
    { emptyStore CaloHit with
      objects := [1, 2, 3, 4, 5]
      lists := [("Input", [1, 2, 3, 4, 5])] }
  clusters :=
    { store :=
        { emptyStore Cluster with
          objects := [cluster1, cluster2, cluster3]
          lists := [("Input", [cluster1, cluster2, cluster3])] }
      reclusterListName := none }
  tracks :=
    { emptyStore Track with
      objects := [100, 101]
      lists := [("Input", [100, 101])] }
  events := []

/-- The state after algorithm 7 began reclustering `cluster1` and `cluster2` with track 100
in `exampleState`. -/
def reclusteringState : State :=
  (InitializeReclustering examplePandora 7 [100] [cluster1, cluster2] "" exampleState).2.2

/-- As `examplePandora`, with a calo hit manager whose reset reports
`STATUS_CODE_FAILURE`. -/
def failingResetPandora : Pandora :=
  { examplePandora with
    m_pCaloHitManager :=
      { specCaloHitManager with
        ResetAfterAlgorithmCompletion := fun _ st => (STATUS_CODE_FAILURE, st) } }

/-! ## `ResolveTrackAssociationsAlg`: data -/

/-- The largest finite `float`, the value of `std::numeric_limits<float>::max()`.  Values of
type `float` are modelled as rationals: subtraction, multiplication and comparison are exact,
and rounding, infinities and NaN are outside the model. -/
def FLT_MAX : ℚ := 340282346638528859811704183484516925440

/-- The values `Run()` reads from a `ReclusterHelper::ReclusterResult` through `GetChi()`,
`GetChiPerDof()`, `GetChi2PerDof()`, `GetMinTrackAssociationEnergy()` and
`GetNExcessTrackAssociations()`. -/
structure ReclusterResult where
  chi : ℚ
  chiPerDof : ℚ
  chi2PerDof : ℚ
  minTrackAssociationEnergy : ℚ
  nExcessTrackAssociations : Nat
  deriving DecidableEq, Repr

/-- The member variables of a `ResolveTrackAssociationsAlg` instance, and its address. -/
structure ResolveTrackAssociationsAlg where
  address : AlgorithmAddress
  m_clusteringAlgorithms : List String
  m_associationAlgorithmName : String
  m_trackClusterAssociationAlgName : String
  m_forcedClusteringAlgorithmName : String
  m_minTrackAssociations : Nat
  m_maxTrackAssociations : Nat
  m_chiToAttemptReclustering : ℚ
  m_minChi2Improvement : ℚ
  m_coneCosineHalfAngle : ℚ
  m_minConeFraction : ℚ
  m_minClusterEnergyForTrackAssociation : ℚ
  m_chi2ForAutomaticClusterSelection : ℚ
  m_usingOrderedAlgorithms : Bool
  m_bestChi2ForReclusterHalt : ℚ
  m_currentChi2ForReclusterHalt : ℚ
  m_shouldUseBestGuessCandidates : Bool
  m_shouldUseForcedClustering : Bool
  m_minChiForForcedClustering : ℚ
  m_minForcedChi2Improvement : ℚ
  m_maxForcedChi2 : ℚ
  deriving DecidableEq, Repr

/-- The working vector of `Run()`: a slot holds a cluster or `NULL`. -/
abbrev ClusterVector := List (Option Cluster)

/-- What an execution of `Run()` does that the claims talk about, in order. -/
inductive ClientEvent where
  /-- the call `InitializeReclustering(*this, reclusterTrackList, reclusterClusterList, ...)`
  and the list name it returned -/
  | initializeReclustering (reclusterTrackList : TrackList) (reclusterClusterList : ClusterList)
      (originalClustersListName : String)
  /-- the call `RunClusteringAlgorithm(*this, name, ...)`, the status and the list name it
  returned -/
  | runClusteringAlgorithm (clusteringAlgorithmName : String) (statusCode : StatusCode)
      (newClusterListName : String)
  /-- a candidate reached the test of line 114 -/
  | candidate (reclustersListName : String) (reclusterResult : ReclusterResult)
  /-- the call `EndReclustering(*this, bestReclusterListName)`, with the working vector at
  the time of the call -/
  | endReclustering (bestReclusterListName : String) (clusterVector : ClusterVector)
  deriving DecidableEq, Repr

/-- The state an execution of `Run()` acts on: the world behind the content API (of a type
`W` left open), the function-local `static const float minChi2` (`none` until the first
execution of its declaration in the process) and the events so far. -/
structure ClientState (W : Type) where
  world : W
  minChi2 : Option ℚ
  trace : List ClientEvent
  deriving DecidableEq

/-- The static functions of `PandoraContentApi` that `Run()` calls (not among the sources).
A reference parameter is passed as its value on entry and returned as its value on exit; a
list pointer is returned as the list it points to when the call succeeds. -/
structure PandoraContentApi (W : Type) where
  RunDaughterAlgorithm : AlgorithmAddress → String → W → StatusCode × W
  GetCurrentClusterList : AlgorithmAddress → W → StatusCode × ClusterList
  /-- arguments: algorithm, track list, cluster list, `originalClustersListName` on entry -/
  InitializeReclustering :
    AlgorithmAddress → TrackList → ClusterList → String → W → StatusCode × String × W
  /-- arguments: algorithm, clustering algorithm name, list name on entry -/
  RunClusteringAlgorithm :
    AlgorithmAddress → String → String → W → StatusCode × ClusterList × String × W
  EndReclustering : AlgorithmAddress → String → W → StatusCode × W

/-- The helper functions and cluster member functions that `Run()` calls (not among the
sources); they read the world and do not change it. -/
structure ReclusterHelpers (W : Type) where
  /-- the comparison `Cluster::SortByInnerLayer(lhs, rhs)` -/
  SortByInnerLayer : W → Cluster → Cluster → Bool
  /-- the track list `pCluster->GetAssociatedTrackList()` -/
  GetAssociatedTrackList : W → Cluster → TrackList
  GetTrackClusterCompatibility : W → Cluster → TrackList → ℚ
  IsClusterLeavingDetector : W → Cluster → Bool
  /-- arguments: daughter, parent, cone cosine half angle -/
  GetFractionOfHitsInCone : W → Cluster → Cluster → ℚ → ℚ
  ExtractReclusterResults : W → ClusterList → StatusCode × ReclusterResult

/-- How control leaves a piece of `Run()`: a `PANDORA_RETURN_RESULT_IF` returns from `Run()`
with a status, the enclosing loop goes on to its next iteration (or the piece ends), or the
enclosing loop is left by `break`. -/
inductive Flow (σ β : Type) where
  | returned (statusCode : StatusCode) (state : σ)
  | next (value : β) (state : σ)
  | stop (value : β) (state : σ)
  deriving DecidableEq

/-- The local variables of lines 81 to 84 that the strategy loop updates. -/
structure Selection where
  bestReclusterListName : String
  bestGuessListName : String
  bestReclusterChi : ℚ
  bestReclusterChi2 : ℚ
  bestGuessChi : ℚ
  deriving DecidableEq, Repr

/-- The values of lines 81 to 84 for a seed of compatibility `chi`. -/
def initialSelection (chi : ℚ) : Selection where
  bestReclusterListName := ""
  bestGuessListName := ""
  bestReclusterChi := chi
  bestReclusterChi2 := chi * chi
  bestGuessChi := FLT_MAX

/-! ## `ResolveTrackAssociationsAlg::Run`: the strategy loop -/

/-- How lines 89 to 108 of one iteration of the strategy loop end: a
`PANDORA_RETURN_RESULT_IF` returns from `Run()`, a `continue` skips the candidate, or the
candidate reaches the test of line 114 with its list name and its results. -/
inductive StrategyOutcome (W : Type) where
  | returned (statusCode : StatusCode) (state : ClientState W)
  | skipped (state : ClientState W)
  | candidate (reclustersListName : String) (reclusterResult : ReclusterResult)
      (state : ClientState W)
  deriving DecidableEq

/-- Lines 89 to 108 of `Run()`: run the clustering algorithm, skip an empty list, run the two
daughter algorithms, extract the results, skip on failure or low track association
energy. -/
def runStrategy {W : Type} (api : PandoraContentApi W) (helpers : ReclusterHelpers W)
    (self : ResolveTrackAssociationsAlg) (clusteringAlgorithmName : String)
    (c : ClientState W) : StrategyOutcome W :=
  let reclustersListName : String := ""
  let r1 := api.RunClusteringAlgorithm self.address clusteringAlgorithmName reclustersListName
    c.world
  let c1 : ClientState W :=
    { c with
      world := r1.2.2.2
      trace := c.trace ++
        [ClientEvent.runClusteringAlgorithm clusteringAlgorithmName r1.1 r1.2.2.1] }
  if resultIf r1.1 then StrategyOutcome.returned r1.1 c1 else
  if r1.2.1.isEmpty then StrategyOutcome.skipped c1 else
  let r2 := api.RunDaughterAlgorithm self.address self.m_associationAlgorithmName c1.world
  let c2 : ClientState W := { c1 with world := r2.2 }
  if resultIf r2.1 then StrategyOutcome.returned r2.1 c2 else
  let r3 := api.RunDaughterAlgorithm self.address self.m_trackClusterAssociationAlgName c2.world
  let c3 : ClientState W := { c2 with world := r3.2 }
  if resultIf r3.1 then StrategyOutcome.returned r3.1 c3 else
  let r4 := helpers.ExtractReclusterResults c3.world r1.2.1
  if STATUS_CODE_SUCCESS ≠ r4.1 then StrategyOutcome.skipped c3 else
  if r4.2.minTrackAssociationEnergy < self.m_minClusterEnergyForTrackAssociation then
    StrategyOutcome.skipped c3
  else
    StrategyOutcome.candidate r1.2.2.1 r4.2 c3

/-- The value of the function-local `static const float minChi2` once line 112 has been
executed: the value it already has, or on the first execution in the process the square of
`m_chiToAttemptReclustering` of the executing instance. -/
def staticMinChi2 (self : ResolveTrackAssociationsAlg) (minChi2 : Option ℚ) : ℚ :=
  match minChi2 with
  | some value => value
  | none => self.m_chiToAttemptReclustering * self.m_chiToAttemptReclustering

/-- Lines 110 to 129 of `Run()`: the test of a candidate against the best candidate so far,
and the best guess kept when the test fails. -/
def updateSelection (self : ResolveTrackAssociationsAlg) (minChi2 : ℚ) (sel : Selection)
    (reclustersListName : String) (reclusterResult : ReclusterResult) : Selection :=
  let reclusterChi2 := reclusterResult.chi2PerDof
  if sel.bestReclusterChi2 - reclusterChi2 > self.m_minChi2Improvement ∧
      reclusterChi2 < minChi2 then
    { sel with
      bestReclusterChi := reclusterResult.chiPerDof
      bestReclusterChi2 := reclusterChi2
      bestReclusterListName := reclustersListName }
  else if self.m_shouldUseBestGuessCandidates then
    if reclusterResult.nExcessTrackAssociations > 0 ∧ reclusterResult.chi > 0 ∧
        reclusterResult.chi < sel.bestGuessChi then
      { sel with
        bestGuessChi := reclusterResult.chi
        bestGuessListName := reclustersListName }
    else sel
  else sel

/-- Lines 131 to 137 of `Run()`: whether one of the two `break` statements is reached, for
the selection after the test and the chi2 of the candidate just tested. -/
def reclusterHalt (self : ResolveTrackAssociationsAlg) (sel : Selection) (reclusterChi2 : ℚ) :
    Bool :=
  decide (sel.bestReclusterChi2 < self.m_chi2ForAutomaticClusterSelection) ||
    (self.m_usingOrderedAlgorithms &&
      decide (sel.bestReclusterChi2 < self.m_bestChi2ForReclusterHalt) &&
      decide (reclusterChi2 > self.m_currentChi2ForReclusterHalt))

/-- One iteration of the strategy loop, lines 88 to 138 of `Run()`. -/
def strategyIteration {W : Type} (api : PandoraContentApi W) (helpers : ReclusterHelpers W)
    (self : ResolveTrackAssociationsAlg) (clusteringAlgorithmName : String) (sel : Selection)
    (c : ClientState W) : Flow (ClientState W) Selection :=
  match runStrategy api helpers self clusteringAlgorithmName c with
  | StrategyOutcome.returned statusCode c1 => Flow.returned statusCode c1
  | StrategyOutcome.skipped c1 => Flow.next sel c1
  | StrategyOutcome.candidate reclustersListName reclusterResult c1 =>
    let minChi2 := staticMinChi2 self c1.minChi2
    let c2 : ClientState W :=
      { c1 with
        minChi2 := some minChi2
        trace := c1.trace ++ [ClientEvent.candidate reclustersListName reclusterResult] }
    let sel1 := updateSelection self minChi2 sel reclustersListName reclusterResult
    if reclusterHalt self sel1 reclusterResult.chi2PerDof then Flow.stop sel1 c2
    else Flow.next sel1 c2

/-- The strategy loop, lines 86 to 138 of `Run()`, over the clustering algorithms still to
run.  `Flow.next` is the end of the list, `Flow.stop` a `break`. -/
def strategyLoop {W : Type} (api : PandoraContentApi W) (helpers : ReclusterHelpers W)
    (self : ResolveTrackAssociationsAlg) :
    List String → Selection → ClientState W → Flow (ClientState W) Selection
  | [], sel, c => Flow.next sel c
  | clusteringAlgorithmName :: rest, sel, c =>
    match strategyIteration api helpers self clusteringAlgorithmName sel c with
    | Flow.returned statusCode c1 => Flow.returned statusCode c1
    | Flow.stop sel1 c1 => Flow.stop sel1 c1
    | Flow.next sel1 c1 => strategyLoop api helpers self rest sel1 c1

/-! ## `ResolveTrackAssociationsAlg::Run`: choosing the list to commit -/

/-- Lines 140 to 150 of `Run()`: the best guess replaces an empty best list name when best
guesses are enabled, and the original list name replaces a name that is still empty. -/
def chooseReclusterList (self : ResolveTrackAssociationsAlg) (sel : Selection)
    (originalClustersListName : String) : String :=
  let bestReclusterListName :=
    if self.m_shouldUseBestGuessCandidates ∧ sel.bestReclusterListName = "" then
      sel.bestGuessListName
    else sel.bestReclusterListName
  if bestReclusterListName = "" then originalClustersListName else bestReclusterListName

/-- Lines 152 to 175 of `Run()`: the forced clustering step.  The value is the best list name
after the step. -/
def forcedClustering {W : Type} (api : PandoraContentApi W) (helpers : ReclusterHelpers W)
    (self : ResolveTrackAssociationsAlg) (chi : ℚ) (sel : Selection)
    (bestReclusterListName originalClustersListName : String) (c : ClientState W) :
    Flow (ClientState W) String :=
  if self.m_shouldUseForcedClustering then
    if bestReclusterListName = originalClustersListName ∨
        sel.bestReclusterChi > self.m_minChiForForcedClustering then
      let forcedListName : String := ""
      let r1 := api.RunClusteringAlgorithm self.address self.m_forcedClusteringAlgorithmName
        forcedListName c.world
      let c1 : ClientState W :=
        { c with
          world := r1.2.2.2
          trace := c.trace ++
            [ClientEvent.runClusteringAlgorithm self.m_forcedClusteringAlgorithmName r1.1
              r1.2.2.1] }
      if resultIf r1.1 then Flow.returned r1.1 c1 else
      let r2 := api.RunDaughterAlgorithm self.address self.m_trackClusterAssociationAlgName
        c1.world
      let c2 : ClientState W := { c1 with world := r2.2 }
      if resultIf r2.1 then Flow.returned r2.1 c2 else
      let r3 := helpers.ExtractReclusterResults c2.world r1.2.1
      if STATUS_CODE_SUCCESS = r3.1 then
        let forcedChi2 := r3.2.chi2PerDof
        let originalChi2 := chi * chi
        if originalChi2 - forcedChi2 > self.m_minForcedChi2Improvement ∧
            forcedChi2 < self.m_maxForcedChi2 then
          Flow.next r1.2.2.1 c2
        else Flow.next bestReclusterListName c2
      else Flow.next bestReclusterListName c2
    else Flow.next bestReclusterListName c
  else Flow.next bestReclusterListName c

/-- Lines 177 to 181 of `Run()`: when the best list is not the original one, the slots of the
original clusters are set to `NULL`. -/
def tidyClusterVector (bestReclusterListName originalClustersListName : String)
    (originalClusterIndices : List Nat) (clusterVector : ClusterVector) : ClusterVector :=
  if bestReclusterListName ≠ originalClustersListName then
    originalClusterIndices.foldl (fun vector index => vector.set index none) clusterVector
  else clusterVector

/-! ## `ResolveTrackAssociationsAlg::Run`: the seed loop -/

/-- One iteration of the daughter loop, lines 61 to 73 of `Run()`, on the recluster cluster
list (a set: a cluster it already holds is not inserted again) and the original cluster
indices. -/
def daughterIteration {W : Type} (helpers : ReclusterHelpers W)
    (self : ResolveTrackAssociationsAlg) (w : W) (clusterVector : ClusterVector)
    (pParentCluster : Cluster) (lists : ClusterList × List Nat) (j : Nat) :
    ClusterList × List Nat :=
  match clusterVector.getD j none with
  | none => lists
  | some pDaughterCluster =>
    if pParentCluster = pDaughterCluster ∨
        ¬(helpers.GetAssociatedTrackList w pDaughterCluster).isEmpty then lists
    else if helpers.GetFractionOfHitsInCone w pDaughterCluster pParentCluster
        self.m_coneCosineHalfAngle > self.m_minConeFraction then
      (if pDaughterCluster ∈ lists.1 then lists.1 else lists.1 ++ [pDaughterCluster],
        lists.2 ++ [j])
    else lists

/-- Lines 52 to 73 of `Run()`: the recluster cluster list, holding the parent and its
daughters, and the indices of these clusters in the working vector. -/
def reclusterCandidates {W : Type} (helpers : ReclusterHelpers W)
    (self : ResolveTrackAssociationsAlg) (w : W) (clusterVector : ClusterVector)
    (pParentCluster : Cluster) (i : Nat) : ClusterList × List Nat :=
  (List.range clusterVector.length).foldl
    (daughterIteration helpers self w clusterVector pParentCluster) ([pParentCluster], [i])

/-- One iteration of the seed loop, lines 31 to 185 of `Run()`.  The value is the working
vector after the iteration. -/
def seedIteration {W : Type} (api : PandoraContentApi W) (helpers : ReclusterHelpers W)
    (self : ResolveTrackAssociationsAlg) (i : Nat) (clusterVector : ClusterVector)
    (c : ClientState W) : Flow (ClientState W) ClusterVector :=
  match clusterVector.getD i none with
  | none => Flow.next clusterVector c
  | some pParentCluster =>
    let trackList := helpers.GetAssociatedTrackList c.world pParentCluster
    let nTrackAssociations := trackList.length
    if nTrackAssociations < self.m_minTrackAssociations ∨
        nTrackAssociations > self.m_maxTrackAssociations then Flow.next clusterVector c else
    let chi := helpers.GetTrackClusterCompatibility c.world pParentCluster trackList
    if chi > self.m_chiToAttemptReclustering then Flow.next clusterVector c else
    if helpers.IsClusterLeavingDetector c.world pParentCluster then Flow.next clusterVector c
    else
    let reclusterTrackList := trackList
    let candidates := reclusterCandidates helpers self c.world clusterVector pParentCluster i
    let reclusterClusterList := candidates.1
    let originalClusterIndices := candidates.2
    let r1 := api.InitializeReclustering self.address reclusterTrackList reclusterClusterList ""
      c.world
    let originalClustersListName := r1.2.1
    let c1 : ClientState W :=
      { c with
        world := r1.2.2
        trace := c.trace ++
          [ClientEvent.initializeReclustering reclusterTrackList reclusterClusterList
            originalClustersListName] }
    if resultIf r1.1 then Flow.returned r1.1 c1 else
    match strategyLoop api helpers self self.m_clusteringAlgorithms (initialSelection chi)
        c1 with
    | Flow.returned statusCode c2 => Flow.returned statusCode c2
    | Flow.next sel c2 | Flow.stop sel c2 =>
      match forcedClustering api helpers self chi sel
          (chooseReclusterList self sel originalClustersListName) originalClustersListName
          c2 with
      | Flow.returned statusCode c3 => Flow.returned statusCode c3
      | Flow.next bestReclusterListName c3 | Flow.stop bestReclusterListName c3 =>
        let tidied := tidyClusterVector bestReclusterListName originalClustersListName
          originalClusterIndices clusterVector
        let r2 := api.EndReclustering self.address bestReclusterListName c3.world
        let c4 : ClientState W :=
          { c3 with
            world := r2.2
            trace := c3.trace ++ [ClientEvent.endReclustering bestReclusterListName tidied] }
        if resultIf r2.1 then Flow.returned r2.1 c4 else Flow.next tidied c4

/-- The seed loop, lines 30 to 185 of `Run()`, over the indices still to visit. -/
def seedLoop {W : Type} (api : PandoraContentApi W) (helpers : ReclusterHelpers W)
    (self : ResolveTrackAssociationsAlg) :
    List Nat → ClusterVector → ClientState W → Flow (ClientState W) ClusterVector
  | [], clusterVector, c => Flow.next clusterVector c
  | i :: rest, clusterVector, c =>
    match seedIteration api helpers self i clusterVector c with
    | Flow.returned statusCode c1 => Flow.returned statusCode c1
    | Flow.next tidied c1 | Flow.stop tidied c1 => seedLoop api helpers self rest tidied c1

/-- The working vector of line 24 and 25: the current cluster list, sorted with
`Cluster::SortByInnerLayer`.  `std::sort` is modelled by an insertion sort; the order in
which it leaves clusters that the comparison does not separate is not specified in C++. -/
def sortedClusterVector {W : Type} (helpers : ReclusterHelpers W) (w : W)
    (clusterList : ClusterList) : ClusterVector :=
  (clusterList.insertionSort
    (fun lhs rhs => helpers.SortByInnerLayer w rhs lhs = false)).map some

/-- Embedding of `ResolveTrackAssociationsAlg::Run`. -/
def ResolveTrackAssociationsAlg.Run {W : Type} (api : PandoraContentApi W)
    (helpers : ReclusterHelpers W) (self : ResolveTrackAssociationsAlg) (c : ClientState W) :
    StatusCode × ClientState W :=
  let r1 := api.RunDaughterAlgorithm self.address self.m_trackClusterAssociationAlgName c.world
  let c1 : ClientState W := { c with world := r1.2 }
  if resultIf r1.1 then (r1.1, c1) else
  let r2 := api.GetCurrentClusterList self.address c1.world
  if resultIf r2.1 then (r2.1, c1) else
  let clusterVector := sortedClusterVector helpers c1.world r2.2
  let nClusters := clusterVector.length
  match seedLoop api helpers self (List.range nClusters) clusterVector c1 with
  | Flow.returned statusCode c2 => (statusCode, c2)
  | Flow.next _ c2 | Flow.stop _ c2 => (STATUS_CODE_SUCCESS, c2)

/-! ## A scripted world for `ResolveTrackAssociationsAlg` -/

/-- A synthetic candidate: the list a clustering algorithm of the scripted world produces,
and what `ExtractReclusterResults` reports for it. -/
structure SyntheticCandidate where
  listName : String
  clusterList : ClusterList
  extractStatus : StatusCode
  reclusterResult : ReclusterResult
  deriving DecidableEq, Repr

/-- A world in which every answer is scripted: the current cluster list, the properties of
its clusters by address, and the candidates the successive calls of `RunClusteringAlgorithm`
produce. -/
structure ScriptedWorld where
  currentClusterList : ClusterList
  associatedTracks : List (Nat × TrackList)
  compatibility : List (Nat × ℚ)
  leavingDetector : List Nat
  /-- by daughter address and parent address -/
  fractionInCone : List ((Nat × Nat) × ℚ)
  pending : List SyntheticCandidate
  produced : Option SyntheticCandidate
  committed : List String
  deriving DecidableEq, Repr

/-- The value stored under a key, or a default. -/
def scripted {κ β : Type} [DecidableEq κ] (key : κ) (fallback : β) : List (κ × β) → β
  | [] => fallback
  | (k, value) :: rest => if k = key then value else scripted key fallback rest

/-- The content API of the scripted world: daughter algorithms succeed and change nothing,
reclustering begins with the list name `Original`, each call of `RunClusteringAlgorithm`
produces the next pending candidate (`STATUS_CODE_NOT_FOUND` when none is left) and
`EndReclustering` records the committed list name. -/
def scriptedApi : PandoraContentApi ScriptedWorld where
  RunDaughterAlgorithm := fun _ _ w => (STATUS_CODE_SUCCESS, w)
  GetCurrentClusterList := fun _ w => (STATUS_CODE_SUCCESS, w.currentClusterList)
  InitializeReclustering := fun _ _ _ _ w => (STATUS_CODE_SUCCESS, "Original", w)
  RunClusteringAlgorithm := fun _ _ listName w =>
    match w.pending with
    | [] => (STATUS_CODE_NOT_FOUND, [], listName, w)
    | candidate :: rest =>
      (STATUS_CODE_SUCCESS, candidate.clusterList, candidate.listName,
        { w with pending := rest, produced := some candidate })
  EndReclustering := fun _ listName w =>
    (STATUS_CODE_SUCCESS, { w with committed := w.committed ++ [listName] })

/-- The helpers of the scripted world: clusters are ordered by address, their properties are
looked up by address, and the results extracted are those of the candidate produced last. -/
def scriptedHelpers : ReclusterHelpers ScriptedWorld where
  SortByInnerLayer := fun _ lhs rhs => decide (lhs.address < rhs.address)
  GetAssociatedTrackList := fun w cluster => scripted cluster.address [] w.associatedTracks
  GetTrackClusterCompatibility := fun w cluster _ => scripted cluster.address 0 w.compatibility
  IsClusterLeavingDetector := fun w cluster => decide (cluster.address ∈ w.leavingDetector)
  GetFractionOfHitsInCone := fun w daughter parent _ =>
    scripted (daughter.address, parent.address) 0 w.fractionInCone
  ExtractReclusterResults := fun w _ =>
    match w.produced with
    | some candidate => (candidate.extractStatus, candidate.reclusterResult)
    | none => (STATUS_CODE_FAILURE, ⟨0, 0, 0, 0, 0⟩)

/-- An instance with the default values of `ReadSettings` and three clustering
algorithms. -/
def defaultAlg : ResolveTrackAssociationsAlg where
  address := 7
  m_clusteringAlgorithms := ["First", "Second", "Third"]
  m_associationAlgorithmName := "Association"
  m_trackClusterAssociationAlgName := "TrackClusterAssociation"
  m_forcedClusteringAlgorithmName := "Forced"
  m_minTrackAssociations := 1
  m_maxTrackAssociations := 4294967295
  m_chiToAttemptReclustering := -3
  m_minChi2Improvement := 1
  m_coneCosineHalfAngle := 0.9
  m_minConeFraction := 0.2
  m_minClusterEnergyForTrackAssociation := 0.1
  m_chi2ForAutomaticClusterSelection := 1
  m_usingOrderedAlgorithms := false
  m_bestChi2ForReclusterHalt := 4
  m_currentChi2ForReclusterHalt := 16
  m_shouldUseBestGuessCandidates := true
  m_shouldUseForcedClustering := false
  m_minChiForForcedClustering := 4
  m_minForcedChi2Improvement := 9
  m_maxForcedChi2 := 36

/-- A synthetic candidate of one cluster with the given list name, chi and chi2 per degree
of freedom, enough track association energy and no excess track association. -/
def syntheticCandidate (listName : String) (chiPerDof chi2PerDof : ℚ) : SyntheticCandidate where
  listName := listName
  clusterList := [cluster3]
  extractStatus := STATUS_CODE_SUCCESS
  reclusterResult :=
    { chi := chiPerDof, chiPerDof := chiPerDof, chi2PerDof := chi2PerDof,
      minTrackAssociationEnergy := 1, nExcessTrackAssociations := 0 }

/-- A scripted world whose current cluster list holds `cluster1` with track 100 and
compatibility `chi`, and `cluster2` without track and with the given fraction of its hits in
the cone around `cluster1`. -/
def scriptedWorld (chi fraction : ℚ) (pending : List SyntheticCandidate) : ScriptedWorld where
  currentClusterList := [cluster1, cluster2, cluster3]
  associatedTracks := [(10, [100])]
  compatibility := [(10, chi)]
  leavingDetector := []
  fractionInCone := [((11, 10), fraction)]
  pending := pending
  produced := none
  committed := []

/-- A state of the scripted world in which line 112 has not been executed yet. -/
def scriptedState (w : ScriptedWorld) : ClientState ScriptedWorld where
  world := w
  minChi2 := none
  trace := []

/-! ## Notions used to state the selection properties -/

/-- The state a piece of `Run()` leaves, however control leaves it. -/
def Flow.state {σ β : Type} : Flow σ β → σ
  | Flow.returned _ state => state
  | Flow.next _ state => state
  | Flow.stop _ state => state

/-- The test of line 114, for the best chi2 so far and the ceiling `minChi2`: the candidate
improves on the best chi2 by more than `m_minChi2Improvement` and is below the ceiling. -/
def passesIdealTest (self : ResolveTrackAssociationsAlg) (minChi2 bestReclusterChi2 : ℚ)
    (reclusterResult : ReclusterResult) : Prop :=
  bestReclusterChi2 - reclusterResult.chi2PerDof > self.m_minChi2Improvement ∧
    reclusterResult.chi2PerDof < minChi2

/-- A candidate that can be kept as best guess: it has excess track associations and a positive
chi. -/
def eligibleGuess (reclusterResult : ReclusterResult) : Prop :=
  reclusterResult.nExcessTrackAssociations > 0 ∧ reclusterResult.chi > 0

/-- The candidates that reached the test of line 114, in order, among the events. -/
def evaluatedCandidates : List ClientEvent → List (String × ReclusterResult)
  | [] => []
  | ClientEvent.candidate reclustersListName reclusterResult :: rest =>
    (reclustersListName, reclusterResult) :: evaluatedCandidates rest
  | _ :: rest => evaluatedCandidates rest

/-- The names of the clustering algorithms for which `RunClusteringAlgorithm` was called, in
order, among the events. -/
def strategiesRun : List ClientEvent → List String
  | [] => []
  | ClientEvent.runClusteringAlgorithm clusteringAlgorithmName _ _ :: rest =>
    clusteringAlgorithmName :: strategiesRun rest
  | _ :: rest => strategiesRun rest

/-- The selection after the candidates of a list have been tested in order. -/
def replaySelection (self : ResolveTrackAssociationsAlg) (minChi2 : ℚ) (sel : Selection)
    (candidates : List (String × ReclusterResult)) : Selection :=
  candidates.foldl
    (fun selection candidate => updateSelection self minChi2 selection candidate.1 candidate.2)
    sel

/-! ## Example instances for the strategy loop -/

/-- Three synthetic candidates with chi2 per degree of freedom 2.0, 0.8 and 0.8. -/
def threeCandidates : List SyntheticCandidate :=
  [syntheticCandidate "List1" 1.4 2.0, syntheticCandidate "List2" 0.9 0.8,
    syntheticCandidate "List3" 0.9 0.8]

/-- The scripted state of a seed of compatibility -4 (chi2 16) with the three candidates
pending, reclustering having begun. -/
def threeCandidatesState : ClientState ScriptedWorld :=
  scriptedState (scriptedWorld (-4) 0.5 threeCandidates)

/-- The default instance with `UsingOrderedAlgorithms` set and `CurrentChi2ForReclusterHalt`
lowered to 1.5. -/
def orderedAlg : ResolveTrackAssociationsAlg :=
  { defaultAlg with m_usingOrderedAlgorithms := true, m_currentChi2ForReclusterHalt := 1.5 }

/-- The scripted state after the first of the three candidates has been produced. -/
def firstProducedState : ClientState ScriptedWorld where
  world :=
    { scriptedWorld (-4) 0.5
        [syntheticCandidate "List2" 0.9 0.8, syntheticCandidate "List3" 0.9 0.8] with
      produced := some (syntheticCandidate "List1" 1.4 2.0) }
  minChi2 := none
  trace := [ClientEvent.runClusteringAlgorithm "First" STATUS_CODE_SUCCESS "List1"]

/-- The scripted state after the second of the three candidates has been produced. -/
def secondProducedState : ClientState ScriptedWorld where
  world :=
    { scriptedWorld (-4) 0.5 [syntheticCandidate "List3" 0.9 0.8] with
      produced := some (syntheticCandidate "List2" 0.9 0.8) }
  minChi2 := some 9
  trace :=
    [ClientEvent.runClusteringAlgorithm "First" STATUS_CODE_SUCCESS "List1",
      ClientEvent.candidate "List1" (syntheticCandidate "List1" 1.4 2.0).reclusterResult,
      ClientEvent.runClusteringAlgorithm "Second" STATUS_CODE_SUCCESS "List2"]

/-- The default instance with two clustering algorithms. -/
def twoStrategiesAlg : ResolveTrackAssociationsAlg :=
  { defaultAlg with m_clusteringAlgorithms := ["First", "Second"] }

/-- The scripted state of a seed of compatibility -4 (chi2 16) with two candidates pending,
of chi2 per degree of freedom 5 and 2. -/
def twoCandidatesState : ClientState ScriptedWorld :=
  scriptedState
    (scriptedWorld (-4) 0.5 [syntheticCandidate "ListA" 2.2 5, syntheticCandidate "ListB" 1.4 2])

/-- A second instance, at another address, that attempts reclustering up to a compatibility
of -2 and has one clustering algorithm. -/
def looseAlg : ResolveTrackAssociationsAlg :=
  { defaultAlg with
    address := 8, m_chiToAttemptReclustering := -2, m_clusteringAlgorithms := ["First"] }

/-- The default instance (`ChiToAttemptReclustering` -3) with one clustering algorithm. -/
def oneStrategyAlg : ResolveTrackAssociationsAlg :=
  { defaultAlg with m_clusteringAlgorithms := ["First"] }

/-- The scripted state, at the start of a process, of a seed of compatibility -4 (chi2 16)
with two candidates pending, of chi2 per degree of freedom 3 and 5. -/
def twoInstancesState : ClientState ScriptedWorld :=
  scriptedState
    (scriptedWorld (-4) 0.5 [syntheticCandidate "ListX" 1.7 3, syntheticCandidate "ListY" 2.2 5])

/-- A synthetic candidate with the given chi and number of excess track associations, whose
chi2 per degree of freedom of 20 fails the test of line 114 for a seed of chi2 16. -/
def guessCandidate (listName : String) (chi : ℚ) (nExcessTrackAssociations : Nat) :
    SyntheticCandidate where
  listName := listName
  clusterList := [cluster3]
  extractStatus := STATUS_CODE_SUCCESS
  reclusterResult :=
    { chi := chi, chiPerDof := chi, chi2PerDof := 20, minTrackAssociationEnergy := 1,
      nExcessTrackAssociations := nExcessTrackAssociations }

/-- The scripted state of a seed of compatibility -4 with three candidates pending that fail
the test of line 114: chi 3 with an excess association, chi 2 with an excess association,
and chi 2 with an excess association again. -/
def guessCandidatesState : ClientState ScriptedWorld :=
  scriptedState
    (scriptedWorld (-4) 0.5
      [guessCandidate "Guess1" 3 1, guessCandidate "Guess2" 2 1, guessCandidate "Guess3" 2 2])

/-- The state the strategy loop leaves from `guessCandidatesState`. -/
def guessFinalState : ClientState ScriptedWorld where
  world :=
    { scriptedWorld (-4) 0.5 [] with produced := some (guessCandidate "Guess3" 2 2) }
  minChi2 := some 9
  trace :=
    [ClientEvent.runClusteringAlgorithm "First" STATUS_CODE_SUCCESS "Guess1",
      ClientEvent.candidate "Guess1" (guessCandidate "Guess1" 3 1).reclusterResult,
      ClientEvent.runClusteringAlgorithm "Second" STATUS_CODE_SUCCESS "Guess2",
      ClientEvent.candidate "Guess2" (guessCandidate "Guess2" 2 1).reclusterResult,
      ClientEvent.runClusteringAlgorithm "Third" STATUS_CODE_SUCCESS "Guess3",
      ClientEvent.candidate "Guess3" (guessCandidate "Guess3" 2 2).reclusterResult]

/-- The selection the strategy loop leaves from `guessCandidatesState`. -/
def guessFinalSelection : Selection where
  bestReclusterListName := ""
  bestGuessListName := "Guess2"
  bestReclusterChi := -4
  bestReclusterChi2 := 16
  bestGuessChi := 2

/-- The default instance with one clustering algorithm and forced clustering enabled for a
best chi above 1. -/
def forcedAlg : ResolveTrackAssociationsAlg :=
  { defaultAlg with
    m_clusteringAlgorithms := ["First"]
    m_shouldUseForcedClustering := true
    m_minChiForForcedClustering := 1 }

/-- The scripted state of a seed of compatibility -4 (chi2 16) with a candidate of chi 2 and
chi2 4 pending, followed by the candidate of the forced clustering algorithm, of chi2 6. -/
def forcedCandidatesState : ClientState ScriptedWorld :=
  scriptedState
    (scriptedWorld (-4) 0.5 [syntheticCandidate "ListP" 2 4, syntheticCandidate "ListF" 2.4 6])

/-- The scripted state after the strategy loop of `forcedAlg` from `forcedCandidatesState`. -/
def forcedLoopState : ClientState ScriptedWorld where
  world :=
    { scriptedWorld (-4) 0.5 [syntheticCandidate "ListF" 2.4 6] with
      produced := some (syntheticCandidate "ListP" 2 4) }
  minChi2 := some 9
  trace :=
    [ClientEvent.runClusteringAlgorithm "First" STATUS_CODE_SUCCESS "ListP",
      ClientEvent.candidate "ListP" (syntheticCandidate "ListP" 2 4).reclusterResult]

/-- The selection after the strategy loop of `forcedAlg` from `forcedCandidatesState`. -/
def forcedLoopSelection : Selection where
  bestReclusterListName := "ListP"
  bestGuessListName := ""
  bestReclusterChi := 2
  bestReclusterChi2 := 4
  bestGuessChi := FLT_MAX

/-- The scripted state of a seed of compatibility -4 (chi2 16) with one candidate pending, of
chi2 per degree of freedom 5: the second call of `RunClusteringAlgorithm` finds no algorithm
to run and returns `STATUS_CODE_NOT_FOUND`. -/
def oneCandidateState : ClientState ScriptedWorld :=
  scriptedState (scriptedWorld (-4) 0.5 [syntheticCandidate "ListA" 2.2 5])

/-- The scripted state after the candidate of `oneCandidateState` has been tested. -/
def oneCandidateTestedState : ClientState ScriptedWorld where
  world :=
    { scriptedWorld (-4) 0.5 [] with produced := some (syntheticCandidate "ListA" 2.2 5) }
  minChi2 := some 9
  trace :=
    [ClientEvent.runClusteringAlgorithm "First" STATUS_CODE_SUCCESS "ListA",
      ClientEvent.candidate "ListA" (syntheticCandidate "ListA" 2.2 5).reclusterResult]

/-- The scripted state of a seed of compatibility -5 (chi2 25) with a candidate of chi 2 and
chi2 4 pending, followed by the candidate of the forced clustering algorithm, of chi2 10. -/
def forcedWorseCandidatesState : ClientState ScriptedWorld :=
  scriptedState
    (scriptedWorld (-5) 0.5 [syntheticCandidate "ListP" 2 4, syntheticCandidate "ListG" 3 10])

/-- The scripted state after the strategy loop of `forcedAlg` from
`forcedWorseCandidatesState`. -/
def forcedWorseLoopState : ClientState ScriptedWorld where
  world :=
    { scriptedWorld (-5) 0.5 [syntheticCandidate "ListG" 3 10] with
      produced := some (syntheticCandidate "ListP" 2 4) }
  minChi2 := some 9
  trace :=
    [ClientEvent.runClusteringAlgorithm "First" STATUS_CODE_SUCCESS "ListP",
      ClientEvent.candidate "ListP" (syntheticCandidate "ListP" 2 4).reclusterResult]

/-! ## Notions used to state the properties of a seed iteration -/

/-- Whether an event is a call of `RunClusteringAlgorithm` or the test of a candidate, the
events of the strategy loop and of the forced clustering step. -/
def ClientEvent.isClustering : ClientEvent → Bool
  | ClientEvent.runClusteringAlgorithm _ _ _ => true
  | ClientEvent.candidate _ _ => true
  | _ => false

/-- The events a piece of `Run()` added to those of the state `c` it started from. -/
def eventsSince {W β : Type} (c : ClientState W) (flow : Flow (ClientState W) β) :
    List ClientEvent :=
  flow.state.trace.drop c.trace.length

/-- The working vector of the scripted world: its three clusters in the order of their
addresses. -/
def scriptedVector : ClusterVector := [some cluster1, some cluster2, some cluster3]

/-- Whether the list name an event records as returned by the content API is not empty: the
original list name of `InitializeReclustering`, and the new list name of a successful call of
`RunClusteringAlgorithm`. -/
def ClientEvent.returnsListName : ClientEvent → Bool
  | ClientEvent.initializeReclustering _ _ originalClustersListName =>
    decide (originalClustersListName ≠ "")
  | ClientEvent.runClusteringAlgorithm _ STATUS_CODE_SUCCESS newClusterListName =>
    decide (newClusterListName ≠ "")
  | _ => true

/-- Each cluster occupies at most one slot of the working vector: two slots with the same
content are the same slot or are null. -/
def distinctSlots (clusterVector : ClusterVector) : Prop :=
  ∀ j < clusterVector.length, ∀ k < clusterVector.length,
    clusterVector.getD j none = clusterVector.getD k none →
      clusterVector.getD j none = none ∨ j = k

instance (clusterVector : ClusterVector) : Decidable (distinctSlots clusterVector) := by
  unfold distinctSlots
  exact inferInstance

/-! ## Example instances for the seed loop -/

/-- The scripted state of a seed of compatibility -4 in which `cluster2`, with half of its
hits in the cone around `cluster1`, has an associated track of its own. -/
def trackedDaughterState : ClientState ScriptedWorld :=
  scriptedState
    { scriptedWorld (-4) 0.5 threeCandidates with
      associatedTracks := [(10, [100]), (11, [101])] }

/-! ## The reclustering scope -/

/-- The reclustering scope after the events, from a scope that is open or not (`scopeOpen`):
a call of `InitializeReclustering` opens it and a call of `EndReclustering` closes it.  The
value is `none` when a scope is begun while one is open, or ended while none is open. -/
def reclusterScope : Bool → List ClientEvent → Option Bool
  | scopeOpen, [] => some scopeOpen
  | scopeOpen, ClientEvent.initializeReclustering _ _ _ :: rest =>
    if scopeOpen then none else reclusterScope true rest
  | scopeOpen, ClientEvent.endReclustering _ _ :: rest =>
    if scopeOpen then reclusterScope false rest else none
  | scopeOpen, ClientEvent.runClusteringAlgorithm _ _ _ :: rest => reclusterScope scopeOpen rest
  | scopeOpen, ClientEvent.candidate _ _ :: rest => reclusterScope scopeOpen rest

/-! ## Example instances for the bounds of the best chi2 -/

/-- A third instance, at another address, that attempts reclustering only up to a
compatibility of -5 and has one clustering algorithm. -/
def strictAlg : ResolveTrackAssociationsAlg :=
  { defaultAlg with
    address := 9, m_chiToAttemptReclustering := -5, m_clusteringAlgorithms := ["First"] }

/-- The scripted state, at the start of a process, of a seed of compatibility -6 (chi2 36)
with two candidates pending, of chi2 per degree of freedom 30 and 20. -/
def staleCeilingState : ClientState ScriptedWorld :=
  scriptedState
    (scriptedWorld (-6) 0.5
      [syntheticCandidate "ListX" 5.5 30, syntheticCandidate "ListY" 4.5 20])

/-! ## `ResolveTrackAssociationsAlg::ReadSettings` -/

/-- The functions of `XmlHelper` that `ReadSettings` calls.  `XmlHelper` is not among the
sources, so they are parameters, over any type `X` of xml handles.  Each takes the value of
its reference parameter at entry and gives its value at exit with the status;
`XmlHelper::ReadValue` is a template, used for `unsigned int`, `float` and `bool`.  What
`ProcessAlgorithm` and `ProcessAlgorithmList` create in the Pandora instance is not
represented. -/
structure XmlHelper (X : Type) where
  ProcessAlgorithmList : AlgorithmAddress → X → String → List String → StatusCode × List String
  ProcessAlgorithm : AlgorithmAddress → X → String → String → StatusCode × String
  ReadValueUnsignedInt : X → String → Nat → StatusCode × Nat
  ReadValueFloat : X → String → ℚ → StatusCode × ℚ
  ReadValueBool : X → String → Bool → StatusCode × Bool

/-- The largest `unsigned int`, `std::numeric_limits<unsigned int>::max()`. -/
def UINT_MAX : Nat := 4294967295

/-- Lines 264 to 276 of `ReadSettings`: the thresholds of the forced clustering step. -/
def readForcedThresholds {X : Type} (xml : XmlHelper X) (self : ResolveTrackAssociationsAlg)
    (xmlHandle : X) : StatusCode × ResolveTrackAssociationsAlg :=
  let self := { self with m_minChiForForcedClustering := 4 }
  let r := xml.ReadValueFloat xmlHandle "MinChiForForcedClustering"
    self.m_minChiForForcedClustering
  let self := { self with m_minChiForForcedClustering := r.2 }
  if resultIfAndIf r.1 then (r.1, self) else
  let self := { self with m_minForcedChi2Improvement := 9 }
  let r := xml.ReadValueFloat xmlHandle "MinForcedChi2Improvement"
    self.m_minForcedChi2Improvement
  let self := { self with m_minForcedChi2Improvement := r.2 }
  if resultIfAndIf r.1 then (r.1, self) else
  let self := { self with m_maxForcedChi2 := 36 }
  let r := xml.ReadValueFloat xmlHandle "MaxForcedChi2" self.m_maxForcedChi2
  let self := { self with m_maxForcedChi2 := r.2 }
  if resultIfAndIf r.1 then (r.1, self) else
  (STATUS_CODE_SUCCESS, self)

/-- Lines 250 to 262 of `ReadSettings`, followed by `readForcedThresholds`: the two fallbacks
and the forced clustering algorithm, which is processed only when `ShouldUseForcedClustering`
has been read as true. -/
def readForcedSettings {X : Type} (xml : XmlHelper X) (self : ResolveTrackAssociationsAlg)
    (xmlHandle : X) : StatusCode × ResolveTrackAssociationsAlg :=
  let self := { self with m_shouldUseBestGuessCandidates := true }
  let r := xml.ReadValueBool xmlHandle "ShouldUseBestGuessCandidates"
    self.m_shouldUseBestGuessCandidates
  let self := { self with m_shouldUseBestGuessCandidates := r.2 }
  if resultIfAndIf r.1 then (r.1, self) else
  let self := { self with m_shouldUseForcedClustering := false }
  let r := xml.ReadValueBool xmlHandle "ShouldUseForcedClustering"
    self.m_shouldUseForcedClustering
  let self := { self with m_shouldUseForcedClustering := r.2 }
  if resultIfAndIf r.1 then (r.1, self) else
  if self.m_shouldUseForcedClustering then
    let r := xml.ProcessAlgorithm self.address xmlHandle "ForcedClustering"
      self.m_forcedClusteringAlgorithmName
    let self := { self with m_forcedClusteringAlgorithmName := r.2 }
    if resultIf r.1 then (r.1, self) else
    readForcedThresholds xml self xmlHandle
  else readForcedThresholds xml self xmlHandle

/-- Lines 234 to 248 of `ReadSettings`, followed by `readForcedSettings`: the settings of the
two halts of the strategy loop. -/
def readHaltSettings {X : Type} (xml : XmlHelper X) (self : ResolveTrackAssociationsAlg)
    (xmlHandle : X) : StatusCode × ResolveTrackAssociationsAlg :=
  let self := { self with m_chi2ForAutomaticClusterSelection := 1 }
  let r := xml.ReadValueFloat xmlHandle "Chi2ForAutomaticClusterSelection"
    self.m_chi2ForAutomaticClusterSelection
  let self := { self with m_chi2ForAutomaticClusterSelection := r.2 }
  if resultIfAndIf r.1 then (r.1, self) else
  let self := { self with m_usingOrderedAlgorithms := false }
  let r := xml.ReadValueBool xmlHandle "UsingOrderedAlgorithms" self.m_usingOrderedAlgorithms
  let self := { self with m_usingOrderedAlgorithms := r.2 }
  if resultIfAndIf r.1 then (r.1, self) else
  let self := { self with m_bestChi2ForReclusterHalt := 4 }
  let r := xml.ReadValueFloat xmlHandle "BestChi2ForReclusterHalt"
    self.m_bestChi2ForReclusterHalt
  let self := { self with m_bestChi2ForReclusterHalt := r.2 }
  if resultIfAndIf r.1 then (r.1, self) else
  let self := { self with m_currentChi2ForReclusterHalt := 16 }
  let r := xml.ReadValueFloat xmlHandle "CurrentChi2ForReclusterHalt"
    self.m_currentChi2ForReclusterHalt
  let self := { self with m_currentChi2ForReclusterHalt := r.2 }
  if resultIfAndIf r.1 then (r.1, self) else
  readForcedSettings xml self xmlHandle

/-- Lines 210 to 232 of `ReadSettings`, followed by `readHaltSettings`: the settings of the
seed and of the test of a candidate. -/
def readSeedSettings {X : Type} (xml : XmlHelper X) (self : ResolveTrackAssociationsAlg)
    (xmlHandle : X) : StatusCode × ResolveTrackAssociationsAlg :=
  let self := { self with m_maxTrackAssociations := UINT_MAX }
  let r := xml.ReadValueUnsignedInt xmlHandle "MaxTrackAssociations"
    self.m_maxTrackAssociations
  let self := { self with m_maxTrackAssociations := r.2 }
  if resultIfAndIf r.1 then (r.1, self) else
  let self := { self with m_chiToAttemptReclustering := -3 }
  let r := xml.ReadValueFloat xmlHandle "ChiToAttemptReclustering"
    self.m_chiToAttemptReclustering
  let self := { self with m_chiToAttemptReclustering := r.2 }
  if resultIfAndIf r.1 then (r.1, self) else
  let self := { self with m_minChi2Improvement := 1 }
  let r := xml.ReadValueFloat xmlHandle "MinChi2Improvement" self.m_minChi2Improvement
  let self := { self with m_minChi2Improvement := r.2 }
  if resultIfAndIf r.1 then (r.1, self) else
  let self := { self with m_coneCosineHalfAngle := 0.9 }
  let r := xml.ReadValueFloat xmlHandle "ConeCosineHalfAngle" self.m_coneCosineHalfAngle
  let self := { self with m_coneCosineHalfAngle := r.2 }
  if resultIfAndIf r.1 then (r.1, self) else
  let self := { self with m_minConeFraction := 0.2 }
  let r := xml.ReadValueFloat xmlHandle "MinConeFraction" self.m_minConeFraction
  let self := { self with m_minConeFraction := r.2 }
  if resultIfAndIf r.1 then (r.1, self) else
  let self := { self with m_minClusterEnergyForTrackAssociation := 0.1 }
  let r := xml.ReadValueFloat xmlHandle "MinClusterEnergyForTrackAssociation"
    self.m_minClusterEnergyForTrackAssociation
  let self := { self with m_minClusterEnergyForTrackAssociation := r.2 }
  if resultIfAndIf r.1 then (r.1, self) else
  readHaltSettings xml self xmlHandle

/-- Embedding of `ResolveTrackAssociationsAlg::ReadSettings`: the status returned and the
instance with the members as the call leaves them. -/
def ResolveTrackAssociationsAlg.ReadSettings {X : Type} (xml : XmlHelper X)
    (self : ResolveTrackAssociationsAlg) (xmlHandle : X) :
    StatusCode × ResolveTrackAssociationsAlg :=
  let r := xml.ProcessAlgorithmList self.address xmlHandle "clusteringAlgorithms"
    self.m_clusteringAlgorithms
  let self := { self with m_clusteringAlgorithms := r.2 }
  if resultIf r.1 then (r.1, self) else
  let r := xml.ProcessAlgorithm self.address xmlHandle "ClusterAssociation"
    self.m_associationAlgorithmName
  let self := { self with m_associationAlgorithmName := r.2 }
  if resultIf r.1 then (r.1, self) else
  let r := xml.ProcessAlgorithm self.address xmlHandle "TrackClusterAssociation"
    self.m_trackClusterAssociationAlgName
  let self := { self with m_trackClusterAssociationAlgName := r.2 }
  if resultIf r.1 then (r.1, self) else
  let self := { self with m_minTrackAssociations := 1 }
  let r := xml.ReadValueUnsignedInt xmlHandle "MinTrackAssociations"
    self.m_minTrackAssociations
  let self := { self with m_minTrackAssociations := r.2 }
  if resultIfAndIf r.1 then (r.1, self) else
  if self.m_minTrackAssociations < 1 then (STATUS_CODE_INVALID_PARAMETER, self) else
  readSeedSettings xml self xmlHandle

/-! ## A scripted configuration -/

/-- A configuration in which every entry is scripted: the algorithm lists, the algorithms
and the values present, by name. -/
structure ScriptedXml where
  algorithmLists : List (String × List String)
  algorithms : List (String × String)
  unsignedInts : List (String × Nat)
  floats : List (String × ℚ)
  bools : List (String × Bool)

/-- What a read of the scripted configuration gives: the value stored under the name with
`STATUS_CODE_SUCCESS`, or `STATUS_CODE_NOT_FOUND` with the value left as it was. -/
def scriptedRead {β : Type} (name : String) (value : β) (entries : List (String × β)) :
    StatusCode × β :=
  match entries.lookup name with
  | some found => (STATUS_CODE_SUCCESS, found)
  | none => (STATUS_CODE_NOT_FOUND, value)

/-- The `XmlHelper` of the scripted configuration. -/
def scriptedXmlHelper : XmlHelper ScriptedXml where
  ProcessAlgorithmList := fun _ xml name value => scriptedRead name value xml.algorithmLists
  ProcessAlgorithm := fun _ xml name value => scriptedRead name value xml.algorithms
  ReadValueUnsignedInt := fun xml name value => scriptedRead name value xml.unsignedInts
  ReadValueFloat := fun xml name value => scriptedRead name value xml.floats
  ReadValueBool := fun xml name value => scriptedRead name value xml.bools

/-- A configuration with the three required algorithm entries and no optional key but
`ChiToAttemptReclustering`. -/
def scriptedXml : ScriptedXml where
  algorithmLists := [("clusteringAlgorithms", ["First", "Second", "Third"])]
  algorithms :=
    [("ClusterAssociation", "Association"),
      ("TrackClusterAssociation", "TrackClusterAssociation")]
  unsignedInts := []
  floats := [("ChiToAttemptReclustering", -2)]
  bools := []

/-- An instance before `ReadSettings`: every member holds an arbitrary value. -/
def unconfiguredAlg : ResolveTrackAssociationsAlg where
  address := 7
  m_clusteringAlgorithms := []
  m_associationAlgorithmName := ""
  m_trackClusterAssociationAlgName := ""
  m_forcedClusteringAlgorithmName := ""
  m_minTrackAssociations := 0
  m_maxTrackAssociations := 0
  m_chiToAttemptReclustering := 0
  m_minChi2Improvement := 0
  m_coneCosineHalfAngle := 0
  m_minConeFraction := 0
  m_minClusterEnergyForTrackAssociation := 0
  m_chi2ForAutomaticClusterSelection := 0
  m_usingOrderedAlgorithms := true
  m_bestChi2ForReclusterHalt := 0
  m_currentChi2ForReclusterHalt := 0
  m_shouldUseBestGuessCandidates := false
  m_shouldUseForcedClustering := true
  m_minChiForForcedClustering := 0
  m_minForcedChi2Improvement := 0
  m_maxForcedChi2 := 0

/-- Every optional key of the configuration is absent, its read returning
`STATUS_CODE_NOT_FOUND` and leaving the value as it was, or is read successfully. -/
def optionalKeysReadable {X : Type} (xml : XmlHelper X) (xmlHandle : X) : Prop :=
  (∀ name value,
      (xml.ReadValueUnsignedInt xmlHandle name value).1 = STATUS_CODE_SUCCESS ∨
        xml.ReadValueUnsignedInt xmlHandle name value = (STATUS_CODE_NOT_FOUND, value)) ∧
    (∀ name value,
      (xml.ReadValueFloat xmlHandle name value).1 = STATUS_CODE_SUCCESS ∨
        xml.ReadValueFloat xmlHandle name value = (STATUS_CODE_NOT_FOUND, value)) ∧
    ∀ name value,
      (xml.ReadValueBool xmlHandle name value).1 = STATUS_CODE_SUCCESS ∨
        xml.ReadValueBool xmlHandle name value = (STATUS_CODE_NOT_FOUND, value)

/-- The configuration `scriptedXml` with `MinTrackAssociations` set to 0. -/
def zeroMinimumXml : ScriptedXml :=
  { scriptedXml with unsignedInts := [("MinTrackAssociations", 0)] }

/-- A configuration with `MinTrackAssociations` set to 0 and no `clusteringAlgorithms`
entry. -/
def noStrategiesXml : ScriptedXml :=
  { zeroMinimumXml with algorithmLists := [] }

/-- The configuration `scriptedXml` with `ShouldUseForcedClustering` set to true and no
`ForcedClustering` entry. -/
def forcedWithoutEntryXml : ScriptedXml :=
  { scriptedXml with bools := [("ShouldUseForcedClustering", true)] }

/-- The helper `xml` with the processing of the `ForcedClustering` entry replaced by
`process`: every other call is that of `xml`. -/
def withForcedClusteringEntry {X : Type} (xml : XmlHelper X)
    (process : AlgorithmAddress → X → String → StatusCode × String) : XmlHelper X :=
  { xml with
    ProcessAlgorithm := fun algorithm xmlHandle name value =>
      if name = "ForcedClustering" then process algorithm xmlHandle value
      else xml.ProcessAlgorithm algorithm xmlHandle name value }

/-! ## Clusters as the merging algorithms see them -/

/-- What the member functions of `Cluster` and `Track` that the merging algorithms call
return, in a world `W`.  The two classes are not among the sources, so these are parameters;
a `PseudoLayer` is an `unsigned int`. -/
structure ClusterQueries (W : Type) where
  GetNCaloHits : W → Cluster → Nat
  GetInnerPseudoLayer : W → Cluster → Nat
  GetOuterPseudoLayer : W → Cluster → Nat
  GetShowerMaxLayer : W → Cluster → Nat
  GetHadronicEnergy : W → Cluster → ℚ
  GetElectromagneticEnergy : W → Cluster → ℚ
  IsPhoton : W → Cluster → Bool
  GetAssociatedTrackList : W → Cluster → TrackList
  GetEnergyAtDca : W → Track → ℚ

/-- The difference of two `unsigned int` values, as C++ computes it: modulo 2^32. -/
def unsignedDifference (a b : Nat) : Nat :=
  (a + 4294967296 - b) % 4294967296

/-! ## `ConeBasedMergingAlgorithm::SortClustersByInnerLayer` -/

/-- Embedding of `ConeBasedMergingAlgorithm::SortClustersByInnerLayer`. -/
def SortClustersByInnerLayer {W : Type} (queries : ClusterQueries W) (w : W)
    (pLhs pRhs : Cluster) : Bool :=
  let innerLayerLhs := queries.GetInnerPseudoLayer w pLhs
  let innerLayerRhs := queries.GetInnerPseudoLayer w pRhs
  if innerLayerLhs ≠ innerLayerRhs then decide (innerLayerLhs < innerLayerRhs)
  else decide (queries.GetNCaloHits w pLhs > queries.GetNCaloHits w pRhs)

/-! ## `SoftClusterMergingAlgorithm`: the two tests of a daughter -/

/-- The members of a `SoftClusterMergingAlgorithm` and its address.  The header of the class
is not among the sources; the counts and layers are taken as `unsigned int`, the energies and
distances as `float`, as `ReadSettings` initialises them. -/
structure SoftClusterMergingAlgorithm where
  address : AlgorithmAddress
  m_trackClusterAssociationAlgName : String
  m_maxHitsInSoftCluster : Nat
  m_maxLayersSpannedBySoftCluster : Nat
  m_maxHadEnergyForSoftClusterNoTrack : ℚ
  m_minClusterHadEnergy : ℚ
  m_minClusterEMEnergy : ℚ
  m_closestDistanceCut0 : ℚ
  m_closestDistanceCut1 : ℚ
  m_innerLayerCut1 : Nat
  m_closestDistanceCut2 : ℚ
  m_innerLayerCut2 : Nat
  m_maxClusterDistance : ℚ
  m_minHitsInCluster : Nat

/-- Embedding of `SoftClusterMergingAlgorithm::IsSoftCluster`. -/
def SoftClusterMergingAlgorithm.IsSoftCluster {W : Type} (queries : ClusterQueries W)
    (self : SoftClusterMergingAlgorithm) (w : W) (pDaughterCluster : Cluster) : Bool :=
  let nCaloHits := queries.GetNCaloHits w pDaughterCluster
  if 0 = nCaloHits then false else
  let isSoftCluster := false
  let isSoftCluster :=
    if nCaloHits ≤ self.m_maxHitsInSoftCluster then true
    else if unsignedDifference (queries.GetOuterPseudoLayer w pDaughterCluster)
        (queries.GetInnerPseudoLayer w pDaughterCluster) <
        self.m_maxLayersSpannedBySoftCluster then true
    else if queries.GetHadronicEnergy w pDaughterCluster <
        self.m_maxHadEnergyForSoftClusterNoTrack then true
    else isSoftCluster
  let isSoftCluster :=
    if ¬(queries.GetAssociatedTrackList w pDaughterCluster).isEmpty then false
    else isSoftCluster
  let isSoftCluster :=
    if queries.GetHadronicEnergy w pDaughterCluster < self.m_minClusterHadEnergy then true
    else isSoftCluster
  let isSoftCluster :=
    if queries.IsPhoton w pDaughterCluster ∧
        queries.GetElectromagneticEnergy w pDaughterCluster > self.m_minClusterEMEnergy then
      false
    else isSoftCluster
  isSoftCluster

/-- The classification of a soft cluster as one formula, for a cluster with at least one
calo hit: not (photon with electromagnetic energy above `MinClusterEMEnergy`), and hadronic
energy below `MinClusterHadEnergy` or else no associated track and one of the three cuts of
a cluster without track.  The layers spanned are the difference of the outer and the inner
layer as integers. -/
def softClusterFormula {W : Type} (queries : ClusterQueries W)
    (self : SoftClusterMergingAlgorithm) (w : W) (pDaughterCluster : Cluster) : Prop :=
  ¬(queries.IsPhoton w pDaughterCluster = true ∧
      queries.GetElectromagneticEnergy w pDaughterCluster > self.m_minClusterEMEnergy) ∧
    (queries.GetHadronicEnergy w pDaughterCluster < self.m_minClusterHadEnergy ∨
      (queries.GetAssociatedTrackList w pDaughterCluster = [] ∧
        (queries.GetNCaloHits w pDaughterCluster ≤ self.m_maxHitsInSoftCluster ∨
          (queries.GetOuterPseudoLayer w pDaughterCluster : ℤ) -
              (queries.GetInnerPseudoLayer w pDaughterCluster : ℤ) <
            (self.m_maxLayersSpannedBySoftCluster : ℤ) ∨
          queries.GetHadronicEnergy w pDaughterCluster <
            self.m_maxHadEnergyForSoftClusterNoTrack)))

/-- Embedding of `SoftClusterMergingAlgorithm::CanMergeSoftCluster`. -/
def SoftClusterMergingAlgorithm.CanMergeSoftCluster {W : Type} (queries : ClusterQueries W)
    (self : SoftClusterMergingAlgorithm) (w : W) (pDaughterCluster : Cluster)
    (closestDistance : ℚ) : Bool :=
  if closestDistance < self.m_closestDistanceCut0 then true else
  let daughterInnerLayer := queries.GetInnerPseudoLayer w pDaughterCluster
  if closestDistance < self.m_closestDistanceCut1 ∧
      daughterInnerLayer > self.m_innerLayerCut1 then true else
  if closestDistance < self.m_closestDistanceCut2 ∧
      daughterInnerLayer > self.m_innerLayerCut2 then true else
  if closestDistance < self.m_maxClusterDistance then
    if queries.GetHadronicEnergy w pDaughterCluster < self.m_minClusterHadEnergy ∨
        queries.GetNCaloHits w pDaughterCluster < self.m_minHitsInCluster then true
    else false
  else false

/-! ## A scripted world for the merging algorithms -/

/-- The properties of a cluster of the scripted world. -/
structure ClusterProperties where
  nCaloHits : Nat
  innerPseudoLayer : Nat
  outerPseudoLayer : Nat
  showerMaxLayer : Nat
  hadronicEnergy : ℚ
  electromagneticEnergy : ℚ
  isPhoton : Bool
  associatedTracks : TrackList
  deriving DecidableEq, Repr

/-- A cluster without hit, track or energy: what the scripted world answers for an address
it does not hold. -/
def noProperties : ClusterProperties := ⟨0, 0, 0, 0, 0, 0, false, []⟩

/-- A world of the merging algorithms in which every answer is scripted: the clusters of
the current cluster list with their properties, by address, the energies of the tracks, the
distances and separations between clusters, the fractions of hits in a cone, by daughter
address and parent address, and the merges made. -/
structure MergingWorld where
  currentClusterList : ClusterList
  properties : List (Nat × ClusterProperties)
  trackEnergies : List (Track × ℚ)
  distances : List ((Nat × Nat) × ℚ)
  fractionsInCone : List ((Nat × Nat) × ℚ)
  merges : List (Cluster × Cluster)
  deriving DecidableEq, Repr

/-- The cluster queries of the scripted world. -/
def scriptedQueries : ClusterQueries MergingWorld where
  GetNCaloHits := fun w cluster => (scripted cluster.address noProperties w.properties).nCaloHits
  GetInnerPseudoLayer := fun w cluster =>
    (scripted cluster.address noProperties w.properties).innerPseudoLayer
  GetOuterPseudoLayer := fun w cluster =>
    (scripted cluster.address noProperties w.properties).outerPseudoLayer
  GetShowerMaxLayer := fun w cluster =>
    (scripted cluster.address noProperties w.properties).showerMaxLayer
  GetHadronicEnergy := fun w cluster =>
    (scripted cluster.address noProperties w.properties).hadronicEnergy
  GetElectromagneticEnergy := fun w cluster =>
    (scripted cluster.address noProperties w.properties).electromagneticEnergy
  IsPhoton := fun w cluster => (scripted cluster.address noProperties w.properties).isPhoton
  GetAssociatedTrackList := fun w cluster =>
    (scripted cluster.address noProperties w.properties).associatedTracks
  GetEnergyAtDca := fun w track => scripted track 0 w.trackEnergies

/-- An instance of `SoftClusterMergingAlgorithm` with the default values of its
`ReadSettings`. -/
def defaultSoftAlg : SoftClusterMergingAlgorithm where
  address := 20
  m_trackClusterAssociationAlgName := "TrackClusterAssociation"
  m_maxHitsInSoftCluster := 9
  m_maxLayersSpannedBySoftCluster := 3
  m_maxHadEnergyForSoftClusterNoTrack := 2
  m_minClusterHadEnergy := 0.5
  m_minClusterEMEnergy := 0.1
  m_closestDistanceCut0 := 50
  m_closestDistanceCut1 := 100
  m_innerLayerCut1 := 20
  m_closestDistanceCut2 := 250
  m_innerLayerCut2 := 40
  m_maxClusterDistance := 500
  m_minHitsInCluster := 5

/-- A scripted world of three clusters: `cluster1`, large, with a track; `cluster2`, of four
hits in layers 25 to 26; `cluster3`, a photon of twelve hits. -/
def mergingWorld : MergingWorld where
  currentClusterList := [cluster1, cluster2, cluster3]
  properties :=
    [(10, ⟨40, 5, 30, 12, 8, 1, false, [100]⟩), (11, ⟨4, 25, 26, 25, 0.3, 0.1, false, []⟩),
      (12, ⟨12, 3, 9, 5, 0.2, 3, true, []⟩)]
  trackEnergies := [(100, 9)]
  distances := [((10, 11), 80), ((12, 11), 30), ((10, 12), 20)]
  fractionsInCone := [((11, 10), 0.8), ((12, 10), 0.6)]
  merges := []

/-! ## The merging algorithms: what they call and what they record -/

/-- The functions of `PandoraContentApi` that the merging algorithms call, over any type `W`
of worlds.  `PandoraContentApi` and `MergeAndDeleteClusters` are not among the sources, so
they are parameters.  `GetCurrentClusterList` gives a pointer to the list of the manager,
which later calls may change: the pointer is represented by the function that reads the list
it points to in a world. -/
structure MergingContentApi (W : Type) where
  RunDaughterAlgorithm : AlgorithmAddress → String → W → StatusCode × W
  GetCurrentClusterList : AlgorithmAddress → W → StatusCode × (W → ClusterList)
  MergeAndDeleteClusters : AlgorithmAddress → Cluster → Cluster → W → StatusCode × W

/-- The helper functions the merging algorithms call, over worlds `W` and fit results `F`;
`ClusterHelper`, `CartesianVector` and `PandoraSettings` are not among the sources.
`InnerLayerSeparation w parent daughter` is the value lines 46 to 49 of
`ConeBasedMergingAlgorithm::Run` compute from the centroids of the two inner layers.
`GetFractionInCone` is the member function of `ConeBasedMergingAlgorithm`, whose body is
vector arithmetic on `CartesianVector`; it enters as a parameter, `none` being the
`StatusCodeException(STATUS_CODE_FAILURE)` of its line 205.  `sqrt` is `std::sqrt`. -/
structure MergingHelpers (W F : Type) where
  CanMergeCluster : W → Cluster → ℚ → ℚ → Bool
  FitLayers : W → Cluster → Nat → Nat → StatusCode × F
  GetDistanceToClosestHit : W → Cluster → Cluster → ℚ
  InnerLayerSeparation : W → Cluster → Cluster → ℚ
  GetFractionInCone : W → Cluster → Cluster → F → Option ℚ
  GetHadronicEnergyResolution : ℚ
  sqrt : ℚ → ℚ

/-- What a merging algorithm does with clusters, in order: it takes a cluster as daughter
candidate, it takes a cluster as parent candidate for a daughter, it calls
`MergeAndDeleteClusters`.  The first two are ghost events. -/
inductive MergeEvent where
  | daughterCandidate (pDaughterCluster : Cluster)
  | parentCandidate (pParentCluster pDaughterCluster : Cluster)
  | mergeAndDeleteClusters (pClusterToEnlarge pClusterToDelete : Cluster)
      (statusCode : StatusCode)
  deriving DecidableEq, Repr

/-- The state a merging algorithm runs in: the world and the events so far. -/
structure MergingState (W : Type) where
  world : W
  trace : List MergeEvent
  deriving DecidableEq

/-- How a piece of a `Run()` with loops ends: `Run()` is left with an outcome, or control
goes on with a value. -/
inductive Step (σ β : Type) where
  | done (outcome : Outcome) (state : σ)
  | next (value : β) (state : σ)
  deriving DecidableEq

/-- The state a piece of `Run()` leaves. -/
def Step.state {σ β : Type} : Step σ β → σ
  | Step.done _ state => state
  | Step.next _ state => state

/-- The parent fit result map, a `std::map` from cluster addresses to fit results: its
entries in the order of the keys. -/
abbrev ClusterFitResultMap (F : Type) := List (Cluster × F)

/-! ## `ConeBasedMergingAlgorithm` -/

/-- The members of a `ConeBasedMergingAlgorithm` and its address. -/
structure ConeBasedMergingAlgorithm where
  address : AlgorithmAddress
  m_trackClusterAssociationAlgName : String
  m_canMergeMinMipFraction : ℚ
  m_canMergeMaxRms : ℚ
  m_minCaloHitsPerCluster : Nat
  m_minLayersToShowerMax : Nat
  m_minConeFraction : ℚ
  m_maxInnerLayerSeparation : ℚ
  m_maxInnerLayerSeparationNoTrack : ℚ
  m_coneCosineHalfAngle : ℚ
  m_minDaughterHadronicEnergy : ℚ
  m_maxTrackClusterChi : ℚ
  m_maxTrackClusterDChi2 : ℚ
  m_minCosConeAngleWrtRadial : ℚ
  m_cosConeAngleWrtRadialCut1 : ℚ
  m_minHitSeparationCut1 : ℚ
  m_cosConeAngleWrtRadialCut2 : ℚ
  m_minHitSeparationCut2 : ℚ

/-- Lines 133 to 157 of `PrepareClusters`: the mip fits of the parent candidates, over the
clusters still to visit.  An insertion that finds the key in the map returns
`STATUS_CODE_FAILURE`; the subtraction of line 146 is made only when the inner layer does not
exceed the shower maximum layer. -/
def fitParents {W F : Type} (queries : ClusterQueries W) (helpers : MergingHelpers W F)
    (self : ConeBasedMergingAlgorithm) (w : W) :
    ClusterList → ClusterFitResultMap F → StatusCode × ClusterFitResultMap F
  | [], parentFitResultMap => (STATUS_CODE_SUCCESS, parentFitResultMap)
  | pCluster :: rest, parentFitResultMap =>
    if queries.GetNCaloHits w pCluster < self.m_minCaloHitsPerCluster then
      fitParents queries helpers self w rest parentFitResultMap
    else if ¬helpers.CanMergeCluster w pCluster self.m_canMergeMinMipFraction
        self.m_canMergeMaxRms then
      fitParents queries helpers self w rest parentFitResultMap
    else
      let innerLayer := queries.GetInnerPseudoLayer w pCluster
      let showerMaxLayer := queries.GetShowerMaxLayer w pCluster
      if innerLayer > showerMaxLayer ∨
          showerMaxLayer - innerLayer < self.m_minLayersToShowerMax then
        fitParents queries helpers self w rest parentFitResultMap
      else
        let fitEndLayer := if showerMaxLayer > 1 then showerMaxLayer - 1 else 0
        let r := helpers.FitLayers w pCluster innerLayer fitEndLayer
        if STATUS_CODE_SUCCESS ≠ r.1 then
          fitParents queries helpers self w rest parentFitResultMap
        else if pCluster ∈ parentFitResultMap.map Prod.fst then
          (STATUS_CODE_FAILURE, parentFitResultMap)
        else
          fitParents queries helpers self w rest
            (parentFitResultMap.orderedInsert
              (fun lhs rhs => lhs.1.address ≤ rhs.1.address) (pCluster, r.2))

/-- Embedding of `ConeBasedMergingAlgorithm::PrepareClusters`, called as `Run()` calls it,
with an empty daughter vector and an empty map: the status, the daughter vector and the
parent fit result map.  `std::sort` is modelled by an insertion sort. -/
def ConeBasedMergingAlgorithm.PrepareClusters {W F : Type} (api : MergingContentApi W)
    (queries : ClusterQueries W) (helpers : MergingHelpers W F)
    (self : ConeBasedMergingAlgorithm) (w : W) :
    StatusCode × ClusterVector × ClusterFitResultMap F :=
  let r := api.GetCurrentClusterList self.address w
  if resultIf r.1 then (r.1, [], []) else
  let clusterList := r.2 w
  let daughters := clusterList.filter
    (fun pCluster =>
      !decide (queries.GetNCaloHits w pCluster < self.m_minCaloHitsPerCluster) &&
        helpers.CanMergeCluster w pCluster self.m_canMergeMinMipFraction self.m_canMergeMaxRms)
  let daughterVector : ClusterVector :=
    (daughters.insertionSort
      (fun lhs rhs => SortClustersByInnerLayer queries w rhs lhs = false)).map some
  let fitted := fitParents queries helpers self w clusterList []
  (fitted.1, daughterVector, fitted.2)

/-- Lines 38 to 66 of `Run()`: the loop over the parent candidates of a daughter, over the
entries of the map still to visit, from the best parent and the highest cone fraction so
far. -/
def coneParentLoop {W F : Type} (queries : ClusterQueries W) (helpers : MergingHelpers W F)
    (self : ConeBasedMergingAlgorithm) (pDaughterCluster : Cluster) :
    ClusterFitResultMap F → Option Cluster × ℚ → MergingState W →
      Step (MergingState W) (Option Cluster × ℚ)
  | [], best, c => Step.next best c
  | (pParentCluster, mipFitResult) :: rest, best, c =>
    let c1 : MergingState W :=
      { c with trace := c.trace ++ [MergeEvent.parentCandidate pParentCluster pDaughterCluster] }
    if pDaughterCluster = pParentCluster then
      coneParentLoop queries helpers self pDaughterCluster rest best c1
    else
      let innerLayerSeparation :=
        helpers.InnerLayerSeparation c1.world pParentCluster pDaughterCluster
      if innerLayerSeparation > self.m_maxInnerLayerSeparation then
        coneParentLoop queries helpers self pDaughterCluster rest best c1
      else if (queries.GetAssociatedTrackList c1.world pParentCluster).isEmpty ∧
          innerLayerSeparation > self.m_maxInnerLayerSeparationNoTrack then
        coneParentLoop queries helpers self pDaughterCluster rest best c1
      else
        match helpers.GetFractionInCone c1.world pParentCluster pDaughterCluster
            mipFitResult with
        | none => Step.done (Outcome.threwStatusCodeException STATUS_CODE_FAILURE) c1
        | some fractionInCone =>
          if fractionInCone > best.2 then
            coneParentLoop queries helpers self pDaughterCluster rest
              (some pParentCluster, fractionInCone) c1
          else coneParentLoop queries helpers self pDaughterCluster rest best c1

/-- Lines 70 to 101 of `Run()`: whether one of the two `continue` statements of the check of
the cluster energy against the energy of the associated tracks is reached. -/
def failsTrackEnergyCheck {W F : Type} (queries : ClusterQueries W)
    (helpers : MergingHelpers W F) (self : ConeBasedMergingAlgorithm) (w : W)
    (pBestParentCluster pDaughterCluster : Cluster) : Bool :=
  let trackList := queries.GetAssociatedTrackList w pBestParentCluster
  if ¬trackList.isEmpty then
    let trackEnergySum :=
      trackList.foldl (fun sum track => sum + queries.GetEnergyAtDca w track) (0 : ℚ)
    if trackEnergySum > 0 then
      let sigmaE :=
        helpers.GetHadronicEnergyResolution * trackEnergySum / helpers.sqrt trackEnergySum
      if 0 = sigmaE then true else
      let clusterEnergySum := queries.GetHadronicEnergy w pBestParentCluster +
        queries.GetHadronicEnergy w pDaughterCluster
      let chi := (clusterEnergySum - trackEnergySum) / sigmaE
      let chi0 := (queries.GetHadronicEnergy w pBestParentCluster - trackEnergySum) / sigmaE
      let canMergeClusters :=
        decide (queries.GetHadronicEnergy w pDaughterCluster > self.m_minDaughterHadronicEnergy)
      if ¬canMergeClusters then
        if chi > self.m_maxTrackClusterChi ∨
            chi * chi - chi0 * chi0 > self.m_maxTrackClusterDChi2 then true
        else false
      else false
    else false
  else false

/-- One iteration of the daughter loop, lines 29 to 107 of `Run()`, for the slot `index` of
the daughter vector.  The value is the daughter vector and the parent fit result map after
the iteration. -/
def coneDaughterIteration {W F : Type} (api : MergingContentApi W)
    (queries : ClusterQueries W) (helpers : MergingHelpers W F)
    (self : ConeBasedMergingAlgorithm) (index : Nat) (daughterVector : ClusterVector)
    (parentFitResultMap : ClusterFitResultMap F) (c : MergingState W) :
    Step (MergingState W) (ClusterVector × ClusterFitResultMap F) :=
  match daughterVector.getD index none with
  | none => Step.next (daughterVector, parentFitResultMap) c
  | some pDaughterCluster =>
    let c1 : MergingState W :=
      { c with trace := c.trace ++ [MergeEvent.daughterCandidate pDaughterCluster] }
    match coneParentLoop queries helpers self pDaughterCluster parentFitResultMap
        (none, self.m_minConeFraction) c1 with
    | Step.done outcome c2 => Step.done outcome c2
    | Step.next best c2 =>
      match best.1 with
      | none => Step.next (daughterVector, parentFitResultMap) c2
      | some pBestParentCluster =>
        if failsTrackEnergyCheck queries helpers self c2.world pBestParentCluster
            pDaughterCluster then
          Step.next (daughterVector, parentFitResultMap) c2
        else
          let daughterVector1 := daughterVector.set index none
          let parentFitResultMap1 :=
            parentFitResultMap.filter (fun entry => entry.1 ≠ pDaughterCluster)
          let r := api.MergeAndDeleteClusters self.address pBestParentCluster
            pDaughterCluster c2.world
          let c3 : MergingState W :=
            { world := r.2
              trace := c2.trace ++
                [MergeEvent.mergeAndDeleteClusters pBestParentCluster pDaughterCluster r.1] }
          if resultIf r.1 then Step.done (Outcome.returned r.1) c3
          else Step.next (daughterVector1, parentFitResultMap1) c3

/-- The daughter loop, lines 27 to 108 of `Run()`, over the slots still to visit, from the
last slot of the vector to the first. -/
def coneDaughterLoop {W F : Type} (api : MergingContentApi W) (queries : ClusterQueries W)
    (helpers : MergingHelpers W F) (self : ConeBasedMergingAlgorithm) :
    List Nat → ClusterVector → ClusterFitResultMap F → MergingState W →
      Step (MergingState W) (ClusterVector × ClusterFitResultMap F)
  | [], daughterVector, parentFitResultMap, c =>
    Step.next (daughterVector, parentFitResultMap) c
  | index :: rest, daughterVector, parentFitResultMap, c =>
    match coneDaughterIteration api queries helpers self index daughterVector
        parentFitResultMap c with
    | Step.done outcome c1 => Step.done outcome c1
    | Step.next value c1 => coneDaughterLoop api queries helpers self rest value.1 value.2 c1

/-- Embedding of `ConeBasedMergingAlgorithm::Run`. -/
def ConeBasedMergingAlgorithm.Run {W F : Type} (api : MergingContentApi W)
    (queries : ClusterQueries W) (helpers : MergingHelpers W F)
    (self : ConeBasedMergingAlgorithm) (c : MergingState W) : Outcome × MergingState W :=
  let r1 := api.RunDaughterAlgorithm self.address self.m_trackClusterAssociationAlgName c.world
  let c1 : MergingState W := { c with world := r1.2 }
  if resultIf r1.1 then (Outcome.returned r1.1, c1) else
  let r2 := self.PrepareClusters api queries helpers c1.world
  if resultIf r2.1 then (Outcome.returned r2.1, c1) else
  match coneDaughterLoop api queries helpers self (List.range r2.2.1.length).reverse r2.2.1
      r2.2.2 c1 with
  | Step.done outcome c2 => (outcome, c2)
  | Step.next _ c2 => (Outcome.returned STATUS_CODE_SUCCESS, c2)

/-! ## `SoftClusterMergingAlgorithm::Run` -/

/-- Lines 36 to 56 of `Run()`: the loop over the parent candidates of a soft daughter, over
the clusters still to visit, from the best parent and the closest distance so far. -/
def softParentLoop {W F : Type} (queries : ClusterQueries W) (helpers : MergingHelpers W F)
    (self : SoftClusterMergingAlgorithm) (pDaughterCluster : Cluster) :
    ClusterList → Option Cluster × ℚ → MergingState W → (Option Cluster × ℚ) × MergingState W
  | [], best, c => (best, c)
  | pParentCluster :: rest, best, c =>
    let c1 : MergingState W :=
      { c with trace := c.trace ++ [MergeEvent.parentCandidate pParentCluster pDaughterCluster] }
    if pDaughterCluster = pParentCluster then
      softParentLoop queries helpers self pDaughterCluster rest best c1
    else if queries.GetNCaloHits c1.world pParentCluster ≤ self.m_maxHitsInSoftCluster then
      softParentLoop queries helpers self pDaughterCluster rest best c1
    else if queries.GetHadronicEnergy c1.world pParentCluster < self.m_minClusterHadEnergy then
      softParentLoop queries helpers self pDaughterCluster rest best c1
    else
      let distance := helpers.GetDistanceToClosestHit c1.world pParentCluster pDaughterCluster
      if distance < best.2 then
        softParentLoop queries helpers self pDaughterCluster rest (some pParentCluster, distance)
          c1
      else softParentLoop queries helpers self pDaughterCluster rest best c1

/-- One iteration of the daughter loop, lines 26 to 62 of `Run()`; `readClusterList` is the
pointer `pClusterList`, read in the world of the moment for the loop over the parents. -/
def softDaughterIteration {W F : Type} (api : MergingContentApi W)
    (queries : ClusterQueries W) (helpers : MergingHelpers W F)
    (self : SoftClusterMergingAlgorithm) (readClusterList : W → ClusterList)
    (pDaughterCluster : Cluster) (c : MergingState W) : Step (MergingState W) Unit :=
  let c1 : MergingState W :=
    { c with trace := c.trace ++ [MergeEvent.daughterCandidate pDaughterCluster] }
  if ¬self.IsSoftCluster queries c1.world pDaughterCluster then Step.next () c1 else
  let found := softParentLoop queries helpers self pDaughterCluster (readClusterList c1.world)
    (none, FLT_MAX) c1
  let closestDistance := found.1.2
  let c2 := found.2
  match found.1.1 with
  | none => Step.next () c2
  | some pBestParentCluster =>
    if self.CanMergeSoftCluster queries c2.world pDaughterCluster closestDistance then
      let r := api.MergeAndDeleteClusters self.address pBestParentCluster pDaughterCluster
        c2.world
      let c3 : MergingState W :=
        { world := r.2
          trace := c2.trace ++
            [MergeEvent.mergeAndDeleteClusters pBestParentCluster pDaughterCluster r.1] }
      if resultIf r.1 then Step.done (Outcome.returned r.1) c3 else Step.next () c3
    else Step.next () c2

/-- The daughter loop, lines 24 to 63 of `Run()`, over the clusters still to visit. -/
def softDaughterLoop {W F : Type} (api : MergingContentApi W) (queries : ClusterQueries W)
    (helpers : MergingHelpers W F) (self : SoftClusterMergingAlgorithm)
    (readClusterList : W → ClusterList) :
    ClusterList → MergingState W → Step (MergingState W) Unit
  | [], c => Step.next () c
  | pDaughterCluster :: rest, c =>
    match softDaughterIteration api queries helpers self readClusterList pDaughterCluster
        c with
    | Step.done outcome c1 => Step.done outcome c1
    | Step.next _ c1 => softDaughterLoop api queries helpers self readClusterList rest c1

/-- Embedding of `SoftClusterMergingAlgorithm::Run`.  The daughter loop advances its iterator
before the body, and visits the clusters of the list as it is when the loop begins: a merge
removes from the list the daughter of the iteration only, which has been visited. -/
def SoftClusterMergingAlgorithm.Run {W F : Type} (api : MergingContentApi W)
    (queries : ClusterQueries W) (helpers : MergingHelpers W F)
    (self : SoftClusterMergingAlgorithm) (c : MergingState W) : Outcome × MergingState W :=
  let r1 := api.RunDaughterAlgorithm self.address self.m_trackClusterAssociationAlgName c.world
  let c1 : MergingState W := { c with world := r1.2 }
  if resultIf r1.1 then (Outcome.returned r1.1, c1) else
  let r2 := api.GetCurrentClusterList self.address c1.world
  if resultIf r2.1 then (Outcome.returned r2.1, c1) else
  match softDaughterLoop api queries helpers self r2.2 (r2.2 c1.world) c1 with
  | Step.done outcome c2 => (outcome, c2)
  | Step.next _ c2 => (Outcome.returned STATUS_CODE_SUCCESS, c2)

/-! ## The scripted world of the merging algorithms -/

/-- The content API of the scripted world: daughter algorithms succeed and change nothing,
the current cluster list is that of the world, and a merge of a cluster into another one
removes the daughter from the list and records the merge; a merge of a cluster into itself
returns `STATUS_CODE_FAILURE`. -/
def scriptedMergingApi : MergingContentApi MergingWorld where
  RunDaughterAlgorithm := fun _ _ w => (STATUS_CODE_SUCCESS, w)
  GetCurrentClusterList := fun _ _ => (STATUS_CODE_SUCCESS, fun w => w.currentClusterList)
  MergeAndDeleteClusters := fun _ pClusterToEnlarge pClusterToDelete w =>
    if pClusterToEnlarge = pClusterToDelete then (STATUS_CODE_FAILURE, w)
    else
      (STATUS_CODE_SUCCESS,
        { w with
          currentClusterList := w.currentClusterList.filter (fun c => c ≠ pClusterToDelete)
          merges := w.merges ++ [(pClusterToEnlarge, pClusterToDelete)] })

/-- The helpers of the scripted world: every cluster can be merged, every fit succeeds and
gives the address of the cluster, the inner layers are not separated, distances and cone
fractions are looked up by address, and `sqrt` is exact on 4, 9 and 16. -/
def scriptedMergingHelpers : MergingHelpers MergingWorld Nat where
  CanMergeCluster := fun _ _ _ _ => true
  FitLayers := fun _ cluster _ _ => (STATUS_CODE_SUCCESS, cluster.address)
  GetDistanceToClosestHit := fun w parent daughter =>
    scripted (parent.address, daughter.address) 1000 w.distances
  InnerLayerSeparation := fun _ _ _ => 0
  GetFractionInCone := fun w parent daughter _ =>
    some (scripted (daughter.address, parent.address) 0 w.fractionsInCone)
  GetHadronicEnergyResolution := 0.6
  sqrt := fun x => scripted x 1 [(4, 2), (9, 3), (16, 4)]

/-- An instance of `ConeBasedMergingAlgorithm` with the default values of its
`ReadSettings`. -/
def defaultConeAlg : ConeBasedMergingAlgorithm where
  address := 21
  m_trackClusterAssociationAlgName := "TrackClusterAssociation"
  m_canMergeMinMipFraction := 0.7
  m_canMergeMaxRms := 5
  m_minCaloHitsPerCluster := 6
  m_minLayersToShowerMax := 4
  m_minConeFraction := 0.5
  m_maxInnerLayerSeparation := 1000
  m_maxInnerLayerSeparationNoTrack := 250
  m_coneCosineHalfAngle := 0.9
  m_minDaughterHadronicEnergy := 1
  m_maxTrackClusterChi := 2.5
  m_maxTrackClusterDChi2 := 1
  m_minCosConeAngleWrtRadial := 0.25
  m_cosConeAngleWrtRadialCut1 := 0.5
  m_minHitSeparationCut1 := 1000
  m_cosConeAngleWrtRadialCut2 := 0.75
  m_minHitSeparationCut2 := 1500

/-- The scripted state of the merging algorithms before `Run()`. -/
def mergingState : MergingState MergingWorld where
  world := mergingWorld
  trace := []

/-! ## Notions used to state the properties of the merging algorithms -/

/-- Whether an event is not a call of `MergeAndDeleteClusters` with the same cluster as
parent and as daughter. -/
def MergeEvent.distinctClusters : MergeEvent → Bool
  | MergeEvent.mergeAndDeleteClusters pClusterToEnlarge pClusterToDelete _ =>
    decide (pClusterToEnlarge ≠ pClusterToDelete)
  | _ => true

/-- Whether an event uses the cluster, as daughter or as parent. -/
def MergeEvent.uses (cluster : Cluster) : MergeEvent → Bool
  | MergeEvent.daughterCandidate pDaughterCluster => decide (pDaughterCluster = cluster)
  | MergeEvent.parentCandidate pParentCluster pDaughterCluster =>
    decide (pParentCluster = cluster) || decide (pDaughterCluster = cluster)
  | MergeEvent.mergeAndDeleteClusters pClusterToEnlarge pClusterToDelete _ =>
    decide (pClusterToEnlarge = cluster) || decide (pClusterToDelete = cluster)

/-- An event of the daughter loop of `ConeBasedMergingAlgorithm::Run` takes its daughter among
the clusters of the slots of `daughterVector` and its parent among `parents`, and a merge has
a parent other than the daughter. -/
def MergeEvent.within (daughterVector : ClusterVector) (parents : ClusterList) :
    MergeEvent → Prop
  | MergeEvent.daughterCandidate pDaughterCluster => some pDaughterCluster ∈ daughterVector
  | MergeEvent.parentCandidate pParentCluster pDaughterCluster =>
    pParentCluster ∈ parents ∧ some pDaughterCluster ∈ daughterVector
  | MergeEvent.mergeAndDeleteClusters pClusterToEnlarge pClusterToDelete _ =>
    pClusterToEnlarge ∈ parents ∧ some pClusterToDelete ∈ daughterVector ∧
      pClusterToEnlarge ≠ pClusterToDelete

/-- The events a piece of a merging algorithm added to those of the state `c` it started
from. -/
def mergeEventsSince {W : Type} (c state : MergingState W) : List MergeEvent :=
  state.trace.drop c.trace.length

/-- The daughter vector `PrepareClusters` gives in the scripted world: `cluster3`, of inner
layer 3, before `cluster1`, of inner layer 5. -/
def preparedDaughterVector : ClusterVector := [some cluster3, some cluster1]

/-- The parent fit result map `PrepareClusters` gives in the scripted world: `cluster1`
alone has enough layers before its shower maximum. -/
def preparedFitResultMap : ClusterFitResultMap Nat := [(cluster1, 10)]

/-- The scripted state after the merge of `cluster3` into `cluster1`. -/
def mergedState : MergingState MergingWorld where
  world :=
    { mergingWorld with
      currentClusterList := [cluster1, cluster2]
      merges := [(cluster1, cluster3)] }
  trace :=
    [MergeEvent.daughterCandidate cluster3, MergeEvent.parentCandidate cluster1 cluster3,
      MergeEvent.mergeAndDeleteClusters cluster1 cluster3 STATUS_CODE_SUCCESS]

/-! ## Dispatch: `RunAlgorithm` -/

theorem findAlgorithm_eq_none (algorithmName : String) (algorithmMap : List (String × Algorithm))
    (h : ∀ entry ∈ algorithmMap, entry.1 ≠ algorithmName) :
    findAlgorithm algorithmName algorithmMap = none := by
  induction algorithmMap with
  | nil => rfl
  | cons entry rest ih =>
    obtain ⟨name, algorithm⟩ := entry
    have hname : name ≠ algorithmName := h (name, algorithm) (List.mem_cons_self _ _)
    simp only [findAlgorithm, if_neg hname]
    exact ih fun e he => h e (List.mem_cons_of_mem _ he)

theorem findAlgorithm_mem (algorithmName : String) (algorithmMap : List (String × Algorithm))
    (algorithm : Algorithm) (h : findAlgorithm algorithmName algorithmMap = some algorithm) :
    (algorithmName, algorithm) ∈ algorithmMap := by
  induction algorithmMap with
  | nil => simp [findAlgorithm] at h
  | cons entry rest ih =>
    obtain ⟨name, found⟩ := entry
    by_cases hname : name = algorithmName
    · simp only [findAlgorithm, if_pos hname, Option.some.injEq] at h
      simp [hname, h]
    · simp only [findAlgorithm, if_neg hname] at h
      exact List.mem_cons_of_mem _ (ih h)

theorem runAlgorithmTryBlock_fst (algorithmName : String) (algorithm : Algorithm) (s : State) :
    (runAlgorithmTryBlock algorithmName algorithm s).1 = none := by
  unfold runAlgorithmTryBlock
  dsimp only
  split
  · split <;> rfl
  · rfl
  · rfl

theorem RunAlgorithm_registered (p : Pandora) (algorithmName : String) (algorithm : Algorithm)
    (s : State) (hreg : findAlgorithm algorithmName p.m_algorithmMap = some algorithm) :
    RunAlgorithm p algorithmName s =
      (Outcome.returned
          (runAlgorithmResets p algorithm (runAlgorithmTryBlock algorithmName algorithm s).2).1,
        (runAlgorithmResets p algorithm (runAlgorithmTryBlock algorithmName algorithm s).2).2) := by
  have h1 := runAlgorithmTryBlock_fst algorithmName algorithm s
  simp only [RunAlgorithm, hreg]
  generalize runAlgorithmTryBlock algorithmName algorithm s = r at h1
  obtain ⟨exception, s1⟩ := r
  simp only at h1
  subst h1
  rfl

theorem resultIfAndIf_eq_false (statusCode : StatusCode) :
    resultIfAndIf statusCode = false ↔
      statusCode = STATUS_CODE_SUCCESS ∨ statusCode = STATUS_CODE_NOT_FOUND := by
  cases statusCode <;> simp [resultIfAndIf]

theorem resultIf_eq_false (statusCode : StatusCode) :
    resultIf statusCode = false ↔ statusCode = STATUS_CODE_SUCCESS := by
  cases statusCode <;> simp [resultIf]

/-- C1: for an algorithm name absent from the algorithm map, `RunAlgorithm` returns
`STATUS_CODE_NOT_FOUND` and the state after the call is the state before it: nothing is
written, no `Run()` is entered and no `ResetAfterAlgorithmCompletion` is called, so every
store is unchanged. -/
theorem RunAlgorithm_not_registered (p : Pandora) (algorithmName : String) (s : State)
    (habsent : ∀ entry ∈ p.m_algorithmMap, entry.1 ≠ algorithmName) :
    RunAlgorithm p algorithmName s = (Outcome.returned STATUS_CODE_NOT_FOUND, s) := by
  unfold RunAlgorithm
  rw [findAlgorithm_eq_none algorithmName p.m_algorithmMap habsent]

theorem RunAlgorithm_not_registered_witness :
    (RunAlgorithm examplePandora "Missing" emptyState =
        (Outcome.returned STATUS_CODE_NOT_FOUND, emptyState)) ∧
      (RunAlgorithm examplePandora "Missing" emptyState).2.events = [] :=
  have h := RunAlgorithm_not_registered examplePandora "Missing" emptyState (by decide)
  ⟨h, by rw [h]; rfl⟩

/-- C2: whatever the `Run()` of a registered algorithm does (it returns any status, throws a
`StatusCodeException` or throws anything else), no exception leaves `RunAlgorithm`: the call
ends by returning a status code. -/
theorem RunAlgorithm_returns_status (p : Pandora) (algorithmName : String)
    (algorithm : Algorithm) (s : State)
    (hreg : findAlgorithm algorithmName p.m_algorithmMap = some algorithm) :
    ∀ (o : Outcome) (s2 : State),
      algorithm.Run { s with events := s.events ++ [Event.running algorithmName] } = (o, s2) →
      ∃ statusCode, (RunAlgorithm p algorithmName s).1 = Outcome.returned statusCode := by
  intro o s2 _
  rw [RunAlgorithm_registered p algorithmName algorithm s hreg]
  exact ⟨_, rfl⟩

theorem RunAlgorithm_returns_status_witness :
    ∃ statusCode,
      (RunAlgorithm examplePandora "Throwing" emptyState).1 = Outcome.returned statusCode :=
  RunAlgorithm_returns_status examplePandora "Throwing" throwingAlgorithm emptyState
    rfl Outcome.threwOther
    { emptyState with events := [Event.running "Throwing"] } rfl

/-- The status and the state the `try` block of `RunAlgorithm` leaves for the resets. -/
theorem runAlgorithmResets_eq (p : Pandora) (algorithm : Algorithm) (s : State) :
    runAlgorithmResets p algorithm s =
      let c := p.m_pCaloHitManager.ResetAfterAlgorithmCompletion algorithm.address s.caloHits
      let k := p.m_pClusterManager.ResetAfterAlgorithmCompletion algorithm.address s.clusters
      let t := p.m_pTrackManager.ResetAfterAlgorithmCompletion algorithm.address s.tracks
      let e1 := s.events ++ [Event.reset StoreKind.caloHit algorithm.address]
      let e2 := e1 ++ [Event.reset StoreKind.cluster algorithm.address]
      let e3 := e2 ++ [Event.reset StoreKind.track algorithm.address]
      if resultIfAndIf c.1 then (c.1, { s with caloHits := c.2, events := e1 })
      else if resultIfAndIf k.1 then
        (k.1, { s with caloHits := c.2, clusters := k.2, events := e2 })
      else if resultIfAndIf t.1 then
        (t.1, { caloHits := c.2, clusters := k.2, tracks := t.2, events := e3 })
      else (STATUS_CODE_SUCCESS, { caloHits := c.2, clusters := k.2, tracks := t.2, events := e3 }) := by
  simp only [runAlgorithmResets, resetCaloHits, resetClusters, resetTracks]

/-- The events of the state the `try` block of `RunAlgorithm` leaves, for each way `Run()`
can end. -/
theorem runAlgorithmTryBlock_events (algorithmName : String) (algorithm : Algorithm) (s : State) :
    (runAlgorithmTryBlock algorithmName algorithm s).2.events =
      match algorithm.Run { s with events := s.events ++ [Event.running algorithmName] } with
      | (Outcome.returned statusCode, s2) =>
        if statusCode = STATUS_CODE_SUCCESS then s2.events
        else s2.events ++ [Event.failure algorithmName statusCode]
      | (Outcome.threwStatusCodeException statusCode, s2) =>
        s2.events ++ [Event.failure algorithmName statusCode]
      | (Outcome.threwOther, s2) => s2.events ++ [Event.failureUnrecognized algorithmName] := by
  unfold runAlgorithmTryBlock
  dsimp only
  split
  · rename_i statusCode s2 h
    cases statusCode <;> simp [resultIf]
  · rfl
  · rfl

/-- The events of the state after the resets extend the events before them. -/
theorem runAlgorithmResets_events_extend (p : Pandora) (algorithm : Algorithm) (s : State) :
    ∃ suffix, (runAlgorithmResets p algorithm s).2.events = s.events ++ suffix := by
  rw [runAlgorithmResets_eq]
  dsimp only
  split
  · exact ⟨_, rfl⟩
  · split
    · exact ⟨_, List.append_assoc _ _ _⟩
    · split <;>
        exact ⟨_, by rw [List.append_assoc, List.append_assoc]⟩

/-- C3 fails as stated: the registered algorithm `Failing` returns `STATUS_CODE_FAILURE`
from `Run()`, yet `RunAlgorithm` returns `STATUS_CODE_SUCCESS`, and so does
`RunClusteringAlgorithm` dispatching it. -/
theorem RunAlgorithm_hides_failure_counterexample :
    findAlgorithm "Failing" examplePandora.m_algorithmMap = some failingAlgorithm ∧
      (failingAlgorithm.Run { emptyState with events := [Event.running "Failing"] }).1 =
        Outcome.returned STATUS_CODE_FAILURE ∧
      (RunAlgorithm examplePandora "Failing" emptyState).1 =
        Outcome.returned STATUS_CODE_SUCCESS ∧
      (RunClusteringAlgorithm examplePandora 7 "Failing" [] "" emptyState).outcome =
        Outcome.returned STATUS_CODE_SUCCESS :=
  ⟨rfl, rfl, by decide, by decide⟩

/-- C3, amended: when the `Run()` of a registered algorithm returns a non-success status or
throws, the failure is observable at dispatch return as the line `Failure in algorithm`
naming the algorithm, not in the returned status: whenever the resets of the three managers
return `STATUS_CODE_SUCCESS` or `STATUS_CODE_NOT_FOUND`, `RunAlgorithm` returns
`STATUS_CODE_SUCCESS`. -/
theorem RunAlgorithm_failure_is_logged (p : Pandora) (algorithmName : String)
    (algorithm : Algorithm) (s : State) (o : Outcome) (s2 : State)
    (hreg : findAlgorithm algorithmName p.m_algorithmMap = some algorithm)
    (hrun :
      algorithm.Run { s with events := s.events ++ [Event.running algorithmName] } = (o, s2))
    (hfail : o ≠ Outcome.returned STATUS_CODE_SUCCESS)
    (hcalo : ∀ a st,
      resultIfAndIf (p.m_pCaloHitManager.ResetAfterAlgorithmCompletion a st).1 = false)
    (hcluster : ∀ a st,
      resultIfAndIf (p.m_pClusterManager.ResetAfterAlgorithmCompletion a st).1 = false)
    (htrack : ∀ a st,
      resultIfAndIf (p.m_pTrackManager.ResetAfterAlgorithmCompletion a st).1 = false) :
    (RunAlgorithm p algorithmName s).1 = Outcome.returned STATUS_CODE_SUCCESS ∧
      failureLine algorithmName o ∈ (RunAlgorithm p algorithmName s).2.events := by
  rw [RunAlgorithm_registered p algorithmName algorithm s hreg]
  refine ⟨?_, ?_⟩
  · rw [runAlgorithmResets_eq]
    simp [hcalo, hcluster, htrack]
  · obtain ⟨suffix, hsuffix⟩ :=
      runAlgorithmResets_events_extend p algorithm
        (runAlgorithmTryBlock algorithmName algorithm s).2
    dsimp only
    rw [hsuffix, runAlgorithmTryBlock_events, hrun]
    cases o with
    | returned statusCode =>
      have hne : statusCode ≠ STATUS_CODE_SUCCESS := fun h => hfail (by rw [h])
      simp [hne, failureLine]
    | threwStatusCodeException statusCode => simp [failureLine]
    | threwOther => simp [failureLine]

/-- The resets of the managers of the specification return `STATUS_CODE_SUCCESS` or
`STATUS_CODE_NOT_FOUND`. -/
theorem resetAfterAlgorithmCompletion_status {α : Type} [DecidableEq α]
    (owner : AlgorithmAddress) (st : NamedListStore α) :
    resultIfAndIf (st.resetAfterAlgorithmCompletion owner).1 = false := by
  unfold NamedListStore.resetAfterAlgorithmCompletion
  dsimp only
  split <;> rfl

theorem RunAlgorithm_failure_is_logged_witness :
    (RunAlgorithm examplePandora "Throwing" emptyState).1 =
        Outcome.returned STATUS_CODE_SUCCESS ∧
      Event.failureUnrecognized "Throwing" ∈
        (RunAlgorithm examplePandora "Throwing" emptyState).2.events :=
  RunAlgorithm_failure_is_logged examplePandora "Throwing" throwingAlgorithm emptyState
    Outcome.threwOther { emptyState with events := [Event.running "Throwing"] } rfl rfl
    (by decide) (fun a st => resetAfterAlgorithmCompletion_status a st)
    (fun a st => resetAfterAlgorithmCompletion_status a st.store)
    (fun a st => resetAfterAlgorithmCompletion_status a st)

/-- C4 fails as stated: with a calo hit manager whose reset returns `STATUS_CODE_FAILURE`,
`RunAlgorithm` on the registered name `Failing` returns after the calo hit reset and calls
the reset of neither the cluster manager nor the track manager. -/
theorem RunAlgorithm_skips_resets_counterexample :
    findAlgorithm "Failing" failingResetPandora.m_algorithmMap = some failingAlgorithm ∧
      (RunAlgorithm failingResetPandora "Failing" emptyState).1 =
        Outcome.returned STATUS_CODE_FAILURE ∧
      Event.reset StoreKind.caloHit failingAlgorithm.address ∈
        (RunAlgorithm failingResetPandora "Failing" emptyState).2.events ∧
      Event.reset StoreKind.cluster failingAlgorithm.address ∉
        (RunAlgorithm failingResetPandora "Failing" emptyState).2.events ∧
      Event.reset StoreKind.track failingAlgorithm.address ∉
        (RunAlgorithm failingResetPandora "Failing" emptyState).2.events :=
  ⟨rfl, by decide, by decide, by decide, by decide⟩

/-- C4, amended: for a registered name, whatever the algorithm's `Run()` returned or threw,
`RunAlgorithm` calls the reset of the calo hit manager for the dispatched algorithm; it then
calls the reset of the cluster manager exactly when the calo hit reset returned
`STATUS_CODE_SUCCESS` or `STATUS_CODE_NOT_FOUND`, and the reset of the track manager exactly
when both earlier resets did.  No other reset is called, and each reset acts on the store
the `try` block left. -/
theorem RunAlgorithm_reset_calls (p : Pandora) (algorithmName : String)
    (algorithm : Algorithm) (s : State)
    (hreg : findAlgorithm algorithmName p.m_algorithmMap = some algorithm) :
    let s1 := (runAlgorithmTryBlock algorithmName algorithm s).2
    let c := p.m_pCaloHitManager.ResetAfterAlgorithmCompletion algorithm.address s1.caloHits
    let k := p.m_pClusterManager.ResetAfterAlgorithmCompletion algorithm.address s1.clusters
    let t := p.m_pTrackManager.ResetAfterAlgorithmCompletion algorithm.address s1.tracks
    let after := (RunAlgorithm p algorithmName s).2
    after.events =
        s1.events ++
          (Event.reset StoreKind.caloHit algorithm.address ::
            if c.1 = STATUS_CODE_SUCCESS ∨ c.1 = STATUS_CODE_NOT_FOUND then
              Event.reset StoreKind.cluster algorithm.address ::
                if k.1 = STATUS_CODE_SUCCESS ∨ k.1 = STATUS_CODE_NOT_FOUND then
                  [Event.reset StoreKind.track algorithm.address]
                else []
            else []) ∧
      after.caloHits = c.2 ∧
      after.clusters =
        (if c.1 = STATUS_CODE_SUCCESS ∨ c.1 = STATUS_CODE_NOT_FOUND then k.2 else s1.clusters) ∧
      after.tracks =
        (if (c.1 = STATUS_CODE_SUCCESS ∨ c.1 = STATUS_CODE_NOT_FOUND) ∧
            (k.1 = STATUS_CODE_SUCCESS ∨ k.1 = STATUS_CODE_NOT_FOUND) then t.2
          else s1.tracks) := by
  intro s1 c k t after
  have hafter : after = (runAlgorithmResets p algorithm s1).2 := by
    simp only [after, s1, RunAlgorithm_registered p algorithmName algorithm s hreg]
  rw [hafter, runAlgorithmResets_eq]
  dsimp only
  by_cases hc : resultIfAndIf c.1 = true
  · have hc2 : ¬(c.1 = STATUS_CODE_SUCCESS ∨ c.1 = STATUS_CODE_NOT_FOUND) := by
      rw [← resultIfAndIf_eq_false]; simp [hc]
    simp only [c] at hc hc2
    simp [hc, hc2]
  · have hc2 : c.1 = STATUS_CODE_SUCCESS ∨ c.1 = STATUS_CODE_NOT_FOUND := by
      rw [← resultIfAndIf_eq_false]; simpa using hc
    simp only [c] at hc hc2
    by_cases hk : resultIfAndIf k.1 = true
    · have hk2 : ¬(k.1 = STATUS_CODE_SUCCESS ∨ k.1 = STATUS_CODE_NOT_FOUND) := by
        rw [← resultIfAndIf_eq_false]; simp [hk]
      simp only [k] at hk hk2
      simp [hc, hc2, hk, hk2]
    · have hk2 : k.1 = STATUS_CODE_SUCCESS ∨ k.1 = STATUS_CODE_NOT_FOUND := by
        rw [← resultIfAndIf_eq_false]; simpa using hk
      simp only [k] at hk hk2
      by_cases ht : resultIfAndIf t.1 = true
      · simp only [t] at ht
        simp [hc, hc2, hk, hk2, ht]
      · simp only [t] at ht
        simp [hc, hc2, hk, hk2, ht]

theorem RunAlgorithm_reset_calls_witness :
    (RunAlgorithm failingResetPandora "Failing" emptyState).2.events =
      [Event.running "Failing", Event.failure "Failing" STATUS_CODE_FAILURE,
        Event.reset StoreKind.caloHit 1] :=
  (RunAlgorithm_reset_calls failingResetPandora "Failing" failingAlgorithm emptyState rfl).1

theorem findList_setList_self {α : Type} (name : String) (l : List α)
    (lists : List (String × List α)) : findList name (setList name l lists) = some l := by
  induction lists with
  | nil => simp [setList, findList]
  | cons entry rest ih =>
    obtain ⟨n, x⟩ := entry
    by_cases h : n = name
    · simp [setList, findList, h]
    · simp [setList, findList, h, ih]

theorem findList_setList_of_ne {α : Type} (name other : String) (l : List α)
    (lists : List (String × List α)) (hne : name ≠ other) :
    findList other (setList name l lists) = findList other lists := by
  induction lists with
  | nil => simp [setList, findList, hne]
  | cons entry rest ih =>
    obtain ⟨n, x⟩ := entry
    by_cases h : n = name
    · subst h
      simp [setList, findList, hne]
    · by_cases h2 : n = other
      · subst h2
        simp [setList, findList, h]
      · simp [setList, findList, h, h2, ih]

theorem createTemporaryListAndSetCurrent_live {α : Type} [DecidableEq α]
    (owner : AlgorithmAddress) (inputObjects : List α) (temporaryName : String)
    (st : NamedListStore α) (hlive : ∀ o ∈ inputObjects, o ∈ st.objects) :
    st.createTemporaryListAndSetCurrent owner inputObjects temporaryName =
      (STATUS_CODE_SUCCESS, temporaryListName owner st.counter,
        { st with
          currentName := temporaryListName owner st.counter
          lists := setList (temporaryListName owner st.counter) inputObjects st.lists
          scopeStack :=
            { owningAlgorithm := owner
              createdListNames := [temporaryListName owner st.counter]
              savedCurrentName := st.currentName } :: st.scopeStack
          counter := st.counter + 1 }) := by
  have hall : inputObjects.all (fun o => decide (o ∈ st.objects)) = true := by
    simpa [List.all_eq_true] using hlive
  simp only [NamedListStore.createTemporaryListAndSetCurrent, hall, if_true]

theorem createTemporaryListAndSetCurrent_status {α : Type} [DecidableEq α]
    (owner : AlgorithmAddress) (inputObjects : List α) (temporaryName : String)
    (st : NamedListStore α) :
    (st.createTemporaryListAndSetCurrent owner inputObjects temporaryName).1 =
        STATUS_CODE_SUCCESS ∨
      (st.createTemporaryListAndSetCurrent owner inputObjects temporaryName).1 =
        STATUS_CODE_NOT_FOUND := by
  unfold NamedListStore.createTemporaryListAndSetCurrent
  split
  · exact Or.inl rfl
  · exact Or.inr rfl

/-- C6 fails as stated: the second `InitializeReclustering` of algorithm 7 returns
`STATUS_CODE_FAILURE`, but it leaves a new temporary list `7_1`, set current, in the track
store and in the calo hit store. -/
theorem InitializeReclustering_twice_counterexample :
    (InitializeReclustering examplePandora 7 [100] [cluster1, cluster2] "" exampleState).1 =
        STATUS_CODE_SUCCESS ∧
      (InitializeReclustering examplePandora 7 [100] [cluster1, cluster2] ""
          reclusteringState).1 = STATUS_CODE_FAILURE ∧
      reclusteringState.tracks.currentName = "7_0" ∧
      (InitializeReclustering examplePandora 7 [100] [cluster1, cluster2] ""
          reclusteringState).2.2.tracks.currentName = "7_1" ∧
      (InitializeReclustering examplePandora 7 [100] [cluster1, cluster2] ""
          reclusteringState).2.2.tracks.lists =
        reclusteringState.tracks.lists ++ [("7_1", [100])] ∧
      (InitializeReclustering examplePandora 7 [100] [cluster1, cluster2] ""
          reclusteringState).2.2.caloHits.lists =
        reclusteringState.caloHits.lists ++ [("7_1", [1, 2, 3])] ∧
      (InitializeReclustering examplePandora 7 [100] [cluster1, cluster2] ""
          reclusteringState).2.2 ≠ reclusteringState := by
  decide

/-- C6, amended: a call of `InitializeReclustering` made while a recluster context is active
does not succeed and leaves the cluster store (lists, current list name, recluster context),
the name parameter and the events unchanged; with live input tracks and live hits of the
input clusters it returns `STATUS_CODE_FAILURE`, and the track store and the calo hit store
each keep the temporary list that was created and set current before the context was
examined. -/
theorem InitializeReclustering_while_active (algorithmMap : List (String × Algorithm))
    (algorithm : AlgorithmAddress) (inputTrackList : TrackList)
    (inputClusterList : ClusterList) (originalClustersListName : String) (s : State)
    (parent : String) (hactive : s.clusters.reclusterListName = some parent) :
    let r := InitializeReclustering (specPandora algorithmMap) algorithm inputTrackList
      inputClusterList originalClustersListName s
    r.1 ≠ STATUS_CODE_SUCCESS ∧ r.2.1 = originalClustersListName ∧
      r.2.2.clusters = s.clusters ∧ r.2.2.events = s.events ∧
      ((∀ track ∈ inputTrackList, track ∈ s.tracks.objects) →
        (∀ hit ∈ constituentCaloHits inputClusterList, hit ∈ s.caloHits.objects) →
        r.1 = STATUS_CODE_FAILURE ∧
          r.2.2.tracks =
            { s.tracks with
              currentName := temporaryListName algorithm s.tracks.counter
              lists :=
                setList (temporaryListName algorithm s.tracks.counter) inputTrackList
                  s.tracks.lists
              scopeStack :=
                { owningAlgorithm := algorithm
                  createdListNames := [temporaryListName algorithm s.tracks.counter]
                  savedCurrentName := s.tracks.currentName } :: s.tracks.scopeStack
              counter := s.tracks.counter + 1 } ∧
          r.2.2.caloHits =
            { s.caloHits with
              currentName := temporaryListName algorithm s.caloHits.counter
              lists :=
                setList (temporaryListName algorithm s.caloHits.counter)
                  (constituentCaloHits inputClusterList) s.caloHits.lists
              scopeStack :=
                { owningAlgorithm := algorithm
                  createdListNames := [temporaryListName algorithm s.caloHits.counter]
                  savedCurrentName := s.caloHits.currentName } :: s.caloHits.scopeStack
              counter := s.caloHits.counter + 1 }) := by
  intro r
  have hr : r = InitializeReclustering (specPandora algorithmMap) algorithm inputTrackList
      inputClusterList originalClustersListName s := rfl
  simp only [InitializeReclustering, specPandora, specTrackManager, specCaloHitManager,
    specClusterManager, hactive] at hr
  refine ⟨?_, ?_, ?_, ?_, ?_⟩
  · rw [hr]
    rcases createTemporaryListAndSetCurrent_status algorithm inputTrackList "" s.tracks with
      h1 | h1
    · rcases createTemporaryListAndSetCurrent_status algorithm
          (constituentCaloHits inputClusterList)
          (s.tracks.createTemporaryListAndSetCurrent algorithm inputTrackList "").2.1
          s.caloHits with h2 | h2
      · simp [h1, h2, resultIf]
      · simp [h1, h2, resultIf]
    · simp [h1, resultIf]
  · rw [hr]
    split
    · rfl
    · split
      · rfl
      · simp [resultIf]
  · rw [hr]
    split
    · rfl
    · split
      · rfl
      · simp [resultIf]
  · rw [hr]
    split
    · rfl
    · split
      · rfl
      · simp [resultIf]
  · intro htracks hhits
    rw [hr]
    rw [createTemporaryListAndSetCurrent_live algorithm inputTrackList "" s.tracks htracks]
    simp only [resultIf]
    rw [createTemporaryListAndSetCurrent_live algorithm (constituentCaloHits inputClusterList)
      _ s.caloHits hhits]
    simp

theorem InitializeReclustering_while_active_witness :
    (InitializeReclustering examplePandora 7 [100] [cluster1, cluster2] ""
        reclusteringState).1 = STATUS_CODE_FAILURE ∧
      (InitializeReclustering examplePandora 7 [100] [cluster1, cluster2] ""
        reclusteringState).2.2.clusters = reclusteringState.clusters ∧
      (InitializeReclustering examplePandora 7 [100] [cluster1, cluster2] ""
        reclusteringState).2.2.tracks.counter = reclusteringState.tracks.counter + 1 :=
  have h := InitializeReclustering_while_active examplePandora.m_algorithmMap 7 [100]
    [cluster1, cluster2] "" reclusteringState "Input" (by decide)
  have h2 := h.2.2.2.2 (by decide) (by decide)
  ⟨h2.1, h.2.2.1, congrArg NamedListStore.counter h2.2.1⟩

/-- C7 fails as stated: beginning to recluster `cluster1` and `cluster2` adds one list to the
cluster store, the list `7_0` of the moved clusters whose name is returned; the temporary
list seeded from the input clusters is created in the calo hit store, where it holds their
hits and is current, and no list of the cluster store other than the returned one holds the
input clusters. -/
theorem InitializeReclustering_cluster_scope_counterexample :
    exampleState.clusters.reclusterListName = none ∧
      (InitializeReclustering examplePandora 7 [100] [cluster1, cluster2] "" exampleState).1 =
        STATUS_CODE_SUCCESS ∧
      (InitializeReclustering examplePandora 7 [100] [cluster1, cluster2] "" exampleState).2.1 =
        "7_0" ∧
      exampleState.clusters.store.lists = [("Input", [cluster1, cluster2, cluster3])] ∧
      reclusteringState.clusters.store.lists =
        [("Input", [cluster3]), ("7_0", [cluster1, cluster2])] ∧
      reclusteringState.caloHits.lists = [("Input", [1, 2, 3, 4, 5]), ("7_0", [1, 2, 3])] ∧
      reclusteringState.caloHits.currentName = "7_0" ∧
      ¬∃ name, name ≠ "7_0" ∧
        findList name reclusteringState.clusters.store.lists = some [cluster1, cluster2] := by
  refine ⟨by decide, by decide, by decide, by decide, by decide, by decide, by decide, ?_⟩
  rintro ⟨name, hne, hfind⟩
  have hlists : reclusteringState.clusters.store.lists =
      [("Input", [cluster3]), ("7_0", [cluster1, cluster2])] := by decide
  rw [hlists] at hfind
  by_cases h1 : "Input" = name
  · simp [findList, h1] at hfind
  · by_cases h2 : "7_0" = name
    · exact hne h2.symm
    · simp [findList, h1, h2] at hfind

/-- C7, amended: when no recluster context is active, the input tracks and the hits of the
input clusters are live and the input clusters belong to the current cluster list,
`InitializeReclustering` succeeds; it creates a temporary list in the track store seeded from
the input tracks and a temporary list in the calo hit store seeded from the hits of the input
clusters, each set current in a scope of the calling algorithm; it records the current
cluster list name as recluster parent and moves the input clusters out of that list into a
new temporary cluster list, set current, whose name it returns as
`originalClustersListName`.  That list is the only one it adds to the cluster store. -/
theorem InitializeReclustering_begin (algorithmMap : List (String × Algorithm))
    (algorithm : AlgorithmAddress) (inputTrackList : TrackList)
    (inputClusterList : ClusterList) (originalClustersListName : String) (s : State)
    (parentList : ClusterList)
    (hinactive : s.clusters.reclusterListName = none)
    (htracks : ∀ track ∈ inputTrackList, track ∈ s.tracks.objects)
    (hhits : ∀ hit ∈ constituentCaloHits inputClusterList, hit ∈ s.caloHits.objects)
    (hparent : findList s.clusters.store.currentName s.clusters.store.lists = some parentList)
    (hsubset : ∀ cluster ∈ inputClusterList, cluster ∈ parentList)
    (hfresh : temporaryListName algorithm s.clusters.store.counter ≠
      s.clusters.store.currentName) :
    let r := InitializeReclustering (specPandora algorithmMap) algorithm inputTrackList
      inputClusterList originalClustersListName s
    let parentName := s.clusters.store.currentName
    let remainder := parentList.filter (fun cluster => decide (cluster ∉ inputClusterList))
    r.1 = STATUS_CODE_SUCCESS ∧
      -- the track store
      r.2.2.tracks.currentName = temporaryListName algorithm s.tracks.counter ∧
      findList r.2.2.tracks.currentName r.2.2.tracks.lists = some inputTrackList ∧
      r.2.2.tracks.scopeStack.head? =
        some { owningAlgorithm := algorithm
               createdListNames := [temporaryListName algorithm s.tracks.counter]
               savedCurrentName := s.tracks.currentName } ∧
      -- the calo hit store
      r.2.2.caloHits.currentName = temporaryListName algorithm s.caloHits.counter ∧
      findList r.2.2.caloHits.currentName r.2.2.caloHits.lists =
        some (constituentCaloHits inputClusterList) ∧
      r.2.2.caloHits.scopeStack.head? =
        some { owningAlgorithm := algorithm
               createdListNames := [temporaryListName algorithm s.caloHits.counter]
               savedCurrentName := s.caloHits.currentName } ∧
      -- the cluster store
      r.2.2.clusters.reclusterListName = some parentName ∧
      r.2.1 = temporaryListName algorithm s.clusters.store.counter ∧
      r.2.2.clusters.store.currentName = r.2.1 ∧
      findList r.2.1 r.2.2.clusters.store.lists = some inputClusterList ∧
      findList parentName r.2.2.clusters.store.lists = some remainder ∧
      r.2.2.clusters.store.lists =
        setList r.2.1 inputClusterList (setList parentName remainder s.clusters.store.lists) := by
  intro r parentName remainder
  have hall : inputClusterList.all (fun o => decide (o ∈ parentList)) = true := by
    simpa [List.all_eq_true] using hsubset
  have hr : r =
      (STATUS_CODE_SUCCESS, temporaryListName algorithm s.clusters.store.counter,
        { caloHits :=
            (s.caloHits.createTemporaryListAndSetCurrent algorithm
              (constituentCaloHits inputClusterList)
              (temporaryListName algorithm s.tracks.counter)).2.2
          clusters :=
            { store :=
                { s.clusters.store with
                  currentName := temporaryListName algorithm s.clusters.store.counter
                  lists :=
                    setList (temporaryListName algorithm s.clusters.store.counter)
                      inputClusterList (setList parentName remainder s.clusters.store.lists)
                  scopeStack :=
                    { owningAlgorithm := algorithm
                      createdListNames :=
                        [temporaryListName algorithm s.clusters.store.counter]
                      savedCurrentName := s.clusters.store.currentName } ::
                      s.clusters.store.scopeStack
                  counter := s.clusters.store.counter + 1 }
              reclusterListName := some parentName }
          tracks := (s.tracks.createTemporaryListAndSetCurrent algorithm inputTrackList "").2.2
          events := s.events }) := by
    simp only [r, InitializeReclustering, specPandora, specTrackManager, specCaloHitManager,
      specClusterManager, hinactive, ClusterStore.onStore,
      NamedListStore.moveToTemporaryListAndSetCurrent, hparent, Option.getD_some, hall,
      createTemporaryListAndSetCurrent_live algorithm inputTrackList "" s.tracks htracks,
      createTemporaryListAndSetCurrent_live algorithm (constituentCaloHits inputClusterList)
        _ s.caloHits hhits, resultIf]
    simp [parentName, remainder]
  rw [hr]
  rw [createTemporaryListAndSetCurrent_live algorithm inputTrackList "" s.tracks htracks,
    createTemporaryListAndSetCurrent_live algorithm (constituentCaloHits inputClusterList)
      _ s.caloHits hhits]
  refine ⟨rfl, rfl, ?_, rfl, rfl, ?_, rfl, rfl, rfl, rfl, ?_, ?_, rfl⟩
  · exact findList_setList_self _ _ _
  · exact findList_setList_self _ _ _
  · exact findList_setList_self _ _ _
  · dsimp only
    rw [findList_setList_of_ne _ _ _ _ hfresh]
    exact findList_setList_self _ _ _

theorem InitializeReclustering_begin_witness :
    (InitializeReclustering examplePandora 7 [100] [cluster1, cluster2] "" exampleState).1 =
        STATUS_CODE_SUCCESS ∧
      findList "Input" reclusteringState.clusters.store.lists = some [cluster3] :=
  have h := InitializeReclustering_begin examplePandora.m_algorithmMap 7 [100]
    [cluster1, cluster2] "" exampleState [cluster1, cluster2, cluster3] (by decide) (by decide)
    (by decide) (by decide) (by decide) (by decide)
  ⟨h.1, h.2.2.2.2.2.2.2.2.2.2.2.1⟩

/-- C8: on the stores of the specification, `EndReclustering(X)` with an active recluster
context reads the parent list name and clears the context, then saves the whole of list `X`
(no subset filter) under the parent list name for the calling algorithm, so that the parent
list holds exactly what `X` held at the call; the track and calo hit stores are untouched.
When the context cannot be read (none is active) the call fails and the state is
unchanged. -/
theorem EndReclustering_commits (algorithmMap : List (String × Algorithm))
    (algorithm : AlgorithmAddress) (selectedClusterListName : String) (s : State) :
    let r := EndReclustering (specPandora algorithmMap) algorithm selectedClusterListName s
    (∀ parent selected,
        s.clusters.reclusterListName = some parent →
        findList selectedClusterListName s.clusters.store.lists = some selected →
        createdByOther algorithm selectedClusterListName s.clusters.store.scopeStack = false →
        r.1 = STATUS_CODE_SUCCESS ∧
          r.2.clusters.reclusterListName = none ∧
          findList parent r.2.clusters.store.lists = some selected ∧
          parent ∈ r.2.clusters.store.savedNames ∧
          r.2.clusters.store =
            (s.clusters.store.saveList algorithm parent selectedClusterListName none).2 ∧
          r.2.tracks = s.tracks ∧ r.2.caloHits = s.caloHits ∧ r.2.events = s.events) ∧
      (s.clusters.reclusterListName = none → r.1 ≠ STATUS_CODE_SUCCESS ∧ r.2 = s) := by
  intro r
  refine ⟨?_, ?_⟩
  · intro parent selected hactive hselected hown
    have hr : r =
        (STATUS_CODE_SUCCESS,
          { s with
            clusters :=
              { store :=
                  { s.clusters.store with
                    lists := setList parent selected s.clusters.store.lists
                    savedNames := parent :: s.clusters.store.savedNames }
                reclusterListName := none } }) := by
      simp [r, EndReclustering, specPandora, specClusterManager, hactive,
        NamedListStore.saveList, hselected, hown, resultIf, filteredCopy]
    rw [hr]
    refine ⟨rfl, rfl, findList_setList_self _ _ _, List.mem_cons_self _ _, ?_, rfl, rfl, rfl⟩
    simp [NamedListStore.saveList, hselected, hown, filteredCopy]
  · intro hinactive
    have hr : r = (STATUS_CODE_FAILURE, s) := by
      simp [r, EndReclustering, specPandora, specClusterManager, hinactive, resultIf]
    rw [hr]
    exact And.intro (fun h => by cases h) rfl

theorem EndReclustering_commits_witness :
    reclusteringState.clusters.reclusterListName = some "Input" ∧
      findList "7_0" reclusteringState.clusters.store.lists = some [cluster1, cluster2] ∧
      (EndReclustering examplePandora 7 "7_0" reclusteringState).1 = STATUS_CODE_SUCCESS ∧
      findList "Input" (EndReclustering examplePandora 7 "7_0"
        reclusteringState).2.clusters.store.lists = some [cluster1, cluster2] ∧
      (EndReclustering examplePandora 7 "7_0" exampleState).2 = exampleState :=
  have h := (EndReclustering_commits examplePandora.m_algorithmMap 7 "7_0"
    reclusteringState).1 "Input" [cluster1, cluster2] (by decide) (by decide) (by decide)
  ⟨by decide, by decide, h.1, h.2.2.1,
    ((EndReclustering_commits examplePandora.m_algorithmMap 7 "7_0" exampleState).2
      (by decide)).2⟩

/-- C9: for every implementation of the managers, `RunClusteringAlgorithm` is the
composition `MakeTemporaryListAndSetCurrent` ; `RunAlgorithm` ; `GetCurrentList` on the
cluster manager.  A step that returns a status other than success ends the call with that
status and the later steps are not performed: after a failed first step the state is the one
that step left, with no event of a dispatch, and after a failed dispatch the list is the
caller's.  On success the list and the name are those `GetCurrentList` reports on the
cluster store the dispatch left. -/
theorem RunClusteringAlgorithm_composition (p : Pandora) (algorithm : AlgorithmAddress)
    (clusteringAlgorithmName : String) (newClusterList : ClusterList)
    (newClusterListName : String) (s : State) :
    let r := RunClusteringAlgorithm p algorithm clusteringAlgorithmName newClusterList
      newClusterListName s
    let made := p.m_pClusterManager.MakeTemporaryListAndSetCurrent algorithm newClusterListName
      s.clusters
    let dispatched := RunAlgorithm p clusteringAlgorithmName { s with clusters := made.2.2 }
    let current := p.m_pClusterManager.GetCurrentList newClusterList made.2.1
      dispatched.2.clusters
    r = runClusteringAlgorithmComposition p algorithm clusteringAlgorithmName newClusterList
        newClusterListName s ∧
      (made.1 ≠ STATUS_CODE_SUCCESS →
        r.outcome = Outcome.returned made.1 ∧ r.state = { s with clusters := made.2.2 } ∧
          r.state.events = s.events ∧ r.newClusterList = newClusterList) ∧
      (made.1 = STATUS_CODE_SUCCESS →
        dispatched.1 ≠ Outcome.returned STATUS_CODE_SUCCESS →
        r.outcome = dispatched.1 ∧ r.state = dispatched.2 ∧
          r.newClusterList = newClusterList) ∧
      (made.1 = STATUS_CODE_SUCCESS →
        dispatched.1 = Outcome.returned STATUS_CODE_SUCCESS →
        r.outcome = Outcome.returned current.1 ∧ r.state = dispatched.2 ∧
          r.newClusterList = current.2.1 ∧ r.newClusterListName = current.2.2) := by
  dsimp only
  unfold RunClusteringAlgorithm runClusteringAlgorithmComposition
  dsimp only
  generalize p.m_pClusterManager.MakeTemporaryListAndSetCurrent algorithm newClusterListName
    s.clusters = made
  obtain ⟨m1, m2, m3⟩ := made
  have hfailed : ∀ statusCode, statusCode ≠ STATUS_CODE_SUCCESS → resultIf statusCode = true :=
    fun statusCode h => by cases statusCode <;> simp_all [resultIf]
  by_cases hm : m1 = STATUS_CODE_SUCCESS
  · subst hm
    simp only [resultIf, ne_eq, not_true_eq_false, decide_False, Bool.false_eq_true, if_false,
      not_false_eq_true, true_implies, false_implies, true_and]
    generalize RunAlgorithm p clusteringAlgorithmName { s with clusters := m3 } = dispatched
    obtain ⟨o, s2⟩ := dispatched
    by_cases ho : o = Outcome.returned STATUS_CODE_SUCCESS
    · subst ho
      simp only [ne_eq, not_true_eq_false, decide_False, Bool.false_eq_true, if_false,
        false_implies, true_implies, true_and]
      generalize p.m_pClusterManager.GetCurrentList newClusterList m2 s2.clusters = current
      obtain ⟨c1, c2, c3⟩ := current
      cases c1 <;> simp
    · rcases o with statusCode | statusCode | _
      · have hs : statusCode ≠ STATUS_CODE_SUCCESS := fun h => ho (by rw [h])
        cases statusCode <;> simp at hs ⊢
      · simp
      · simp
  · have hif := hfailed m1 hm
    cases m1 <;> simp [hif] at hm ⊢

theorem RunClusteringAlgorithm_composition_witness :
    (RunClusteringAlgorithm examplePandora 7 "Missing" [cluster3] "" exampleState).outcome =
        Outcome.returned STATUS_CODE_NOT_FOUND ∧
      (RunClusteringAlgorithm examplePandora 7 "Missing" [cluster3] ""
        exampleState).newClusterList = [cluster3] ∧
      (RunClusteringAlgorithm examplePandora 7 "Throwing" [cluster3] "" exampleState).outcome =
        Outcome.returned STATUS_CODE_SUCCESS ∧
      (RunClusteringAlgorithm examplePandora 7 "Throwing" [cluster3] ""
        exampleState).newClusterList = [] ∧
      (RunClusteringAlgorithm examplePandora 7 "Throwing" [cluster3] ""
        exampleState).newClusterListName = "7_0" :=
  have h1 := (RunClusteringAlgorithm_composition examplePandora 7 "Missing" [cluster3] ""
    exampleState).2.2.1 (by decide) (by decide)
  have h2 := (RunClusteringAlgorithm_composition examplePandora 7 "Throwing" [cluster3] ""
    exampleState).2.2.2 (by decide) (by decide)
  ⟨h1.1, h1.2.2, h2.1, h2.2.2.1, h2.2.2.2⟩

/-- The clusters `SaveTemporaryClusters` saves from a source list. -/
theorem saveList_found {α : Type} [DecidableEq α] (owner : AlgorithmAddress)
    (newName sourceName : String) (subsetFilter : Option (List α)) (st : NamedListStore α)
    (source : List α) (hsource : findList sourceName st.lists = some source)
    (hown : createdByOther owner sourceName st.scopeStack = false) :
    st.saveList owner newName sourceName subsetFilter =
      (STATUS_CODE_SUCCESS,
        { st with
          lists :=
            setList newName (filteredCopy subsetFilter source) st.lists
          savedNames := newName :: st.savedNames }) := by
  simp only [NamedListStore.saveList, hsource, hown]
  rfl

/-- A save of the named list store that does not succeed leaves the store as it was. -/
theorem saveList_failed {α : Type} [DecidableEq α] (owner : AlgorithmAddress)
    (newName sourceName : String) (subsetFilter : Option (List α)) (st : NamedListStore α)
    (hfailed : (st.saveList owner newName sourceName subsetFilter).1 ≠ STATUS_CODE_SUCCESS) :
    (st.saveList owner newName sourceName subsetFilter).2 = st := by
  unfold NamedListStore.saveList at hfailed ⊢
  split
  · rfl
  · split
    · rfl
    · rename_i source hsource hown
      simp [hsource, hown] at hfailed

/-- C10: on the stores of the specification, `SaveClusterListAndRemoveCaloHits` saves the
source cluster list, filtered by `pClustersToSave` when one is given, under the new name and
then removes from the current ordered calo hit list the constituent hits of exactly the
clusters the list of the new name holds, leaving every other hit; when the save step does not
succeed the call returns its status and the state, the calo hit lists included, is
unchanged. -/
theorem SaveClusterListAndRemoveCaloHits_saves_then_removes
    (algorithmMap : List (String × Algorithm)) (algorithm : AlgorithmAddress)
    (newClusterListName currentClusterListName : String) (pClustersToSave : Option ClusterList)
    (s : State) :
    let r := SaveClusterListAndRemoveCaloHits (specPandora algorithmMap) algorithm
      newClusterListName currentClusterListName pClustersToSave s
    let saved := specClusterManager.SaveTemporaryClusters algorithm newClusterListName
      currentClusterListName pClustersToSave s.clusters
    (∀ source hits,
        findList currentClusterListName s.clusters.store.lists = some source →
        createdByOther algorithm currentClusterListName s.clusters.store.scopeStack = false →
        findList s.caloHits.currentName s.caloHits.lists = some hits →
        ∃ after newClusterList,
          r = some (STATUS_CODE_SUCCESS, after) ∧
            after.clusters = saved.2 ∧
            findList newClusterListName after.clusters.store.lists = some newClusterList ∧
            newClusterList = filteredCopy pClustersToSave source ∧
            after.caloHits.currentName = s.caloHits.currentName ∧
            findList s.caloHits.currentName after.caloHits.lists =
              some (hits.filter fun hit =>
                decide (hit ∉ constituentCaloHits newClusterList)) ∧
            (∀ name, name ≠ s.caloHits.currentName →
              findList name after.caloHits.lists = findList name s.caloHits.lists)) ∧
      (saved.1 ≠ STATUS_CODE_SUCCESS → r = some (saved.1, s)) := by
  intro r saved
  refine ⟨?_, ?_⟩
  · intro source hits hsource hown hhits
    have hsave := saveList_found algorithm newClusterListName currentClusterListName
      pClustersToSave s.clusters.store source hsource hown
    have hr : r =
        some (STATUS_CODE_SUCCESS,
          { s with
            clusters :=
              { s.clusters with
                store :=
                  (s.clusters.store.saveList algorithm newClusterListName
                    currentClusterListName pClustersToSave).2 }
            caloHits :=
              { s.caloHits with
                lists :=
                  setList s.caloHits.currentName
                    (hits.filter fun hit =>
                      decide (hit ∉ constituentCaloHits (filteredCopy pClustersToSave source)))
                    s.caloHits.lists } }) := by
      simp [r, SaveClusterListAndRemoveCaloHits, specPandora, specClusterManager,
        specCaloHitManager, hsave, NamedListStore.getList, findList_setList_self, hhits,
        resultIf]
    refine ⟨_, _, hr, ?_, ?_, rfl, ?_, ?_, ?_⟩
    · rfl
    · rw [hsave]
      exact findList_setList_self _ _ _
    · rfl
    · exact findList_setList_self _ _ _
    · intro name hname
      exact findList_setList_of_ne _ _ _ _ (Ne.symm hname)
  · intro hfailed
    have hstore : (s.clusters.store.saveList algorithm newClusterListName
        currentClusterListName pClustersToSave).2 = s.clusters.store :=
      saveList_failed _ _ _ _ _ hfailed
    have hif : resultIf (s.clusters.store.saveList algorithm newClusterListName
        currentClusterListName pClustersToSave).1 = true := by
      have h : (s.clusters.store.saveList algorithm newClusterListName
        currentClusterListName pClustersToSave).1 ≠ STATUS_CODE_SUCCESS := hfailed
      revert h
      cases (s.clusters.store.saveList algorithm newClusterListName
        currentClusterListName pClustersToSave).1 <;> simp [resultIf]
    simp only [r, saved, SaveClusterListAndRemoveCaloHits, specPandora, specClusterManager, hif,
      if_true, hstore]

theorem SaveClusterListAndRemoveCaloHits_saves_then_removes_witness :
    (∃ after newClusterList,
        SaveClusterListAndRemoveCaloHits examplePandora 7 "Saved" "Input"
            (some [cluster1, cluster3]) exampleState = some (STATUS_CODE_SUCCESS, after) ∧
          findList "Saved" after.clusters.store.lists = some newClusterList ∧
          newClusterList = [cluster1, cluster3] ∧
          findList "Input" after.caloHits.lists =
            some ([1, 2, 3, 4, 5].filter fun hit =>
              decide (hit ∉ constituentCaloHits newClusterList))) ∧
      SaveClusterListAndRemoveCaloHits examplePandora 7 "Saved" "Absent"
          (some [cluster1, cluster3]) exampleState =
        some (STATUS_CODE_NOT_FOUND, exampleState) :=
  have h := SaveClusterListAndRemoveCaloHits_saves_then_removes examplePandora.m_algorithmMap
    7 "Saved" "Input" (some [cluster1, cluster3]) exampleState
  have h2 := SaveClusterListAndRemoveCaloHits_saves_then_removes
    examplePandora.m_algorithmMap 7 "Saved" "Absent" (some [cluster1, cluster3]) exampleState
  ⟨(h.1 [cluster1, cluster2, cluster3] [1, 2, 3, 4, 5] (by decide) (by decide)
      (by decide)).elim fun after hafter =>
      hafter.elim fun newClusterList hlist =>
        ⟨after, newClusterList, hlist.1, hlist.2.2.1, hlist.2.2.2.1, hlist.2.2.2.2.2.1⟩,
    h2.2 (by decide)⟩

/-! ## Saving a cluster list as the current list -/

/-- C11: on the stores of the specification, a call of `SaveClusterListAndReplaceCurrent`
that returns success leaves `newClusterListName` as the current list name of the cluster
store, and it does return success whenever the source list exists and is not owned by another
algorithm, the list of the new name then holding the saved clusters; when the save step does
not succeed the call returns its status and the state, current cluster list name included, is
unchanged. -/
theorem SaveClusterListAndReplaceCurrent_sets_current
    (algorithmMap : List (String × Algorithm)) (algorithm : AlgorithmAddress)
    (newClusterListName currentClusterListName : String) (pClustersToSave : Option ClusterList)
    (s : State) :
    let r := SaveClusterListAndReplaceCurrent (specPandora algorithmMap) algorithm
      newClusterListName currentClusterListName pClustersToSave s
    let saved := specClusterManager.SaveTemporaryClusters algorithm newClusterListName
      currentClusterListName pClustersToSave s.clusters
    (r.1 = STATUS_CODE_SUCCESS → r.2.clusters.store.currentName = newClusterListName) ∧
      (∀ source,
        findList currentClusterListName s.clusters.store.lists = some source →
        createdByOther algorithm currentClusterListName s.clusters.store.scopeStack = false →
        r.1 = STATUS_CODE_SUCCESS ∧
          r.2.clusters.store.currentName = newClusterListName ∧
          findList newClusterListName r.2.clusters.store.lists =
            some (filteredCopy pClustersToSave source)) ∧
      (saved.1 ≠ STATUS_CODE_SUCCESS →
        r = (saved.1, s) ∧ r.2.clusters.store.currentName = s.clusters.store.currentName) := by
  intro r saved
  have hsuccess : ∀ source,
      findList currentClusterListName s.clusters.store.lists = some source →
      createdByOther algorithm currentClusterListName s.clusters.store.scopeStack = false →
      r = (STATUS_CODE_SUCCESS,
        { s with
          clusters :=
            { s.clusters with
              store :=
                { s.clusters.store with
                  currentName := newClusterListName
                  lists :=
                    setList newClusterListName (filteredCopy pClustersToSave source)
                      s.clusters.store.lists
                  savedNames := newClusterListName :: s.clusters.store.savedNames } } }) := by
    intro source hsource hown
    have hsave := saveList_found algorithm newClusterListName currentClusterListName
      pClustersToSave s.clusters.store source hsource hown
    simp [r, SaveClusterListAndReplaceCurrent, specPandora, specClusterManager, hsave,
      NamedListStore.setCurrentList, findList_setList_self, resultIf]
  have hfailed : saved.1 ≠ STATUS_CODE_SUCCESS → r = (saved.1, s) := by
    intro hne
    have hstore : (s.clusters.store.saveList algorithm newClusterListName
        currentClusterListName pClustersToSave).2 = s.clusters.store :=
      saveList_failed _ _ _ _ _ hne
    have hif : resultIf (s.clusters.store.saveList algorithm newClusterListName
        currentClusterListName pClustersToSave).1 = true := by
      have h : (s.clusters.store.saveList algorithm newClusterListName
        currentClusterListName pClustersToSave).1 ≠ STATUS_CODE_SUCCESS := hne
      revert h
      cases (s.clusters.store.saveList algorithm newClusterListName
        currentClusterListName pClustersToSave).1 <;> simp [resultIf]
    simp only [r, saved, SaveClusterListAndReplaceCurrent, specPandora, specClusterManager, hif,
      if_true, hstore]
  refine ⟨?_, ?_, ?_⟩
  · intro hr
    by_cases hsaved : saved.1 = STATUS_CODE_SUCCESS
    · -- the save succeeded, so the source list exists and is not owned by another algorithm
      have hsaved2 : (s.clusters.store.saveList algorithm newClusterListName
          currentClusterListName pClustersToSave).1 = STATUS_CODE_SUCCESS := hsaved
      unfold NamedListStore.saveList at hsaved2
      split at hsaved2
      · cases hsaved2
      · rename_i source hsource
        split at hsaved2
        · cases hsaved2
        · rename_i hown
          rw [hsuccess source hsource (by simpa using hown)]
    · rw [hfailed hsaved] at hr
      exact absurd hr hsaved
  · intro source hsource hown
    rw [hsuccess source hsource hown]
    exact ⟨rfl, rfl, findList_setList_self _ _ _⟩
  · intro hne
    rw [hfailed hne]
    exact ⟨rfl, rfl⟩

theorem SaveClusterListAndReplaceCurrent_sets_current_witness :
    (SaveClusterListAndReplaceCurrent examplePandora 7 "Saved" "Input"
        (some [cluster1, cluster3]) exampleState).1 = STATUS_CODE_SUCCESS ∧
      (SaveClusterListAndReplaceCurrent examplePandora 7 "Saved" "Input"
        (some [cluster1, cluster3]) exampleState).2.clusters.store.currentName = "Saved" ∧
      SaveClusterListAndReplaceCurrent examplePandora 7 "Saved" "Absent" none exampleState =
        (STATUS_CODE_NOT_FOUND, exampleState) :=
  have h := (SaveClusterListAndReplaceCurrent_sets_current examplePandora.m_algorithmMap 7
    "Saved" "Input" (some [cluster1, cluster3]) exampleState).2.1
    [cluster1, cluster2, cluster3] (by decide) (by decide)
  ⟨h.1, h.2.1,
    ((SaveClusterListAndReplaceCurrent_sets_current examplePandora.m_algorithmMap 7 "Saved"
      "Absent" none exampleState).2.2 (by decide)).1⟩

/-! ## The strategy loop of `ResolveTrackAssociationsAlg::Run` -/

theorem evaluatedCandidates_append (events more : List ClientEvent) :
    evaluatedCandidates (events ++ more) =
      evaluatedCandidates events ++ evaluatedCandidates more := by
  induction events with
  | nil => rfl
  | cons event rest ih => cases event <;> simp [evaluatedCandidates, ih]

/-- The value of the static `minChi2` does not change once it is initialised. -/
theorem staticMinChi2_some (self : ResolveTrackAssociationsAlg) (minChi2 : Option ℚ) :
    staticMinChi2 self (some (staticMinChi2 self minChi2)) = staticMinChi2 self minChi2 := rfl

/-- What lines 89 to 108 leave when the candidate reaches the test: the static `minChi2` is
untouched and one call of `RunClusteringAlgorithm`, which succeeded and returned the list
name of the candidate, has been added to the events. -/
theorem runStrategy_candidate {W : Type} (api : PandoraContentApi W)
    (helpers : ReclusterHelpers W) (self : ResolveTrackAssociationsAlg)
    (clusteringAlgorithmName : String) (c : ClientState W) (reclustersListName : String)
    (reclusterResult : ReclusterResult) (c1 : ClientState W)
    (h : runStrategy api helpers self clusteringAlgorithmName c =
      StrategyOutcome.candidate reclustersListName reclusterResult c1) :
    c1.minChi2 = c.minChi2 ∧
      c1.trace = c.trace ++
        [ClientEvent.runClusteringAlgorithm clusteringAlgorithmName STATUS_CODE_SUCCESS
          reclustersListName] := by
  unfold runStrategy at h
  dsimp only at h
  split at h
  · cases h
  · rename_i h1
    split at h
    · cases h
    · split at h
      · cases h
      · split at h
        · cases h
        · split at h
          · cases h
          · split at h
            · cases h
            · injection h with hname hresult hstate
              subst hstate
              have hstatus := (resultIf_eq_false _).1 (by simpa using h1)
              simp [hstatus, hname]

/-- What lines 89 to 108 leave when the candidate is skipped: the static `minChi2` is
untouched and one call of `RunClusteringAlgorithm` has been added to the events. -/
theorem runStrategy_skipped {W : Type} (api : PandoraContentApi W)
    (helpers : ReclusterHelpers W) (self : ResolveTrackAssociationsAlg)
    (clusteringAlgorithmName : String) (c c1 : ClientState W)
    (h : runStrategy api helpers self clusteringAlgorithmName c = StrategyOutcome.skipped c1) :
    c1.minChi2 = c.minChi2 ∧
      ∃ statusCode listName,
        c1.trace = c.trace ++
          [ClientEvent.runClusteringAlgorithm clusteringAlgorithmName statusCode listName] := by
  unfold runStrategy at h
  dsimp only at h
  split at h
  · cases h
  · split at h
    · injection h with hstate
      subst hstate
      exact ⟨rfl, _, _, rfl⟩
    · split at h
      · cases h
      · split at h
        · cases h
        · split at h
          · injection h with hstate
            subst hstate
            exact ⟨rfl, _, _, rfl⟩
          · split at h
            · injection h with hstate
              subst hstate
              exact ⟨rfl, _, _, rfl⟩
            · cases h

/-- What lines 89 to 108 leave when a call fails and `Run()` returns: the static `minChi2` is
untouched and one call of `RunClusteringAlgorithm` has been added to the events. -/
theorem runStrategy_returned {W : Type} (api : PandoraContentApi W)
    (helpers : ReclusterHelpers W) (self : ResolveTrackAssociationsAlg)
    (clusteringAlgorithmName : String) (c c1 : ClientState W) (statusCode : StatusCode)
    (h : runStrategy api helpers self clusteringAlgorithmName c =
      StrategyOutcome.returned statusCode c1) :
    statusCode ≠ STATUS_CODE_SUCCESS ∧ c1.minChi2 = c.minChi2 ∧
      ∃ status listName,
        c1.trace = c.trace ++
          [ClientEvent.runClusteringAlgorithm clusteringAlgorithmName status listName] := by
  have hne : ∀ status : StatusCode, resultIf status = true → status ≠ STATUS_CODE_SUCCESS := by
    intro status hstatus heq
    rw [heq] at hstatus
    simp [resultIf] at hstatus
  unfold runStrategy at h
  dsimp only at h
  split at h
  · rename_i h1
    injection h with hstatus hstate
    subst hstate hstatus
    exact ⟨hne _ h1, rfl, _, _, rfl⟩
  · split at h
    · cases h
    · split at h
      · rename_i h1
        injection h with hstatus hstate
        subst hstate hstatus
        exact ⟨hne _ h1, rfl, _, _, rfl⟩
      · split at h
        · rename_i h1
          injection h with hstatus hstate
          subst hstate hstatus
          exact ⟨hne _ h1, rfl, _, _, rfl⟩
        · split at h
          · cases h
          · split at h
            · cases h
            · cases h

/-- One iteration of the strategy loop, by the way lines 89 to 108 end. -/
theorem strategyIteration_eq {W : Type} (api : PandoraContentApi W)
    (helpers : ReclusterHelpers W) (self : ResolveTrackAssociationsAlg)
    (clusteringAlgorithmName : String) (sel : Selection) (c : ClientState W) :
    (∀ statusCode c1,
        runStrategy api helpers self clusteringAlgorithmName c =
          StrategyOutcome.returned statusCode c1 →
        strategyIteration api helpers self clusteringAlgorithmName sel c =
          Flow.returned statusCode c1) ∧
      (∀ c1,
        runStrategy api helpers self clusteringAlgorithmName c = StrategyOutcome.skipped c1 →
        strategyIteration api helpers self clusteringAlgorithmName sel c = Flow.next sel c1) ∧
      (∀ reclustersListName reclusterResult c1,
        runStrategy api helpers self clusteringAlgorithmName c =
          StrategyOutcome.candidate reclustersListName reclusterResult c1 →
        strategyIteration api helpers self clusteringAlgorithmName sel c =
          if reclusterHalt self
              (updateSelection self (staticMinChi2 self c1.minChi2) sel reclustersListName
                reclusterResult) reclusterResult.chi2PerDof then
            Flow.stop
              (updateSelection self (staticMinChi2 self c1.minChi2) sel reclustersListName
                reclusterResult)
              { c1 with
                minChi2 := some (staticMinChi2 self c1.minChi2)
                trace := c1.trace ++
                  [ClientEvent.candidate reclustersListName reclusterResult] }
          else
            Flow.next
              (updateSelection self (staticMinChi2 self c1.minChi2) sel reclustersListName
                reclusterResult)
              { c1 with
                minChi2 := some (staticMinChi2 self c1.minChi2)
                trace := c1.trace ++
                  [ClientEvent.candidate reclustersListName reclusterResult] }) := by
  refine ⟨?_, ?_, ?_⟩
  · intro statusCode c1 h
    simp only [strategyIteration, h]
  · intro c1 h
    simp only [strategyIteration, h]
  · intro reclustersListName reclusterResult c1 h
    simp only [strategyIteration, h]

/-- The selection and the state an iteration of the strategy loop leaves when the loop goes
on or is left by `break`: either the candidate was skipped and nothing but a call of
`RunClusteringAlgorithm` is added, or the candidate was tested against the static `minChi2`
and is added to the evaluated candidates. -/
theorem strategyIteration_replay {W : Type} (api : PandoraContentApi W)
    (helpers : ReclusterHelpers W) (self : ResolveTrackAssociationsAlg)
    (clusteringAlgorithmName : String) (sel sel1 : Selection) (c c1 : ClientState W)
    (h : strategyIteration api helpers self clusteringAlgorithmName sel c = Flow.next sel1 c1 ∨
      strategyIteration api helpers self clusteringAlgorithmName sel c = Flow.stop sel1 c1) :
    staticMinChi2 self c1.minChi2 = staticMinChi2 self c.minChi2 ∧
      ∃ candidates,
        evaluatedCandidates c1.trace = evaluatedCandidates c.trace ++ candidates ∧
          sel1 = replaySelection self (staticMinChi2 self c.minChi2) sel candidates := by
  obtain ⟨hreturned, hskipped, hcandidate⟩ :=
    strategyIteration_eq api helpers self clusteringAlgorithmName sel c
  cases hrun : runStrategy api helpers self clusteringAlgorithmName c with
  | returned statusCode c2 =>
    rw [hreturned statusCode c2 hrun] at h
    rcases h with h | h <;> cases h
  | skipped c2 =>
    rw [hskipped c2 hrun] at h
    obtain ⟨hmin, status, listName, htrace⟩ :=
      runStrategy_skipped api helpers self clusteringAlgorithmName c c2 hrun
    have hc : sel1 = sel ∧ c1 = c2 := by
      rcases h with h | h
      · injection h with h1 h2
        exact ⟨h1.symm, h2.symm⟩
      · cases h
    obtain ⟨hsel, hstate⟩ := hc
    subst hsel hstate
    refine ⟨by rw [hmin], [], ?_, rfl⟩
    rw [htrace, evaluatedCandidates_append]
    simp [evaluatedCandidates]
  | candidate reclustersListName reclusterResult c2 =>
    rw [hcandidate reclustersListName reclusterResult c2 hrun] at h
    obtain ⟨hmin, htrace⟩ :=
      runStrategy_candidate api helpers self clusteringAlgorithmName c reclustersListName
        reclusterResult c2 hrun
    have hc : sel1 = updateSelection self (staticMinChi2 self c2.minChi2) sel
          reclustersListName reclusterResult ∧
        c1 = { c2 with
          minChi2 := some (staticMinChi2 self c2.minChi2)
          trace := c2.trace ++ [ClientEvent.candidate reclustersListName reclusterResult] } := by
      split at h
      · rcases h with h | h
        · cases h
        · injection h with h1 h2
          exact ⟨h1.symm, h2.symm⟩
      · rcases h with h | h
        · injection h with h1 h2
          exact ⟨h1.symm, h2.symm⟩
        · cases h
    obtain ⟨hsel, hstate⟩ := hc
    subst hsel hstate
    refine ⟨?_, [(reclustersListName, reclusterResult)], ?_, ?_⟩
    · simp only [staticMinChi2_some, hmin]
    · simp only [htrace, evaluatedCandidates_append]
      simp [evaluatedCandidates]
    · simp [replaySelection, hmin]

theorem replaySelection_append (self : ResolveTrackAssociationsAlg) (minChi2 : ℚ)
    (sel : Selection) (candidates more : List (String × ReclusterResult)) :
    replaySelection self minChi2 sel (candidates ++ more) =
      replaySelection self minChi2 (replaySelection self minChi2 sel candidates) more := by
  simp [replaySelection, List.foldl_append]

/-- The selection the strategy loop leaves is the one obtained by testing, in order and
against the static `minChi2`, the candidates it added to the evaluated candidates. -/
theorem strategyLoop_replay {W : Type} (api : PandoraContentApi W)
    (helpers : ReclusterHelpers W) (self : ResolveTrackAssociationsAlg)
    (clusteringAlgorithms : List String) (sel sel1 : Selection) (c c1 : ClientState W)
    (h : strategyLoop api helpers self clusteringAlgorithms sel c = Flow.next sel1 c1 ∨
      strategyLoop api helpers self clusteringAlgorithms sel c = Flow.stop sel1 c1) :
    staticMinChi2 self c1.minChi2 = staticMinChi2 self c.minChi2 ∧
      ∃ candidates,
        evaluatedCandidates c1.trace = evaluatedCandidates c.trace ++ candidates ∧
          sel1 = replaySelection self (staticMinChi2 self c.minChi2) sel candidates := by
  induction clusteringAlgorithms generalizing sel c with
  | nil =>
    simp only [strategyLoop] at h
    rcases h with h | h
    · injection h with h1 h2
      subst h1 h2
      exact ⟨rfl, [], by simp, rfl⟩
    · cases h
  | cons clusteringAlgorithmName rest ih =>
    simp only [strategyLoop] at h
    cases hiter : strategyIteration api helpers self clusteringAlgorithmName sel c with
    | returned statusCode c2 =>
      rw [hiter] at h
      rcases h with h | h <;> cases h
    | stop sel2 c2 =>
      rw [hiter] at h
      have hc : sel1 = sel2 ∧ c1 = c2 := by
        rcases h with h | h
        · cases h
        · injection h with h1 h2
          exact ⟨h1.symm, h2.symm⟩
      obtain ⟨hsel, hstate⟩ := hc
      subst hsel hstate
      exact strategyIteration_replay api helpers self clusteringAlgorithmName sel sel1 c c1
        (Or.inr hiter)
    | next sel2 c2 =>
      rw [hiter] at h
      obtain ⟨hmin, first, htrace, hsel⟩ :=
        strategyIteration_replay api helpers self clusteringAlgorithmName sel sel2 c c2
          (Or.inl hiter)
      obtain ⟨hmin2, more, htrace2, hsel2⟩ := ih sel2 c2 h
      refine ⟨by rw [hmin2, hmin], first ++ more, ?_, ?_⟩
      · rw [htrace2, htrace, List.append_assoc]
      · rw [hsel2, hmin, hsel, replaySelection_append]

/-- C12 fails as stated: with `UsingOrderedAlgorithms` set and `CurrentChi2ForReclusterHalt`
at 1.5, every condition of the claim holds (three candidates that are not skipped, with chi2
2.0, 0.8 and 0.8, margin 1, automatic selection threshold 1, ceiling 9, original chi2 16), yet
the loop is left after the first candidate, whose list is selected and committed; the second
and third strategies are never run. -/
theorem strategyLoop_ordered_halt_counterexample :
    orderedAlg.m_minChi2Improvement = 1 ∧ orderedAlg.m_chi2ForAutomaticClusterSelection = 1 ∧
      staticMinChi2 orderedAlg threeCandidatesState.minChi2 = 9 ∧
      threeCandidates.map (fun candidate => candidate.reclusterResult.chi2PerDof) =
        [2, 0.8, 0.8] ∧
      (-4 : ℚ) * (-4) - 0.8 > 1 ∧
      strategyLoop scriptedApi scriptedHelpers orderedAlg orderedAlg.m_clusteringAlgorithms
          (initialSelection (-4)) threeCandidatesState =
        Flow.stop
          { bestReclusterListName := "List1", bestGuessListName := "", bestReclusterChi := 1.4,
            bestReclusterChi2 := 2, bestGuessChi := FLT_MAX }
          { firstProducedState with
            minChi2 := some 9
            trace := firstProducedState.trace ++
              [ClientEvent.candidate "List1"
                (syntheticCandidate "List1" 1.4 2.0).reclusterResult] } ∧
      firstProducedState.world.pending =
        [syntheticCandidate "List2" 0.9 0.8, syntheticCandidate "List3" 0.9 0.8] ∧
      (orderedAlg.Run scriptedApi scriptedHelpers threeCandidatesState).2.world.committed =
        ["List1"] := by
  refine ⟨?_, ?_, ?_, ?_, ?_, ?_, ?_, ?_⟩ <;> decide!

/-- C12, amended: for two successive candidates that are not skipped, with chi2 per degree of
freedom 2.0 and 0.8, improvement margin 1.0, automatic selection threshold 1.0, a ceiling
`minChi2` above 2.0, an original chi2 that exceeds 0.8 by more than the margin, and the
ordered-algorithms halt not met at the first candidate (`UsingOrderedAlgorithms` unset, or the
best chi2 after the first candidate not below `BestChi2ForReclusterHalt`, or 2.0 not above
`CurrentChi2ForReclusterHalt`), the second candidate's list is the one selected and the loop
is left right after the second candidate, whatever strategies are configured after it: a third
strategy is never run. -/
theorem strategyLoop_second_candidate {W : Type} (api : PandoraContentApi W)
    (helpers : ReclusterHelpers W) (self : ResolveTrackAssociationsAlg)
    (first second : String) (rest : List String) (chi : ℚ) (c c1 c2 : ClientState W)
    (name1 name2 : String) (result1 result2 : ReclusterResult)
    (hfirst : runStrategy api helpers self first c =
      StrategyOutcome.candidate name1 result1 c1)
    (hsecond : runStrategy api helpers self second
        { c1 with
          minChi2 := some (staticMinChi2 self c.minChi2)
          trace := c1.trace ++ [ClientEvent.candidate name1 result1] } =
      StrategyOutcome.candidate name2 result2 c2)
    (hchi1 : result1.chi2PerDof = 2) (hchi2 : result2.chi2PerDof = 0.8)
    (hmargin : self.m_minChi2Improvement = 1)
    (hauto : self.m_chi2ForAutomaticClusterSelection = 1)
    (hceiling : 2 < staticMinChi2 self c.minChi2)
    (horiginal : chi * chi - 0.8 > 1)
    (hhalt : ¬(self.m_usingOrderedAlgorithms = true ∧
      (if chi * chi - 2 > 1 then 2 else chi * chi) < self.m_bestChi2ForReclusterHalt ∧
      2 > self.m_currentChi2ForReclusterHalt)) :
    ∃ sel,
      strategyLoop api helpers self (first :: second :: rest) (initialSelection chi) c =
          Flow.stop sel
            { c2 with
              minChi2 := some (staticMinChi2 self c.minChi2)
              trace := c2.trace ++ [ClientEvent.candidate name2 result2] } ∧
        sel.bestReclusterListName = name2 ∧ sel.bestReclusterChi2 = 0.8 ∧
        sel.bestReclusterChi = result2.chiPerDof := by
  obtain ⟨hmin1, -⟩ := runStrategy_candidate api helpers self first c name1 result1 c1 hfirst
  obtain ⟨hmin2, -⟩ := runStrategy_candidate api helpers self second _ name2 result2 c2 hsecond
  have hiter1 := (strategyIteration_eq api helpers self first (initialSelection chi) c).2.2
    name1 result1 c1 hfirst
  rw [hmin1] at hiter1
  -- the first candidate does not end the loop
  have hbest1 : (updateSelection self (staticMinChi2 self c.minChi2) (initialSelection chi)
      name1 result1).bestReclusterChi2 = if chi * chi - 2 > 1 then 2 else chi * chi := by
    unfold updateSelection initialSelection
    by_cases hpass : chi * chi - 2 > 1
    · simp [hchi1, hmargin, hpass, hceiling]
    · simp only [hchi1, hmargin, hpass, false_and, if_false]
      split
      · split <;> rfl
      · rfl
  have hlower : (1 : ℚ) ≤ if chi * chi - 2 > 1 then 2 else chi * chi := by
    split
    · norm_num
    · linarith
  have hnohalt : reclusterHalt self
      (updateSelection self (staticMinChi2 self c.minChi2) (initialSelection chi) name1
        result1) result1.chi2PerDof = false := by
    unfold reclusterHalt
    rw [hbest1, hauto, hchi1]
    have h1 : ¬((if chi * chi - 2 > 1 then (2 : ℚ) else chi * chi) < 1) := not_lt.2 hlower
    by_cases hordered : self.m_usingOrderedAlgorithms = true
    · have h2 : ¬((if chi * chi - 2 > 1 then (2 : ℚ) else chi * chi) <
            self.m_bestChi2ForReclusterHalt ∧ 2 > self.m_currentChi2ForReclusterHalt) :=
        fun h => hhalt ⟨hordered, h⟩
      simp only [h1, decide_False, Bool.false_or, hordered, Bool.true_and]
      by_cases h3 : (if chi * chi - 2 > 1 then (2 : ℚ) else chi * chi) <
          self.m_bestChi2ForReclusterHalt
      · have h4 : ¬(2 > self.m_currentChi2ForReclusterHalt) := fun h => h2 ⟨h3, h⟩
        simp [h3, h4]
      · simp [h3]
    · simp [h1, hordered]
  rw [hnohalt] at hiter1
  simp only [Bool.false_eq_true, if_false] at hiter1
  -- the second candidate is accepted and ends the loop
  have hiter2 := (strategyIteration_eq api helpers self second
    (updateSelection self (staticMinChi2 self c.minChi2) (initialSelection chi) name1 result1)
    { c1 with
      minChi2 := some (staticMinChi2 self c.minChi2)
      trace := c1.trace ++ [ClientEvent.candidate name1 result1] }).2.2
    name2 result2 c2 hsecond
  rw [hmin2] at hiter2
  simp only [staticMinChi2_some] at hiter2
  have hpass2 : (if chi * chi - 2 > 1 then (2 : ℚ) else chi * chi) - 0.8 > 1 := by
    split
    · norm_num
    · exact horiginal
  have hsel2 : ∀ sel1 : Selection,
      sel1.bestReclusterChi2 = (if chi * chi - 2 > 1 then (2 : ℚ) else chi * chi) →
      updateSelection self (staticMinChi2 self c.minChi2) sel1 name2 result2 =
        { sel1 with
          bestReclusterChi := result2.chiPerDof
          bestReclusterChi2 := 0.8
          bestReclusterListName := name2 } := by
    intro sel1 hsel1
    unfold updateSelection
    have hbelow : (0.8 : ℚ) < staticMinChi2 self c.minChi2 := by linarith
    simp only [hchi2, hmargin, hsel1, hpass2, hbelow, and_self, if_true]
  rw [hsel2 _ hbest1] at hiter2
  have hhalt2 : ∀ sel1 : Selection, reclusterHalt self
      { sel1 with
        bestReclusterChi := result2.chiPerDof
        bestReclusterChi2 := 0.8
        bestReclusterListName := name2 } result2.chi2PerDof = true := by
    intro sel1
    unfold reclusterHalt
    rw [hauto]
    norm_num
  rw [hhalt2] at hiter2
  simp only [if_true] at hiter2
  have hloop : strategyLoop api helpers self (first :: second :: rest) (initialSelection chi)
      c = Flow.stop
        { updateSelection self (staticMinChi2 self c.minChi2) (initialSelection chi) name1
            result1 with
          bestReclusterChi := result2.chiPerDof
          bestReclusterChi2 := 0.8
          bestReclusterListName := name2 }
        { c2 with
          minChi2 := some (staticMinChi2 self c.minChi2)
          trace := c2.trace ++ [ClientEvent.candidate name2 result2] } := by
    simp only [strategyLoop, hiter1, hiter2]
  exact ⟨_, hloop, rfl, rfl, rfl⟩

theorem strategyLoop_second_candidate_witness :
    ∃ sel,
      strategyLoop scriptedApi scriptedHelpers defaultAlg ["First", "Second", "Third"]
          (initialSelection (-4)) threeCandidatesState =
        Flow.stop sel
          { secondProducedState with
            minChi2 := some (staticMinChi2 defaultAlg threeCandidatesState.minChi2)
            trace := secondProducedState.trace ++
              [ClientEvent.candidate "List2"
                (syntheticCandidate "List2" 0.9 0.8).reclusterResult] } ∧
        sel.bestReclusterListName = "List2" ∧ sel.bestReclusterChi2 = 0.8 ∧
        sel.bestReclusterChi = (syntheticCandidate "List2" 0.9 0.8).reclusterResult.chiPerDof :=
  strategyLoop_second_candidate scriptedApi scriptedHelpers defaultAlg "First" "Second"
    ["Third"] (-4) threeCandidatesState firstProducedState secondProducedState
    "List1" "List2" (syntheticCandidate "List1" 1.4 2.0).reclusterResult
    (syntheticCandidate "List2" 0.9 0.8).reclusterResult
    (by decide!) (by decide!) (by decide!) (by decide!) (by decide!) (by decide!) (by decide!)
    (by decide!) (by decide!)

/-- A candidate that passes the test of line 114 becomes the best candidate. -/
theorem updateSelection_pass (self : ResolveTrackAssociationsAlg) (minChi2 : ℚ)
    (sel : Selection) (reclustersListName : String) (reclusterResult : ReclusterResult)
    (h : passesIdealTest self minChi2 sel.bestReclusterChi2 reclusterResult) :
    updateSelection self minChi2 sel reclustersListName reclusterResult =
      { sel with
        bestReclusterChi := reclusterResult.chiPerDof
        bestReclusterChi2 := reclusterResult.chi2PerDof
        bestReclusterListName := reclustersListName } := by
  unfold passesIdealTest at h
  simp only [updateSelection, h, and_self, if_true]

/-- A candidate that fails the test of line 114 leaves the best candidate as it is. -/
theorem updateSelection_fail (self : ResolveTrackAssociationsAlg) (minChi2 : ℚ)
    (sel : Selection) (reclustersListName : String) (reclusterResult : ReclusterResult)
    (h : ¬passesIdealTest self minChi2 sel.bestReclusterChi2 reclusterResult) :
    (updateSelection self minChi2 sel reclustersListName reclusterResult).bestReclusterListName =
        sel.bestReclusterListName ∧
      (updateSelection self minChi2 sel reclustersListName reclusterResult).bestReclusterChi =
        sel.bestReclusterChi ∧
      (updateSelection self minChi2 sel reclustersListName reclusterResult).bestReclusterChi2 =
        sel.bestReclusterChi2 := by
  unfold passesIdealTest at h
  simp only [updateSelection, h, if_false]
  split
  · split <;> exact ⟨rfl, rfl, rfl⟩
  · exact ⟨rfl, rfl, rfl⟩

theorem replaySelection_concat (self : ResolveTrackAssociationsAlg) (minChi2 : ℚ)
    (sel : Selection) (candidates : List (String × ReclusterResult))
    (candidate : String × ReclusterResult) :
    replaySelection self minChi2 sel (candidates ++ [candidate]) =
      updateSelection self minChi2 (replaySelection self minChi2 sel candidates) candidate.1
        candidate.2 := by
  simp [replaySelection, List.foldl_append]

/-- The two ways a list ending in `last` splits around one of its elements. -/
theorem split_concat {α : Type} (pre post init : List α) (e last : α)
    (h : init ++ [last] = pre ++ e :: post) :
    (post = [] ∧ pre = init ∧ e = last) ∨
      ∃ post1, post = post1 ++ [last] ∧ init = pre ++ e :: post1 := by
  rcases List.eq_nil_or_concat post with hpost | ⟨post1, y, hpost⟩
  · subst hpost
    have h2 : init ++ [last] = pre ++ [e] := h
    obtain ⟨h3, h4⟩ := List.append_inj' h2 rfl
    exact Or.inl ⟨rfl, h3.symm, by simpa using h4.symm⟩
  · subst hpost
    have h2 : init ++ [last] = (pre ++ e :: post1) ++ [y] := by
      rw [h]; simp
    obtain ⟨h3, h4⟩ := List.append_inj' h2 rfl
    have h5 : last = y := by simpa using h4
    subst h5
    exact Or.inr ⟨post1, by simp, h3⟩

/-- Testing candidates in order leaves as best candidate the last one that passed the test
against the best chi2 left by the candidates before it, or the initial best when none
passed. -/
theorem replaySelection_last_passing (self : ResolveTrackAssociationsAlg) (minChi2 : ℚ)
    (sel : Selection) (candidates : List (String × ReclusterResult)) :
    ((∀ pre e post, candidates = pre ++ e :: post →
          ¬passesIdealTest self minChi2
            (replaySelection self minChi2 sel pre).bestReclusterChi2 e.2) ∧
        (replaySelection self minChi2 sel candidates).bestReclusterListName =
          sel.bestReclusterListName ∧
        (replaySelection self minChi2 sel candidates).bestReclusterChi = sel.bestReclusterChi ∧
        (replaySelection self minChi2 sel candidates).bestReclusterChi2 =
          sel.bestReclusterChi2) ∨
      ∃ pre e post, candidates = pre ++ e :: post ∧
        passesIdealTest self minChi2
          (replaySelection self minChi2 sel pre).bestReclusterChi2 e.2 ∧
        (∀ mid x post2, post = mid ++ x :: post2 →
          ¬passesIdealTest self minChi2
            (replaySelection self minChi2 sel (pre ++ e :: mid)).bestReclusterChi2 x.2) ∧
        (replaySelection self minChi2 sel candidates).bestReclusterListName = e.1 ∧
        (replaySelection self minChi2 sel candidates).bestReclusterChi = e.2.chiPerDof ∧
        (replaySelection self minChi2 sel candidates).bestReclusterChi2 = e.2.chi2PerDof := by
  induction candidates using List.reverseRecOn with
  | nil =>
    refine Or.inl ⟨?_, rfl, rfl, rfl⟩
    intro pre e post h
    simp at h
  | append_singleton init last ih =>
    rw [replaySelection_concat]
    by_cases hpass : passesIdealTest self minChi2
        (replaySelection self minChi2 sel init).bestReclusterChi2 last.2
    · refine Or.inr ⟨init, last, [], rfl, hpass, ?_, ?_⟩
      · intro mid x post2 h
        simp at h
      · rw [updateSelection_pass self minChi2 _ last.1 last.2 hpass]
        exact ⟨rfl, rfl, rfl⟩
    · obtain ⟨hname, hchi, hchi2⟩ := updateSelection_fail self minChi2
        (replaySelection self minChi2 sel init) last.1 last.2 hpass
      rcases ih with ⟨hnone, h1, h2, h3⟩ | ⟨pre, e, post, hsplit, hpasse, hlater, h1, h2, h3⟩
      · refine Or.inl ⟨?_, by rw [hname, h1], by rw [hchi, h2], by rw [hchi2, h3]⟩
        intro pre e post h
        rcases split_concat pre post init e last h with ⟨-, hpre, he⟩ | ⟨post1, -, hinit⟩
        · subst hpre he
          exact hpass
        · exact hnone pre e post1 hinit
      · refine Or.inr ⟨pre, e, post ++ [last], by rw [hsplit]; simp, hpasse, ?_,
          by rw [hname, h1], by rw [hchi, h2], by rw [hchi2, h3]⟩
        intro mid x post2 h
        rcases split_concat mid post2 post x last h with ⟨-, hmid, hx⟩ | ⟨post3, -, hpost⟩
        · subst hmid hx
          rw [← hsplit]
          exact hpass
        · exact hlater mid x post3 hpost

/-- C13 fails as stated: for a seed of chi2 16 and two candidates of chi2 5 and 2, the first
candidate satisfies the test (16 - 5 > 1 and 5 < 9), and so does the second against the best
chi2 of 5 the first one left; the loop chooses the second candidate, `ListB`, not the first
one that satisfied the test, and `ListB` is committed. -/
theorem strategyLoop_first_passing_counterexample :
    passesIdealTest twoStrategiesAlg 9 ((-4 : ℚ) * (-4))
        (syntheticCandidate "ListA" 2.2 5).reclusterResult ∧
      strategyLoop scriptedApi scriptedHelpers twoStrategiesAlg
          twoStrategiesAlg.m_clusteringAlgorithms (initialSelection (-4)) twoCandidatesState =
        Flow.next
          { bestReclusterListName := "ListB", bestGuessListName := "", bestReclusterChi := 1.4,
            bestReclusterChi2 := 2, bestGuessChi := FLT_MAX }
          { world :=
              { scriptedWorld (-4) 0.5 [] with
                produced := some (syntheticCandidate "ListB" 1.4 2) }
            minChi2 := some 9
            trace :=
              [ClientEvent.runClusteringAlgorithm "First" STATUS_CODE_SUCCESS "ListA",
                ClientEvent.candidate "ListA" (syntheticCandidate "ListA" 2.2 5).reclusterResult,
                ClientEvent.runClusteringAlgorithm "Second" STATUS_CODE_SUCCESS "ListB",
                ClientEvent.candidate "ListB"
                  (syntheticCandidate "ListB" 1.4 2).reclusterResult] } ∧
      (twoStrategiesAlg.Run scriptedApi scriptedHelpers twoCandidatesState).2.world.committed =
        ["ListB"] := by
  refine ⟨?_, ?_, ?_⟩
  · unfold passesIdealTest
    decide!
  · decide!
  · decide!

theorem strategiesRun_append (events more : List ClientEvent) :
    strategiesRun (events ++ more) = strategiesRun events ++ strategiesRun more := by
  induction events with
  | nil => rfl
  | cons event rest ih => cases event <;> simp [strategiesRun, ih]

/-- The two `break` statements of lines 131 to 136 are reached exactly at the two early-exit
conditions. -/
theorem reclusterHalt_iff (self : ResolveTrackAssociationsAlg) (sel : Selection)
    (reclusterChi2 : ℚ) :
    reclusterHalt self sel reclusterChi2 = true ↔
      (sel.bestReclusterChi2 < self.m_chi2ForAutomaticClusterSelection ∨
        (self.m_usingOrderedAlgorithms = true ∧
          sel.bestReclusterChi2 < self.m_bestChi2ForReclusterHalt ∧
          reclusterChi2 > self.m_currentChi2ForReclusterHalt)) := by
  simp only [reclusterHalt, Bool.or_eq_true, Bool.and_eq_true, decide_eq_true_eq, and_assoc]

/-- How an iteration of the strategy loop ends: it calls `RunClusteringAlgorithm` for its
clustering algorithm and for no other; it leaves the loop by `break` only after the test of a
candidate at which one of the two early-exit conditions holds, and makes `Run()` return only
with a status that is not success, no candidate having been tested. -/
theorem strategyIteration_end {W : Type} (api : PandoraContentApi W)
    (helpers : ReclusterHelpers W) (self : ResolveTrackAssociationsAlg)
    (clusteringAlgorithmName : String) (sel : Selection) (c : ClientState W) :
    ∃ events,
      (strategyIteration api helpers self clusteringAlgorithmName sel c).state.trace =
          c.trace ++ events ∧
        strategiesRun events = [clusteringAlgorithmName] ∧
        (∀ sel1 c1,
          strategyIteration api helpers self clusteringAlgorithmName sel c = Flow.stop sel1 c1 →
          ∃ before reclustersListName reclusterResult,
            events = before ++ [ClientEvent.candidate reclustersListName reclusterResult] ∧
              (sel1.bestReclusterChi2 < self.m_chi2ForAutomaticClusterSelection ∨
                (self.m_usingOrderedAlgorithms = true ∧
                  sel1.bestReclusterChi2 < self.m_bestChi2ForReclusterHalt ∧
                  reclusterResult.chi2PerDof > self.m_currentChi2ForReclusterHalt))) ∧
        (∀ statusCode c1,
          strategyIteration api helpers self clusteringAlgorithmName sel c =
            Flow.returned statusCode c1 →
          statusCode ≠ STATUS_CODE_SUCCESS ∧
            ∃ status listName,
              events =
                [ClientEvent.runClusteringAlgorithm clusteringAlgorithmName status
                  listName]) := by
  obtain ⟨hreturned, hskipped, hcandidate⟩ :=
    strategyIteration_eq api helpers self clusteringAlgorithmName sel c
  cases hrun : runStrategy api helpers self clusteringAlgorithmName c with
  | returned statusCode c2 =>
    rw [hreturned statusCode c2 hrun]
    obtain ⟨hstatus, -, status, listName, htrace⟩ :=
      runStrategy_returned api helpers self clusteringAlgorithmName c c2 statusCode hrun
    refine ⟨[ClientEvent.runClusteringAlgorithm clusteringAlgorithmName status listName],
      by simp [Flow.state, htrace], by simp [strategiesRun], ?_, ?_⟩
    · intro sel1 c1 h
      cases h
    · intro statusCode1 c1 h
      injection h with h1 h2
      subst h1
      exact ⟨hstatus, status, listName, rfl⟩
  | skipped c2 =>
    rw [hskipped c2 hrun]
    obtain ⟨-, status, listName, htrace⟩ :=
      runStrategy_skipped api helpers self clusteringAlgorithmName c c2 hrun
    refine ⟨[ClientEvent.runClusteringAlgorithm clusteringAlgorithmName status listName],
      by simp [Flow.state, htrace], by simp [strategiesRun], ?_, ?_⟩
    · intro sel1 c1 h
      cases h
    · intro statusCode1 c1 h
      cases h
  | candidate reclustersListName reclusterResult c2 =>
    rw [hcandidate reclustersListName reclusterResult c2 hrun]
    obtain ⟨-, htrace⟩ :=
      runStrategy_candidate api helpers self clusteringAlgorithmName c reclustersListName
        reclusterResult c2 hrun
    refine ⟨[ClientEvent.runClusteringAlgorithm clusteringAlgorithmName STATUS_CODE_SUCCESS
        reclustersListName, ClientEvent.candidate reclustersListName reclusterResult],
      ?_, by simp [strategiesRun], ?_, ?_⟩
    · split <;> simp [Flow.state, htrace]
    · intro sel1 c1 h
      cases hhalt : reclusterHalt self
          (updateSelection self (staticMinChi2 self c2.minChi2) sel reclustersListName
            reclusterResult) reclusterResult.chi2PerDof with
      | false =>
        rw [hhalt] at h
        simp only [Bool.false_eq_true, if_false] at h
        cases h
      | true =>
        rw [hhalt] at h
        simp only [if_true] at h
        injection h with h1 h2
        subst h1
        exact ⟨[ClientEvent.runClusteringAlgorithm clusteringAlgorithmName STATUS_CODE_SUCCESS
            reclustersListName], reclustersListName, reclusterResult, rfl,
          (reclusterHalt_iff self _ _).1 hhalt⟩
    · intro statusCode1 c1 h
      split at h <;> cases h

/-- How the strategy loop ends: the clustering algorithms are run in their configured order;
the loop ends after the last of them, or by `break` after the test of a candidate at which one
of the two early-exit conditions holds, or by a return from `Run()` with a status that is not
success, right after a call of `RunClusteringAlgorithm` whose candidate was not tested. -/
theorem strategyLoop_end {W : Type} (api : PandoraContentApi W)
    (helpers : ReclusterHelpers W) (self : ResolveTrackAssociationsAlg)
    (clusteringAlgorithms : List String) (sel : Selection) (c : ClientState W) :
    ∃ events,
      (strategyLoop api helpers self clusteringAlgorithms sel c).state.trace =
          c.trace ++ events ∧
        (∃ rest, clusteringAlgorithms = strategiesRun events ++ rest) ∧
        (∀ sel1 c1,
          strategyLoop api helpers self clusteringAlgorithms sel c = Flow.next sel1 c1 →
          strategiesRun events = clusteringAlgorithms) ∧
        (∀ sel1 c1,
          strategyLoop api helpers self clusteringAlgorithms sel c = Flow.stop sel1 c1 →
          ∃ before reclustersListName reclusterResult,
            events = before ++ [ClientEvent.candidate reclustersListName reclusterResult] ∧
              (sel1.bestReclusterChi2 < self.m_chi2ForAutomaticClusterSelection ∨
                (self.m_usingOrderedAlgorithms = true ∧
                  sel1.bestReclusterChi2 < self.m_bestChi2ForReclusterHalt ∧
                  reclusterResult.chi2PerDof > self.m_currentChi2ForReclusterHalt))) ∧
        (∀ statusCode c1,
          strategyLoop api helpers self clusteringAlgorithms sel c =
            Flow.returned statusCode c1 →
          statusCode ≠ STATUS_CODE_SUCCESS ∧
            ∃ before clusteringAlgorithmName status listName,
              events = before ++
                [ClientEvent.runClusteringAlgorithm clusteringAlgorithmName status
                  listName]) := by
  induction clusteringAlgorithms generalizing sel c with
  | nil =>
    refine ⟨[], by simp [strategyLoop, Flow.state], ⟨[], by simp [strategiesRun]⟩, ?_, ?_, ?_⟩
    · intro sel1 c1 _
      rfl
    · intro sel1 c1 h
      simp only [strategyLoop] at h
      cases h
    · intro statusCode c1 h
      simp only [strategyLoop] at h
      cases h
  | cons clusteringAlgorithmName rest ih =>
    obtain ⟨first, htrace, hrun, hstop, hreturned⟩ :=
      strategyIteration_end api helpers self clusteringAlgorithmName sel c
    simp only [strategyLoop]
    cases hiter : strategyIteration api helpers self clusteringAlgorithmName sel c with
    | returned statusCode c2 =>
      rw [hiter] at htrace
      obtain ⟨hstatus, status, listName, hfirst⟩ := hreturned statusCode c2 hiter
      refine ⟨first, htrace, ⟨rest, by rw [hrun]; rfl⟩, ?_, ?_, ?_⟩
      · intro sel1 c1 h
        cases h
      · intro sel1 c1 h
        cases h
      · intro statusCode1 c1 h
        injection h with h1 h2
        subst h1
        exact ⟨hstatus, [], clusteringAlgorithmName, status, listName, by rw [hfirst]; rfl⟩
    | stop sel2 c2 =>
      rw [hiter] at htrace
      refine ⟨first, htrace, ⟨rest, by rw [hrun]; rfl⟩, ?_, ?_, ?_⟩
      · intro sel1 c1 h
        cases h
      · intro sel1 c1 h
        injection h with h1 h2
        subst h1 h2
        exact hstop sel2 c2 hiter
      · intro statusCode1 c1 h
        cases h
    | next sel2 c2 =>
      rw [hiter] at htrace
      simp only [Flow.state] at htrace
      obtain ⟨more, hmore, ⟨left, hleft⟩, hnext2, hstop2, hreturned2⟩ := ih sel2 c2
      refine ⟨first ++ more, by rw [hmore, htrace, List.append_assoc],
        ⟨left, by rw [strategiesRun_append, hrun, List.append_assoc, ← hleft]; rfl⟩,
        ?_, ?_, ?_⟩
      · intro sel1 c1 h
        rw [strategiesRun_append, hrun, hnext2 sel1 c1 h]
        rfl
      · intro sel1 c1 h
        obtain ⟨before, reclustersListName, reclusterResult, hevents, hhalt⟩ :=
          hstop2 sel1 c1 h
        exact ⟨first ++ before, reclustersListName, reclusterResult,
          by rw [hevents, List.append_assoc], hhalt⟩
      · intro statusCode c1 h
        obtain ⟨hstatus, before, name, status, listName, hevents⟩ := hreturned2 statusCode c1 h
        exact ⟨hstatus, first ++ before, name, status, listName,
          by rw [hevents, List.append_assoc]⟩

/-- C13, amended: the candidate chosen by the strategy loop is the last of the evaluated
candidates that satisfied the improvement-and-ceiling test, each candidate being tested
against the best chi2 left by the candidates before it (the seed's chi squared at first) and
the static ceiling `minChi2`; its chi and chi2 per degree of freedom become the best ones.
When no evaluated candidate satisfied the test, no list is chosen and the best chi and chi2
are those of the seed.  The clustering algorithms are run in their configured order, and the
loop ends in one of three ways: after the last configured algorithm; by `break`, right after
the test of a candidate at which one of the two early-exit conditions holds; or, when a call
fails, by a return from `Run()` with that status, which is not success, right after a call of
`RunClusteringAlgorithm` whose candidate was not tested, no candidate being chosen. -/
theorem strategyLoop_last_passing {W : Type} (api : PandoraContentApi W)
    (helpers : ReclusterHelpers W) (self : ResolveTrackAssociationsAlg)
    (clusteringAlgorithms : List String) (chi : ℚ) (c : ClientState W) :
    let loop := strategyLoop api helpers self clusteringAlgorithms (initialSelection chi) c
    (∀ sel1 c1, loop = Flow.next sel1 c1 ∨ loop = Flow.stop sel1 c1 →
      ∃ candidates,
        evaluatedCandidates c1.trace = evaluatedCandidates c.trace ++ candidates ∧
          (((∀ pre e post, candidates = pre ++ e :: post →
                ¬passesIdealTest self (staticMinChi2 self c.minChi2)
                  (replaySelection self (staticMinChi2 self c.minChi2) (initialSelection chi)
                    pre).bestReclusterChi2 e.2) ∧
              sel1.bestReclusterListName = "" ∧ sel1.bestReclusterChi = chi ∧
              sel1.bestReclusterChi2 = chi * chi) ∨
            ∃ pre e post, candidates = pre ++ e :: post ∧
              passesIdealTest self (staticMinChi2 self c.minChi2)
                (replaySelection self (staticMinChi2 self c.minChi2) (initialSelection chi)
                  pre).bestReclusterChi2 e.2 ∧
              (∀ mid x post2, post = mid ++ x :: post2 →
                ¬passesIdealTest self (staticMinChi2 self c.minChi2)
                  (replaySelection self (staticMinChi2 self c.minChi2) (initialSelection chi)
                    (pre ++ e :: mid)).bestReclusterChi2 x.2) ∧
              sel1.bestReclusterListName = e.1 ∧ sel1.bestReclusterChi = e.2.chiPerDof ∧
              sel1.bestReclusterChi2 = e.2.chi2PerDof)) ∧
      (∃ rest, clusteringAlgorithms = strategiesRun (eventsSince c loop) ++ rest) ∧
      (∀ sel1 c1, loop = Flow.next sel1 c1 →
        strategiesRun (eventsSince c loop) = clusteringAlgorithms) ∧
      (∀ sel1 c1, loop = Flow.stop sel1 c1 →
        ∃ before reclustersListName reclusterResult,
          eventsSince c loop =
              before ++ [ClientEvent.candidate reclustersListName reclusterResult] ∧
            (sel1.bestReclusterChi2 < self.m_chi2ForAutomaticClusterSelection ∨
              (self.m_usingOrderedAlgorithms = true ∧
                sel1.bestReclusterChi2 < self.m_bestChi2ForReclusterHalt ∧
                reclusterResult.chi2PerDof > self.m_currentChi2ForReclusterHalt))) ∧
      (∀ statusCode c1, loop = Flow.returned statusCode c1 →
        statusCode ≠ STATUS_CODE_SUCCESS ∧
          ∃ before clusteringAlgorithmName status listName,
            eventsSince c loop =
              before ++
                [ClientEvent.runClusteringAlgorithm clusteringAlgorithmName status
                  listName]) := by
  intro loop
  obtain ⟨events, htrace, hprefix, hnext, hstop, hreturned⟩ :=
    strategyLoop_end api helpers self clusteringAlgorithms (initialSelection chi) c
  have hevents : eventsSince c loop = events := by
    simp [eventsSince, loop, htrace]
  rw [hevents]
  refine ⟨?_, hprefix, hnext, hstop, hreturned⟩
  intro sel1 c1 h
  obtain ⟨-, candidates, hcandidates, hsel⟩ :=
    strategyLoop_replay api helpers self clusteringAlgorithms (initialSelection chi) sel1 c c1 h
  refine ⟨candidates, hcandidates, ?_⟩
  rw [hsel]
  exact replaySelection_last_passing self (staticMinChi2 self c.minChi2) (initialSelection chi)
    candidates

theorem strategyLoop_last_passing_witness :
    (∃ candidates,
      evaluatedCandidates
          [ClientEvent.runClusteringAlgorithm "First" STATUS_CODE_SUCCESS "ListA",
            ClientEvent.candidate "ListA" (syntheticCandidate "ListA" 2.2 5).reclusterResult,
            ClientEvent.runClusteringAlgorithm "Second" STATUS_CODE_SUCCESS "ListB",
            ClientEvent.candidate "ListB" (syntheticCandidate "ListB" 1.4 2).reclusterResult] =
        evaluatedCandidates twoCandidatesState.trace ++ candidates ∧
        (((∀ pre e post, candidates = pre ++ e :: post →
              ¬passesIdealTest twoStrategiesAlg
                (staticMinChi2 twoStrategiesAlg twoCandidatesState.minChi2)
                (replaySelection twoStrategiesAlg
                  (staticMinChi2 twoStrategiesAlg twoCandidatesState.minChi2)
                  (initialSelection (-4)) pre).bestReclusterChi2 e.2) ∧
            ("ListB" : String) = "" ∧ (1.4 : ℚ) = -4 ∧ (2 : ℚ) = -4 * -4) ∨
          ∃ pre e post, candidates = pre ++ e :: post ∧
            passesIdealTest twoStrategiesAlg
              (staticMinChi2 twoStrategiesAlg twoCandidatesState.minChi2)
              (replaySelection twoStrategiesAlg
                (staticMinChi2 twoStrategiesAlg twoCandidatesState.minChi2)
                (initialSelection (-4)) pre).bestReclusterChi2 e.2 ∧
            (∀ mid x post2, post = mid ++ x :: post2 →
              ¬passesIdealTest twoStrategiesAlg
                (staticMinChi2 twoStrategiesAlg twoCandidatesState.minChi2)
                (replaySelection twoStrategiesAlg
                  (staticMinChi2 twoStrategiesAlg twoCandidatesState.minChi2)
                  (initialSelection (-4)) (pre ++ e :: mid)).bestReclusterChi2 x.2) ∧
            "ListB" = e.1 ∧ (1.4 : ℚ) = e.2.chiPerDof ∧ (2 : ℚ) = e.2.chi2PerDof)) ∧
      strategiesRun
          (eventsSince twoCandidatesState
            (strategyLoop scriptedApi scriptedHelpers twoStrategiesAlg
              twoStrategiesAlg.m_clusteringAlgorithms (initialSelection (-4))
              twoCandidatesState)) =
        twoStrategiesAlg.m_clusteringAlgorithms ∧
      (∃ before reclustersListName reclusterResult,
        eventsSince threeCandidatesState
            (strategyLoop scriptedApi scriptedHelpers defaultAlg
              defaultAlg.m_clusteringAlgorithms (initialSelection (-4))
              threeCandidatesState) =
            before ++ [ClientEvent.candidate reclustersListName reclusterResult] ∧
          ((0.8 : ℚ) < defaultAlg.m_chi2ForAutomaticClusterSelection ∨
            (defaultAlg.m_usingOrderedAlgorithms = true ∧
              (0.8 : ℚ) < defaultAlg.m_bestChi2ForReclusterHalt ∧
              reclusterResult.chi2PerDof > defaultAlg.m_currentChi2ForReclusterHalt))) ∧
      (STATUS_CODE_NOT_FOUND ≠ STATUS_CODE_SUCCESS ∧
        ∃ before clusteringAlgorithmName status listName,
          eventsSince oneCandidateState
              (strategyLoop scriptedApi scriptedHelpers defaultAlg
                defaultAlg.m_clusteringAlgorithms (initialSelection (-4))
                oneCandidateState) =
            before ++
              [ClientEvent.runClusteringAlgorithm clusteringAlgorithmName status listName]) :=
  ⟨(strategyLoop_last_passing scriptedApi scriptedHelpers twoStrategiesAlg
      twoStrategiesAlg.m_clusteringAlgorithms (-4) twoCandidatesState).1
      { bestReclusterListName := "ListB", bestGuessListName := "", bestReclusterChi := 1.4,
        bestReclusterChi2 := 2, bestGuessChi := FLT_MAX }
      { world :=
          { scriptedWorld (-4) 0.5 [] with
            produced := some (syntheticCandidate "ListB" 1.4 2) }
        minChi2 := some 9
        trace :=
          [ClientEvent.runClusteringAlgorithm "First" STATUS_CODE_SUCCESS "ListA",
            ClientEvent.candidate "ListA" (syntheticCandidate "ListA" 2.2 5).reclusterResult,
            ClientEvent.runClusteringAlgorithm "Second" STATUS_CODE_SUCCESS "ListB",
            ClientEvent.candidate "ListB" (syntheticCandidate "ListB" 1.4 2).reclusterResult] }
      (Or.inl (by decide!)),
    (strategyLoop_last_passing scriptedApi scriptedHelpers twoStrategiesAlg
      twoStrategiesAlg.m_clusteringAlgorithms (-4) twoCandidatesState).2.2.1
      { bestReclusterListName := "ListB", bestGuessListName := "", bestReclusterChi := 1.4,
        bestReclusterChi2 := 2, bestGuessChi := FLT_MAX }
      { world :=
          { scriptedWorld (-4) 0.5 [] with
            produced := some (syntheticCandidate "ListB" 1.4 2) }
        minChi2 := some 9
        trace :=
          [ClientEvent.runClusteringAlgorithm "First" STATUS_CODE_SUCCESS "ListA",
            ClientEvent.candidate "ListA" (syntheticCandidate "ListA" 2.2 5).reclusterResult,
            ClientEvent.runClusteringAlgorithm "Second" STATUS_CODE_SUCCESS "ListB",
            ClientEvent.candidate "ListB" (syntheticCandidate "ListB" 1.4 2).reclusterResult] }
      (by decide!),
    (strategyLoop_last_passing scriptedApi scriptedHelpers defaultAlg
      defaultAlg.m_clusteringAlgorithms (-4) threeCandidatesState).2.2.2.1
      { bestReclusterListName := "List2", bestGuessListName := "", bestReclusterChi := 0.9,
        bestReclusterChi2 := 0.8, bestGuessChi := FLT_MAX }
      { secondProducedState with
        trace := secondProducedState.trace ++
          [ClientEvent.candidate "List2"
            (syntheticCandidate "List2" 0.9 0.8).reclusterResult] }
      (by decide!),
    (strategyLoop_last_passing scriptedApi scriptedHelpers defaultAlg
      defaultAlg.m_clusteringAlgorithms (-4) oneCandidateState).2.2.2.2
      STATUS_CODE_NOT_FOUND
      { oneCandidateTestedState with
        trace := oneCandidateTestedState.trace ++
          [ClientEvent.runClusteringAlgorithm "Second" STATUS_CODE_NOT_FOUND ""] }
      (by decide!)⟩

/-- C14, the code at a failing input: the instance `looseAlg` (`ChiToAttemptReclustering` -2)
runs first in the process and leaves 4 in the function-local static `minChi2`.  The instance
`oneStrategyAlg` (`ChiToAttemptReclustering` -3, margin 1) then evaluates a candidate of chi2
5 against a best chi2 of 16: 16 - 5 > 1 and 5 < (-3) squared, so the candidate should replace
the best, but the test is made against the stale ceiling 4, the best chi, chi2 and list name
stay as they were and the original list is committed.  Started with the static still
uninitialised, the same instance on the same candidate selects and commits `ListY`. -/
theorem updateSelection_stale_ceiling :
    ((looseAlg.Run scriptedApi scriptedHelpers twoInstancesState).2.minChi2 = some 4) ∧
      ((16 : ℚ) - 5 > oneStrategyAlg.m_minChi2Improvement ∧
        (5 : ℚ) <
          oneStrategyAlg.m_chiToAttemptReclustering *
            oneStrategyAlg.m_chiToAttemptReclustering) ∧
      updateSelection oneStrategyAlg
          (staticMinChi2 oneStrategyAlg
            (looseAlg.Run scriptedApi scriptedHelpers twoInstancesState).2.minChi2)
          (initialSelection (-4)) "ListY" (syntheticCandidate "ListY" 2.2 5).reclusterResult =
        initialSelection (-4) ∧
      (oneStrategyAlg.Run scriptedApi scriptedHelpers
          (looseAlg.Run scriptedApi scriptedHelpers twoInstancesState).2).2.world.committed =
        ["ListX", "Original"] ∧
      (oneStrategyAlg.Run scriptedApi scriptedHelpers
          { (looseAlg.Run scriptedApi scriptedHelpers twoInstancesState).2 with
            minChi2 := none }).2.world.committed =
        ["ListX", "ListY"] := by
  refine ⟨?_, ?_, ?_, ?_, ?_⟩ <;> decide!

/-- The rule the test of line 114 follows in the code: the candidate is tested against the
static `minChi2`; when it passes, the best chi, chi2 and list name become the candidate's, and
otherwise none of the three changes. -/
theorem updateSelection_rule (self : ResolveTrackAssociationsAlg) (minChi2 : ℚ)
    (sel : Selection) (reclustersListName : String) (reclusterResult : ReclusterResult) :
    (sel.bestReclusterChi2 - reclusterResult.chi2PerDof > self.m_minChi2Improvement ∧
        reclusterResult.chi2PerDof < minChi2 →
      (updateSelection self minChi2 sel reclustersListName reclusterResult).bestReclusterChi =
          reclusterResult.chiPerDof ∧
        (updateSelection self minChi2 sel reclustersListName
          reclusterResult).bestReclusterChi2 = reclusterResult.chi2PerDof ∧
        (updateSelection self minChi2 sel reclustersListName
          reclusterResult).bestReclusterListName = reclustersListName) ∧
      (¬(sel.bestReclusterChi2 - reclusterResult.chi2PerDof > self.m_minChi2Improvement ∧
          reclusterResult.chi2PerDof < minChi2) →
        (updateSelection self minChi2 sel reclustersListName reclusterResult).bestReclusterChi =
            sel.bestReclusterChi ∧
          (updateSelection self minChi2 sel reclustersListName
            reclusterResult).bestReclusterChi2 = sel.bestReclusterChi2 ∧
          (updateSelection self minChi2 sel reclustersListName
            reclusterResult).bestReclusterListName = sel.bestReclusterListName) := by
  refine ⟨?_, ?_⟩
  · intro h
    rw [updateSelection_pass self minChi2 sel reclustersListName reclusterResult h]
    exact ⟨rfl, rfl, rfl⟩
  · intro h
    obtain ⟨h1, h2, h3⟩ :=
      updateSelection_fail self minChi2 sel reclustersListName reclusterResult h
    exact ⟨h2, h3, h1⟩

/-- The events of the state an iteration of the strategy loop leaves begin with the events
before it and the call of `RunClusteringAlgorithm` for its clustering algorithm. -/
theorem strategyIteration_trace {W : Type} (api : PandoraContentApi W)
    (helpers : ReclusterHelpers W) (self : ResolveTrackAssociationsAlg)
    (clusteringAlgorithmName : String) (sel : Selection) (c : ClientState W) :
    ∃ statusCode listName events,
      (strategyIteration api helpers self clusteringAlgorithmName sel c).state.trace =
        c.trace ++
          ClientEvent.runClusteringAlgorithm clusteringAlgorithmName statusCode listName ::
            events := by
  obtain ⟨hreturned, hskipped, hcandidate⟩ :=
    strategyIteration_eq api helpers self clusteringAlgorithmName sel c
  cases hrun : runStrategy api helpers self clusteringAlgorithmName c with
  | returned statusCode c2 =>
    rw [hreturned statusCode c2 hrun]
    obtain ⟨-, -, status, listName, htrace⟩ :=
      runStrategy_returned api helpers self clusteringAlgorithmName c c2 statusCode hrun
    exact ⟨status, listName, [], by simp [Flow.state, htrace]⟩
  | skipped c2 =>
    rw [hskipped c2 hrun]
    obtain ⟨-, status, listName, htrace⟩ :=
      runStrategy_skipped api helpers self clusteringAlgorithmName c c2 hrun
    exact ⟨status, listName, [], by simp [Flow.state, htrace]⟩
  | candidate reclustersListName reclusterResult c2 =>
    rw [hcandidate reclustersListName reclusterResult c2 hrun]
    obtain ⟨-, htrace⟩ :=
      runStrategy_candidate api helpers self clusteringAlgorithmName c reclustersListName
        reclusterResult c2 hrun
    refine ⟨STATUS_CODE_SUCCESS, reclustersListName,
      [ClientEvent.candidate reclustersListName reclusterResult], ?_⟩
    split <;> simp [Flow.state, htrace]

/-- The events of the state the strategy loop leaves extend the events before it. -/
theorem strategyLoop_trace {W : Type} (api : PandoraContentApi W)
    (helpers : ReclusterHelpers W) (self : ResolveTrackAssociationsAlg)
    (clusteringAlgorithms : List String) (sel : Selection) (c : ClientState W) :
    ∃ events,
      (strategyLoop api helpers self clusteringAlgorithms sel c).state.trace =
        c.trace ++ events := by
  induction clusteringAlgorithms generalizing sel c with
  | nil => exact ⟨[], by simp [strategyLoop, Flow.state]⟩
  | cons clusteringAlgorithmName rest ih =>
    obtain ⟨status, listName, events, htrace⟩ :=
      strategyIteration_trace api helpers self clusteringAlgorithmName sel c
    simp only [strategyLoop]
    cases hiter : strategyIteration api helpers self clusteringAlgorithmName sel c with
    | returned statusCode c2 =>
      rw [hiter] at htrace
      exact ⟨_, htrace⟩
    | stop sel2 c2 =>
      rw [hiter] at htrace
      exact ⟨_, htrace⟩
    | next sel2 c2 =>
      rw [hiter] at htrace
      obtain ⟨more, hmore⟩ := ih sel2 c2
      simp only [Flow.state] at htrace
      refine ⟨ClientEvent.runClusteringAlgorithm clusteringAlgorithmName status listName ::
        events ++ more, ?_⟩
      rw [hmore, htrace]
      simp

/-- The strategy loop begins by calling `RunClusteringAlgorithm` for the first clustering
algorithm still to run. -/
theorem strategyLoop_runs_first {W : Type} (api : PandoraContentApi W)
    (helpers : ReclusterHelpers W) (self : ResolveTrackAssociationsAlg)
    (clusteringAlgorithmName : String) (rest : List String) (sel : Selection)
    (c : ClientState W) :
    ∃ statusCode listName events,
      (strategyLoop api helpers self (clusteringAlgorithmName :: rest) sel c).state.trace =
        c.trace ++
          ClientEvent.runClusteringAlgorithm clusteringAlgorithmName statusCode listName ::
            events := by
  obtain ⟨status, listName, events, htrace⟩ :=
    strategyIteration_trace api helpers self clusteringAlgorithmName sel c
  simp only [strategyLoop]
  cases hiter : strategyIteration api helpers self clusteringAlgorithmName sel c with
  | returned statusCode c2 =>
    rw [hiter] at htrace
    exact ⟨_, _, _, htrace⟩
  | stop sel2 c2 =>
    rw [hiter] at htrace
    exact ⟨_, _, _, htrace⟩
  | next sel2 c2 =>
    rw [hiter] at htrace
    obtain ⟨more, hmore⟩ := strategyLoop_trace api helpers self rest sel2 c2
    simp only [Flow.state] at htrace
    refine ⟨status, listName, events ++ more, ?_⟩
    rw [hmore, htrace]
    simp

/-- Lines 89 to 108 make `Run()` return exactly when the call of `RunClusteringAlgorithm`
returns a status that is not success, or the list it produced is not empty and the call of
one of the two daughter algorithms returns a status that is not success. -/
theorem runStrategy_returned_iff {W : Type} (api : PandoraContentApi W)
    (helpers : ReclusterHelpers W) (self : ResolveTrackAssociationsAlg)
    (clusteringAlgorithmName : String) (c : ClientState W) :
    let r1 := api.RunClusteringAlgorithm self.address clusteringAlgorithmName "" c.world
    let r2 := api.RunDaughterAlgorithm self.address self.m_associationAlgorithmName r1.2.2.2
    let r3 := api.RunDaughterAlgorithm self.address self.m_trackClusterAssociationAlgName r2.2
    (∃ statusCode c1,
        runStrategy api helpers self clusteringAlgorithmName c =
          StrategyOutcome.returned statusCode c1) ↔
      (r1.1 ≠ STATUS_CODE_SUCCESS ∨
        (r1.2.1.isEmpty = false ∧
          (r2.1 ≠ STATUS_CODE_SUCCESS ∨ r3.1 ≠ STATUS_CODE_SUCCESS))) := by
  intro r1 r2 r3
  unfold runStrategy
  dsimp only
  simp only [r3, r2, r1]
  generalize api.RunClusteringAlgorithm self.address clusteringAlgorithmName "" c.world = q1
  obtain ⟨status1, list1, name1, world1⟩ := q1
  dsimp only
  generalize api.RunDaughterAlgorithm self.address self.m_associationAlgorithmName world1 = q2
  obtain ⟨status2, world2⟩ := q2
  dsimp only
  generalize api.RunDaughterAlgorithm self.address self.m_trackClusterAssociationAlgName
    world2 = q3
  obtain ⟨status3, world3⟩ := q3
  dsimp only
  generalize helpers.ExtractReclusterResults world3 list1 = q4
  obtain ⟨status4, result4⟩ := q4
  cases hempty : list1.isEmpty <;> cases status1 <;> cases status2 <;> cases status3 <;>
    simp [resultIf]
  intro statusCode c1 h
  split at h
  all_goals first | cases h | (split at h <;> cases h)

/-- The status with which lines 89 to 108 make `Run()` return is the status of the call that
failed: of `RunClusteringAlgorithm`, or, its list not being empty, of the first of the two
daughter algorithms that does not return success. -/
theorem runStrategy_failed_call {W : Type} (api : PandoraContentApi W)
    (helpers : ReclusterHelpers W) (self : ResolveTrackAssociationsAlg)
    (clusteringAlgorithmName : String) (c : ClientState W) :
    let r1 := api.RunClusteringAlgorithm self.address clusteringAlgorithmName "" c.world
    let r2 := api.RunDaughterAlgorithm self.address self.m_associationAlgorithmName r1.2.2.2
    let r3 := api.RunDaughterAlgorithm self.address self.m_trackClusterAssociationAlgName r2.2
    (r1.1 ≠ STATUS_CODE_SUCCESS →
        ∃ c1, runStrategy api helpers self clusteringAlgorithmName c =
          StrategyOutcome.returned r1.1 c1) ∧
      (r1.1 = STATUS_CODE_SUCCESS → r1.2.1.isEmpty = false → r2.1 ≠ STATUS_CODE_SUCCESS →
        ∃ c1, runStrategy api helpers self clusteringAlgorithmName c =
          StrategyOutcome.returned r2.1 c1) ∧
      (r1.1 = STATUS_CODE_SUCCESS → r1.2.1.isEmpty = false → r2.1 = STATUS_CODE_SUCCESS →
        r3.1 ≠ STATUS_CODE_SUCCESS →
        ∃ c1, runStrategy api helpers self clusteringAlgorithmName c =
          StrategyOutcome.returned r3.1 c1) := by
  intro r1 r2 r3
  unfold runStrategy
  dsimp only
  simp only [r3, r2, r1]
  generalize api.RunClusteringAlgorithm self.address clusteringAlgorithmName "" c.world = q1
  obtain ⟨status1, list1, name1, world1⟩ := q1
  dsimp only
  generalize api.RunDaughterAlgorithm self.address self.m_associationAlgorithmName world1 = q2
  obtain ⟨status2, world2⟩ := q2
  dsimp only
  generalize api.RunDaughterAlgorithm self.address self.m_trackClusterAssociationAlgName
    world2 = q3
  obtain ⟨status3, world3⟩ := q3
  dsimp only
  refine ⟨?_, ?_, ?_⟩
  · intro h1
    cases status1 <;> simp [resultIf] at h1 ⊢
  · intro h1 hempty h2
    subst h1
    cases status2 <;> simp [resultIf, hempty] at h2 ⊢
  · intro h1 hempty h2 h3
    subst h1 h2
    cases status3 <;> simp [resultIf, hempty] at h3 ⊢

/-- C15 fails as stated: with three strategies configured and `UsingOrderedAlgorithms` unset,
the first strategy yields a candidate of chi2 5, which becomes the best; the best chi2 is not
below `Chi2ForAutomaticClusterSelection`, so the second strategy is run.  Its call of
`RunClusteringAlgorithm` returns `STATUS_CODE_NOT_FOUND`: neither early-exit condition holds
(the best chi2 is still 5 and no candidate was tested), yet the third configured strategy is
never run; `Run()` returns `STATUS_CODE_NOT_FOUND` and commits nothing. -/
theorem strategyLoop_failed_call_counterexample :
    defaultAlg.m_clusteringAlgorithms = ["First", "Second", "Third"] ∧
      defaultAlg.m_usingOrderedAlgorithms = false ∧
      strategyIteration scriptedApi scriptedHelpers defaultAlg "First" (initialSelection (-4))
          oneCandidateState =
        Flow.next
          { bestReclusterListName := "ListA", bestGuessListName := "", bestReclusterChi := 2.2,
            bestReclusterChi2 := 5, bestGuessChi := FLT_MAX }
          oneCandidateTestedState ∧
      ¬((5 : ℚ) < defaultAlg.m_chi2ForAutomaticClusterSelection) ∧
      strategyLoop scriptedApi scriptedHelpers defaultAlg defaultAlg.m_clusteringAlgorithms
          (initialSelection (-4)) oneCandidateState =
        Flow.returned STATUS_CODE_NOT_FOUND
          { oneCandidateTestedState with
            trace := oneCandidateTestedState.trace ++
              [ClientEvent.runClusteringAlgorithm "Second" STATUS_CODE_NOT_FOUND ""] } ∧
      strategiesRun
          (eventsSince oneCandidateState
            (strategyLoop scriptedApi scriptedHelpers defaultAlg
              defaultAlg.m_clusteringAlgorithms (initialSelection (-4)) oneCandidateState)) =
        ["First", "Second"] ∧
      (defaultAlg.Run scriptedApi scriptedHelpers oneCandidateState).1 =
        STATUS_CODE_NOT_FOUND ∧
      (defaultAlg.Run scriptedApi scriptedHelpers oneCandidateState).2.world.committed = [] := by
  refine ⟨?_, ?_, ?_, ?_, ?_, ?_, ?_, ?_⟩ <;> decide!

/-- C15, amended: in the strategy loop, when a candidate has been tested, no further
clustering strategy is run (the loop is left by `break`, nothing more being called) if the
best chi2 is below `Chi2ForAutomaticClusterSelection`, or if `UsingOrderedAlgorithms` is set,
the best chi2 is below `BestChi2ForReclusterHalt` and the chi2 of the candidate is above
`CurrentChi2ForReclusterHalt`.  No further strategy is run either when a call of the strategy
fails: when `RunClusteringAlgorithm` returns a status that is not success, or its list is not
empty and one of the two daughter algorithms returns a status that is not success, and only
then, `Run()` returns at once, with the status of the call that failed, its last call of
`RunClusteringAlgorithm` being the one of the failing strategy.  In every other case (a candidate tested with neither condition holding, or
a candidate skipped) the loop goes on with the strategies still configured, beginning with a
call of `RunClusteringAlgorithm` for the next one. -/
theorem strategyLoop_early_exit {W : Type} (api : PandoraContentApi W)
    (helpers : ReclusterHelpers W) (self : ResolveTrackAssociationsAlg)
    (clusteringAlgorithmName : String) (rest : List String) (sel : Selection)
    (c : ClientState W) :
    (∀ reclustersListName reclusterResult c1,
        runStrategy api helpers self clusteringAlgorithmName c =
          StrategyOutcome.candidate reclustersListName reclusterResult c1 →
        let sel1 := updateSelection self (staticMinChi2 self c1.minChi2) sel reclustersListName
          reclusterResult
        let c2 : ClientState W :=
          { c1 with
            minChi2 := some (staticMinChi2 self c1.minChi2)
            trace := c1.trace ++ [ClientEvent.candidate reclustersListName reclusterResult] }
        let halt :=
          sel1.bestReclusterChi2 < self.m_chi2ForAutomaticClusterSelection ∨
            (self.m_usingOrderedAlgorithms = true ∧
              sel1.bestReclusterChi2 < self.m_bestChi2ForReclusterHalt ∧
              reclusterResult.chi2PerDof > self.m_currentChi2ForReclusterHalt)
        (halt →
          strategyLoop api helpers self (clusteringAlgorithmName :: rest) sel c =
            Flow.stop sel1 c2) ∧
        (¬halt →
          strategyLoop api helpers self (clusteringAlgorithmName :: rest) sel c =
              strategyLoop api helpers self rest sel1 c2 ∧
            ∀ following more, rest = following :: more →
              ∃ statusCode listName events,
                (strategyLoop api helpers self (clusteringAlgorithmName :: rest) sel
                    c).state.trace =
                  c2.trace ++
                    ClientEvent.runClusteringAlgorithm following statusCode listName ::
                      events)) ∧
      (∀ c1,
        runStrategy api helpers self clusteringAlgorithmName c = StrategyOutcome.skipped c1 →
        strategyLoop api helpers self (clusteringAlgorithmName :: rest) sel c =
            strategyLoop api helpers self rest sel c1 ∧
          ∀ following more, rest = following :: more →
            ∃ statusCode listName events,
              (strategyLoop api helpers self (clusteringAlgorithmName :: rest) sel
                  c).state.trace =
                c1.trace ++
                  ClientEvent.runClusteringAlgorithm following statusCode listName ::
                    events) ∧
      (∀ statusCode c1,
        runStrategy api helpers self clusteringAlgorithmName c =
          StrategyOutcome.returned statusCode c1 →
        statusCode ≠ STATUS_CODE_SUCCESS ∧
          strategyLoop api helpers self (clusteringAlgorithmName :: rest) sel c =
            Flow.returned statusCode c1 ∧
          ∃ status listName,
            c1.trace = c.trace ++
              [ClientEvent.runClusteringAlgorithm clusteringAlgorithmName status listName]) ∧
      (let r1 := api.RunClusteringAlgorithm self.address clusteringAlgorithmName "" c.world
        let r2 := api.RunDaughterAlgorithm self.address self.m_associationAlgorithmName
          r1.2.2.2
        let r3 := api.RunDaughterAlgorithm self.address self.m_trackClusterAssociationAlgName
          r2.2
        ((∃ statusCode c1,
              runStrategy api helpers self clusteringAlgorithmName c =
                StrategyOutcome.returned statusCode c1) ↔
            (r1.1 ≠ STATUS_CODE_SUCCESS ∨
              (r1.2.1.isEmpty = false ∧
                (r2.1 ≠ STATUS_CODE_SUCCESS ∨ r3.1 ≠ STATUS_CODE_SUCCESS)))) ∧
          (r1.1 ≠ STATUS_CODE_SUCCESS →
            ∃ c1, runStrategy api helpers self clusteringAlgorithmName c =
              StrategyOutcome.returned r1.1 c1) ∧
          (r1.1 = STATUS_CODE_SUCCESS → r1.2.1.isEmpty = false →
            r2.1 ≠ STATUS_CODE_SUCCESS →
            ∃ c1, runStrategy api helpers self clusteringAlgorithmName c =
              StrategyOutcome.returned r2.1 c1) ∧
          (r1.1 = STATUS_CODE_SUCCESS → r1.2.1.isEmpty = false →
            r2.1 = STATUS_CODE_SUCCESS → r3.1 ≠ STATUS_CODE_SUCCESS →
            ∃ c1, runStrategy api helpers self clusteringAlgorithmName c =
              StrategyOutcome.returned r3.1 c1)) := by
  obtain ⟨hreturned, hskipped, hcandidate⟩ :=
    strategyIteration_eq api helpers self clusteringAlgorithmName sel c
  refine ⟨?_, ?_, ?_,
    ⟨runStrategy_returned_iff api helpers self clusteringAlgorithmName c,
      runStrategy_failed_call api helpers self clusteringAlgorithmName c⟩⟩
  · intro reclustersListName reclusterResult c1 hrun sel1 c2 halt
    have hiter := hcandidate reclustersListName reclusterResult c1 hrun
    have hhalt : reclusterHalt self sel1 reclusterResult.chi2PerDof = true ↔ halt :=
      reclusterHalt_iff self sel1 reclusterResult.chi2PerDof
    refine ⟨?_, ?_⟩
    · intro h
      have h1 : reclusterHalt self sel1 reclusterResult.chi2PerDof = true := hhalt.2 h
      simp only [sel1] at h1
      simp only [strategyLoop, hiter, h1, if_true]
    · intro h
      have h1 : reclusterHalt self sel1 reclusterResult.chi2PerDof = false := by
        rcases hb : reclusterHalt self sel1 reclusterResult.chi2PerDof with _ | _
        · rfl
        · exact absurd (hhalt.1 hb) h
      simp only [sel1] at h1
      have hloop : strategyLoop api helpers self (clusteringAlgorithmName :: rest) sel c =
          strategyLoop api helpers self rest sel1 c2 := by
        simp only [strategyLoop, hiter, h1, Bool.false_eq_true, if_false]
      refine ⟨hloop, ?_⟩
      intro following more hrest
      rw [hloop, hrest]
      exact strategyLoop_runs_first api helpers self following more sel1 c2
  · intro c1 hrun
    have hloop : strategyLoop api helpers self (clusteringAlgorithmName :: rest) sel c =
        strategyLoop api helpers self rest sel c1 := by
      simp only [strategyLoop, hskipped c1 hrun]
    refine ⟨hloop, ?_⟩
    intro following more hrest
    rw [hloop, hrest]
    exact strategyLoop_runs_first api helpers self following more sel c1
  · intro statusCode c1 hrun
    obtain ⟨hstatus, -, status, listName, htrace⟩ :=
      runStrategy_returned api helpers self clusteringAlgorithmName c c1 statusCode hrun
    refine ⟨hstatus, ?_, status, listName, htrace⟩
    simp only [strategyLoop, hreturned statusCode c1 hrun]

theorem strategyLoop_early_exit_witness :
    strategyLoop scriptedApi scriptedHelpers defaultAlg ["Second", "Third"]
          { bestReclusterListName := "List1", bestGuessListName := "", bestReclusterChi := 1.4,
            bestReclusterChi2 := 2, bestGuessChi := FLT_MAX }
          { firstProducedState with
            minChi2 := some 9
            trace := firstProducedState.trace ++
              [ClientEvent.candidate "List1"
                (syntheticCandidate "List1" 1.4 2.0).reclusterResult] } =
        Flow.stop
          (updateSelection defaultAlg (staticMinChi2 defaultAlg secondProducedState.minChi2)
            { bestReclusterListName := "List1", bestGuessListName := "",
              bestReclusterChi := 1.4, bestReclusterChi2 := 2, bestGuessChi := FLT_MAX }
            "List2" (syntheticCandidate "List2" 0.9 0.8).reclusterResult)
          { secondProducedState with
            minChi2 := some (staticMinChi2 defaultAlg secondProducedState.minChi2)
            trace := secondProducedState.trace ++
              [ClientEvent.candidate "List2"
                (syntheticCandidate "List2" 0.9 0.8).reclusterResult] } ∧
      (STATUS_CODE_NOT_FOUND ≠ STATUS_CODE_SUCCESS ∧
        strategyLoop scriptedApi scriptedHelpers defaultAlg ["Second", "Third"]
            { bestReclusterListName := "ListA", bestGuessListName := "",
              bestReclusterChi := 2.2, bestReclusterChi2 := 5, bestGuessChi := FLT_MAX }
            oneCandidateTestedState =
          Flow.returned STATUS_CODE_NOT_FOUND
            { oneCandidateTestedState with
              trace := oneCandidateTestedState.trace ++
                [ClientEvent.runClusteringAlgorithm "Second" STATUS_CODE_NOT_FOUND ""] } ∧
        ∃ status listName,
          oneCandidateTestedState.trace ++
              [ClientEvent.runClusteringAlgorithm "Second" STATUS_CODE_NOT_FOUND ""] =
            oneCandidateTestedState.trace ++
              [ClientEvent.runClusteringAlgorithm "Second" status listName]) :=
  ⟨((strategyLoop_early_exit scriptedApi scriptedHelpers defaultAlg "Second" ["Third"]
      { bestReclusterListName := "List1", bestGuessListName := "", bestReclusterChi := 1.4,
        bestReclusterChi2 := 2, bestGuessChi := FLT_MAX }
      { firstProducedState with
        minChi2 := some 9
        trace := firstProducedState.trace ++
          [ClientEvent.candidate "List1"
            (syntheticCandidate "List1" 1.4 2.0).reclusterResult] }).1
      "List2" (syntheticCandidate "List2" 0.9 0.8).reclusterResult secondProducedState
      (by decide!)).1 (Or.inl (by decide!)),
    (strategyLoop_early_exit scriptedApi scriptedHelpers defaultAlg "Second" ["Third"]
      { bestReclusterListName := "ListA", bestGuessListName := "", bestReclusterChi := 2.2,
        bestReclusterChi2 := 5, bestGuessChi := FLT_MAX }
      oneCandidateTestedState).2.2.1 STATUS_CODE_NOT_FOUND
      { oneCandidateTestedState with
        trace := oneCandidateTestedState.trace ++
          [ClientEvent.runClusteringAlgorithm "Second" STATUS_CODE_NOT_FOUND ""] }
      (by decide!)⟩

/-- With best guesses enabled, testing in order candidates none of which passes the test of
line 114 against the seed's chi2 leaves the best candidate untouched and keeps as best guess
the earliest candidate of lowest chi among those with excess track associations and a
positive chi. -/
theorem replaySelection_best_guess (self : ResolveTrackAssociationsAlg) (minChi2 chi : ℚ)
    (candidates : List (String × ReclusterResult))
    (hguess : self.m_shouldUseBestGuessCandidates = true)
    (hnone : ∀ e ∈ candidates, ¬passesIdealTest self minChi2 (chi * chi) e.2)
    (hrange : ∀ e ∈ candidates, e.2.chi < FLT_MAX) :
    (replaySelection self minChi2 (initialSelection chi) candidates).bestReclusterChi2 =
        chi * chi ∧
      (((∀ e ∈ candidates, ¬eligibleGuess e.2) ∧
          (replaySelection self minChi2 (initialSelection chi)
            candidates).bestGuessListName = "" ∧
          (replaySelection self minChi2 (initialSelection chi) candidates).bestGuessChi =
            FLT_MAX) ∨
        ∃ pre e post, candidates = pre ++ e :: post ∧ eligibleGuess e.2 ∧
          (∀ x ∈ pre, eligibleGuess x.2 → e.2.chi < x.2.chi) ∧
          (∀ x ∈ post, eligibleGuess x.2 → e.2.chi ≤ x.2.chi) ∧
          (replaySelection self minChi2 (initialSelection chi)
            candidates).bestGuessListName = e.1 ∧
          (replaySelection self minChi2 (initialSelection chi) candidates).bestGuessChi =
            e.2.chi) := by
  induction candidates using List.reverseRecOn with
  | nil =>
    exact ⟨rfl, Or.inl ⟨fun e he => by simp at he, rfl, rfl⟩⟩
  | append_singleton init last ih =>
    obtain ⟨hbest, hcases⟩ := ih
      (fun e he => hnone e (List.mem_append_left _ he))
      (fun e he => hrange e (List.mem_append_left _ he))
    have hlast : ¬passesIdealTest self minChi2 (chi * chi) last.2 :=
      hnone last (by simp)
    have hlastrange : last.2.chi < FLT_MAX := hrange last (by simp)
    rw [replaySelection_concat]
    have hfail : ¬passesIdealTest self minChi2
        (replaySelection self minChi2 (initialSelection chi) init).bestReclusterChi2 last.2 := by
      rw [hbest]; exact hlast
    obtain ⟨-, -, hchi2⟩ := updateSelection_fail self minChi2
      (replaySelection self minChi2 (initialSelection chi) init) last.1 last.2 hfail
    refine ⟨by rw [hchi2, hbest], ?_⟩
    -- the update of the best guess
    have hupdate : ∀ sel : Selection,
        ¬passesIdealTest self minChi2 sel.bestReclusterChi2 last.2 →
        ((eligibleGuess last.2 ∧ last.2.chi < sel.bestGuessChi) →
          (updateSelection self minChi2 sel last.1 last.2).bestGuessListName = last.1 ∧
            (updateSelection self minChi2 sel last.1 last.2).bestGuessChi = last.2.chi) ∧
        (¬(eligibleGuess last.2 ∧ last.2.chi < sel.bestGuessChi) →
          (updateSelection self minChi2 sel last.1 last.2).bestGuessListName =
              sel.bestGuessListName ∧
            (updateSelection self minChi2 sel last.1 last.2).bestGuessChi =
              sel.bestGuessChi) := by
      intro sel hsel
      unfold passesIdealTest at hsel
      unfold eligibleGuess
      refine ⟨?_, ?_⟩
      · intro h
        have h2 : last.2.nExcessTrackAssociations > 0 ∧ last.2.chi > 0 ∧
            last.2.chi < sel.bestGuessChi := ⟨h.1.1, h.1.2, h.2⟩
        simp only [updateSelection, hsel, if_false, hguess, if_true, h2, and_self]
      · intro h
        have h2 : ¬(last.2.nExcessTrackAssociations > 0 ∧ last.2.chi > 0 ∧
            last.2.chi < sel.bestGuessChi) := fun h3 => h ⟨⟨h3.1, h3.2.1⟩, h3.2.2⟩
        simp only [updateSelection, hsel, if_false, hguess, if_true, h2]
        exact ⟨trivial, trivial⟩
    obtain ⟨hrecord, hkeep⟩ :=
      hupdate (replaySelection self minChi2 (initialSelection chi) init) hfail
    rcases hcases with ⟨hnoneligible, hname, hchi⟩ | ⟨pre, e, post, hsplit, he, hpre, hpost,
        hname, hchi⟩
    · by_cases hel : eligibleGuess last.2
      · obtain ⟨h1, h2⟩ := hrecord ⟨hel, by rw [hchi]; exact hlastrange⟩
        refine Or.inr ⟨init, last, [], rfl, hel, ?_, ?_, h1, h2⟩
        · intro x hx hxel
          exact absurd hxel (hnoneligible x hx)
        · intro x hx
          simp at hx
      · obtain ⟨h1, h2⟩ := hkeep (fun h => hel h.1)
        refine Or.inl ⟨?_, by rw [h1, hname], by rw [h2, hchi]⟩
        intro x hx
        rcases List.mem_append.1 hx with hx | hx
        · exact hnoneligible x hx
        · have hxl : x = last := by simpa using hx
          rw [hxl]; exact hel
    · by_cases hel : eligibleGuess last.2 ∧
          last.2.chi < (replaySelection self minChi2 (initialSelection chi) init).bestGuessChi
      · obtain ⟨h1, h2⟩ := hrecord hel
        have hlt : last.2.chi < e.2.chi := by rw [← hchi]; exact hel.2
        refine Or.inr ⟨init, last, [], rfl, hel.1, ?_, ?_, h1, h2⟩
        · intro x hx hxel
          rw [hsplit] at hx
          rcases List.mem_append.1 hx with hx | hx
          · exact lt_trans hlt (hpre x hx hxel)
          · rcases List.mem_cons.1 hx with hx | hx
            · rw [hx]; exact hlt
            · exact lt_of_lt_of_le hlt (hpost x hx hxel)
        · intro x hx
          simp at hx
      · obtain ⟨h1, h2⟩ := hkeep hel
        refine Or.inr ⟨pre, e, post ++ [last], by rw [hsplit]; simp, he, hpre, ?_,
          by rw [h1, hname], by rw [h2, hchi]⟩
        intro x hx hxel
        rcases List.mem_append.1 hx with hx | hx
        · exact hpost x hx hxel
        · have hxl : x = last := by simpa using hx
          rw [hxl] at hxel ⊢
          have hnlt : ¬last.2.chi <
              (replaySelection self minChi2 (initialSelection chi) init).bestGuessChi :=
            fun h => hel ⟨hxel, h⟩
          rw [hchi] at hnlt
          exact not_lt.1 hnlt

/-- C16: when best-guess candidates are enabled and no evaluated candidate passed the test
of line 114 (each failing it against the seed's chi squared), the best-guess list the strategy
loop records is that of the candidate with the lowest chi among the evaluated candidates
with more than zero excess track associations and a positive chi, the earliest one on ties;
when no evaluated candidate has excess associations and a positive chi, no best guess is
recorded.  The chi values are taken below the largest `float`, the initial value of the best
guess chi. -/
theorem strategyLoop_best_guess {W : Type} (api : PandoraContentApi W)
    (helpers : ReclusterHelpers W) (self : ResolveTrackAssociationsAlg)
    (clusteringAlgorithms : List String) (chi : ℚ) (sel1 : Selection) (c c1 : ClientState W)
    (hguess : self.m_shouldUseBestGuessCandidates = true)
    (h : strategyLoop api helpers self clusteringAlgorithms (initialSelection chi) c =
        Flow.next sel1 c1 ∨
      strategyLoop api helpers self clusteringAlgorithms (initialSelection chi) c =
        Flow.stop sel1 c1) :
    ∃ candidates,
      evaluatedCandidates c1.trace = evaluatedCandidates c.trace ++ candidates ∧
        ((∀ e ∈ candidates,
            ¬passesIdealTest self (staticMinChi2 self c.minChi2) (chi * chi) e.2) →
          (∀ e ∈ candidates, e.2.chi < FLT_MAX) →
          ((∀ e ∈ candidates, ¬eligibleGuess e.2) → sel1.bestGuessListName = "") ∧
          ((∃ e ∈ candidates, eligibleGuess e.2) →
            ∃ pre e post, candidates = pre ++ e :: post ∧ eligibleGuess e.2 ∧
              (∀ x ∈ pre, eligibleGuess x.2 → e.2.chi < x.2.chi) ∧
              (∀ x ∈ post, eligibleGuess x.2 → e.2.chi ≤ x.2.chi) ∧
              sel1.bestGuessListName = e.1 ∧ sel1.bestGuessChi = e.2.chi)) := by
  obtain ⟨-, candidates, htrace, hsel⟩ :=
    strategyLoop_replay api helpers self clusteringAlgorithms (initialSelection chi) sel1 c c1 h
  refine ⟨candidates, htrace, ?_⟩
  intro hnone hrange
  obtain ⟨-, hcases⟩ := replaySelection_best_guess self (staticMinChi2 self c.minChi2) chi
    candidates hguess hnone hrange
  rw [← hsel] at hcases
  refine ⟨?_, ?_⟩
  · intro hnoneligible
    rcases hcases with ⟨-, hname, -⟩ | ⟨pre, e, post, hsplit, he, -⟩
    · exact hname
    · exact absurd he (hnoneligible e (by rw [hsplit]; simp))
  · rintro ⟨e, he, hel⟩
    rcases hcases with ⟨hnoneligible, -⟩ | hfound
    · exact absurd hel (hnoneligible e he)
    · exact hfound

theorem strategyLoop_best_guess_witness :
    ∃ pre e post,
      [("Guess1", (guessCandidate "Guess1" 3 1).reclusterResult),
          ("Guess2", (guessCandidate "Guess2" 2 1).reclusterResult),
          ("Guess3", (guessCandidate "Guess3" 2 2).reclusterResult)] = pre ++ e :: post ∧
        eligibleGuess e.2 ∧
        (∀ x ∈ pre, eligibleGuess x.2 → e.2.chi < x.2.chi) ∧
        (∀ x ∈ post, eligibleGuess x.2 → e.2.chi ≤ x.2.chi) ∧
        guessFinalSelection.bestGuessListName = e.1 ∧
        guessFinalSelection.bestGuessChi = e.2.chi := by
  obtain ⟨candidates, htrace, himp⟩ :=
    strategyLoop_best_guess scriptedApi scriptedHelpers defaultAlg
      defaultAlg.m_clusteringAlgorithms (-4) guessFinalSelection guessCandidatesState
      guessFinalState (by decide!) (Or.inl (by decide!))
  have h1 : evaluatedCandidates guessFinalState.trace =
      [("Guess1", (guessCandidate "Guess1" 3 1).reclusterResult),
        ("Guess2", (guessCandidate "Guess2" 2 1).reclusterResult),
        ("Guess3", (guessCandidate "Guess3" 2 2).reclusterResult)] := by decide!
  have h2 : evaluatedCandidates guessCandidatesState.trace = [] := by decide!
  rw [h1, h2, List.nil_append] at htrace
  subst htrace
  refine (himp ?_ ?_).2 ⟨("Guess1", (guessCandidate "Guess1" 3 1).reclusterResult), by simp, ?_⟩
  · intro e he
    simp only [List.mem_cons, List.mem_singleton, List.not_mem_nil, or_false] at he
    rcases he with rfl | rfl | rfl <;> (unfold passesIdealTest; decide!)
  · intro e he
    simp only [List.mem_cons, List.mem_singleton, List.not_mem_nil, or_false] at he
    rcases he with rfl | rfl | rfl <;> decide!
  · unfold eligibleGuess
    decide!

/-! ## The forced clustering step -/

/-- The forced clustering step when it is not entered: nothing is called and the best list
name stays. -/
theorem forcedClustering_not_run {W : Type} (api : PandoraContentApi W)
    (helpers : ReclusterHelpers W) (self : ResolveTrackAssociationsAlg) (chi : ℚ)
    (sel : Selection) (bestReclusterListName originalClustersListName : String)
    (c : ClientState W)
    (h : ¬(self.m_shouldUseForcedClustering = true ∧
      (bestReclusterListName = originalClustersListName ∨
        sel.bestReclusterChi > self.m_minChiForForcedClustering))) :
    forcedClustering api helpers self chi sel bestReclusterListName originalClustersListName c =
      Flow.next bestReclusterListName c := by
  unfold forcedClustering
  by_cases h1 : self.m_shouldUseForcedClustering = true
  · have h2 : ¬(bestReclusterListName = originalClustersListName ∨
        sel.bestReclusterChi > self.m_minChiForForcedClustering) := fun h3 => h ⟨h1, h3⟩
    simp only [h1, if_true, h2, if_false]
  · simp only [h1, Bool.false_eq_true, if_false]

/-- The forced clustering step when it is entered, by the results of its calls. -/
theorem forcedClustering_run {W : Type} (api : PandoraContentApi W)
    (helpers : ReclusterHelpers W) (self : ResolveTrackAssociationsAlg) (chi : ℚ)
    (sel : Selection) (bestReclusterListName originalClustersListName : String)
    (c : ClientState W)
    (h : self.m_shouldUseForcedClustering = true ∧
      (bestReclusterListName = originalClustersListName ∨
        sel.bestReclusterChi > self.m_minChiForForcedClustering)) :
    forcedClustering api helpers self chi sel bestReclusterListName originalClustersListName c =
      let r1 := api.RunClusteringAlgorithm self.address self.m_forcedClusteringAlgorithmName ""
        c.world
      let c1 : ClientState W :=
        { c with
          world := r1.2.2.2
          trace := c.trace ++
            [ClientEvent.runClusteringAlgorithm self.m_forcedClusteringAlgorithmName r1.1
              r1.2.2.1] }
      let r2 := api.RunDaughterAlgorithm self.address self.m_trackClusterAssociationAlgName
        c1.world
      let c2 : ClientState W := { c1 with world := r2.2 }
      let r3 := helpers.ExtractReclusterResults c2.world r1.2.1
      if r1.1 ≠ STATUS_CODE_SUCCESS then Flow.returned r1.1 c1
      else if r2.1 ≠ STATUS_CODE_SUCCESS then Flow.returned r2.1 c2
      else if r3.1 = STATUS_CODE_SUCCESS ∧
          chi * chi - r3.2.chi2PerDof > self.m_minForcedChi2Improvement ∧
          r3.2.chi2PerDof < self.m_maxForcedChi2 then Flow.next r1.2.2.1 c2
      else Flow.next bestReclusterListName c2 := by
  unfold forcedClustering
  rw [if_pos h.1, if_pos h.2]
  dsimp only
  generalize api.RunClusteringAlgorithm self.address self.m_forcedClusteringAlgorithmName ""
    c.world = r1
  obtain ⟨status1, list1, name1, world1⟩ := r1
  dsimp only
  generalize api.RunDaughterAlgorithm self.address self.m_trackClusterAssociationAlgName
    world1 = r2
  obtain ⟨status2, world2⟩ := r2
  dsimp only
  generalize helpers.ExtractReclusterResults world2 list1 = r3
  obtain ⟨status3, result3⟩ := r3
  cases status1 <;> cases status2 <;> cases status3 <;> simp [resultIf]

/-- C18 fails as stated: for a seed of chi -5 (chi2 25) the strategy loop chooses `ListP`, of
chi 2 and chi2 4; the best chi exceeds `MinChiForForcedClustering`, so the forced clustering
algorithm is run, and its candidate `ListG` has chi2 10.  It does not improve chi2: the chi2
of the chosen list, 4, is lower, and 4 - 10 does not exceed `MinForcedChi2Improvement`.  Yet
its results were extracted, 25 - 10 > 9 and 10 < 36, and `ListG` replaces `ListP` and is
committed. -/
theorem forcedClustering_worse_chi2_counterexample :
    strategyLoop scriptedApi scriptedHelpers forcedAlg forcedAlg.m_clusteringAlgorithms
        (initialSelection (-5)) forcedWorseCandidatesState =
        Flow.next forcedLoopSelection forcedWorseLoopState ∧
      chooseReclusterList forcedAlg forcedLoopSelection "Original" = "ListP" ∧
      forcedLoopSelection.bestReclusterChi2 = 4 ∧
      (syntheticCandidate "ListG" 3 10).reclusterResult.chi2PerDof = 10 ∧
      ¬(forcedLoopSelection.bestReclusterChi2 -
          (syntheticCandidate "ListG" 3 10).reclusterResult.chi2PerDof >
        forcedAlg.m_minForcedChi2Improvement) ∧
      forcedClustering scriptedApi scriptedHelpers forcedAlg (-5) forcedLoopSelection "ListP"
          "Original" forcedWorseLoopState =
        Flow.next "ListG"
          { forcedWorseLoopState with
            world :=
              { scriptedWorld (-5) 0.5 [] with
                produced := some (syntheticCandidate "ListG" 3 10) }
            trace := forcedWorseLoopState.trace ++
              [ClientEvent.runClusteringAlgorithm "Forced" STATUS_CODE_SUCCESS "ListG"] } ∧
      (forcedAlg.Run scriptedApi scriptedHelpers forcedWorseCandidatesState).2.world.committed =
        ["ListG"] := by
  refine ⟨?_, ?_, ?_, ?_, ?_, ?_, ?_⟩ <;> decide!

/-- C18, amended: the forced clustering strategy is run if and only if
`ShouldUseForcedClustering` is set and the chosen list is still the original one or the best
chi exceeds `MinChiForForcedClustering`: otherwise, in particular when forced clustering is
disabled, nothing is called and the chosen list stays, and in that case the step begins with a
call of `RunClusteringAlgorithm` for the forced clustering algorithm.  When that call or the
call of the track to cluster association algorithm returns a status that is not success,
`Run()` returns that status.  When both succeed, the forced list replaces the chosen one if
and only if its results were extracted successfully, the seed's original chi2 (its chi
squared) exceeds the forced chi2 by more than `MinForcedChi2Improvement` and the forced chi2
is below `MaxForcedChi2`; the chi2 of the chosen list plays no part in the step. -/
theorem forcedClustering_rule {W : Type} (api : PandoraContentApi W)
    (helpers : ReclusterHelpers W) (self : ResolveTrackAssociationsAlg) (chi : ℚ)
    (sel : Selection) (bestReclusterListName originalClustersListName : String)
    (c : ClientState W) :
    let run := self.m_shouldUseForcedClustering = true ∧
      (bestReclusterListName = originalClustersListName ∨
        sel.bestReclusterChi > self.m_minChiForForcedClustering)
    let r1 := api.RunClusteringAlgorithm self.address self.m_forcedClusteringAlgorithmName ""
      c.world
    let c1 : ClientState W :=
      { c with
        world := r1.2.2.2
        trace := c.trace ++
          [ClientEvent.runClusteringAlgorithm self.m_forcedClusteringAlgorithmName r1.1
            r1.2.2.1] }
    let r2 := api.RunDaughterAlgorithm self.address self.m_trackClusterAssociationAlgName
      c1.world
    let c2 : ClientState W := { c1 with world := r2.2 }
    let r3 := helpers.ExtractReclusterResults c2.world r1.2.1
    let accepted := r3.1 = STATUS_CODE_SUCCESS ∧
      chi * chi - r3.2.chi2PerDof > self.m_minForcedChi2Improvement ∧
      r3.2.chi2PerDof < self.m_maxForcedChi2
    let step := forcedClustering api helpers self chi sel bestReclusterListName
      originalClustersListName c
    (self.m_shouldUseForcedClustering = false → step = Flow.next bestReclusterListName c) ∧
      (¬run → step = Flow.next bestReclusterListName c) ∧
      (run → ∃ events, step.state.trace = c1.trace ++ events) ∧
      (run → r1.1 = STATUS_CODE_SUCCESS → r2.1 = STATUS_CODE_SUCCESS →
        (accepted → step = Flow.next r1.2.2.1 c2) ∧
          (¬accepted → step = Flow.next bestReclusterListName c2)) ∧
      (run → r1.1 ≠ STATUS_CODE_SUCCESS → step = Flow.returned r1.1 c1) ∧
      (run → r1.1 = STATUS_CODE_SUCCESS → r2.1 ≠ STATUS_CODE_SUCCESS →
        step = Flow.returned r2.1 c2) ∧
      (∀ bestReclusterChi2,
        forcedClustering api helpers self chi
            { sel with bestReclusterChi2 := bestReclusterChi2 } bestReclusterListName
            originalClustersListName c = step) := by
  intro run r1 c1 r2 c2 r3 accepted step
  refine ⟨?_, ?_, ?_, ?_, ?_, ?_, ?_⟩
  · intro hdisabled
    exact forcedClustering_not_run api helpers self chi sel bestReclusterListName
      originalClustersListName c (fun h => by simp [hdisabled] at h)
  · intro hrun
    exact forcedClustering_not_run api helpers self chi sel bestReclusterListName
      originalClustersListName c hrun
  · intro hrun
    have hstep := forcedClustering_run api helpers self chi sel bestReclusterListName
      originalClustersListName c hrun
    simp only [step, hstep]
    split
    · exact ⟨[], by simp [Flow.state, c1, r1]⟩
    · split
      · exact ⟨[], by simp [Flow.state, c1, r1]⟩
      · split <;> exact ⟨[], by simp [Flow.state, c1, r1]⟩
  · intro hrun h1 h2
    have hstep := forcedClustering_run api helpers self chi sel bestReclusterListName
      originalClustersListName c hrun
    dsimp only at hstep
    rw [if_neg (not_not.2 h1), if_neg (not_not.2 h2)] at hstep
    refine ⟨?_, ?_⟩
    · intro hacc
      rw [if_pos hacc] at hstep
      exact hstep
    · intro hacc
      rw [if_neg hacc] at hstep
      exact hstep
  · intro hrun h1
    have hstep := forcedClustering_run api helpers self chi sel bestReclusterListName
      originalClustersListName c hrun
    dsimp only at hstep
    rw [if_pos h1] at hstep
    exact hstep
  · intro hrun h1 h2
    have hstep := forcedClustering_run api helpers self chi sel bestReclusterListName
      originalClustersListName c hrun
    dsimp only at hstep
    rw [if_neg (not_not.2 h1), if_pos h2] at hstep
    exact hstep
  · intro bestReclusterChi2
    rfl

theorem forcedClustering_rule_witness :
    forcedClustering scriptedApi scriptedHelpers forcedAlg (-4) forcedLoopSelection "ListP"
        "Original" forcedLoopState =
      Flow.next "ListF"
        { world :=
            { scriptedWorld (-4) 0.5 [] with
              produced := some (syntheticCandidate "ListF" 2.4 6) }
          minChi2 := some 9
          trace := forcedLoopState.trace ++
            [ClientEvent.runClusteringAlgorithm "Forced" STATUS_CODE_SUCCESS "ListF"] } ∧
      forcedClustering scriptedApi scriptedHelpers defaultAlg (-4) forcedLoopSelection "ListP"
        "Original" forcedLoopState = Flow.next "ListP" forcedLoopState ∧
      forcedClustering scriptedApi scriptedHelpers forcedAlg (-4)
          { bestReclusterListName := "ListA", bestGuessListName := "", bestReclusterChi := 2.2,
            bestReclusterChi2 := 5, bestGuessChi := FLT_MAX }
          "ListA" "Original" oneCandidateTestedState =
        Flow.returned STATUS_CODE_NOT_FOUND
          { oneCandidateTestedState with
            trace := oneCandidateTestedState.trace ++
              [ClientEvent.runClusteringAlgorithm "Forced" STATUS_CODE_NOT_FOUND ""] } :=
  ⟨((forcedClustering_rule scriptedApi scriptedHelpers forcedAlg (-4) forcedLoopSelection
      "ListP" "Original" forcedLoopState).2.2.2.1 (by decide!) (by decide!) (by decide!)).1
      (by decide!),
    (forcedClustering_rule scriptedApi scriptedHelpers defaultAlg (-4) forcedLoopSelection
      "ListP" "Original" forcedLoopState).1 (by decide!),
    (forcedClustering_rule scriptedApi scriptedHelpers forcedAlg (-4)
      { bestReclusterListName := "ListA", bestGuessListName := "", bestReclusterChi := 2.2,
        bestReclusterChi2 := 5, bestGuessChi := FLT_MAX }
      "ListA" "Original" oneCandidateTestedState).2.2.2.2.1 (by decide!) (by decide!)⟩

/-- C19 fails as stated: for a seed of chi -4 (chi2 16) the strategy loop selects `ListP` with
a best chi2 of 4, and the forced clustering algorithm then produces a candidate of chi2 6.
The best chi2 so far minus the chi2 of the forced candidate is 4 - 6, not an improvement, yet
the forced test takes 16 - 6 > 9, the seed's chi squared minus the chi2 of the forced
candidate, and `ListF` replaces `ListP` and is committed. -/
theorem forcedClustering_improvement_counterexample :
    strategyLoop scriptedApi scriptedHelpers forcedAlg forcedAlg.m_clusteringAlgorithms
        (initialSelection (-4)) forcedCandidatesState =
        Flow.next forcedLoopSelection forcedLoopState ∧
      forcedLoopSelection.bestReclusterChi2 = 4 ∧
      ¬(forcedLoopSelection.bestReclusterChi2 -
          (syntheticCandidate "ListF" 2.4 6).reclusterResult.chi2PerDof >
        forcedAlg.m_minForcedChi2Improvement) ∧
      ((-4 : ℚ) * (-4) - (syntheticCandidate "ListF" 2.4 6).reclusterResult.chi2PerDof >
        forcedAlg.m_minForcedChi2Improvement) ∧
      (forcedClustering scriptedApi scriptedHelpers forcedAlg (-4) forcedLoopSelection
            (chooseReclusterList forcedAlg forcedLoopSelection "Original") "Original"
            forcedLoopState).state.world.produced =
        some (syntheticCandidate "ListF" 2.4 6) ∧
      (forcedAlg.Run scriptedApi scriptedHelpers forcedCandidatesState).2.world.committed =
        ["ListF"] := by
  refine ⟨by decide!, by decide!, by decide!, by decide!, by decide!, by decide!⟩

/-- C19, amended: the per-strategy test computes the improvement as the best chi2 so far
minus the chi2 of the candidate, the candidate becoming the best exactly when that difference
exceeds `MinChi2Improvement` and its chi2 is below the ceiling; the forced clustering test
computes it as the seed's original chi2 (its chi squared) minus the chi2 of the forced
candidate, whatever the best chi2 so far is: when the step is entered and its calls succeed,
the forced list is taken exactly when that difference exceeds `MinForcedChi2Improvement` and
the forced chi2 is below `MaxForcedChi2`. -/
theorem improvement_computation {W : Type} (api : PandoraContentApi W)
    (helpers : ReclusterHelpers W) (self : ResolveTrackAssociationsAlg) (chi minChi2 : ℚ)
    (sel : Selection) (reclustersListName : String) (reclusterResult : ReclusterResult)
    (bestReclusterListName originalClustersListName : String) (c : ClientState W)
    (forcedListName : String) (forcedList : ClusterList) (forcedResult : ReclusterResult)
    (w1 w2 : W)
    (hrun : self.m_shouldUseForcedClustering = true ∧
      (bestReclusterListName = originalClustersListName ∨
        sel.bestReclusterChi > self.m_minChiForForcedClustering))
    (hclustering : api.RunClusteringAlgorithm self.address
        self.m_forcedClusteringAlgorithmName "" c.world =
      (STATUS_CODE_SUCCESS, forcedList, forcedListName, w1))
    (hdaughter : api.RunDaughterAlgorithm self.address self.m_trackClusterAssociationAlgName
        w1 = (STATUS_CODE_SUCCESS, w2))
    (hextract : helpers.ExtractReclusterResults w2 forcedList =
      (STATUS_CODE_SUCCESS, forcedResult)) :
    let tested := updateSelection self minChi2 sel reclustersListName reclusterResult
    let forcedState : ClientState W :=
      { c with
        world := w2
        trace := c.trace ++
          [ClientEvent.runClusteringAlgorithm self.m_forcedClusteringAlgorithmName
            STATUS_CODE_SUCCESS forcedListName] }
    (sel.bestReclusterChi2 - reclusterResult.chi2PerDof > self.m_minChi2Improvement ∧
        reclusterResult.chi2PerDof < minChi2 →
      tested.bestReclusterListName = reclustersListName ∧
        tested.bestReclusterChi2 = reclusterResult.chi2PerDof) ∧
      (¬(sel.bestReclusterChi2 - reclusterResult.chi2PerDof > self.m_minChi2Improvement) →
        tested.bestReclusterListName = sel.bestReclusterListName ∧
          tested.bestReclusterChi2 = sel.bestReclusterChi2) ∧
      (chi * chi - forcedResult.chi2PerDof > self.m_minForcedChi2Improvement ∧
          forcedResult.chi2PerDof < self.m_maxForcedChi2 →
        forcedClustering api helpers self chi sel bestReclusterListName
          originalClustersListName c = Flow.next forcedListName forcedState) ∧
      (¬(chi * chi - forcedResult.chi2PerDof > self.m_minForcedChi2Improvement) →
        forcedClustering api helpers self chi sel bestReclusterListName
          originalClustersListName c = Flow.next bestReclusterListName forcedState) := by
  intro tested forcedState
  have hstep := forcedClustering_run api helpers self chi sel bestReclusterListName
    originalClustersListName c hrun
  simp only [hclustering, hdaughter, hextract, ne_eq, not_true_eq_false, if_false,
    true_and] at hstep
  refine ⟨?_, ?_, ?_, ?_⟩
  · intro h
    have h2 := updateSelection_pass self minChi2 sel reclustersListName reclusterResult h
    simp only [tested, h2]
    exact ⟨trivial, trivial⟩
  · intro h
    obtain ⟨h1, -, h3⟩ := updateSelection_fail self minChi2 sel reclustersListName
      reclusterResult (fun hpass => h hpass.1)
    exact ⟨h1, h3⟩
  · intro h
    rw [hstep, if_pos h]
  · intro h
    rw [hstep, if_neg (fun h2 => h h2.1)]

theorem improvement_computation_witness :
    forcedClustering scriptedApi scriptedHelpers forcedAlg (-4) forcedLoopSelection "ListP"
        "Original" forcedLoopState =
      Flow.next "ListF"
        { forcedLoopState with
          world :=
            { scriptedWorld (-4) 0.5 [] with
              produced := some (syntheticCandidate "ListF" 2.4 6) }
          trace := forcedLoopState.trace ++
            [ClientEvent.runClusteringAlgorithm forcedAlg.m_forcedClusteringAlgorithmName
              STATUS_CODE_SUCCESS "ListF"] } :=
  (improvement_computation scriptedApi scriptedHelpers forcedAlg (-4) 9 forcedLoopSelection
    "ListQ" (syntheticCandidate "ListQ" 1 1).reclusterResult "ListP" "Original"
    forcedLoopState "ListF" [cluster3] (syntheticCandidate "ListF" 2.4 6).reclusterResult
    { scriptedWorld (-4) 0.5 [] with produced := some (syntheticCandidate "ListF" 2.4 6) }
    { scriptedWorld (-4) 0.5 [] with produced := some (syntheticCandidate "ListF" 2.4 6) }
    (by decide!) (by decide!) (by decide!) (by decide!)).2.2.1 (by decide!)

/-! ## The events of a seed iteration of `ResolveTrackAssociationsAlg::Run` -/

theorem eventsSince_eq {W β : Type} (c : ClientState W) (flow : Flow (ClientState W) β)
    (events : List ClientEvent) (h : flow.state.trace = c.trace ++ events) :
    eventsSince c flow = events := by
  simp [eventsSince, h]

/-- The list names of the selection after a candidate has been tested are those before it or
the list name of the candidate. -/
theorem updateSelection_names (self : ResolveTrackAssociationsAlg) (minChi2 : ℚ)
    (sel : Selection) (reclustersListName : String) (reclusterResult : ReclusterResult) :
    ((updateSelection self minChi2 sel reclustersListName reclusterResult).bestReclusterListName
          = sel.bestReclusterListName ∨
        (updateSelection self minChi2 sel reclustersListName
          reclusterResult).bestReclusterListName = reclustersListName) ∧
      ((updateSelection self minChi2 sel reclustersListName reclusterResult).bestGuessListName
          = sel.bestGuessListName ∨
        (updateSelection self minChi2 sel reclustersListName
          reclusterResult).bestGuessListName = reclustersListName) := by
  unfold updateSelection
  dsimp only
  split
  · exact ⟨Or.inr rfl, Or.inl rfl⟩
  · split
    · split
      · exact ⟨Or.inl rfl, Or.inr rfl⟩
      · exact ⟨Or.inl rfl, Or.inl rfl⟩
    · exact ⟨Or.inl rfl, Or.inl rfl⟩

/-- The events an iteration of the strategy loop adds are calls of `RunClusteringAlgorithm`
and tests of candidates, and a list name of the selection it leaves is the one before it or
a name returned by a successful call of `RunClusteringAlgorithm` among these events. -/
theorem strategyIteration_events {W : Type} (api : PandoraContentApi W)
    (helpers : ReclusterHelpers W) (self : ResolveTrackAssociationsAlg)
    (clusteringAlgorithmName : String) (sel : Selection) (c : ClientState W) :
    ∃ events,
      (strategyIteration api helpers self clusteringAlgorithmName sel c).state.trace =
          c.trace ++ events ∧
        (∀ event ∈ events, event.isClustering = true) ∧
        ∀ sel1 c1,
          (strategyIteration api helpers self clusteringAlgorithmName sel c = Flow.next sel1 c1 ∨
            strategyIteration api helpers self clusteringAlgorithmName sel c =
              Flow.stop sel1 c1) →
          (sel1.bestReclusterListName = sel.bestReclusterListName ∨
              ∃ name, ClientEvent.runClusteringAlgorithm name STATUS_CODE_SUCCESS
                sel1.bestReclusterListName ∈ events) ∧
            (sel1.bestGuessListName = sel.bestGuessListName ∨
              ∃ name, ClientEvent.runClusteringAlgorithm name STATUS_CODE_SUCCESS
                sel1.bestGuessListName ∈ events) := by
  obtain ⟨hreturned, hskipped, hcandidate⟩ :=
    strategyIteration_eq api helpers self clusteringAlgorithmName sel c
  cases hrun : runStrategy api helpers self clusteringAlgorithmName c with
  | returned statusCode c2 =>
    rw [hreturned statusCode c2 hrun]
    obtain ⟨-, -, status, listName, htrace⟩ :=
      runStrategy_returned api helpers self clusteringAlgorithmName c c2 statusCode hrun
    refine ⟨_, htrace, ?_, ?_⟩
    · intro event hevent
      simp only [List.mem_singleton] at hevent
      subst hevent
      rfl
    · intro sel1 c1 h
      rcases h with h | h <;> cases h
  | skipped c2 =>
    rw [hskipped c2 hrun]
    obtain ⟨-, status, listName, htrace⟩ :=
      runStrategy_skipped api helpers self clusteringAlgorithmName c c2 hrun
    refine ⟨_, htrace, ?_, ?_⟩
    · intro event hevent
      simp only [List.mem_singleton] at hevent
      subst hevent
      rfl
    · intro sel1 c1 h
      rcases h with h | h
      · injection h with h1 h2
        subst h1
        exact ⟨Or.inl rfl, Or.inl rfl⟩
      · cases h
  | candidate reclustersListName reclusterResult c2 =>
    rw [hcandidate reclustersListName reclusterResult c2 hrun]
    obtain ⟨-, htrace⟩ :=
      runStrategy_candidate api helpers self clusteringAlgorithmName c reclustersListName
        reclusterResult c2 hrun
    obtain ⟨hbest, hguess⟩ := updateSelection_names self (staticMinChi2 self c2.minChi2) sel
      reclustersListName reclusterResult
    refine ⟨[ClientEvent.runClusteringAlgorithm clusteringAlgorithmName STATUS_CODE_SUCCESS
      reclustersListName, ClientEvent.candidate reclustersListName reclusterResult], ?_, ?_, ?_⟩
    · split <;> simp [Flow.state, htrace]
    · intro event hevent
      simp only [List.mem_cons, List.mem_singleton, List.not_mem_nil, or_false] at hevent
      rcases hevent with hevent | hevent <;> subst hevent <;> rfl
    · intro sel1 c1 h
      have hsel : sel1 = updateSelection self (staticMinChi2 self c2.minChi2) sel
          reclustersListName reclusterResult := by
        split at h
        · rcases h with h | h
          · cases h
          · injection h with h1 h2
            exact h1.symm
        · rcases h with h | h
          · injection h with h1 h2
            exact h1.symm
          · cases h
      subst hsel
      refine ⟨?_, ?_⟩
      · rcases hbest with hbest | hbest
        · exact Or.inl hbest
        · exact Or.inr ⟨clusteringAlgorithmName, by rw [hbest]; simp⟩
      · rcases hguess with hguess | hguess
        · exact Or.inl hguess
        · exact Or.inr ⟨clusteringAlgorithmName, by rw [hguess]; simp⟩

/-- The events the strategy loop adds are calls of `RunClusteringAlgorithm` and tests of
candidates, and a list name of the selection it leaves is the one before it or a name
returned by a successful call of `RunClusteringAlgorithm` among these events. -/
theorem strategyLoop_events {W : Type} (api : PandoraContentApi W)
    (helpers : ReclusterHelpers W) (self : ResolveTrackAssociationsAlg)
    (clusteringAlgorithms : List String) (sel : Selection) (c : ClientState W) :
    ∃ events,
      (strategyLoop api helpers self clusteringAlgorithms sel c).state.trace =
          c.trace ++ events ∧
        (∀ event ∈ events, event.isClustering = true) ∧
        ∀ sel1 c1,
          (strategyLoop api helpers self clusteringAlgorithms sel c = Flow.next sel1 c1 ∨
            strategyLoop api helpers self clusteringAlgorithms sel c = Flow.stop sel1 c1) →
          (sel1.bestReclusterListName = sel.bestReclusterListName ∨
              ∃ name, ClientEvent.runClusteringAlgorithm name STATUS_CODE_SUCCESS
                sel1.bestReclusterListName ∈ events) ∧
            (sel1.bestGuessListName = sel.bestGuessListName ∨
              ∃ name, ClientEvent.runClusteringAlgorithm name STATUS_CODE_SUCCESS
                sel1.bestGuessListName ∈ events) := by
  induction clusteringAlgorithms generalizing sel c with
  | nil =>
    refine ⟨[], by simp [strategyLoop, Flow.state], by simp, ?_⟩
    intro sel1 c1 h
    simp only [strategyLoop] at h
    rcases h with h | h
    · injection h with h1 h2
      subst h1
      exact ⟨Or.inl rfl, Or.inl rfl⟩
    · cases h
  | cons clusteringAlgorithmName rest ih =>
    obtain ⟨events, htrace, hkind, hnames⟩ :=
      strategyIteration_events api helpers self clusteringAlgorithmName sel c
    simp only [strategyLoop]
    cases hiter : strategyIteration api helpers self clusteringAlgorithmName sel c with
    | returned statusCode c2 =>
      rw [hiter] at htrace
      refine ⟨events, htrace, hkind, ?_⟩
      intro sel1 c1 h
      rcases h with h | h <;> cases h
    | stop sel2 c2 =>
      rw [hiter] at htrace
      refine ⟨events, htrace, hkind, ?_⟩
      intro sel1 c1 h
      rcases h with h | h
      · cases h
      · injection h with h1 h2
        subst h1 h2
        exact hnames sel2 c2 (Or.inr hiter)
    | next sel2 c2 =>
      rw [hiter] at htrace
      obtain ⟨more, htrace2, hkind2, hnames2⟩ := ih sel2 c2
      have htrace3 : c2.trace = c.trace ++ events := htrace
      refine ⟨events ++ more, ?_, ?_, ?_⟩
      · rw [htrace2, htrace3, List.append_assoc]
      · intro event hevent
        rcases List.mem_append.1 hevent with hevent | hevent
        · exact hkind event hevent
        · exact hkind2 event hevent
      · intro sel1 c1 h
        obtain ⟨hbest, hguess⟩ := hnames sel2 c2 (Or.inl hiter)
        obtain ⟨hbest2, hguess2⟩ := hnames2 sel1 c1 h
        refine ⟨?_, ?_⟩
        · rcases hbest2 with hbest2 | ⟨name, hbest2⟩
          · rw [hbest2]
            rcases hbest with hbest | ⟨name, hbest⟩
            · exact Or.inl hbest
            · exact Or.inr ⟨name, List.mem_append_left _ hbest⟩
          · exact Or.inr ⟨name, List.mem_append_right _ hbest2⟩
        · rcases hguess2 with hguess2 | ⟨name, hguess2⟩
          · rw [hguess2]
            rcases hguess with hguess | ⟨name, hguess⟩
            · exact Or.inl hguess
            · exact Or.inr ⟨name, List.mem_append_left _ hguess⟩
          · exact Or.inr ⟨name, List.mem_append_right _ hguess2⟩

/-- The events the forced clustering step adds are calls of `RunClusteringAlgorithm`, and the
best list name it leaves is the one before it or a name returned by a successful call of
`RunClusteringAlgorithm` among these events. -/
theorem forcedClustering_events {W : Type} (api : PandoraContentApi W)
    (helpers : ReclusterHelpers W) (self : ResolveTrackAssociationsAlg) (chi : ℚ)
    (sel : Selection) (bestReclusterListName originalClustersListName : String)
    (c : ClientState W) :
    ∃ events,
      (forcedClustering api helpers self chi sel bestReclusterListName
          originalClustersListName c).state.trace = c.trace ++ events ∧
        (∀ event ∈ events, event.isClustering = true) ∧
        ∀ best c1,
          (forcedClustering api helpers self chi sel bestReclusterListName
              originalClustersListName c = Flow.next best c1 ∨
            forcedClustering api helpers self chi sel bestReclusterListName
              originalClustersListName c = Flow.stop best c1) →
          best = bestReclusterListName ∨
            ∃ name, ClientEvent.runClusteringAlgorithm name STATUS_CODE_SUCCESS best ∈
              events := by
  by_cases hrun : self.m_shouldUseForcedClustering = true ∧
      (bestReclusterListName = originalClustersListName ∨
        sel.bestReclusterChi > self.m_minChiForForcedClustering)
  · rw [forcedClustering_run api helpers self chi sel bestReclusterListName
      originalClustersListName c hrun]
    dsimp only
    refine ⟨[ClientEvent.runClusteringAlgorithm self.m_forcedClusteringAlgorithmName
      (api.RunClusteringAlgorithm self.address self.m_forcedClusteringAlgorithmName ""
        c.world).1
      (api.RunClusteringAlgorithm self.address self.m_forcedClusteringAlgorithmName ""
        c.world).2.2.1], ?_, ?_, ?_⟩
    · split
      · rfl
      · split
        · rfl
        · split <;> rfl
    · intro event hevent
      simp only [List.mem_singleton] at hevent
      subst hevent
      rfl
    · intro best c1 h
      split at h
      · rcases h with h | h <;> cases h
      · rename_i h1
        split at h
        · rcases h with h | h <;> cases h
        · split at h
          · rcases h with h | h
            · injection h with hbest hstate
              subst hbest
              refine Or.inr ⟨self.m_forcedClusteringAlgorithmName, ?_⟩
              rw [not_not.1 h1]
              simp
            · cases h
          · rcases h with h | h
            · injection h with hbest hstate
              exact Or.inl hbest.symm
            · cases h
  · rw [forcedClustering_not_run api helpers self chi sel bestReclusterListName
      originalClustersListName c hrun]
    refine ⟨[], by simp [Flow.state], by simp, ?_⟩
    intro best c1 h
    rcases h with h | h
    · injection h with hbest hstate
      exact Or.inl hbest.symm
    · cases h

/-- The list name chosen after the strategy loop is the original one, or a list name of the
selection that is not empty. -/
theorem chooseReclusterList_cases (self : ResolveTrackAssociationsAlg) (sel : Selection)
    (originalClustersListName : String) :
    chooseReclusterList self sel originalClustersListName = originalClustersListName ∨
      (chooseReclusterList self sel originalClustersListName = sel.bestReclusterListName ∧
        sel.bestReclusterListName ≠ "") ∨
      (chooseReclusterList self sel originalClustersListName = sel.bestGuessListName ∧
        sel.bestGuessListName ≠ "") := by
  unfold chooseReclusterList
  dsimp only
  split
  · split
    · exact Or.inl rfl
    · rename_i h
      exact Or.inr (Or.inr ⟨rfl, h⟩)
  · split
    · exact Or.inl rfl
    · rename_i h
      exact Or.inr (Or.inl ⟨rfl, h⟩)

/-- One iteration of the seed loop, by the way it ends: the seed is skipped and nothing is
called; or reclustering begins for the seed and the clusters of `reclusterCandidates`, and
either `Run()` returns before `EndReclustering`, or `EndReclustering` is called for a list
name that is the original one or was returned by a successful call of
`RunClusteringAlgorithm` since, with the working vector tidied for that name. -/
theorem seedIteration_cases {W : Type} (api : PandoraContentApi W)
    (helpers : ReclusterHelpers W) (self : ResolveTrackAssociationsAlg) (i : Nat)
    (clusterVector : ClusterVector) (c : ClientState W) :
    seedIteration api helpers self i clusterVector c = Flow.next clusterVector c ∨
      ∃ pParentCluster middle,
        clusterVector.getD i none = some pParentCluster ∧
          (∀ event ∈ middle, event.isClustering = true) ∧
          ((∃ statusCode c1,
              seedIteration api helpers self i clusterVector c = Flow.returned statusCode c1 ∧
                c1.trace = c.trace ++
                  ClientEvent.initializeReclustering
                    (helpers.GetAssociatedTrackList c.world pParentCluster)
                    (reclusterCandidates helpers self c.world clusterVector pParentCluster i).1
                    (api.InitializeReclustering self.address
                      (helpers.GetAssociatedTrackList c.world pParentCluster)
                      (reclusterCandidates helpers self c.world clusterVector pParentCluster
                        i).1 "" c.world).2.1 :: middle) ∨
            ∃ best c1,
              (best = (api.InitializeReclustering self.address
                    (helpers.GetAssociatedTrackList c.world pParentCluster)
                    (reclusterCandidates helpers self c.world clusterVector pParentCluster
                      i).1 "" c.world).2.1 ∨
                  ∃ name, ClientEvent.runClusteringAlgorithm name STATUS_CODE_SUCCESS best ∈
                    middle) ∧
                c1.trace = c.trace ++
                  (ClientEvent.initializeReclustering
                    (helpers.GetAssociatedTrackList c.world pParentCluster)
                    (reclusterCandidates helpers self c.world clusterVector pParentCluster i).1
                    (api.InitializeReclustering self.address
                      (helpers.GetAssociatedTrackList c.world pParentCluster)
                      (reclusterCandidates helpers self c.world clusterVector pParentCluster
                        i).1 "" c.world).2.1 :: middle ++
                    [ClientEvent.endReclustering best
                      (tidyClusterVector best
                        (api.InitializeReclustering self.address
                          (helpers.GetAssociatedTrackList c.world pParentCluster)
                          (reclusterCandidates helpers self c.world clusterVector
                            pParentCluster i).1 "" c.world).2.1
                        (reclusterCandidates helpers self c.world clusterVector pParentCluster
                          i).2 clusterVector)]) ∧
                (seedIteration api helpers self i clusterVector c =
                    Flow.next
                      (tidyClusterVector best
                        (api.InitializeReclustering self.address
                          (helpers.GetAssociatedTrackList c.world pParentCluster)
                          (reclusterCandidates helpers self c.world clusterVector
                            pParentCluster i).1 "" c.world).2.1
                        (reclusterCandidates helpers self c.world clusterVector pParentCluster
                          i).2 clusterVector) c1 ∨
                  ∃ statusCode,
                    seedIteration api helpers self i clusterVector c =
                      Flow.returned statusCode c1)) := by
  unfold seedIteration
  cases hget : clusterVector.getD i none with
  | none => exact Or.inl rfl
  | some pParentCluster =>
    dsimp only
    split
    · exact Or.inl rfl
    split
    · exact Or.inl rfl
    split
    · exact Or.inl rfl
    right
    refine ⟨pParentCluster, ?_⟩
    generalize reclusterCandidates helpers self c.world clusterVector pParentCluster i = cands
    generalize helpers.GetTrackClusterCompatibility c.world pParentCluster
      (helpers.GetAssociatedTrackList c.world pParentCluster) = chi
    generalize helpers.GetAssociatedTrackList c.world pParentCluster = tracks
    generalize api.InitializeReclustering self.address tracks cands.1 "" c.world = r1
    obtain ⟨status1, orig, world1⟩ := r1
    dsimp only
    split
    · exact ⟨[], rfl, by simp, Or.inl ⟨_, _, rfl, rfl⟩⟩
    · have hevents := strategyLoop_events api helpers self self.m_clusteringAlgorithms
        (initialSelection chi)
        { world := world1, minChi2 := c.minChi2,
          trace := c.trace ++ [ClientEvent.initializeReclustering tracks cands.1 orig] }
      generalize strategyLoop api helpers self self.m_clusteringAlgorithms
        (initialSelection chi)
        { world := world1, minChi2 := c.minChi2,
          trace := c.trace ++ [ClientEvent.initializeReclustering tracks cands.1 orig] } =
        loop at hevents ⊢
      obtain ⟨events, htrace, hkind, hnames⟩ := hevents
      have hchosen : ∀ sel c2, (loop = Flow.next sel c2 ∨ loop = Flow.stop sel c2) →
          chooseReclusterList self sel orig = orig ∨
            ∃ name, ClientEvent.runClusteringAlgorithm name STATUS_CODE_SUCCESS
              (chooseReclusterList self sel orig) ∈ events := by
        intro sel c2 hloop
        obtain ⟨hbest, hguess⟩ := hnames sel c2 hloop
        rcases chooseReclusterList_cases self sel orig with h | ⟨h, hne⟩ | ⟨h, hne⟩
        · exact Or.inl h
        · rcases hbest with hbest | hbest
          · exact absurd hbest hne
          · exact Or.inr (h ▸ hbest)
        · rcases hguess with hguess | hguess
          · exact absurd hguess hne
          · exact Or.inr (h ▸ hguess)
      have hend : ∀ sel c2, (loop = Flow.next sel c2 ∨ loop = Flow.stop sel c2) →
          ∀ forced, forced = forcedClustering api helpers self chi sel
            (chooseReclusterList self sel orig) orig c2 →
          ∃ more, forced.state.trace = c2.trace ++ more ∧
            (∀ event ∈ more, event.isClustering = true) ∧
            ∀ best c3, (forced = Flow.next best c3 ∨ forced = Flow.stop best c3) →
              best = orig ∨
                ∃ name, ClientEvent.runClusteringAlgorithm name STATUS_CODE_SUCCESS best ∈
                  events ++ more := by
        intro sel c2 hloop forced hforced
        obtain ⟨more, htrace2, hkind2, hnames2⟩ := forcedClustering_events api helpers self chi
          sel (chooseReclusterList self sel orig) orig c2
        rw [← hforced] at htrace2 hnames2
        refine ⟨more, htrace2, hkind2, ?_⟩
        intro best c3 hbest
        rcases hnames2 best c3 hbest with h | ⟨name, h⟩
        · rcases hchosen sel c2 hloop with h2 | ⟨name, h2⟩
          · exact Or.inl (h.trans h2)
          · exact Or.inr ⟨name, List.mem_append_left _ (h ▸ h2)⟩
        · exact Or.inr ⟨name, List.mem_append_right _ h⟩
      cases loop with
      | returned statusCode c2 =>
        exact ⟨events, rfl, hkind, Or.inl ⟨statusCode, c2, rfl, by
          simpa [Flow.state] using htrace⟩⟩
      | next sel c2 =>
        have htrace1 : c2.trace =
            c.trace ++ [ClientEvent.initializeReclustering tracks cands.1 orig] ++ events :=
          htrace
        obtain ⟨more, htrace2, hkind2, hnames2⟩ := hend sel c2 (Or.inl rfl) _ rfl
        dsimp only
        generalize forcedClustering api helpers self chi sel
          (chooseReclusterList self sel orig) orig c2 = forced at htrace2 hnames2 ⊢
        have hkind3 : ∀ event ∈ events ++ more, event.isClustering = true := by
          intro event hevent
          rcases List.mem_append.1 hevent with hevent | hevent
          · exact hkind event hevent
          · exact hkind2 event hevent
        cases forced with
        | returned statusCode c3 =>
          refine ⟨events ++ more, rfl, hkind3, Or.inl ⟨statusCode, c3, rfl, ?_⟩⟩
          have htrace3 : c3.trace = c2.trace ++ more := htrace2
          rw [htrace3, htrace1]
          simp
        | next best c3 =>
          have htrace3 : c3.trace = c2.trace ++ more := htrace2
          refine ⟨events ++ more, rfl, hkind3, Or.inr ⟨best,
            { c3 with
              world := (api.EndReclustering self.address best c3.world).2
              trace := c3.trace ++
                [ClientEvent.endReclustering best
                  (tidyClusterVector best orig cands.2 clusterVector)] },
            hnames2 best c3 (Or.inl rfl), ?_, ?_⟩⟩
          · dsimp only
            rw [htrace3, htrace1]
            simp
          · dsimp only
            split
            · exact Or.inr ⟨_, rfl⟩
            · exact Or.inl rfl
        | stop best c3 =>
          have htrace3 : c3.trace = c2.trace ++ more := htrace2
          refine ⟨events ++ more, rfl, hkind3, Or.inr ⟨best,
            { c3 with
              world := (api.EndReclustering self.address best c3.world).2
              trace := c3.trace ++
                [ClientEvent.endReclustering best
                  (tidyClusterVector best orig cands.2 clusterVector)] },
            hnames2 best c3 (Or.inr rfl), ?_, ?_⟩⟩
          · dsimp only
            rw [htrace3, htrace1]
            simp
          · dsimp only
            split
            · exact Or.inr ⟨_, rfl⟩
            · exact Or.inl rfl
      | stop sel c2 =>
        have htrace1 : c2.trace =
            c.trace ++ [ClientEvent.initializeReclustering tracks cands.1 orig] ++ events :=
          htrace
        obtain ⟨more, htrace2, hkind2, hnames2⟩ := hend sel c2 (Or.inr rfl) _ rfl
        dsimp only
        generalize forcedClustering api helpers self chi sel
          (chooseReclusterList self sel orig) orig c2 = forced at htrace2 hnames2 ⊢
        have hkind3 : ∀ event ∈ events ++ more, event.isClustering = true := by
          intro event hevent
          rcases List.mem_append.1 hevent with hevent | hevent
          · exact hkind event hevent
          · exact hkind2 event hevent
        cases forced with
        | returned statusCode c3 =>
          refine ⟨events ++ more, rfl, hkind3, Or.inl ⟨statusCode, c3, rfl, ?_⟩⟩
          have htrace3 : c3.trace = c2.trace ++ more := htrace2
          rw [htrace3, htrace1]
          simp
        | next best c3 =>
          have htrace3 : c3.trace = c2.trace ++ more := htrace2
          refine ⟨events ++ more, rfl, hkind3, Or.inr ⟨best,
            { c3 with
              world := (api.EndReclustering self.address best c3.world).2
              trace := c3.trace ++
                [ClientEvent.endReclustering best
                  (tidyClusterVector best orig cands.2 clusterVector)] },
            hnames2 best c3 (Or.inl rfl), ?_, ?_⟩⟩
          · dsimp only
            rw [htrace3, htrace1]
            simp
          · dsimp only
            split
            · exact Or.inr ⟨_, rfl⟩
            · exact Or.inl rfl
        | stop best c3 =>
          have htrace3 : c3.trace = c2.trace ++ more := htrace2
          refine ⟨events ++ more, rfl, hkind3, Or.inr ⟨best,
            { c3 with
              world := (api.EndReclustering self.address best c3.world).2
              trace := c3.trace ++
                [ClientEvent.endReclustering best
                  (tidyClusterVector best orig cands.2 clusterVector)] },
            hnames2 best c3 (Or.inr rfl), ?_, ?_⟩⟩
          · dsimp only
            rw [htrace3, htrace1]
            simp
          · dsimp only
            split
            · exact Or.inr ⟨_, rfl⟩
            · exact Or.inl rfl

/-- The events of the state a seed iteration leaves are those before it followed by those it
added. -/
theorem seedIteration_trace {W : Type} (api : PandoraContentApi W)
    (helpers : ReclusterHelpers W) (self : ResolveTrackAssociationsAlg) (i : Nat)
    (clusterVector : ClusterVector) (c : ClientState W) :
    (seedIteration api helpers self i clusterVector c).state.trace =
      c.trace ++ eventsSince c (seedIteration api helpers self i clusterVector c) := by
  have h : ∃ events,
      (seedIteration api helpers self i clusterVector c).state.trace = c.trace ++ events := by
    rcases seedIteration_cases api helpers self i clusterVector c with h |
      ⟨pParentCluster, middle, -, -, ⟨statusCode, c1, h, htrace⟩ |
        ⟨best, c1, -, htrace, h | ⟨statusCode, h⟩⟩⟩
    · exact ⟨[], by rw [h]; simp [Flow.state]⟩
    · exact ⟨_, by rw [h]; exact htrace⟩
    · exact ⟨_, by rw [h]; exact htrace⟩
    · exact ⟨_, by rw [h]; exact htrace⟩
  obtain ⟨events, h⟩ := h
  rw [eventsSince_eq c _ events h, h]

/-- The events a seed iteration adds: none when the seed is skipped; otherwise the call of
`InitializeReclustering` for the seed and the clusters of `reclusterCandidates`, calls of
`RunClusteringAlgorithm` and tests of candidates, and, unless `Run()` returned before, the
call of `EndReclustering` for a list name that is the original one or was returned by a
successful call of `RunClusteringAlgorithm`, with the working vector tidied for that name,
which is the vector the iteration leaves. -/
theorem seedIteration_events {W : Type} (api : PandoraContentApi W)
    (helpers : ReclusterHelpers W) (self : ResolveTrackAssociationsAlg) (i : Nat)
    (clusterVector : ClusterVector) (c : ClientState W) :
    (eventsSince c (seedIteration api helpers self i clusterVector c) = [] ∧
        ∀ vector c1, seedIteration api helpers self i clusterVector c = Flow.next vector c1 →
          vector = clusterVector) ∨
      ∃ pParentCluster middle,
        clusterVector.getD i none = some pParentCluster ∧
          (∀ event ∈ middle, event.isClustering = true) ∧
          ((eventsSince c (seedIteration api helpers self i clusterVector c) =
                ClientEvent.initializeReclustering
                  (helpers.GetAssociatedTrackList c.world pParentCluster)
                  (reclusterCandidates helpers self c.world clusterVector pParentCluster i).1
                  (api.InitializeReclustering self.address
                    (helpers.GetAssociatedTrackList c.world pParentCluster)
                    (reclusterCandidates helpers self c.world clusterVector pParentCluster
                      i).1 "" c.world).2.1 :: middle ∧
              ∀ vector c1,
                seedIteration api helpers self i clusterVector c ≠ Flow.next vector c1) ∨
            ∃ best,
              (best = (api.InitializeReclustering self.address
                    (helpers.GetAssociatedTrackList c.world pParentCluster)
                    (reclusterCandidates helpers self c.world clusterVector pParentCluster
                      i).1 "" c.world).2.1 ∨
                  ∃ name, ClientEvent.runClusteringAlgorithm name STATUS_CODE_SUCCESS best ∈
                    middle) ∧
                eventsSince c (seedIteration api helpers self i clusterVector c) =
                  ClientEvent.initializeReclustering
                    (helpers.GetAssociatedTrackList c.world pParentCluster)
                    (reclusterCandidates helpers self c.world clusterVector pParentCluster i).1
                    (api.InitializeReclustering self.address
                      (helpers.GetAssociatedTrackList c.world pParentCluster)
                      (reclusterCandidates helpers self c.world clusterVector pParentCluster
                        i).1 "" c.world).2.1 :: middle ++
                    [ClientEvent.endReclustering best
                      (tidyClusterVector best
                        (api.InitializeReclustering self.address
                          (helpers.GetAssociatedTrackList c.world pParentCluster)
                          (reclusterCandidates helpers self c.world clusterVector
                            pParentCluster i).1 "" c.world).2.1
                        (reclusterCandidates helpers self c.world clusterVector pParentCluster
                          i).2 clusterVector)] ∧
                ∀ vector c1,
                  seedIteration api helpers self i clusterVector c = Flow.next vector c1 →
                  vector = tidyClusterVector best
                    (api.InitializeReclustering self.address
                      (helpers.GetAssociatedTrackList c.world pParentCluster)
                      (reclusterCandidates helpers self c.world clusterVector pParentCluster
                        i).1 "" c.world).2.1
                    (reclusterCandidates helpers self c.world clusterVector pParentCluster
                      i).2 clusterVector) := by
  rcases seedIteration_cases api helpers self i clusterVector c with h |
    ⟨pParentCluster, middle, hget, hkind, ⟨statusCode, c1, h, htrace⟩ |
      ⟨best, c1, hbest, htrace, h⟩⟩
  · left
    rw [h]
    refine ⟨eventsSince_eq c _ [] (by simp [Flow.state]), ?_⟩
    intro vector c1 hflow
    injection hflow with h1 h2
    exact h1.symm
  · right
    refine ⟨pParentCluster, middle, hget, hkind, Or.inl ?_⟩
    rw [h]
    refine ⟨eventsSince_eq c _ _ htrace, ?_⟩
    intro vector c2 hflow
    cases hflow
  · right
    refine ⟨pParentCluster, middle, hget, hkind, Or.inr ⟨best, hbest, ?_⟩⟩
    rcases h with h | ⟨statusCode, h⟩
    · rw [h]
      refine ⟨eventsSince_eq c _ _ htrace, ?_⟩
      intro vector c2 hflow
      injection hflow with h1 h2
      exact h1.symm
    · rw [h]
      refine ⟨eventsSince_eq c _ _ htrace, ?_⟩
      intro vector c2 hflow
      cases hflow

/-- C17: after the strategy loop, where the selection holds the list name of the ideal
candidate (empty when none was found) and of the best guess (empty when none was recorded),
the chosen list name is the ideal candidate's if there is one; otherwise the best guess's if
best guesses are enabled and there is one; otherwise the original list name.  Consequently,
in a seed iteration in which the list names the content API returned are not empty, the name
passed to `EndReclustering` is not empty and is the original list name, returned by
`InitializeReclustering` in this iteration, or a list name returned by a successful call of
`RunClusteringAlgorithm` in this iteration, that of the forced clustering algorithm
included. -/
theorem chooseReclusterList_rule {W : Type} (api : PandoraContentApi W)
    (helpers : ReclusterHelpers W) (self : ResolveTrackAssociationsAlg) (i : Nat)
    (clusterVector : ClusterVector) (c : ClientState W) (sel : Selection)
    (originalClustersListName : String)
    (hnames : ∀ event ∈ eventsSince c (seedIteration api helpers self i clusterVector c),
      event.returnsListName = true) :
    (sel.bestReclusterListName ≠ "" →
        chooseReclusterList self sel originalClustersListName = sel.bestReclusterListName) ∧
      (sel.bestReclusterListName = "" → self.m_shouldUseBestGuessCandidates = true →
        sel.bestGuessListName ≠ "" →
        chooseReclusterList self sel originalClustersListName = sel.bestGuessListName) ∧
      (sel.bestReclusterListName = "" →
        self.m_shouldUseBestGuessCandidates = false ∨ sel.bestGuessListName = "" →
        chooseReclusterList self sel originalClustersListName = originalClustersListName) ∧
      (seedIteration api helpers self i clusterVector c).state.trace =
        c.trace ++ eventsSince c (seedIteration api helpers self i clusterVector c) ∧
      ∀ best tidied,
        ClientEvent.endReclustering best tidied ∈
          eventsSince c (seedIteration api helpers self i clusterVector c) →
        best ≠ "" ∧
          ((∃ tracks clusters, ClientEvent.initializeReclustering tracks clusters best ∈
              eventsSince c (seedIteration api helpers self i clusterVector c)) ∨
            ∃ name, ClientEvent.runClusteringAlgorithm name STATUS_CODE_SUCCESS best ∈
              eventsSince c (seedIteration api helpers self i clusterVector c)) := by
  refine ⟨?_, ?_, ?_, seedIteration_trace api helpers self i clusterVector c, ?_⟩
  · intro h
    simp [chooseReclusterList, h]
  · intro h1 h2 h3
    simp [chooseReclusterList, h1, h2, h3]
  · intro h1 h2
    rcases h2 with h2 | h2
    · simp [chooseReclusterList, h1, h2]
    · simp [chooseReclusterList, h1, h2]
  · intro best tidied hend
    have horigin : (∃ tracks clusters, ClientEvent.initializeReclustering tracks clusters best ∈
          eventsSince c (seedIteration api helpers self i clusterVector c)) ∨
        ∃ name, ClientEvent.runClusteringAlgorithm name STATUS_CODE_SUCCESS best ∈
          eventsSince c (seedIteration api helpers self i clusterVector c) := by
      rcases seedIteration_events api helpers self i clusterVector c with ⟨hevents, -⟩ |
        ⟨pParentCluster, middle, -, hkind, ⟨hevents, -⟩ | ⟨best1, hbest, hevents, -⟩⟩
      · rw [hevents] at hend
        cases hend
      · rw [hevents] at hend
        rcases List.mem_cons.1 hend with hend | hend
        · cases hend
        · have := hkind _ hend
          cases this
      · rw [hevents] at hend ⊢
        have hlast : best = best1 := by
          rcases List.mem_cons.1 hend with hend | hend
          · cases hend
          · rcases List.mem_append.1 hend with hend | hend
            · have := hkind _ hend
              cases this
            · simp only [List.mem_singleton] at hend
              injection hend
        subst hlast
        rcases hbest with hbest | ⟨name, hbest⟩
        · refine Or.inl ⟨helpers.GetAssociatedTrackList c.world pParentCluster,
            (reclusterCandidates helpers self c.world clusterVector pParentCluster i).1, ?_⟩
          rw [← hbest]
          simp
        · refine Or.inr ⟨name, ?_⟩
          simp [hbest]
    refine ⟨?_, horigin⟩
    rcases horigin with ⟨tracks, clusters, h⟩ | ⟨name, h⟩
    · simpa [ClientEvent.returnsListName] using hnames _ h
    · simpa [ClientEvent.returnsListName] using hnames _ h

theorem chooseReclusterList_rule_witness :
    (∀ event ∈ eventsSince threeCandidatesState
        (seedIteration scriptedApi scriptedHelpers defaultAlg 0 scriptedVector
          threeCandidatesState),
      event.returnsListName = true) ∧
      ClientEvent.endReclustering "List2" [none, none, some cluster3] ∈
        eventsSince threeCandidatesState
          (seedIteration scriptedApi scriptedHelpers defaultAlg 0 scriptedVector
            threeCandidatesState) ∧
      "List2" ≠ "" ∧
      ((∃ tracks clusters, ClientEvent.initializeReclustering tracks clusters "List2" ∈
          eventsSince threeCandidatesState
            (seedIteration scriptedApi scriptedHelpers defaultAlg 0 scriptedVector
              threeCandidatesState)) ∨
        ∃ name, ClientEvent.runClusteringAlgorithm name STATUS_CODE_SUCCESS "List2" ∈
          eventsSince threeCandidatesState
            (seedIteration scriptedApi scriptedHelpers defaultAlg 0 scriptedVector
              threeCandidatesState)) :=
  ⟨by decide!, by decide!,
    (chooseReclusterList_rule scriptedApi scriptedHelpers defaultAlg 0 scriptedVector
      threeCandidatesState guessFinalSelection "Original" (by decide!)).2.2.2.2 "List2"
      [none, none, some cluster3] (by decide!)⟩

/-! ## Tidying the working vector of `ResolveTrackAssociationsAlg::Run` -/

theorem set_none_getD (clusterVector : ClusterVector) (index k : Nat) :
    (clusterVector.set index none).getD k none =
      if index = k then none else clusterVector.getD k none := by
  simp only [List.getD_eq_getElem?_getD, List.getElem?_set]
  split
  · split <;> rfl
  · rfl

/-- A slot of the vector after the slots of some indices have been set to null: null when its
index is among them, unchanged otherwise. -/
theorem foldl_set_none_getD (indices : List Nat) (clusterVector : ClusterVector) (k : Nat) :
    (indices.foldl (fun vector index => vector.set index none) clusterVector).getD k none =
      if k ∈ indices then none else clusterVector.getD k none := by
  induction indices generalizing clusterVector with
  | nil => simp
  | cons index rest ih =>
    rw [List.foldl_cons, ih, set_none_getD]
    by_cases h1 : k ∈ rest
    · simp [h1]
    · by_cases h2 : index = k
      · simp [h2]
      · have h3 : ¬k = index := fun h => h2 h.symm
        simp [h1, h2, h3]

theorem getD_of_mem (clusterVector : ClusterVector) (cluster : Cluster)
    (h : some cluster ∈ clusterVector) : ∃ k, clusterVector.getD k none = some cluster := by
  obtain ⟨k, hk⟩ := List.getElem?_of_mem h
  exact ⟨k, by rw [List.getD_eq_getElem?_getD, hk]; rfl⟩

theorem mem_of_getD (clusterVector : ClusterVector) (cluster : Cluster) (k : Nat)
    (h : clusterVector.getD k none = some cluster) : some cluster ∈ clusterVector := by
  rw [List.getD_eq_getElem?_getD] at h
  cases hk : clusterVector[k]? with
  | none =>
    rw [hk] at h
    cases h
  | some entry =>
    rw [hk] at h
    have hentry : entry = some cluster := h
    subst hentry
    exact List.getElem?_mem hk

/-- Tidying leaves in a slot the cluster it held or null. -/
theorem tidyClusterVector_getD (bestReclusterListName originalClustersListName : String)
    (originalClusterIndices : List Nat) (clusterVector : ClusterVector) (k : Nat)
    (cluster : Cluster)
    (h : (tidyClusterVector bestReclusterListName originalClustersListName
      originalClusterIndices clusterVector).getD k none = some cluster) :
    clusterVector.getD k none = some cluster ∧
      (bestReclusterListName ≠ originalClustersListName → k ∉ originalClusterIndices) := by
  unfold tidyClusterVector at h
  split at h
  · rename_i hne
    rw [foldl_set_none_getD] at h
    split at h
    · cases h
    · rename_i hk
      exact ⟨h, fun _ => hk⟩
  · rename_i heq
    exact ⟨h, fun hne => absurd hne heq⟩

/-- Every cluster of the recluster cluster list, with the slots gathered so far, is held by a
slot whose index is among the original cluster indices: one iteration of the daughter loop
keeps it so. -/
theorem daughterIteration_indices {W : Type} (helpers : ReclusterHelpers W)
    (self : ResolveTrackAssociationsAlg) (w : W) (clusterVector : ClusterVector)
    (pParentCluster : Cluster) (lists : ClusterList × List Nat) (j : Nat)
    (h : ∀ cluster ∈ lists.1, ∃ k ∈ lists.2, clusterVector.getD k none = some cluster) :
    ∀ cluster ∈ (daughterIteration helpers self w clusterVector pParentCluster lists j).1,
      ∃ k ∈ (daughterIteration helpers self w clusterVector pParentCluster lists j).2,
        clusterVector.getD k none = some cluster := by
  unfold daughterIteration
  split
  · exact h
  · rename_i pDaughterCluster hget
    split
    · exact h
    · split
      · intro cluster hcluster
        dsimp only at hcluster ⊢
        have hcases : cluster ∈ lists.1 ∨ cluster = pDaughterCluster := by
          split at hcluster
          · exact Or.inl hcluster
          · rcases List.mem_append.1 hcluster with h1 | h1
            · exact Or.inl h1
            · exact Or.inr (List.mem_singleton.1 h1)
        rcases hcases with h1 | h1
        · obtain ⟨k, hk, hslot⟩ := h cluster h1
          exact ⟨k, List.mem_append_left _ hk, hslot⟩
        · subst h1
          exact ⟨j, List.mem_append_right _ (List.mem_singleton.2 rfl), hget⟩
      · exact h

/-- Every cluster passed to `InitializeReclustering` is held by a slot of the working vector
whose index is among the original cluster indices. -/
theorem reclusterCandidates_indices {W : Type} (helpers : ReclusterHelpers W)
    (self : ResolveTrackAssociationsAlg) (w : W) (clusterVector : ClusterVector)
    (pParentCluster : Cluster) (i : Nat)
    (hget : clusterVector.getD i none = some pParentCluster) :
    ∀ cluster ∈ (reclusterCandidates helpers self w clusterVector pParentCluster i).1,
      ∃ k ∈ (reclusterCandidates helpers self w clusterVector pParentCluster i).2,
        clusterVector.getD k none = some cluster := by
  unfold reclusterCandidates
  have hfold : ∀ (js : List Nat) (lists : ClusterList × List Nat),
      (∀ cluster ∈ lists.1, ∃ k ∈ lists.2, clusterVector.getD k none = some cluster) →
      ∀ cluster ∈ (js.foldl (daughterIteration helpers self w clusterVector pParentCluster)
          lists).1,
        ∃ k ∈ (js.foldl (daughterIteration helpers self w clusterVector pParentCluster)
            lists).2,
          clusterVector.getD k none = some cluster := by
    intro js
    induction js with
    | nil => exact fun lists h => h
    | cons j rest ih =>
      intro lists h
      rw [List.foldl_cons]
      exact ih _ (daughterIteration_indices helpers self w clusterVector pParentCluster lists j h)
  apply hfold
  intro cluster hcluster
  rw [List.mem_singleton.1 hcluster]
  exact ⟨i, List.mem_singleton.2 rfl, hget⟩

theorem lt_length_of_getD (clusterVector : ClusterVector) (cluster : Cluster) (k : Nat)
    (h : clusterVector.getD k none = some cluster) : k < clusterVector.length := by
  by_contra hk
  rw [List.getD_eq_default _ _ (Nat.le_of_not_lt hk)] at h
  cases h

/-- The call of `InitializeReclustering` among the events of a seed iteration is the one for
the associated tracks of the seed and the clusters of `reclusterCandidates`. -/
theorem seedIteration_begin {W : Type} (api : PandoraContentApi W)
    (helpers : ReclusterHelpers W) (self : ResolveTrackAssociationsAlg) (i : Nat)
    (clusterVector : ClusterVector) (c : ClientState W) (tracks : TrackList)
    (clusters : ClusterList) (originalClustersListName : String)
    (h : ClientEvent.initializeReclustering tracks clusters originalClustersListName ∈
      eventsSince c (seedIteration api helpers self i clusterVector c)) :
    ∃ pParentCluster,
      clusterVector.getD i none = some pParentCluster ∧
        clusters =
          (reclusterCandidates helpers self c.world clusterVector pParentCluster i).1 ∧
        originalClustersListName =
          (api.InitializeReclustering self.address
            (helpers.GetAssociatedTrackList c.world pParentCluster)
            (reclusterCandidates helpers self c.world clusterVector pParentCluster i).1 ""
            c.world).2.1 := by
  have hhead : ∀ (middle : List ClientEvent) (first : ClientEvent),
      (∀ event ∈ middle, event.isClustering = true) →
      ∀ last : List ClientEvent, (∀ event ∈ last, ∃ best tidied,
        event = ClientEvent.endReclustering best tidied) →
      ClientEvent.initializeReclustering tracks clusters originalClustersListName ∈
        first :: middle ++ last →
      ClientEvent.initializeReclustering tracks clusters originalClustersListName = first := by
    intro middle first hkind last hlast hmem
    rcases List.mem_append.1 hmem with hmem | hmem
    · rcases List.mem_cons.1 hmem with hmem | hmem
      · exact hmem
      · have := hkind _ hmem
        cases this
    · obtain ⟨best, tidied, hevent⟩ := hlast _ hmem
      cases hevent
  rcases seedIteration_events api helpers self i clusterVector c with ⟨hevents, -⟩ |
    ⟨pParentCluster, middle, hget, hkind, ⟨hevents, -⟩ | ⟨best, -, hevents, -⟩⟩
  · rw [hevents] at h
    cases h
  · rw [hevents] at h
    have hfirst := hhead middle _ hkind [] (by simp) (by rw [List.append_nil]; exact h)
    injection hfirst with h1 h2 h3
    exact ⟨pParentCluster, hget, h2, h3⟩
  · rw [hevents] at h
    have hfirst := hhead middle _ hkind _ (by
      intro event hevent
      exact ⟨_, _, List.mem_singleton.1 hevent⟩) h
    injection hfirst with h1 h2 h3
    exact ⟨pParentCluster, hget, h2, h3⟩

/-- The call of `EndReclustering` among the events of a seed iteration is made with the
working vector tidied for the list name passed, which is the vector the iteration leaves. -/
theorem seedIteration_end {W : Type} (api : PandoraContentApi W)
    (helpers : ReclusterHelpers W) (self : ResolveTrackAssociationsAlg) (i : Nat)
    (clusterVector : ClusterVector) (c : ClientState W) (best : String)
    (tidied : ClusterVector)
    (h : ClientEvent.endReclustering best tidied ∈
      eventsSince c (seedIteration api helpers self i clusterVector c)) :
    ∃ pParentCluster,
      clusterVector.getD i none = some pParentCluster ∧
        tidied = tidyClusterVector best
          (api.InitializeReclustering self.address
            (helpers.GetAssociatedTrackList c.world pParentCluster)
            (reclusterCandidates helpers self c.world clusterVector pParentCluster i).1 ""
            c.world).2.1
          (reclusterCandidates helpers self c.world clusterVector pParentCluster i).2
          clusterVector ∧
        ∀ vector c1, seedIteration api helpers self i clusterVector c = Flow.next vector c1 →
          vector = tidied := by
  rcases seedIteration_events api helpers self i clusterVector c with ⟨hevents, -⟩ |
    ⟨pParentCluster, middle, hget, hkind, ⟨hevents, -⟩ | ⟨best1, -, hevents, hvector⟩⟩
  · rw [hevents] at h
    cases h
  · rw [hevents] at h
    rcases List.mem_cons.1 h with h | h
    · cases h
    · have := hkind _ h
      cases this
  · rw [hevents] at h
    have hmem : ∀ first last : ClientEvent,
        (∃ tracks clusters name,
          first = ClientEvent.initializeReclustering tracks clusters name) →
        ClientEvent.endReclustering best tidied ∈ first :: middle ++ [last] →
        ClientEvent.endReclustering best tidied = last := by
      intro first last hfirst h
      rcases List.mem_append.1 h with h | h
      · rcases List.mem_cons.1 h with h | h
        · obtain ⟨tracks, clusters, name, hfirst⟩ := hfirst
          rw [hfirst] at h
          cases h
        · have := hkind _ h
          cases this
      · exact List.mem_singleton.1 h
    have hlast := hmem _ _ ⟨_, _, _, rfl⟩ h
    injection hlast with h1 h2
    subst h1
    refine ⟨pParentCluster, hget, h2, ?_⟩
    intro vector c1 hflow
    rw [h2]
    exact hvector vector c1 hflow

/-- A cluster held by the working vector a seed iteration leaves was held by the vector it
started from. -/
theorem seedIteration_vector {W : Type} (api : PandoraContentApi W)
    (helpers : ReclusterHelpers W) (self : ResolveTrackAssociationsAlg) (i : Nat)
    (clusterVector : ClusterVector) (c : ClientState W) (vector : ClusterVector)
    (c1 : ClientState W)
    (h : seedIteration api helpers self i clusterVector c = Flow.next vector c1 ∨
      seedIteration api helpers self i clusterVector c = Flow.stop vector c1) :
    ∀ cluster, some cluster ∈ vector → some cluster ∈ clusterVector := by
  have htidy : ∀ (best orig : String) (indices : List Nat) (cluster : Cluster),
      some cluster ∈ tidyClusterVector best orig indices clusterVector →
      some cluster ∈ clusterVector := by
    intro best orig indices cluster hmem
    obtain ⟨k, hk⟩ := getD_of_mem _ cluster hmem
    exact mem_of_getD clusterVector cluster k
      (tidyClusterVector_getD best orig indices clusterVector k cluster hk).1
  rcases seedIteration_cases api helpers self i clusterVector c with hflow |
    ⟨pParentCluster, middle, -, -, ⟨statusCode, c2, hflow, -⟩ |
      ⟨best, c2, -, -, hflow | ⟨statusCode, hflow⟩⟩⟩
  · rw [hflow] at h
    rcases h with h | h
    · injection h with h1 h2
      subst h1
      exact fun cluster hmem => hmem
    · cases h
  · rw [hflow] at h
    rcases h with h | h <;> cases h
  · rw [hflow] at h
    rcases h with h | h
    · injection h with h1 h2
      subst h1
      exact fun cluster hmem => htidy _ _ _ cluster hmem
    · cases h
  · rw [hflow] at h
    rcases h with h | h <;> cases h

/-- The clusters passed to `InitializeReclustering` in a seed iteration are held by the
working vector it started from. -/
theorem seedIteration_clusters {W : Type} (api : PandoraContentApi W)
    (helpers : ReclusterHelpers W) (self : ResolveTrackAssociationsAlg) (i : Nat)
    (clusterVector : ClusterVector) (c : ClientState W) (tracks : TrackList)
    (clusters : ClusterList) (originalClustersListName : String)
    (h : ClientEvent.initializeReclustering tracks clusters originalClustersListName ∈
      eventsSince c (seedIteration api helpers self i clusterVector c)) :
    ∀ cluster ∈ clusters, some cluster ∈ clusterVector := by
  obtain ⟨pParentCluster, hget, hclusters, -⟩ :=
    seedIteration_begin api helpers self i clusterVector c tracks clusters
      originalClustersListName h
  intro cluster hcluster
  rw [hclusters] at hcluster
  obtain ⟨k, -, hk⟩ := reclusterCandidates_indices helpers self c.world clusterVector
    pParentCluster i hget cluster hcluster
  exact mem_of_getD clusterVector cluster k hk

/-- The clusters passed to `InitializeReclustering` in the iterations of the seed loop are
held by the working vector the loop started from. -/
theorem seedLoop_clusters {W : Type} (api : PandoraContentApi W)
    (helpers : ReclusterHelpers W) (self : ResolveTrackAssociationsAlg) (indices : List Nat)
    (clusterVector : ClusterVector) (c : ClientState W) :
    ∃ events,
      (seedLoop api helpers self indices clusterVector c).state.trace = c.trace ++ events ∧
        ∀ tracks clusters originalClustersListName,
          ClientEvent.initializeReclustering tracks clusters originalClustersListName ∈
            events →
          ∀ cluster ∈ clusters, some cluster ∈ clusterVector := by
  induction indices generalizing clusterVector c with
  | nil =>
    refine ⟨[], by simp [seedLoop, Flow.state], ?_⟩
    intro tracks clusters name h
    cases h
  | cons i rest ih =>
    have htrace := seedIteration_trace api helpers self i clusterVector c
    have hclusters := seedIteration_clusters api helpers self i clusterVector c
    have hvector := seedIteration_vector api helpers self i clusterVector c
    simp only [seedLoop]
    generalize seedIteration api helpers self i clusterVector c =
      flow at htrace hclusters hvector ⊢
    cases flow with
    | returned statusCode c1 =>
      exact ⟨_, htrace, fun tracks clusters name h => hclusters tracks clusters name h⟩
    | next vector c1 =>
      obtain ⟨more, htrace2, hclusters2⟩ := ih vector c1
      have htrace1 : c1.trace = c.trace ++ eventsSince c (Flow.next vector c1) := htrace
      refine ⟨eventsSince c (Flow.next vector c1) ++ more, ?_, ?_⟩
      · dsimp only
        rw [htrace2, htrace1, List.append_assoc]
      · intro tracks clusters name h cluster hcluster
        rcases List.mem_append.1 h with h | h
        · exact hclusters tracks clusters name h cluster hcluster
        · exact hvector vector c1 (Or.inl rfl) cluster
            (hclusters2 tracks clusters name h cluster hcluster)
    | stop vector c1 =>
      obtain ⟨more, htrace2, hclusters2⟩ := ih vector c1
      have htrace1 : c1.trace = c.trace ++ eventsSince c (Flow.stop vector c1) := htrace
      refine ⟨eventsSince c (Flow.stop vector c1) ++ more, ?_, ?_⟩
      · dsimp only
        rw [htrace2, htrace1, List.append_assoc]
      · intro tracks clusters name h cluster hcluster
        rcases List.mem_append.1 h with h | h
        · exact hclusters tracks clusters name h cluster hcluster
        · exact hvector vector c1 (Or.inr rfl) cluster
            (hclusters2 tracks clusters name h cluster hcluster)

/-- When each cluster occupies at most one slot, the slot of a cluster is determined. -/
theorem distinctSlots_eq (clusterVector : ClusterVector) (h : distinctSlots clusterVector)
    (j k : Nat) (cluster : Cluster) (hj : clusterVector.getD j none = some cluster)
    (hk : clusterVector.getD k none = some cluster) : j = k := by
  rcases h j (lt_length_of_getD clusterVector cluster j hj) k
    (lt_length_of_getD clusterVector cluster k hk) (hj.trans hk.symm) with hnone | heq
  · rw [hj] at hnone
    cases hnone
  · exact heq

/-- C20: in a seed iteration that begins with each cluster in at most one slot of the working
vector, let `InitializeReclustering` be called for `clusters` and return the original list
name, and `EndReclustering` be called for the list name `best` with the working vector being
`tidied` at that call.  If `best` differs from the original list name, no slot of the vector
holds a cluster of `clusters`, the seed and its daughters, any more, and no such cluster is
passed to `InitializeReclustering` in any later iteration of the seed loop; if `best` is the
original list name, the vector is unchanged.  The iteration hands this vector to the next
one. -/
theorem seedIteration_tidies {W : Type} (api : PandoraContentApi W)
    (helpers : ReclusterHelpers W) (self : ResolveTrackAssociationsAlg) (i : Nat)
    (clusterVector : ClusterVector) (c : ClientState W) (tracks : TrackList)
    (clusters : ClusterList) (originalClustersListName best : String)
    (tidied : ClusterVector)
    (hdistinct : distinctSlots clusterVector)
    (hbegin : ClientEvent.initializeReclustering tracks clusters originalClustersListName ∈
      eventsSince c (seedIteration api helpers self i clusterVector c))
    (hend : ClientEvent.endReclustering best tidied ∈
      eventsSince c (seedIteration api helpers self i clusterVector c)) :
    (best ≠ originalClustersListName → ∀ cluster ∈ clusters, some cluster ∉ tidied) ∧
      (best = originalClustersListName → tidied = clusterVector) ∧
      (∀ vector c1, seedIteration api helpers self i clusterVector c = Flow.next vector c1 →
        vector = tidied) ∧
      (best ≠ originalClustersListName →
        ∀ (indices : List Nat) (c1 : ClientState W) (laterTracks : TrackList)
          (laterClusters : ClusterList) (laterName : String),
          ClientEvent.initializeReclustering laterTracks laterClusters laterName ∈
            eventsSince c1 (seedLoop api helpers self indices tidied c1) →
          ∀ cluster ∈ clusters, cluster ∉ laterClusters) := by
  obtain ⟨pParentCluster, hget, hclusters, hname⟩ :=
    seedIteration_begin api helpers self i clusterVector c tracks clusters
      originalClustersListName hbegin
  obtain ⟨pParentCluster1, hget1, htidied, hvector⟩ :=
    seedIteration_end api helpers self i clusterVector c best tidied hend
  have hparent : pParentCluster1 = pParentCluster := by
    rw [hget] at hget1
    injection hget1 with h
    exact h.symm
  subst hparent
  rw [← hname] at htidied
  have hnull : best ≠ originalClustersListName → ∀ cluster ∈ clusters,
      some cluster ∉ tidied := by
    intro hne cluster hcluster hmem
    obtain ⟨k, hk⟩ := getD_of_mem tidied cluster hmem
    rw [htidied] at hk
    obtain ⟨hslot, hindex⟩ := tidyClusterVector_getD _ _ _ _ k cluster hk
    rw [hclusters] at hcluster
    obtain ⟨k1, hk1, hslot1⟩ := reclusterCandidates_indices helpers self c.world clusterVector
      pParentCluster1 i hget cluster hcluster
    have heq := distinctSlots_eq clusterVector hdistinct k k1 cluster hslot hslot1
    rw [heq] at hindex
    exact hindex hne hk1
  refine ⟨hnull, ?_, hvector, ?_⟩
  · intro heq
    rw [htidied, tidyClusterVector, if_neg (not_not.2 heq)]
  · intro hne indices c1 laterTracks laterClusters laterName hlater cluster hcluster hmem
    obtain ⟨events, htrace, hheld⟩ := seedLoop_clusters api helpers self indices tidied c1
    rw [eventsSince_eq c1 _ events htrace] at hlater
    exact hnull hne cluster hcluster
      (hheld laterTracks laterClusters laterName hlater cluster hmem)

theorem seedIteration_tidies_witness :
    distinctSlots scriptedVector ∧
      ClientEvent.initializeReclustering [100] [cluster1, cluster2] "Original" ∈
        eventsSince threeCandidatesState
          (seedIteration scriptedApi scriptedHelpers defaultAlg 0 scriptedVector
            threeCandidatesState) ∧
      ClientEvent.endReclustering "List2" [none, none, some cluster3] ∈
        eventsSince threeCandidatesState
          (seedIteration scriptedApi scriptedHelpers defaultAlg 0 scriptedVector
            threeCandidatesState) ∧
      ("List2" ≠ "Original" →
        ∀ cluster ∈ [cluster1, cluster2], some cluster ∉ [none, none, some cluster3]) :=
  ⟨by decide!, by decide!, by decide!,
    (seedIteration_tidies scriptedApi scriptedHelpers defaultAlg 0 scriptedVector
      threeCandidatesState [100] [cluster1, cluster2] "Original" "List2"
      [none, none, some cluster3] (by decide!) (by decide!) (by decide!)).1⟩

/-- A vector whose slots hold what the slots of another vector hold, or null, has each cluster
in at most one slot when the other has. -/
theorem distinctSlots_of_getD (clusterVector vector : ClusterVector)
    (h : ∀ k cluster, vector.getD k none = some cluster →
      clusterVector.getD k none = some cluster)
    (hdistinct : distinctSlots clusterVector) : distinctSlots vector := by
  intro j _ k _ heq
  cases hj : vector.getD j none with
  | none => exact Or.inl rfl
  | some cluster =>
    right
    have hk : vector.getD k none = some cluster := by rw [← heq, hj]
    exact distinctSlots_eq clusterVector hdistinct j k cluster (h j cluster hj)
      (h k cluster hk)

/-- Each cluster stays in at most one slot of the working vector from one seed iteration to
the next. -/
theorem seedIteration_distinctSlots {W : Type} (api : PandoraContentApi W)
    (helpers : ReclusterHelpers W) (self : ResolveTrackAssociationsAlg) (i : Nat)
    (clusterVector : ClusterVector) (c : ClientState W) (vector : ClusterVector)
    (c1 : ClientState W)
    (h : seedIteration api helpers self i clusterVector c = Flow.next vector c1)
    (hdistinct : distinctSlots clusterVector) : distinctSlots vector := by
  rcases seedIteration_cases api helpers self i clusterVector c with hflow |
    ⟨pParentCluster, middle, -, -, ⟨statusCode, c2, hflow, -⟩ |
      ⟨best, c2, -, -, hflow | ⟨statusCode, hflow⟩⟩⟩
  · rw [hflow] at h
    injection h with h1 h2
    subst h1
    exact hdistinct
  · rw [hflow] at h
    cases h
  · rw [hflow] at h
    injection h with h1 h2
    subst h1
    exact distinctSlots_of_getD clusterVector _
      (fun k cluster hk => (tidyClusterVector_getD _ _ _ _ k cluster hk).1) hdistinct
  · rw [hflow] at h
    cases h

/-- The working vector built from a cluster list without repetition, as the current cluster
list is, has each cluster in one slot. -/
theorem sortedClusterVector_distinctSlots {W : Type} (helpers : ReclusterHelpers W) (w : W)
    (clusterList : ClusterList) (h : clusterList.Nodup) :
    distinctSlots (sortedClusterVector helpers w clusterList) := by
  have hnodup : (sortedClusterVector helpers w clusterList).Nodup := by
    unfold sortedClusterVector
    exact ((List.perm_insertionSort _ clusterList).nodup_iff.2 h).map
      (Option.some_injective Cluster)
  intro j hj k hk heq
  right
  rw [List.getD_eq_getElem _ _ hj, List.getD_eq_getElem _ _ hk] at heq
  exact (List.Nodup.getElem_inj_iff hnodup).1 heq

/-! ## The seed and the lists passed to `InitializeReclustering` -/

/-- The clusters one iteration of the daughter loop leaves in the recluster cluster list:
those it held, and the cluster of slot `j` when it is not the seed, has no associated track
and has more than `MinConeFraction` of its hits in the cone around the seed. -/
theorem daughterIteration_mem {W : Type} (helpers : ReclusterHelpers W)
    (self : ResolveTrackAssociationsAlg) (w : W) (clusterVector : ClusterVector)
    (pParentCluster : Cluster) (lists : ClusterList × List Nat) (j : Nat) (cluster : Cluster) :
    cluster ∈ (daughterIteration helpers self w clusterVector pParentCluster lists j).1 ↔
      cluster ∈ lists.1 ∨
        (clusterVector.getD j none = some cluster ∧ pParentCluster ≠ cluster ∧
          (helpers.GetAssociatedTrackList w cluster).isEmpty = true ∧
          helpers.GetFractionOfHitsInCone w cluster pParentCluster self.m_coneCosineHalfAngle >
            self.m_minConeFraction) := by
  unfold daughterIteration
  cases hget : clusterVector.getD j none with
  | none => simp
  | some pDaughterCluster =>
    dsimp only
    by_cases h1 : pParentCluster = pDaughterCluster ∨
        ¬(helpers.GetAssociatedTrackList w pDaughterCluster).isEmpty = true
    · rw [if_pos h1]
      constructor
      · exact fun h => Or.inl h
      · rintro (h | ⟨h2, h3, h4, -⟩)
        · exact h
        · injection h2 with h2
          subst h2
          rcases h1 with h1 | h1
          · exact absurd h1 h3
          · exact absurd h4 h1
    · rw [if_neg h1]
      have h2 : pParentCluster ≠ pDaughterCluster := fun h => h1 (Or.inl h)
      have h3 : (helpers.GetAssociatedTrackList w pDaughterCluster).isEmpty = true := by
        by_contra h
        exact h1 (Or.inr h)
      by_cases h4 : helpers.GetFractionOfHitsInCone w pDaughterCluster pParentCluster
          self.m_coneCosineHalfAngle > self.m_minConeFraction
      · rw [if_pos h4]
        dsimp only
        constructor
        · intro h
          have hcases : cluster ∈ lists.1 ∨ cluster = pDaughterCluster := by
            split at h
            · exact Or.inl h
            · rcases List.mem_append.1 h with h | h
              · exact Or.inl h
              · exact Or.inr (List.mem_singleton.1 h)
          rcases hcases with h | h
          · exact Or.inl h
          · subst h
            exact Or.inr ⟨rfl, h2, h3, h4⟩
        · rintro (h | ⟨h5, -⟩)
          · split
            · exact h
            · exact List.mem_append_left _ h
          · injection h5 with h5
            subst h5
            split
            · assumption
            · exact List.mem_append_right _ (List.mem_singleton.2 rfl)
      · rw [if_neg h4]
        constructor
        · exact fun h => Or.inl h
        · rintro (h | ⟨h5, -, -, h6⟩)
          · exact h
          · injection h5 with h5
            subst h5
            exact absurd h6 h4

/-- The clusters of the recluster cluster list: the seed, and every cluster of a slot of the
working vector that is not the seed, has no associated track and has more than
`MinConeFraction` of its hits in the cone around the seed. -/
theorem reclusterCandidates_mem {W : Type} (helpers : ReclusterHelpers W)
    (self : ResolveTrackAssociationsAlg) (w : W) (clusterVector : ClusterVector)
    (pParentCluster : Cluster) (i : Nat) (cluster : Cluster) :
    cluster ∈ (reclusterCandidates helpers self w clusterVector pParentCluster i).1 ↔
      cluster = pParentCluster ∨
        ∃ j, clusterVector.getD j none = some cluster ∧ pParentCluster ≠ cluster ∧
          (helpers.GetAssociatedTrackList w cluster).isEmpty = true ∧
          helpers.GetFractionOfHitsInCone w cluster pParentCluster self.m_coneCosineHalfAngle >
            self.m_minConeFraction := by
  have hfold : ∀ (js : List Nat) (lists : ClusterList × List Nat),
      cluster ∈ (js.foldl (daughterIteration helpers self w clusterVector pParentCluster)
          lists).1 ↔
        cluster ∈ lists.1 ∨
          ∃ j ∈ js, clusterVector.getD j none = some cluster ∧ pParentCluster ≠ cluster ∧
            (helpers.GetAssociatedTrackList w cluster).isEmpty = true ∧
            helpers.GetFractionOfHitsInCone w cluster pParentCluster
              self.m_coneCosineHalfAngle > self.m_minConeFraction := by
    intro js
    induction js with
    | nil => intro lists; simp
    | cons j rest ih =>
      intro lists
      rw [List.foldl_cons, ih, daughterIteration_mem]
      constructor
      · rintro ((h | h) | ⟨k, hk, h⟩)
        · exact Or.inl h
        · exact Or.inr ⟨j, List.mem_cons_self _ _, h⟩
        · exact Or.inr ⟨k, List.mem_cons_of_mem _ hk, h⟩
      · rintro (h | ⟨k, hk, h⟩)
        · exact Or.inl (Or.inl h)
        · rcases List.mem_cons.1 hk with hk | hk
          · subst hk
            exact Or.inl (Or.inr h)
          · exact Or.inr ⟨k, hk, h⟩
  unfold reclusterCandidates
  rw [hfold]
  constructor
  · rintro (h | ⟨j, -, h⟩)
    · exact Or.inl (List.mem_singleton.1 h)
    · exact Or.inr ⟨j, h⟩
  · rintro (h | ⟨j, h⟩)
    · exact Or.inl (List.mem_singleton.2 h)
    · exact Or.inr ⟨j, List.mem_range.2 (lt_length_of_getD clusterVector cluster j h.1), h⟩

/-- A seed that misses one of the preconditions is skipped: nothing is called. -/
theorem seedIteration_skip {W : Type} (api : PandoraContentApi W)
    (helpers : ReclusterHelpers W) (self : ResolveTrackAssociationsAlg) (i : Nat)
    (clusterVector : ClusterVector) (c : ClientState W) (pParentCluster : Cluster)
    (hget : clusterVector.getD i none = some pParentCluster)
    (h : (helpers.GetAssociatedTrackList c.world pParentCluster).length <
          self.m_minTrackAssociations ∨
        (helpers.GetAssociatedTrackList c.world pParentCluster).length >
          self.m_maxTrackAssociations ∨
        helpers.GetTrackClusterCompatibility c.world pParentCluster
            (helpers.GetAssociatedTrackList c.world pParentCluster) >
          self.m_chiToAttemptReclustering ∨
        helpers.IsClusterLeavingDetector c.world pParentCluster = true) :
    seedIteration api helpers self i clusterVector c = Flow.next clusterVector c := by
  unfold seedIteration
  rw [hget]
  dsimp only
  split
  · rfl
  · rename_i h1
    split
    · rfl
    · rename_i h2
      split
      · rfl
      · rename_i h3
        rcases h with h | h | h | h
        · exact absurd (Or.inl h) h1
        · exact absurd (Or.inr h) h1
        · exact absurd h h2
        · exact absurd h h3

/-- C21 fails as stated: `cluster2` is a non-null cluster of the working vector, other than the
seed `cluster1`, with half of its hits in the cone around the seed, more than
`MinConeFraction` (0.2); it has an associated track, and the cluster list passed to
`InitializeReclustering` for the seed holds the seed alone. -/
theorem reclusterCandidates_tracked_daughter_counterexample :
    scriptedVector.getD 1 none = some cluster2 ∧ cluster2 ≠ cluster1 ∧
      scriptedHelpers.GetFractionOfHitsInCone trackedDaughterState.world cluster2 cluster1
          defaultAlg.m_coneCosineHalfAngle > defaultAlg.m_minConeFraction ∧
      scriptedHelpers.GetAssociatedTrackList trackedDaughterState.world cluster2 = [101] ∧
      (eventsSince trackedDaughterState
          (seedIteration scriptedApi scriptedHelpers defaultAlg 0 scriptedVector
            trackedDaughterState)).head? =
        some (ClientEvent.initializeReclustering [100] [cluster1] "Original") := by
  refine ⟨?_, ?_, ?_, ?_, ?_⟩ <;> decide!

/-- C21, amended: `InitializeReclustering` is called in a seed iteration only for a seed whose
number of track associations lies in [`MinTrackAssociations`, `MaxTrackAssociations`], whose
compatibility chi does not exceed `ChiToAttemptReclustering` and which is not leaving the
detector; the track list passed is the seed's associated tracks, and the cluster list passed
holds exactly the seed and every other non-null cluster of the working vector that has no
associated track and whose hit fraction in the cone around the seed exceeds
`MinConeFraction`. -/
theorem seedIteration_initialize {W : Type} (api : PandoraContentApi W)
    (helpers : ReclusterHelpers W) (self : ResolveTrackAssociationsAlg) (i : Nat)
    (clusterVector : ClusterVector) (c : ClientState W) (tracks : TrackList)
    (clusters : ClusterList) (originalClustersListName : String)
    (h : ClientEvent.initializeReclustering tracks clusters originalClustersListName ∈
      eventsSince c (seedIteration api helpers self i clusterVector c)) :
    ∃ pParentCluster,
      clusterVector.getD i none = some pParentCluster ∧
        self.m_minTrackAssociations ≤
          (helpers.GetAssociatedTrackList c.world pParentCluster).length ∧
        (helpers.GetAssociatedTrackList c.world pParentCluster).length ≤
          self.m_maxTrackAssociations ∧
        helpers.GetTrackClusterCompatibility c.world pParentCluster
            (helpers.GetAssociatedTrackList c.world pParentCluster) ≤
          self.m_chiToAttemptReclustering ∧
        helpers.IsClusterLeavingDetector c.world pParentCluster = false ∧
        tracks = helpers.GetAssociatedTrackList c.world pParentCluster ∧
        ∀ cluster, cluster ∈ clusters ↔
          cluster = pParentCluster ∨
            ∃ j, clusterVector.getD j none = some cluster ∧ pParentCluster ≠ cluster ∧
              (helpers.GetAssociatedTrackList c.world cluster).isEmpty = true ∧
              helpers.GetFractionOfHitsInCone c.world cluster pParentCluster
                self.m_coneCosineHalfAngle > self.m_minConeFraction := by
  have hnonempty : eventsSince c (seedIteration api helpers self i clusterVector c) ≠ [] := by
    intro hnil
    rw [hnil] at h
    cases h
  rcases seedIteration_events api helpers self i clusterVector c with ⟨hevents, -⟩ |
    ⟨pParentCluster, middle, hget, hkind, hshape⟩
  · exact absurd hevents hnonempty
  · have hfirst : ClientEvent.initializeReclustering tracks clusters originalClustersListName =
        ClientEvent.initializeReclustering
          (helpers.GetAssociatedTrackList c.world pParentCluster)
          (reclusterCandidates helpers self c.world clusterVector pParentCluster i).1
          (api.InitializeReclustering self.address
            (helpers.GetAssociatedTrackList c.world pParentCluster)
            (reclusterCandidates helpers self c.world clusterVector pParentCluster i).1 ""
            c.world).2.1 := by
      rcases hshape with ⟨hevents, -⟩ | ⟨best, -, hevents, -⟩
      · rw [hevents] at h
        rcases List.mem_cons.1 h with h | h
        · exact h
        · have := hkind _ h
          cases this
      · rw [hevents] at h
        rcases List.mem_append.1 h with h | h
        · rcases List.mem_cons.1 h with h | h
          · exact h
          · have := hkind _ h
            cases this
        · have := List.mem_singleton.1 h
          cases this
    injection hfirst with htracks hclusters hname
    have hconditions : ¬((helpers.GetAssociatedTrackList c.world pParentCluster).length <
          self.m_minTrackAssociations ∨
        (helpers.GetAssociatedTrackList c.world pParentCluster).length >
          self.m_maxTrackAssociations ∨
        helpers.GetTrackClusterCompatibility c.world pParentCluster
            (helpers.GetAssociatedTrackList c.world pParentCluster) >
          self.m_chiToAttemptReclustering ∨
        helpers.IsClusterLeavingDetector c.world pParentCluster = true) := by
      intro hskip
      have hflow := seedIteration_skip api helpers self i clusterVector c pParentCluster hget
        hskip
      apply hnonempty
      rw [hflow]
      exact eventsSince_eq c _ [] (by simp [Flow.state])
    refine ⟨pParentCluster, hget, ?_, ?_, ?_, ?_, htracks, ?_⟩
    · exact Nat.le_of_not_lt (fun h1 => hconditions (Or.inl h1))
    · exact Nat.le_of_not_lt (fun h1 => hconditions (Or.inr (Or.inl h1)))
    · exact le_of_not_lt (fun h1 => hconditions (Or.inr (Or.inr (Or.inl h1))))
    · cases hleaving : helpers.IsClusterLeavingDetector c.world pParentCluster with
      | false => rfl
      | true => exact absurd (Or.inr (Or.inr (Or.inr hleaving))) hconditions
    · intro cluster
      rw [hclusters]
      exact reclusterCandidates_mem helpers self c.world clusterVector pParentCluster i cluster

theorem seedIteration_initialize_witness :
    ClientEvent.initializeReclustering [100] [cluster1, cluster2] "Original" ∈
        eventsSince threeCandidatesState
          (seedIteration scriptedApi scriptedHelpers defaultAlg 0 scriptedVector
            threeCandidatesState) ∧
      ∃ pParentCluster,
        scriptedVector.getD 0 none = some pParentCluster ∧
          defaultAlg.m_minTrackAssociations ≤
            (scriptedHelpers.GetAssociatedTrackList threeCandidatesState.world
              pParentCluster).length ∧
          (scriptedHelpers.GetAssociatedTrackList threeCandidatesState.world
              pParentCluster).length ≤ defaultAlg.m_maxTrackAssociations ∧
          scriptedHelpers.GetTrackClusterCompatibility threeCandidatesState.world
              pParentCluster
              (scriptedHelpers.GetAssociatedTrackList threeCandidatesState.world
                pParentCluster) ≤ defaultAlg.m_chiToAttemptReclustering ∧
          scriptedHelpers.IsClusterLeavingDetector threeCandidatesState.world pParentCluster =
            false ∧
          [100] = scriptedHelpers.GetAssociatedTrackList threeCandidatesState.world
            pParentCluster ∧
          ∀ cluster, cluster ∈ [cluster1, cluster2] ↔
            cluster = pParentCluster ∨
              ∃ j, scriptedVector.getD j none = some cluster ∧ pParentCluster ≠ cluster ∧
                (scriptedHelpers.GetAssociatedTrackList threeCandidatesState.world
                  cluster).isEmpty = true ∧
                scriptedHelpers.GetFractionOfHitsInCone threeCandidatesState.world cluster
                  pParentCluster defaultAlg.m_coneCosineHalfAngle >
                    defaultAlg.m_minConeFraction :=
  ⟨by decide!,
    seedIteration_initialize scriptedApi scriptedHelpers defaultAlg 0 scriptedVector
      threeCandidatesState [100] [cluster1, cluster2] "Original" (by decide!)⟩

/-! ## The reclustering scope in `ResolveTrackAssociationsAlg::Run` -/

/-- A status with which the strategy loop makes `Run()` return is not success. -/
theorem strategyLoop_returned {W : Type} (api : PandoraContentApi W)
    (helpers : ReclusterHelpers W) (self : ResolveTrackAssociationsAlg)
    (clusteringAlgorithms : List String) (sel : Selection) (c c1 : ClientState W)
    (statusCode : StatusCode)
    (h : strategyLoop api helpers self clusteringAlgorithms sel c =
      Flow.returned statusCode c1) : statusCode ≠ STATUS_CODE_SUCCESS := by
  induction clusteringAlgorithms generalizing sel c with
  | nil =>
    simp only [strategyLoop] at h
    cases h
  | cons clusteringAlgorithmName rest ih =>
    obtain ⟨hreturned, hskipped, hcandidate⟩ :=
      strategyIteration_eq api helpers self clusteringAlgorithmName sel c
    simp only [strategyLoop] at h
    cases hiter : strategyIteration api helpers self clusteringAlgorithmName sel c with
    | returned status c2 =>
      rw [hiter] at h
      injection h with h1 h2
      subst h1
      cases hrun : runStrategy api helpers self clusteringAlgorithmName c with
      | returned status2 c3 =>
        rw [hreturned status2 c3 hrun] at hiter
        injection hiter with h3 h4
        subst h3
        exact (runStrategy_returned api helpers self clusteringAlgorithmName c c3 status2
          hrun).1
      | skipped c3 =>
        rw [hskipped c3 hrun] at hiter
        cases hiter
      | candidate reclustersListName reclusterResult c3 =>
        rw [hcandidate reclustersListName reclusterResult c3 hrun] at hiter
        split at hiter <;> cases hiter
    | next sel2 c2 =>
      rw [hiter] at h
      exact ih sel2 c2 h
    | stop sel2 c2 =>
      rw [hiter] at h
      cases h

/-- A status with which the forced clustering step makes `Run()` return is not success. -/
theorem forcedClustering_returned {W : Type} (api : PandoraContentApi W)
    (helpers : ReclusterHelpers W) (self : ResolveTrackAssociationsAlg) (chi : ℚ)
    (sel : Selection) (bestReclusterListName originalClustersListName : String)
    (c c1 : ClientState W) (statusCode : StatusCode)
    (h : forcedClustering api helpers self chi sel bestReclusterListName
      originalClustersListName c = Flow.returned statusCode c1) :
    statusCode ≠ STATUS_CODE_SUCCESS := by
  by_cases hrun : self.m_shouldUseForcedClustering = true ∧
      (bestReclusterListName = originalClustersListName ∨
        sel.bestReclusterChi > self.m_minChiForForcedClustering)
  · rw [forcedClustering_run api helpers self chi sel bestReclusterListName
      originalClustersListName c hrun] at h
    dsimp only at h
    split at h
    · rename_i h1
      injection h with h2 h3
      rw [← h2]
      exact h1
    · split at h
      · rename_i h1
        injection h with h2 h3
        rw [← h2]
        exact h1
      · split at h <;> cases h
  · rw [forcedClustering_not_run api helpers self chi sel bestReclusterListName
      originalClustersListName c hrun] at h
    cases h

theorem resultIf_ne_success (statusCode : StatusCode) (h : resultIf statusCode = true) :
    statusCode ≠ STATUS_CODE_SUCCESS := by
  intro heq
  rw [heq] at h
  simp [resultIf] at h

/-- A status with which a seed iteration makes `Run()` return is not success. -/
theorem seedIteration_returned {W : Type} (api : PandoraContentApi W)
    (helpers : ReclusterHelpers W) (self : ResolveTrackAssociationsAlg) (i : Nat)
    (clusterVector : ClusterVector) (c c1 : ClientState W) (statusCode : StatusCode)
    (h : seedIteration api helpers self i clusterVector c = Flow.returned statusCode c1) :
    statusCode ≠ STATUS_CODE_SUCCESS := by
  unfold seedIteration at h
  cases hget : clusterVector.getD i none with
  | none =>
    rw [hget] at h
    cases h
  | some pParentCluster =>
    rw [hget] at h
    dsimp only at h
    split at h
    · cases h
    split at h
    · cases h
    split at h
    · cases h
    split at h
    · rename_i h1
      injection h with h2 h3
      rw [← h2]
      exact resultIf_ne_success _ h1
    · split at h
      · rename_i status c2 hloop
        injection h with h2 h3
        rw [← h2]
        exact strategyLoop_returned api helpers self _ _ _ _ _ hloop
      all_goals
        split at h
        · rename_i status c3 hforced
          injection h with h2 h3
          rw [← h2]
          exact forcedClustering_returned api helpers self _ _ _ _ _ _ _ hforced
        all_goals
          split at h
          · rename_i h1
            injection h with h2 h3
            rw [← h2]
            exact resultIf_ne_success _ h1
          · cases h

/-- Calls of `RunClusteringAlgorithm` and tests of candidates leave the reclustering scope as
it is. -/
theorem reclusterScope_clustering (scopeOpen : Bool) (middle rest : List ClientEvent)
    (h : ∀ event ∈ middle, event.isClustering = true) :
    reclusterScope scopeOpen (middle ++ rest) = reclusterScope scopeOpen rest := by
  induction middle with
  | nil => rfl
  | cons event more ih =>
    have hmore : ∀ e ∈ more, e.isClustering = true :=
      fun e he => h e (List.mem_cons_of_mem _ he)
    have hevent := h event (List.mem_cons_self _ _)
    cases event with
    | initializeReclustering tracks clusters name => cases hevent
    | endReclustering best tidied => cases hevent
    | runClusteringAlgorithm name statusCode listName =>
      simp only [List.cons_append, reclusterScope]
      exact ih hmore
    | candidate name result =>
      simp only [List.cons_append, reclusterScope]
      exact ih hmore

/-- A seed iteration that reaches `EndReclustering` opens one reclustering scope and closes
it. -/
theorem reclusterScope_closed (tracks : TrackList) (clusters : ClusterList)
    (originalClustersListName best : String) (tidied : ClusterVector)
    (middle rest : List ClientEvent) (h : ∀ event ∈ middle, event.isClustering = true) :
    reclusterScope false
        ((ClientEvent.initializeReclustering tracks clusters originalClustersListName ::
          middle ++ [ClientEvent.endReclustering best tidied]) ++ rest) =
      reclusterScope false rest := by
  rw [List.append_assoc, List.cons_append]
  have hbegin : reclusterScope false
      (ClientEvent.initializeReclustering tracks clusters originalClustersListName ::
        (middle ++ ([ClientEvent.endReclustering best tidied] ++ rest))) =
      reclusterScope true (middle ++ ([ClientEvent.endReclustering best tidied] ++ rest)) :=
    rfl
  rw [hbegin, reclusterScope_clustering true middle _ h]
  rfl

/-- A seed iteration that returns before `EndReclustering` leaves the scope it opened
open. -/
theorem reclusterScope_open (tracks : TrackList) (clusters : ClusterList)
    (originalClustersListName : String) (middle : List ClientEvent)
    (h : ∀ event ∈ middle, event.isClustering = true) :
    reclusterScope false
        (ClientEvent.initializeReclustering tracks clusters originalClustersListName ::
          middle) = some true := by
  have hbegin : reclusterScope false
      (ClientEvent.initializeReclustering tracks clusters originalClustersListName ::
        middle) = reclusterScope true middle := rfl
  have hmiddle := reclusterScope_clustering true middle [] h
  rw [List.append_nil] at hmiddle
  rw [hbegin, hmiddle]
  rfl

/-- The events the seed loop adds open and close reclustering scopes in strict alternation;
no scope is open when the loop ends, and a status with which it makes `Run()` return is not
success. -/
theorem seedLoop_scopes {W : Type} (api : PandoraContentApi W)
    (helpers : ReclusterHelpers W) (self : ResolveTrackAssociationsAlg) (indices : List Nat)
    (clusterVector : ClusterVector) (c : ClientState W) :
    ∃ events,
      (seedLoop api helpers self indices clusterVector c).state.trace = c.trace ++ events ∧
        reclusterScope false events ≠ none ∧
        (∀ vector c1,
          seedLoop api helpers self indices clusterVector c = Flow.next vector c1 ∨
            seedLoop api helpers self indices clusterVector c = Flow.stop vector c1 →
          reclusterScope false events = some false) ∧
        ∀ statusCode c1,
          seedLoop api helpers self indices clusterVector c = Flow.returned statusCode c1 →
          statusCode ≠ STATUS_CODE_SUCCESS := by
  induction indices generalizing clusterVector c with
  | nil =>
    refine ⟨[], by simp [seedLoop, Flow.state], by simp [reclusterScope], ?_, ?_⟩
    · intro vector c1 h
      rfl
    · intro statusCode c1 h
      simp only [seedLoop] at h
      cases h
  | cons i rest ih =>
    have hne := seedIteration_returned api helpers self i clusterVector c
    simp only [seedLoop]
    rcases seedIteration_cases api helpers self i clusterVector c with hflow |
      ⟨pParentCluster, middle, -, hkind, ⟨statusCode, c2, hflow, htrace⟩ |
        ⟨best, c2, -, htrace, hflow | ⟨statusCode, hflow⟩⟩⟩
    · rw [hflow]
      exact ih clusterVector c
    · rw [hflow]
      refine ⟨_, htrace, ?_, ?_, ?_⟩
      · rw [reclusterScope_open _ _ _ middle hkind]
        simp
      · intro vector c1 h
        rcases h with h | h <;> cases h
      · intro status c1 h
        injection h with h1 h2
        subst h1
        exact hne _ _ hflow
    · rw [hflow]
      dsimp only
      obtain ⟨events, htrace2, hscope, hclosed, hstatus⟩ := ih _ c2
      obtain ⟨first, hfirst, hfirstScope⟩ : ∃ first, c2.trace = c.trace ++ first ∧
          ∀ more, reclusterScope false (first ++ more) = reclusterScope false more :=
        ⟨_, htrace, fun more => reclusterScope_closed _ _ _ _ _ middle more hkind⟩
      refine ⟨first ++ events, ?_, ?_, ?_, hstatus⟩
      · rw [htrace2, hfirst, List.append_assoc]
      · rw [hfirstScope]
        exact hscope
      · intro vector c1 h
        rw [hfirstScope]
        exact hclosed vector c1 h
    · rw [hflow]
      obtain ⟨first, hfirst, hfirstScope⟩ : ∃ first, c2.trace = c.trace ++ first ∧
          ∀ more, reclusterScope false (first ++ more) = reclusterScope false more :=
        ⟨_, htrace, fun more => reclusterScope_closed _ _ _ _ _ middle more hkind⟩
      refine ⟨first, hfirst, ?_, ?_, ?_⟩
      · have hclosed := hfirstScope []
        rw [List.append_nil] at hclosed
        rw [hclosed]
        simp [reclusterScope]
      · intro vector c1 h
        rcases h with h | h <;> cases h
      · intro status c1 h
        injection h with h1 h2
        subst h1
        exact hne _ _ hflow

/-- C22: in every execution of `ResolveTrackAssociationsAlg::Run` the calls of
`InitializeReclustering` and `EndReclustering` strictly alternate, beginning with
`InitializeReclustering`: no reclustering scope is begun while one is open and none is ended
while none is open; and when `Run` returns success no scope is open, every
`InitializeReclustering` having been followed by one `EndReclustering`. -/
theorem Run_scopes_alternate {W : Type} (api : PandoraContentApi W)
    (helpers : ReclusterHelpers W) (self : ResolveTrackAssociationsAlg) (c : ClientState W) :
    ∃ events,
      (self.Run api helpers c).2.trace = c.trace ++ events ∧
        reclusterScope false events ≠ none ∧
        ((self.Run api helpers c).1 = STATUS_CODE_SUCCESS →
          reclusterScope false events = some false) := by
  unfold ResolveTrackAssociationsAlg.Run
  dsimp only
  split
  · rename_i h1
    exact ⟨[], by simp, by simp [reclusterScope], fun h => absurd h (resultIf_ne_success _ h1)⟩
  · split
    · rename_i h1
      exact ⟨[], by simp, by simp [reclusterScope],
        fun h => absurd h (resultIf_ne_success _ h1)⟩
    · obtain ⟨events, htrace, hscope, hclosed, hstatus⟩ := seedLoop_scopes api helpers self
        (List.range (sortedClusterVector helpers
          (api.RunDaughterAlgorithm self.address self.m_trackClusterAssociationAlgName
            c.world).2
          (api.GetCurrentClusterList self.address
            (api.RunDaughterAlgorithm self.address self.m_trackClusterAssociationAlgName
              c.world).2).2).length)
        (sortedClusterVector helpers
          (api.RunDaughterAlgorithm self.address self.m_trackClusterAssociationAlgName
            c.world).2
          (api.GetCurrentClusterList self.address
            (api.RunDaughterAlgorithm self.address self.m_trackClusterAssociationAlgName
              c.world).2).2)
        { c with
          world := (api.RunDaughterAlgorithm self.address
            self.m_trackClusterAssociationAlgName c.world).2 }
      split
      · rename_i statusCode c2 hloop
        rw [hloop] at htrace
        exact ⟨events, htrace, hscope, fun h => absurd h (hstatus _ _ hloop)⟩
      · rename_i vector c2 hloop
        rw [hloop] at htrace
        exact ⟨events, htrace, hscope, fun _ => hclosed _ _ (Or.inl hloop)⟩
      · rename_i vector c2 hloop
        rw [hloop] at htrace
        exact ⟨events, htrace, hscope, fun _ => hclosed _ _ (Or.inr hloop)⟩

/-! ## The bounds of the best chi2 in the strategy loop -/

/-- With a margin that is not negative, the test of a candidate does not increase the best
chi2. -/
theorem updateSelection_chi2_le (self : ResolveTrackAssociationsAlg) (minChi2 : ℚ)
    (sel : Selection) (reclustersListName : String) (reclusterResult : ReclusterResult)
    (hmargin : 0 ≤ self.m_minChi2Improvement) :
    (updateSelection self minChi2 sel reclustersListName reclusterResult).bestReclusterChi2 ≤
      sel.bestReclusterChi2 := by
  by_cases h : sel.bestReclusterChi2 - reclusterResult.chi2PerDof > self.m_minChi2Improvement ∧
      reclusterResult.chi2PerDof < minChi2
  · rw [updateSelection_pass self minChi2 sel reclustersListName reclusterResult h]
    dsimp only
    linarith [h.1]
  · exact le_of_eq (updateSelection_fail self minChi2 sel reclustersListName reclusterResult h).2.2

/-- The best chi2 while the candidates of a list are tested in order, against the ceiling
`minChi2` and with a margin that is not negative: it does not exceed the best chi2 before
them; and from the seed's selection, it is the seed's chi squared while the best list name is
empty, and otherwise it is below the ceiling and smaller than the seed's chi squared by more
than the margin.  The ceiling is the static `minChi2`. -/
theorem replaySelection_chi2_bounds (self : ResolveTrackAssociationsAlg) (minChi2 chi : ℚ)
    (candidates : List (String × ReclusterResult))
    (hmargin : 0 ≤ self.m_minChi2Improvement) :
    (∀ sel, (replaySelection self minChi2 sel candidates).bestReclusterChi2 ≤
        sel.bestReclusterChi2) ∧
      ((replaySelection self minChi2 (initialSelection chi) candidates).bestReclusterChi2 =
          chi * chi ∨
        ((replaySelection self minChi2 (initialSelection chi) candidates).bestReclusterChi2 <
            minChi2 ∧
          chi * chi -
              (replaySelection self minChi2 (initialSelection chi)
                candidates).bestReclusterChi2 > self.m_minChi2Improvement)) ∧
      ((∀ pre e post, candidates = pre ++ e :: post →
          ¬passesIdealTest self minChi2
            (replaySelection self minChi2 (initialSelection chi) pre).bestReclusterChi2 e.2) →
        (replaySelection self minChi2 (initialSelection chi) candidates).bestReclusterChi2 =
          chi * chi) := by
  have hmono : ∀ (l : List (String × ReclusterResult)) (sel : Selection),
      (replaySelection self minChi2 sel l).bestReclusterChi2 ≤ sel.bestReclusterChi2 := by
    intro l
    induction l with
    | nil => intro sel; exact le_refl _
    | cons e rest ih =>
      intro sel
      have h1 := ih (updateSelection self minChi2 sel e.1 e.2)
      have h2 := updateSelection_chi2_le self minChi2 sel e.1 e.2 hmargin
      exact le_trans h1 h2
  refine ⟨hmono candidates, ?_, ?_⟩
  · rcases replaySelection_last_passing self minChi2 (initialSelection chi) candidates with
      ⟨-, -, -, h⟩ | ⟨pre, e, post, -, hpass, -, -, -, h⟩
    · exact Or.inl h
    · right
      rw [h]
      have hpre := hmono pre (initialSelection chi)
      have hinit : (initialSelection chi).bestReclusterChi2 = chi * chi := rfl
      rw [hinit] at hpre
      unfold passesIdealTest at hpass
      exact ⟨hpass.2, by linarith [hpass.1]⟩
  · intro hnone
    rcases replaySelection_last_passing self minChi2 (initialSelection chi) candidates with
      ⟨-, -, -, h⟩ | ⟨pre, e, post, hsplit, hpass, -⟩
    · exact h
    · exact absurd hpass (hnone pre e post hsplit)

/-- C29, the code at a failing input: the instance `strictAlg` (`ChiToAttemptReclustering`
-5) runs first in the process and leaves 25 in the function-local static `minChi2`.  The
instance `oneStrategyAlg` (`ChiToAttemptReclustering` -3, margin 1, not negative) then
evaluates, for a seed of chi -6 (chi2 36), a candidate of chi2 20, which passes the test
against the stale ceiling 25: an ideal candidate has been selected, `ListY`, which is
committed, and the best chi2, 20, is not below `ChiToAttemptReclustering` squared, 9.  Started
with the static still uninitialised, the same instance rejects the candidate and commits the
original list. -/
theorem strategyLoop_stale_ceiling_bound :
    ((strictAlg.Run scriptedApi scriptedHelpers staleCeilingState).2.minChi2 = some 25) ∧
      0 ≤ oneStrategyAlg.m_minChi2Improvement ∧
      (updateSelection oneStrategyAlg
          (staticMinChi2 oneStrategyAlg
            (strictAlg.Run scriptedApi scriptedHelpers staleCeilingState).2.minChi2)
          (initialSelection (-6)) "ListY"
          (syntheticCandidate "ListY" 4.5 20).reclusterResult).bestReclusterListName =
        "ListY" ∧
      (updateSelection oneStrategyAlg
          (staticMinChi2 oneStrategyAlg
            (strictAlg.Run scriptedApi scriptedHelpers staleCeilingState).2.minChi2)
          (initialSelection (-6)) "ListY"
          (syntheticCandidate "ListY" 4.5 20).reclusterResult).bestReclusterChi2 = 20 ∧
      ¬((20 : ℚ) <
        oneStrategyAlg.m_chiToAttemptReclustering *
          oneStrategyAlg.m_chiToAttemptReclustering) ∧
      (oneStrategyAlg.Run scriptedApi scriptedHelpers
          (strictAlg.Run scriptedApi scriptedHelpers staleCeilingState).2).2.world.committed =
        ["Original", "ListY"] ∧
      (oneStrategyAlg.Run scriptedApi scriptedHelpers
          { (strictAlg.Run scriptedApi scriptedHelpers staleCeilingState).2 with
            minChi2 := none }).2.world.committed =
        ["Original", "Original"] := by
  refine ⟨?_, ?_, ?_, ?_, ?_, ?_, ?_⟩ <;> decide!

/-! ## `ResolveTrackAssociationsAlg::ReadSettings` -/

theorem resultIfAndIf_of_readable {β : Type} (r : StatusCode × β) (value : β)
    (h : r.1 = STATUS_CODE_SUCCESS ∨ r = (STATUS_CODE_NOT_FOUND, value)) :
    resultIfAndIf r.1 = false := by
  rcases h with h | h
  · rw [h]
    rfl
  · rw [h]
    rfl

theorem default_of_absent {β : Type} (r : StatusCode × β) (value : β)
    (h : r.1 = STATUS_CODE_SUCCESS ∨ r = (STATUS_CODE_NOT_FOUND, value))
    (habsent : r.1 = STATUS_CODE_NOT_FOUND) : r.2 = value := by
  rcases h with h | h
  · rw [h] at habsent
    cases habsent
  · rw [h]

/-- Lines 264 to 276 when no read fails: every threshold is what its read left. -/
theorem readForcedThresholds_pass {X : Type} (xml : XmlHelper X)
    (self : ResolveTrackAssociationsAlg) (xmlHandle : X)
    (hfloat : ∀ name value, resultIfAndIf (xml.ReadValueFloat xmlHandle name value).1 = false) :
    readForcedThresholds xml self xmlHandle =
      (STATUS_CODE_SUCCESS,
        { self with
          m_minChiForForcedClustering :=
            (xml.ReadValueFloat xmlHandle "MinChiForForcedClustering" 4).2
          m_minForcedChi2Improvement :=
            (xml.ReadValueFloat xmlHandle "MinForcedChi2Improvement" 9).2
          m_maxForcedChi2 := (xml.ReadValueFloat xmlHandle "MaxForcedChi2" 36).2 }) := by
  simp only [readForcedThresholds, hfloat, Bool.false_eq_true, if_false]

/-- Lines 250 to 276 when no read fails and the forced clustering algorithm, if it is
processed, is processed successfully. -/
theorem readForcedSettings_pass {X : Type} (xml : XmlHelper X)
    (self : ResolveTrackAssociationsAlg) (xmlHandle : X)
    (hfloat : ∀ name value, resultIfAndIf (xml.ReadValueFloat xmlHandle name value).1 = false)
    (hbool : ∀ name value, resultIfAndIf (xml.ReadValueBool xmlHandle name value).1 = false)
    (hforced : (xml.ReadValueBool xmlHandle "ShouldUseForcedClustering" false).2 = true →
      ∀ value,
        (xml.ProcessAlgorithm self.address xmlHandle "ForcedClustering" value).1 =
          STATUS_CODE_SUCCESS) :
    readForcedSettings xml self xmlHandle =
      (STATUS_CODE_SUCCESS,
        { self with
          m_shouldUseBestGuessCandidates :=
            (xml.ReadValueBool xmlHandle "ShouldUseBestGuessCandidates" true).2
          m_shouldUseForcedClustering :=
            (xml.ReadValueBool xmlHandle "ShouldUseForcedClustering" false).2
          m_forcedClusteringAlgorithmName :=
            if (xml.ReadValueBool xmlHandle "ShouldUseForcedClustering" false).2 = true then
              (xml.ProcessAlgorithm self.address xmlHandle "ForcedClustering"
                self.m_forcedClusteringAlgorithmName).2
            else self.m_forcedClusteringAlgorithmName
          m_minChiForForcedClustering :=
            (xml.ReadValueFloat xmlHandle "MinChiForForcedClustering" 4).2
          m_minForcedChi2Improvement :=
            (xml.ReadValueFloat xmlHandle "MinForcedChi2Improvement" 9).2
          m_maxForcedChi2 := (xml.ReadValueFloat xmlHandle "MaxForcedChi2" 36).2 }) := by
  simp only [readForcedSettings, hbool, Bool.false_eq_true, if_false]
  cases hflag : (xml.ReadValueBool xmlHandle "ShouldUseForcedClustering" false).2 with
  | true =>
    have hstatus := hforced hflag self.m_forcedClusteringAlgorithmName
    simp only [if_true, hstatus, resultIf, ne_eq, not_true_eq_false, decide_False,
      Bool.false_eq_true, if_false, readForcedThresholds_pass xml _ xmlHandle hfloat]
  | false =>
    simp only [Bool.false_eq_true, if_false, readForcedThresholds_pass xml _ xmlHandle hfloat]

/-- What `ReadSettings` leaves when nothing fails: the three required algorithm entries are
processed successfully, no read of an optional key fails, the value read for
`MinTrackAssociations` is not below 1 and the forced clustering algorithm, if it is processed,
is processed successfully.  The call returns success and every parameter is what its read
left, from its default. -/
theorem ReadSettings_pass {X : Type} (xml : XmlHelper X) (self : ResolveTrackAssociationsAlg)
    (xmlHandle : X)
    (hlist : ∀ value,
      (xml.ProcessAlgorithmList self.address xmlHandle "clusteringAlgorithms" value).1 =
        STATUS_CODE_SUCCESS)
    (hassociation : ∀ value,
      (xml.ProcessAlgorithm self.address xmlHandle "ClusterAssociation" value).1 =
        STATUS_CODE_SUCCESS)
    (htrack : ∀ value,
      (xml.ProcessAlgorithm self.address xmlHandle "TrackClusterAssociation" value).1 =
        STATUS_CODE_SUCCESS)
    (huint : ∀ name value,
      resultIfAndIf (xml.ReadValueUnsignedInt xmlHandle name value).1 = false)
    (hfloat : ∀ name value, resultIfAndIf (xml.ReadValueFloat xmlHandle name value).1 = false)
    (hbool : ∀ name value, resultIfAndIf (xml.ReadValueBool xmlHandle name value).1 = false)
    (hmin : 1 ≤ (xml.ReadValueUnsignedInt xmlHandle "MinTrackAssociations" 1).2)
    (hforced : (xml.ReadValueBool xmlHandle "ShouldUseForcedClustering" false).2 = true →
      ∀ value,
        (xml.ProcessAlgorithm self.address xmlHandle "ForcedClustering" value).1 =
          STATUS_CODE_SUCCESS) :
    (self.ReadSettings xml xmlHandle).1 = STATUS_CODE_SUCCESS ∧
      (self.ReadSettings xml xmlHandle).2.m_minTrackAssociations =
        (xml.ReadValueUnsignedInt xmlHandle "MinTrackAssociations" 1).2 ∧
      (self.ReadSettings xml xmlHandle).2.m_maxTrackAssociations =
        (xml.ReadValueUnsignedInt xmlHandle "MaxTrackAssociations" UINT_MAX).2 ∧
      (self.ReadSettings xml xmlHandle).2.m_chiToAttemptReclustering =
        (xml.ReadValueFloat xmlHandle "ChiToAttemptReclustering" (-3)).2 ∧
      (self.ReadSettings xml xmlHandle).2.m_minChi2Improvement =
        (xml.ReadValueFloat xmlHandle "MinChi2Improvement" 1).2 ∧
      (self.ReadSettings xml xmlHandle).2.m_coneCosineHalfAngle =
        (xml.ReadValueFloat xmlHandle "ConeCosineHalfAngle" 0.9).2 ∧
      (self.ReadSettings xml xmlHandle).2.m_minConeFraction =
        (xml.ReadValueFloat xmlHandle "MinConeFraction" 0.2).2 ∧
      (self.ReadSettings xml xmlHandle).2.m_minClusterEnergyForTrackAssociation =
        (xml.ReadValueFloat xmlHandle "MinClusterEnergyForTrackAssociation" 0.1).2 ∧
      (self.ReadSettings xml xmlHandle).2.m_chi2ForAutomaticClusterSelection =
        (xml.ReadValueFloat xmlHandle "Chi2ForAutomaticClusterSelection" 1).2 ∧
      (self.ReadSettings xml xmlHandle).2.m_usingOrderedAlgorithms =
        (xml.ReadValueBool xmlHandle "UsingOrderedAlgorithms" false).2 ∧
      (self.ReadSettings xml xmlHandle).2.m_bestChi2ForReclusterHalt =
        (xml.ReadValueFloat xmlHandle "BestChi2ForReclusterHalt" 4).2 ∧
      (self.ReadSettings xml xmlHandle).2.m_currentChi2ForReclusterHalt =
        (xml.ReadValueFloat xmlHandle "CurrentChi2ForReclusterHalt" 16).2 ∧
      (self.ReadSettings xml xmlHandle).2.m_shouldUseBestGuessCandidates =
        (xml.ReadValueBool xmlHandle "ShouldUseBestGuessCandidates" true).2 ∧
      (self.ReadSettings xml xmlHandle).2.m_shouldUseForcedClustering =
        (xml.ReadValueBool xmlHandle "ShouldUseForcedClustering" false).2 ∧
      (self.ReadSettings xml xmlHandle).2.m_minChiForForcedClustering =
        (xml.ReadValueFloat xmlHandle "MinChiForForcedClustering" 4).2 ∧
      (self.ReadSettings xml xmlHandle).2.m_minForcedChi2Improvement =
        (xml.ReadValueFloat xmlHandle "MinForcedChi2Improvement" 9).2 ∧
      (self.ReadSettings xml xmlHandle).2.m_maxForcedChi2 =
        (xml.ReadValueFloat xmlHandle "MaxForcedChi2" 36).2 := by
  have hmin1 : ¬(xml.ReadValueUnsignedInt xmlHandle "MinTrackAssociations" 1).2 < 1 :=
    Nat.not_lt.2 hmin
  have hsettings : self.ReadSettings xml xmlHandle =
      readForcedSettings xml
        { self with
          m_clusteringAlgorithms :=
            (xml.ProcessAlgorithmList self.address xmlHandle "clusteringAlgorithms"
              self.m_clusteringAlgorithms).2
          m_associationAlgorithmName :=
            (xml.ProcessAlgorithm self.address xmlHandle "ClusterAssociation"
              self.m_associationAlgorithmName).2
          m_trackClusterAssociationAlgName :=
            (xml.ProcessAlgorithm self.address xmlHandle "TrackClusterAssociation"
              self.m_trackClusterAssociationAlgName).2
          m_minTrackAssociations :=
            (xml.ReadValueUnsignedInt xmlHandle "MinTrackAssociations" 1).2
          m_maxTrackAssociations :=
            (xml.ReadValueUnsignedInt xmlHandle "MaxTrackAssociations" UINT_MAX).2
          m_chiToAttemptReclustering :=
            (xml.ReadValueFloat xmlHandle "ChiToAttemptReclustering" (-3)).2
          m_minChi2Improvement := (xml.ReadValueFloat xmlHandle "MinChi2Improvement" 1).2
          m_coneCosineHalfAngle := (xml.ReadValueFloat xmlHandle "ConeCosineHalfAngle" 0.9).2
          m_minConeFraction := (xml.ReadValueFloat xmlHandle "MinConeFraction" 0.2).2
          m_minClusterEnergyForTrackAssociation :=
            (xml.ReadValueFloat xmlHandle "MinClusterEnergyForTrackAssociation" 0.1).2
          m_chi2ForAutomaticClusterSelection :=
            (xml.ReadValueFloat xmlHandle "Chi2ForAutomaticClusterSelection" 1).2
          m_usingOrderedAlgorithms :=
            (xml.ReadValueBool xmlHandle "UsingOrderedAlgorithms" false).2
          m_bestChi2ForReclusterHalt :=
            (xml.ReadValueFloat xmlHandle "BestChi2ForReclusterHalt" 4).2
          m_currentChi2ForReclusterHalt :=
            (xml.ReadValueFloat xmlHandle "CurrentChi2ForReclusterHalt" 16).2 }
        xmlHandle := by
    simp only [ResolveTrackAssociationsAlg.ReadSettings, readSeedSettings, readHaltSettings,
      hlist, hassociation, htrack, huint, hfloat, hbool, hmin1, resultIf, ne_eq,
      not_true_eq_false, decide_False, Bool.false_eq_true, if_false]
  rw [hsettings, readForcedSettings_pass xml _ xmlHandle hfloat hbool]
  · exact ⟨rfl, rfl, rfl, rfl, rfl, rfl, rfl, rfl, rfl, rfl, rfl, rfl, rfl, rfl, rfl, rfl, rfl⟩
  · exact hforced

/-- Every read of the scripted configuration succeeds, or returns `STATUS_CODE_NOT_FOUND` and
leaves the value. -/
theorem scriptedRead_readable {β : Type} (name : String) (value : β)
    (entries : List (String × β)) :
    (scriptedRead name value entries).1 = STATUS_CODE_SUCCESS ∨
      scriptedRead name value entries = (STATUS_CODE_NOT_FOUND, value) := by
  unfold scriptedRead
  cases entries.lookup name with
  | none => exact Or.inr rfl
  | some found => exact Or.inl rfl

theorem scriptedXmlHelper_readable (xmlHandle : ScriptedXml) :
    optionalKeysReadable scriptedXmlHelper xmlHandle :=
  ⟨fun name value => scriptedRead_readable name value xmlHandle.unsignedInts,
    fun name value => scriptedRead_readable name value xmlHandle.floats,
    fun name value => scriptedRead_readable name value xmlHandle.bools⟩

/-- C23 fails as stated: in the configuration `zeroMinimumXml` the three required algorithm
entries are present and the optional key `MaxTrackAssociations` is absent, its read returning
`STATUS_CODE_NOT_FOUND`, yet `ReadSettings` does not succeed: `MinTrackAssociations` is
configured as 0 and the call returns `STATUS_CODE_INVALID_PARAMETER`, before
`MaxTrackAssociations` is given its default. -/
theorem ReadSettings_absent_key_counterexample :
    (scriptedXmlHelper.ProcessAlgorithmList unconfiguredAlg.address zeroMinimumXml
        "clusteringAlgorithms" []).1 = STATUS_CODE_SUCCESS ∧
      (scriptedXmlHelper.ProcessAlgorithm unconfiguredAlg.address zeroMinimumXml
        "ClusterAssociation" "").1 = STATUS_CODE_SUCCESS ∧
      (scriptedXmlHelper.ProcessAlgorithm unconfiguredAlg.address zeroMinimumXml
        "TrackClusterAssociation" "").1 = STATUS_CODE_SUCCESS ∧
      (scriptedXmlHelper.ReadValueUnsignedInt zeroMinimumXml "MaxTrackAssociations"
        UINT_MAX).1 = STATUS_CODE_NOT_FOUND ∧
      (unconfiguredAlg.ReadSettings scriptedXmlHelper zeroMinimumXml).1 =
        STATUS_CODE_INVALID_PARAMETER ∧
      (unconfiguredAlg.ReadSettings scriptedXmlHelper zeroMinimumXml).2.m_maxTrackAssociations =
        0 := by
  refine ⟨?_, ?_, ?_, ?_, ?_, ?_⟩ <;> decide!

/-- C23, amended: for every configuration in which the three required algorithm entries are
processed successfully, every optional key is absent (its read returns
`STATUS_CODE_NOT_FOUND` and leaves the value) or is read successfully, the value read for
`MinTrackAssociations` is not below 1 and the `ForcedClustering` entry is processed
successfully when `ShouldUseForcedClustering` is read as true, `ReadSettings` succeeds and
leaves the parameter of every absent optional key at its default: `MinTrackAssociations` 1,
`MaxTrackAssociations` the largest `unsigned int`, `ChiToAttemptReclustering` -3,
`MinChi2Improvement` 1, `ConeCosineHalfAngle` 0.9, `MinConeFraction` 0.2,
`MinClusterEnergyForTrackAssociation` 0.1, `Chi2ForAutomaticClusterSelection` 1,
`UsingOrderedAlgorithms` false, `BestChi2ForReclusterHalt` 4, `CurrentChi2ForReclusterHalt`
16, `ShouldUseBestGuessCandidates` true, `ShouldUseForcedClustering` false,
`MinChiForForcedClustering` 4, `MinForcedChi2Improvement` 9, `MaxForcedChi2` 36. -/
theorem ReadSettings_defaults {X : Type} (xml : XmlHelper X)
    (self : ResolveTrackAssociationsAlg) (xmlHandle : X)
    (hlist : ∀ value,
      (xml.ProcessAlgorithmList self.address xmlHandle "clusteringAlgorithms" value).1 =
        STATUS_CODE_SUCCESS)
    (hassociation : ∀ value,
      (xml.ProcessAlgorithm self.address xmlHandle "ClusterAssociation" value).1 =
        STATUS_CODE_SUCCESS)
    (htrack : ∀ value,
      (xml.ProcessAlgorithm self.address xmlHandle "TrackClusterAssociation" value).1 =
        STATUS_CODE_SUCCESS)
    (hreadable : optionalKeysReadable xml xmlHandle)
    (hmin : 1 ≤ (xml.ReadValueUnsignedInt xmlHandle "MinTrackAssociations" 1).2)
    (hforced : (xml.ReadValueBool xmlHandle "ShouldUseForcedClustering" false).2 = true →
      ∀ value,
        (xml.ProcessAlgorithm self.address xmlHandle "ForcedClustering" value).1 =
          STATUS_CODE_SUCCESS) :
    (self.ReadSettings xml xmlHandle).1 = STATUS_CODE_SUCCESS ∧
      ((xml.ReadValueUnsignedInt xmlHandle "MinTrackAssociations" 1).1 =
          STATUS_CODE_NOT_FOUND →
        (self.ReadSettings xml xmlHandle).2.m_minTrackAssociations = 1) ∧
      ((xml.ReadValueUnsignedInt xmlHandle "MaxTrackAssociations" UINT_MAX).1 =
          STATUS_CODE_NOT_FOUND →
        (self.ReadSettings xml xmlHandle).2.m_maxTrackAssociations = 4294967295) ∧
      ((xml.ReadValueFloat xmlHandle "ChiToAttemptReclustering" (-3)).1 =
          STATUS_CODE_NOT_FOUND →
        (self.ReadSettings xml xmlHandle).2.m_chiToAttemptReclustering = -3) ∧
      ((xml.ReadValueFloat xmlHandle "MinChi2Improvement" 1).1 = STATUS_CODE_NOT_FOUND →
        (self.ReadSettings xml xmlHandle).2.m_minChi2Improvement = 1) ∧
      ((xml.ReadValueFloat xmlHandle "ConeCosineHalfAngle" 0.9).1 = STATUS_CODE_NOT_FOUND →
        (self.ReadSettings xml xmlHandle).2.m_coneCosineHalfAngle = 0.9) ∧
      ((xml.ReadValueFloat xmlHandle "MinConeFraction" 0.2).1 = STATUS_CODE_NOT_FOUND →
        (self.ReadSettings xml xmlHandle).2.m_minConeFraction = 0.2) ∧
      ((xml.ReadValueFloat xmlHandle "MinClusterEnergyForTrackAssociation" 0.1).1 =
          STATUS_CODE_NOT_FOUND →
        (self.ReadSettings xml xmlHandle).2.m_minClusterEnergyForTrackAssociation = 0.1) ∧
      ((xml.ReadValueFloat xmlHandle "Chi2ForAutomaticClusterSelection" 1).1 =
          STATUS_CODE_NOT_FOUND →
        (self.ReadSettings xml xmlHandle).2.m_chi2ForAutomaticClusterSelection = 1) ∧
      ((xml.ReadValueBool xmlHandle "UsingOrderedAlgorithms" false).1 =
          STATUS_CODE_NOT_FOUND →
        (self.ReadSettings xml xmlHandle).2.m_usingOrderedAlgorithms = false) ∧
      ((xml.ReadValueFloat xmlHandle "BestChi2ForReclusterHalt" 4).1 =
          STATUS_CODE_NOT_FOUND →
        (self.ReadSettings xml xmlHandle).2.m_bestChi2ForReclusterHalt = 4) ∧
      ((xml.ReadValueFloat xmlHandle "CurrentChi2ForReclusterHalt" 16).1 =
          STATUS_CODE_NOT_FOUND →
        (self.ReadSettings xml xmlHandle).2.m_currentChi2ForReclusterHalt = 16) ∧
      ((xml.ReadValueBool xmlHandle "ShouldUseBestGuessCandidates" true).1 =
          STATUS_CODE_NOT_FOUND →
        (self.ReadSettings xml xmlHandle).2.m_shouldUseBestGuessCandidates = true) ∧
      ((xml.ReadValueBool xmlHandle "ShouldUseForcedClustering" false).1 =
          STATUS_CODE_NOT_FOUND →
        (self.ReadSettings xml xmlHandle).2.m_shouldUseForcedClustering = false) ∧
      ((xml.ReadValueFloat xmlHandle "MinChiForForcedClustering" 4).1 =
          STATUS_CODE_NOT_FOUND →
        (self.ReadSettings xml xmlHandle).2.m_minChiForForcedClustering = 4) ∧
      ((xml.ReadValueFloat xmlHandle "MinForcedChi2Improvement" 9).1 =
          STATUS_CODE_NOT_FOUND →
        (self.ReadSettings xml xmlHandle).2.m_minForcedChi2Improvement = 9) ∧
      ((xml.ReadValueFloat xmlHandle "MaxForcedChi2" 36).1 = STATUS_CODE_NOT_FOUND →
        (self.ReadSettings xml xmlHandle).2.m_maxForcedChi2 = 36) := by
  obtain ⟨huint, hfloat, hbool⟩ := hreadable
  obtain ⟨h0, h1, h2, h3, h4, h5, h6, h7, h8, h9, h10, h11, h12, h13, h14, h15, h16⟩ :=
    ReadSettings_pass xml self xmlHandle hlist hassociation htrack
      (fun name value => resultIfAndIf_of_readable _ value (huint name value))
      (fun name value => resultIfAndIf_of_readable _ value (hfloat name value))
      (fun name value => resultIfAndIf_of_readable _ value (hbool name value)) hmin hforced
  refine ⟨h0, ?_, ?_, ?_, ?_, ?_, ?_, ?_, ?_, ?_, ?_, ?_, ?_, ?_, ?_, ?_, ?_⟩
  · exact fun h => h1.trans (default_of_absent _ _ (huint _ _) h)
  · exact fun h => h2.trans (default_of_absent _ _ (huint _ _) h)
  · exact fun h => h3.trans (default_of_absent _ _ (hfloat _ _) h)
  · exact fun h => h4.trans (default_of_absent _ _ (hfloat _ _) h)
  · exact fun h => h5.trans (default_of_absent _ _ (hfloat _ _) h)
  · exact fun h => h6.trans (default_of_absent _ _ (hfloat _ _) h)
  · exact fun h => h7.trans (default_of_absent _ _ (hfloat _ _) h)
  · exact fun h => h8.trans (default_of_absent _ _ (hfloat _ _) h)
  · exact fun h => h9.trans (default_of_absent _ _ (hbool _ _) h)
  · exact fun h => h10.trans (default_of_absent _ _ (hfloat _ _) h)
  · exact fun h => h11.trans (default_of_absent _ _ (hfloat _ _) h)
  · exact fun h => h12.trans (default_of_absent _ _ (hbool _ _) h)
  · exact fun h => h13.trans (default_of_absent _ _ (hbool _ _) h)
  · exact fun h => h14.trans (default_of_absent _ _ (hfloat _ _) h)
  · exact fun h => h15.trans (default_of_absent _ _ (hfloat _ _) h)
  · exact fun h => h16.trans (default_of_absent _ _ (hfloat _ _) h)

theorem ReadSettings_defaults_witness :
    (unconfiguredAlg.ReadSettings scriptedXmlHelper scriptedXml).1 = STATUS_CODE_SUCCESS ∧
      (unconfiguredAlg.ReadSettings scriptedXmlHelper scriptedXml).2.m_minTrackAssociations =
        1 ∧
      (unconfiguredAlg.ReadSettings scriptedXmlHelper scriptedXml).2.m_maxForcedChi2 = 36 :=
  ⟨(ReadSettings_defaults scriptedXmlHelper unconfiguredAlg scriptedXml (fun _ => rfl)
      (fun _ => rfl) (fun _ => rfl) (scriptedXmlHelper_readable scriptedXml) (by decide)
      (fun h => absurd h (by decide))).1,
    (ReadSettings_defaults scriptedXmlHelper unconfiguredAlg scriptedXml (fun _ => rfl)
      (fun _ => rfl) (fun _ => rfl) (scriptedXmlHelper_readable scriptedXml) (by decide)
      (fun h => absurd h (by decide))).2.1 (by decide),
    (ReadSettings_defaults scriptedXmlHelper unconfiguredAlg scriptedXml (fun _ => rfl)
      (fun _ => rfl) (fun _ => rfl) (scriptedXmlHelper_readable scriptedXml) (by decide)
      (fun h => absurd h (by decide))).2.2.2.2.2.2.2.2.2.2.2.2.2.2.2.2 (by decide)⟩

/-- Lines 264 to 276 leave `m_minTrackAssociations` as it is. -/
theorem readForcedThresholds_minTrackAssociations {X : Type} (xml : XmlHelper X)
    (self : ResolveTrackAssociationsAlg) (xmlHandle : X) :
    (readForcedThresholds xml self xmlHandle).2.m_minTrackAssociations =
      self.m_minTrackAssociations := by
  unfold readForcedThresholds
  dsimp only
  split_ifs <;> rfl

/-- Lines 250 to 276 leave `m_minTrackAssociations` as it is. -/
theorem readForcedSettings_minTrackAssociations {X : Type} (xml : XmlHelper X)
    (self : ResolveTrackAssociationsAlg) (xmlHandle : X) :
    (readForcedSettings xml self xmlHandle).2.m_minTrackAssociations =
      self.m_minTrackAssociations := by
  unfold readForcedSettings
  dsimp only
  split_ifs <;>
    first
    | rfl
    | exact readForcedThresholds_minTrackAssociations xml _ xmlHandle

/-- Lines 234 to 276 leave `m_minTrackAssociations` as it is. -/
theorem readHaltSettings_minTrackAssociations {X : Type} (xml : XmlHelper X)
    (self : ResolveTrackAssociationsAlg) (xmlHandle : X) :
    (readHaltSettings xml self xmlHandle).2.m_minTrackAssociations =
      self.m_minTrackAssociations := by
  unfold readHaltSettings
  dsimp only
  split_ifs <;>
    first
    | rfl
    | exact readForcedSettings_minTrackAssociations xml _ xmlHandle

/-- Lines 210 to 276 leave `m_minTrackAssociations` as it is. -/
theorem readSeedSettings_minTrackAssociations {X : Type} (xml : XmlHelper X)
    (self : ResolveTrackAssociationsAlg) (xmlHandle : X) :
    (readSeedSettings xml self xmlHandle).2.m_minTrackAssociations =
      self.m_minTrackAssociations := by
  unfold readSeedSettings
  dsimp only
  split_ifs <;>
    first
    | rfl
    | exact readHaltSettings_minTrackAssociations xml _ xmlHandle

/-- Whenever `ReadSettings` returns success, `m_minTrackAssociations` is at least 1. -/
theorem ReadSettings_success_minimum {X : Type} (xml : XmlHelper X)
    (self : ResolveTrackAssociationsAlg) (xmlHandle : X)
    (h : (self.ReadSettings xml xmlHandle).1 = STATUS_CODE_SUCCESS) :
    1 ≤ (self.ReadSettings xml xmlHandle).2.m_minTrackAssociations := by
  unfold ResolveTrackAssociationsAlg.ReadSettings at h ⊢
  dsimp only at h ⊢
  split_ifs at h ⊢ with h1 h2 h3 h4 h5
  · exact absurd h (resultIf_ne_success _ h1)
  · exact absurd h (resultIf_ne_success _ h2)
  · exact absurd h (resultIf_ne_success _ h3)
  · have h6 := (resultIfAndIf_eq_false _).not.1 (by simpa using h4)
    exact absurd (Or.inl h) h6
  · rw [readSeedSettings_minTrackAssociations]
    exact Nat.not_lt.1 h5

/-- The status of `ReadSettings` when the three required algorithm entries are processed
successfully and the read of `MinTrackAssociations` does not fail but leaves a value below
1. -/
theorem ReadSettings_minimum_below_one {X : Type} (xml : XmlHelper X)
    (self : ResolveTrackAssociationsAlg) (xmlHandle : X)
    (hlist : ∀ value,
      (xml.ProcessAlgorithmList self.address xmlHandle "clusteringAlgorithms" value).1 =
        STATUS_CODE_SUCCESS)
    (hassociation : ∀ value,
      (xml.ProcessAlgorithm self.address xmlHandle "ClusterAssociation" value).1 =
        STATUS_CODE_SUCCESS)
    (htrack : ∀ value,
      (xml.ProcessAlgorithm self.address xmlHandle "TrackClusterAssociation" value).1 =
        STATUS_CODE_SUCCESS)
    (hread : resultIfAndIf (xml.ReadValueUnsignedInt xmlHandle "MinTrackAssociations" 1).1 =
      false)
    (hmin : (xml.ReadValueUnsignedInt xmlHandle "MinTrackAssociations" 1).2 < 1) :
    (self.ReadSettings xml xmlHandle).1 = STATUS_CODE_INVALID_PARAMETER := by
  simp only [ResolveTrackAssociationsAlg.ReadSettings, hlist, hassociation, htrack, hread,
    hmin, resultIf, ne_eq, not_true_eq_false, decide_False, Bool.false_eq_true, if_false,
    if_true]

/-- The status of `ReadSettings` when nothing fails before the `ForcedClustering` entry,
`ShouldUseForcedClustering` is read as true and the entry is not processed successfully: the
status of the entry. -/
theorem ReadSettings_forced_entry_fails {X : Type} (xml : XmlHelper X)
    (self : ResolveTrackAssociationsAlg) (xmlHandle : X) (statusCode : StatusCode)
    (hlist : ∀ value,
      (xml.ProcessAlgorithmList self.address xmlHandle "clusteringAlgorithms" value).1 =
        STATUS_CODE_SUCCESS)
    (hassociation : ∀ value,
      (xml.ProcessAlgorithm self.address xmlHandle "ClusterAssociation" value).1 =
        STATUS_CODE_SUCCESS)
    (htrack : ∀ value,
      (xml.ProcessAlgorithm self.address xmlHandle "TrackClusterAssociation" value).1 =
        STATUS_CODE_SUCCESS)
    (huint : ∀ name value,
      resultIfAndIf (xml.ReadValueUnsignedInt xmlHandle name value).1 = false)
    (hfloat : ∀ name value, resultIfAndIf (xml.ReadValueFloat xmlHandle name value).1 = false)
    (hbool : ∀ name value, resultIfAndIf (xml.ReadValueBool xmlHandle name value).1 = false)
    (hmin : 1 ≤ (xml.ReadValueUnsignedInt xmlHandle "MinTrackAssociations" 1).2)
    (hflag : (xml.ReadValueBool xmlHandle "ShouldUseForcedClustering" false).2 = true)
    (hentry : ∀ value,
      (xml.ProcessAlgorithm self.address xmlHandle "ForcedClustering" value).1 = statusCode)
    (hstatus : statusCode ≠ STATUS_CODE_SUCCESS) :
    (self.ReadSettings xml xmlHandle).1 = statusCode := by
  have hmin1 : ¬(xml.ReadValueUnsignedInt xmlHandle "MinTrackAssociations" 1).2 < 1 :=
    Nat.not_lt.2 hmin
  have hne : ¬STATUS_CODE_SUCCESS = statusCode := fun h => hstatus h.symm
  simp only [ResolveTrackAssociationsAlg.ReadSettings, readSeedSettings, readHaltSettings,
    readForcedSettings, hlist, hassociation, htrack, huint, hfloat, hbool, hmin1, hflag,
    hentry, resultIf, ne_eq, not_true_eq_false, decide_False, Bool.false_eq_true,
    if_false, if_true]
  rw [if_pos (decide_eq_true hne)]

theorem readForcedThresholds_withForcedClusteringEntry {X : Type} (xml : XmlHelper X)
    (process : AlgorithmAddress → X → String → StatusCode × String)
    (self : ResolveTrackAssociationsAlg) (xmlHandle : X) :
    readForcedThresholds (withForcedClusteringEntry xml process) self xmlHandle =
      readForcedThresholds xml self xmlHandle := rfl

/-- When `ShouldUseForcedClustering` is read as false, lines 250 to 276 do not process the
`ForcedClustering` entry: whatever processing it would be does not change what they leave. -/
theorem readForcedSettings_withForcedClusteringEntry {X : Type} (xml : XmlHelper X)
    (process : AlgorithmAddress → X → String → StatusCode × String)
    (self : ResolveTrackAssociationsAlg) (xmlHandle : X)
    (hflag : (xml.ReadValueBool xmlHandle "ShouldUseForcedClustering" false).2 = false) :
    readForcedSettings (withForcedClusteringEntry xml process) self xmlHandle =
      readForcedSettings xml self xmlHandle := by
  have hflag1 : ((withForcedClusteringEntry xml process).ReadValueBool xmlHandle
      "ShouldUseForcedClustering" false).2 = false := hflag
  unfold readForcedSettings
  dsimp only
  rw [hflag1, hflag]
  rfl

theorem readHaltSettings_withForcedClusteringEntry {X : Type} (xml : XmlHelper X)
    (process : AlgorithmAddress → X → String → StatusCode × String)
    (self : ResolveTrackAssociationsAlg) (xmlHandle : X)
    (hflag : (xml.ReadValueBool xmlHandle "ShouldUseForcedClustering" false).2 = false) :
    readHaltSettings (withForcedClusteringEntry xml process) self xmlHandle =
      readHaltSettings xml self xmlHandle := by
  unfold readHaltSettings
  dsimp only
  rw [readForcedSettings_withForcedClusteringEntry xml process _ xmlHandle hflag]
  rfl

theorem readSeedSettings_withForcedClusteringEntry {X : Type} (xml : XmlHelper X)
    (process : AlgorithmAddress → X → String → StatusCode × String)
    (self : ResolveTrackAssociationsAlg) (xmlHandle : X)
    (hflag : (xml.ReadValueBool xmlHandle "ShouldUseForcedClustering" false).2 = false) :
    readSeedSettings (withForcedClusteringEntry xml process) self xmlHandle =
      readSeedSettings xml self xmlHandle := by
  unfold readSeedSettings
  dsimp only
  rw [readHaltSettings_withForcedClusteringEntry xml process _ xmlHandle hflag]
  rfl

/-- When `ShouldUseForcedClustering` is read as false, `ReadSettings` does not process the
`ForcedClustering` entry: whatever processing it would be does not change the status returned
or the members left. -/
theorem ReadSettings_withForcedClusteringEntry {X : Type} (xml : XmlHelper X)
    (process : AlgorithmAddress → X → String → StatusCode × String)
    (self : ResolveTrackAssociationsAlg) (xmlHandle : X)
    (hflag : (xml.ReadValueBool xmlHandle "ShouldUseForcedClustering" false).2 = false) :
    self.ReadSettings (withForcedClusteringEntry xml process) xmlHandle =
      self.ReadSettings xml xmlHandle := by
  have hprocess : ∀ algorithm name value, name ≠ "ForcedClustering" →
      (withForcedClusteringEntry xml process).ProcessAlgorithm algorithm xmlHandle name value =
        xml.ProcessAlgorithm algorithm xmlHandle name value := by
    intro algorithm name value hname
    simp only [withForcedClusteringEntry, if_neg hname]
  unfold ResolveTrackAssociationsAlg.ReadSettings
  dsimp only
  rw [hprocess _ "ClusterAssociation" _ (by decide),
    hprocess _ "TrackClusterAssociation" _ (by decide),
    readSeedSettings_withForcedClusteringEntry xml process _ xmlHandle hflag]
  rfl

/-- C28 fails as stated: in the configuration `noStrategiesXml` the value configured for
`MinTrackAssociations` is 0, less than 1, and `ReadSettings` does not return
`STATUS_CODE_INVALID_PARAMETER`: the `clusteringAlgorithms` entry is absent and the call
returns the status of its processing, `STATUS_CODE_NOT_FOUND`, before `MinTrackAssociations`
is read. -/
theorem ReadSettings_invalid_minimum_counterexample :
    noStrategiesXml.unsignedInts.lookup "MinTrackAssociations" = some 0 ∧
      (scriptedXmlHelper.ProcessAlgorithmList unconfiguredAlg.address noStrategiesXml
        "clusteringAlgorithms" []).1 = STATUS_CODE_NOT_FOUND ∧
      (unconfiguredAlg.ReadSettings scriptedXmlHelper noStrategiesXml).1 =
        STATUS_CODE_NOT_FOUND ∧
      (unconfiguredAlg.ReadSettings scriptedXmlHelper noStrategiesXml).1 ≠
        STATUS_CODE_INVALID_PARAMETER := by
  refine ⟨?_, ?_, ?_, ?_⟩ <;> decide!

/-- C28, amended: when the three required algorithm entries are processed successfully (the
status of one that is not is returned first) and every optional key is absent or read
successfully, `ReadSettings` returns `STATUS_CODE_INVALID_PARAMETER` whenever the value
configured for `MinTrackAssociations` is less than 1.  `ReadSettings` never returns success
with `MinTrackAssociations` below 1.  The `ForcedClustering` algorithm entry is required only
when `ShouldUseForcedClustering` is read as true: then, `MinTrackAssociations` being at least
1, the status of an entry that is not processed successfully is the status returned; when
`ShouldUseForcedClustering` is read as false the entry is not processed, and no processing of
it changes what `ReadSettings` returns and leaves. -/
theorem ReadSettings_invalid_parameter {X : Type} (xml : XmlHelper X)
    (self : ResolveTrackAssociationsAlg) (xmlHandle : X)
    (hlist : ∀ value,
      (xml.ProcessAlgorithmList self.address xmlHandle "clusteringAlgorithms" value).1 =
        STATUS_CODE_SUCCESS)
    (hassociation : ∀ value,
      (xml.ProcessAlgorithm self.address xmlHandle "ClusterAssociation" value).1 =
        STATUS_CODE_SUCCESS)
    (htrack : ∀ value,
      (xml.ProcessAlgorithm self.address xmlHandle "TrackClusterAssociation" value).1 =
        STATUS_CODE_SUCCESS)
    (hreadable : optionalKeysReadable xml xmlHandle) :
    ((xml.ReadValueUnsignedInt xmlHandle "MinTrackAssociations" 1).2 < 1 →
        (self.ReadSettings xml xmlHandle).1 = STATUS_CODE_INVALID_PARAMETER) ∧
      ((self.ReadSettings xml xmlHandle).1 = STATUS_CODE_SUCCESS →
        1 ≤ (self.ReadSettings xml xmlHandle).2.m_minTrackAssociations) ∧
      (1 ≤ (xml.ReadValueUnsignedInt xmlHandle "MinTrackAssociations" 1).2 →
        (xml.ReadValueBool xmlHandle "ShouldUseForcedClustering" false).2 = true →
        ∀ statusCode, statusCode ≠ STATUS_CODE_SUCCESS →
          (∀ value,
            (xml.ProcessAlgorithm self.address xmlHandle "ForcedClustering" value).1 =
              statusCode) →
          (self.ReadSettings xml xmlHandle).1 = statusCode) ∧
      ((xml.ReadValueBool xmlHandle "ShouldUseForcedClustering" false).2 = false →
        ∀ process,
          self.ReadSettings (withForcedClusteringEntry xml process) xmlHandle =
            self.ReadSettings xml xmlHandle) := by
  obtain ⟨huint, hfloat, hbool⟩ := hreadable
  refine ⟨?_, ?_, ?_, ?_⟩
  · intro hmin
    exact ReadSettings_minimum_below_one xml self xmlHandle hlist hassociation htrack
      (resultIfAndIf_of_readable _ 1 (huint _ _)) hmin
  · exact ReadSettings_success_minimum xml self xmlHandle
  · intro hmin hflag statusCode hstatus hentry
    exact ReadSettings_forced_entry_fails xml self xmlHandle statusCode hlist hassociation
      htrack (fun name value => resultIfAndIf_of_readable _ value (huint name value))
      (fun name value => resultIfAndIf_of_readable _ value (hfloat name value))
      (fun name value => resultIfAndIf_of_readable _ value (hbool name value)) hmin hflag
      hentry hstatus
  · intro hflag process
    exact ReadSettings_withForcedClusteringEntry xml process self xmlHandle hflag

theorem ReadSettings_invalid_parameter_witness :
    (unconfiguredAlg.ReadSettings scriptedXmlHelper zeroMinimumXml).1 =
        STATUS_CODE_INVALID_PARAMETER ∧
      (unconfiguredAlg.ReadSettings scriptedXmlHelper forcedWithoutEntryXml).1 =
        STATUS_CODE_NOT_FOUND :=
  ⟨(ReadSettings_invalid_parameter scriptedXmlHelper unconfiguredAlg zeroMinimumXml
      (fun _ => rfl) (fun _ => rfl) (fun _ => rfl)
      (scriptedXmlHelper_readable zeroMinimumXml)).1 (by decide),
    (ReadSettings_invalid_parameter scriptedXmlHelper unconfiguredAlg forcedWithoutEntryXml
      (fun _ => rfl) (fun _ => rfl) (fun _ => rfl)
      (scriptedXmlHelper_readable forcedWithoutEntryXml)).2.2.1 (by decide) (by decide)
      STATUS_CODE_NOT_FOUND (by decide) (fun _ => rfl)⟩

/-! ## `ConeBasedMergingAlgorithm::SortClustersByInnerLayer` is a strict weak ordering -/

/-- C24: `SortClustersByInnerLayer(l, r)` is true exactly when the inner pseudo-layer of `l`
is smaller than that of `r`, or the inner layers are equal and `l` has more calo hits than
`r`; it is a strict weak ordering: irreflexive, asymmetric and transitive, and being
incomparable is transitive. -/
theorem SortClustersByInnerLayer_strict_weak_order {W : Type} (queries : ClusterQueries W)
    (w : W) :
    (∀ l r, SortClustersByInnerLayer queries w l r = true ↔
        queries.GetInnerPseudoLayer w l < queries.GetInnerPseudoLayer w r ∨
          (queries.GetInnerPseudoLayer w l = queries.GetInnerPseudoLayer w r ∧
            queries.GetNCaloHits w l > queries.GetNCaloHits w r)) ∧
      (∀ l, SortClustersByInnerLayer queries w l l = false) ∧
      (∀ l r, SortClustersByInnerLayer queries w l r = true →
        SortClustersByInnerLayer queries w r l = false) ∧
      (∀ a b c, SortClustersByInnerLayer queries w a b = true →
        SortClustersByInnerLayer queries w b c = true →
        SortClustersByInnerLayer queries w a c = true) ∧
      (∀ a b c,
        SortClustersByInnerLayer queries w a b = false →
        SortClustersByInnerLayer queries w b a = false →
        SortClustersByInnerLayer queries w b c = false →
        SortClustersByInnerLayer queries w c b = false →
        SortClustersByInnerLayer queries w a c = false ∧
          SortClustersByInnerLayer queries w c a = false) := by
  have hiff : ∀ l r, SortClustersByInnerLayer queries w l r = true ↔
      queries.GetInnerPseudoLayer w l < queries.GetInnerPseudoLayer w r ∨
        (queries.GetInnerPseudoLayer w l = queries.GetInnerPseudoLayer w r ∧
          queries.GetNCaloHits w l > queries.GetNCaloHits w r) := by
    intro l r
    unfold SortClustersByInnerLayer
    dsimp only
    split
    · rename_i hne
      rw [decide_eq_true_iff]
      constructor
      · exact fun h => Or.inl h
      · rintro (h | ⟨h, -⟩)
        · exact h
        · exact absurd h hne
    · rename_i heq
      rw [decide_eq_true_iff]
      have heq1 : queries.GetInnerPseudoLayer w l = queries.GetInnerPseudoLayer w r :=
        not_not.1 heq
      constructor
      · exact fun h => Or.inr ⟨heq1, h⟩
      · rintro (h | ⟨-, h⟩)
        · rw [heq1] at h
          exact absurd h (lt_irrefl _)
        · exact h
  have hfalse : ∀ l r, SortClustersByInnerLayer queries w l r = false ↔
      ¬(queries.GetInnerPseudoLayer w l < queries.GetInnerPseudoLayer w r ∨
        (queries.GetInnerPseudoLayer w l = queries.GetInnerPseudoLayer w r ∧
          queries.GetNCaloHits w l > queries.GetNCaloHits w r)) := by
    intro l r
    rw [← hiff, Bool.not_eq_true]
  refine ⟨hiff, ?_, ?_, ?_, ?_⟩
  · intro l
    rw [hfalse]
    omega
  · intro l r h
    rw [hiff] at h
    rw [hfalse]
    omega
  · intro a b c h1 h2
    rw [hiff] at h1 h2 ⊢
    omega
  · intro a b c h1 h2 h3 h4
    rw [hfalse] at h1 h2 h3 h4 ⊢
    rw [hfalse]
    omega

/-! ## `SoftClusterMergingAlgorithm`: the two tests of a daughter -/

/-- The difference of two `unsigned int` values that do not wrap. -/
theorem unsignedDifference_eq (a b : Nat) (hle : b ≤ a) (hrange : a < 4294967296) :
    unsignedDifference a b = a - b := by
  unfold unsignedDifference
  omega

/-- C27: `IsSoftCluster` returns false for a cluster with zero calo hits, and for a cluster
with at least one hit it returns the value of the formula in which each later cut overrides
the earlier ones: not (photon with electromagnetic energy above `MinClusterEMEnergy`), and
hadronic energy below `MinClusterHadEnergy` or else no associated track and one of: at most
`MaxHitsInSoftCluster` hits, fewer than `MaxLayersSpannedBySoftCluster` layers between the
inner and the outer layer, hadronic energy below `MaxHadEnergyForSoftClusterNoTrack`.  The
outer layer of the cluster is not below its inner layer. -/
theorem IsSoftCluster_formula {W : Type} (queries : ClusterQueries W)
    (self : SoftClusterMergingAlgorithm) (w : W) (pDaughterCluster : Cluster)
    (hlayers : queries.GetInnerPseudoLayer w pDaughterCluster ≤
      queries.GetOuterPseudoLayer w pDaughterCluster)
    (hrange : queries.GetOuterPseudoLayer w pDaughterCluster < 4294967296) :
    (queries.GetNCaloHits w pDaughterCluster = 0 →
        self.IsSoftCluster queries w pDaughterCluster = false) ∧
      (1 ≤ queries.GetNCaloHits w pDaughterCluster →
        (self.IsSoftCluster queries w pDaughterCluster = true ↔
          softClusterFormula queries self w pDaughterCluster)) := by
  have hspan : unsignedDifference (queries.GetOuterPseudoLayer w pDaughterCluster)
        (queries.GetInnerPseudoLayer w pDaughterCluster) <
        self.m_maxLayersSpannedBySoftCluster ↔
      (queries.GetOuterPseudoLayer w pDaughterCluster : ℤ) -
          (queries.GetInnerPseudoLayer w pDaughterCluster : ℤ) <
        (self.m_maxLayersSpannedBySoftCluster : ℤ) := by
    rw [unsignedDifference_eq _ _ hlayers hrange]
    omega
  constructor
  · intro hzero
    unfold SoftClusterMergingAlgorithm.IsSoftCluster
    dsimp only
    rw [if_pos hzero.symm]
  · intro hhits
    have hne : ¬0 = queries.GetNCaloHits w pDaughterCluster := by omega
    unfold SoftClusterMergingAlgorithm.IsSoftCluster softClusterFormula
    dsimp only
    rw [if_neg hne, ← hspan]
    by_cases h1 : queries.GetNCaloHits w pDaughterCluster ≤ self.m_maxHitsInSoftCluster <;>
    by_cases h2 : unsignedDifference (queries.GetOuterPseudoLayer w pDaughterCluster)
        (queries.GetInnerPseudoLayer w pDaughterCluster) <
        self.m_maxLayersSpannedBySoftCluster <;>
    by_cases h3 : queries.GetHadronicEnergy w pDaughterCluster <
        self.m_maxHadEnergyForSoftClusterNoTrack <;>
    by_cases h4 : queries.GetAssociatedTrackList w pDaughterCluster = [] <;>
    by_cases h5 : queries.GetHadronicEnergy w pDaughterCluster < self.m_minClusterHadEnergy <;>
    by_cases h6 : queries.IsPhoton w pDaughterCluster = true ∧
        queries.GetElectromagneticEnergy w pDaughterCluster > self.m_minClusterEMEnergy <;>
    simp only [h1, h2, h3, h4, h5, h6, List.isEmpty_nil, List.isEmpty_iff, not_true_eq_false,
      not_false_eq_true, if_true, if_false, true_and, and_true, false_and, and_false, true_or,
      or_true, false_or, or_false, Bool.false_eq_true, and_self, or_self]

theorem IsSoftCluster_formula_witness :
    defaultSoftAlg.IsSoftCluster scriptedQueries mergingWorld cluster2 = true ∧
      softClusterFormula scriptedQueries defaultSoftAlg mergingWorld cluster2 :=
  ⟨by decide!,
    ((IsSoftCluster_formula scriptedQueries defaultSoftAlg mergingWorld cluster2 (by decide)
      (by decide)).2 (by decide)).1 (by decide!)⟩

/-- C30: `CanMergeSoftCluster` is monotone in the distance: for every cluster and distances
`d1 ≤ d2`, a cluster that can be merged at closest distance `d2` can be merged at `d1`; and
it returns false for every cluster when the distance is at least `ClosestDistanceCut0`,
`ClosestDistanceCut1`, `ClosestDistanceCut2` and `MaxClusterDistance`. -/
theorem CanMergeSoftCluster_monotone {W : Type} (queries : ClusterQueries W)
    (self : SoftClusterMergingAlgorithm) (w : W) (pDaughterCluster : Cluster) :
    (∀ d1 d2 : ℚ, d1 ≤ d2 →
        self.CanMergeSoftCluster queries w pDaughterCluster d2 = true →
        self.CanMergeSoftCluster queries w pDaughterCluster d1 = true) ∧
      ∀ d : ℚ, self.m_closestDistanceCut0 ≤ d → self.m_closestDistanceCut1 ≤ d →
        self.m_closestDistanceCut2 ≤ d → self.m_maxClusterDistance ≤ d →
        self.CanMergeSoftCluster queries w pDaughterCluster d = false := by
  have hiff : ∀ d : ℚ, self.CanMergeSoftCluster queries w pDaughterCluster d = true ↔
      d < self.m_closestDistanceCut0 ∨
        (d < self.m_closestDistanceCut1 ∧
          queries.GetInnerPseudoLayer w pDaughterCluster > self.m_innerLayerCut1) ∨
        (d < self.m_closestDistanceCut2 ∧
          queries.GetInnerPseudoLayer w pDaughterCluster > self.m_innerLayerCut2) ∨
        (d < self.m_maxClusterDistance ∧
          (queries.GetHadronicEnergy w pDaughterCluster < self.m_minClusterHadEnergy ∨
            queries.GetNCaloHits w pDaughterCluster < self.m_minHitsInCluster)) := by
    intro d
    unfold SoftClusterMergingAlgorithm.CanMergeSoftCluster
    dsimp only
    by_cases h0 : d < self.m_closestDistanceCut0 <;>
    by_cases h1 : d < self.m_closestDistanceCut1 ∧
        queries.GetInnerPseudoLayer w pDaughterCluster > self.m_innerLayerCut1 <;>
    by_cases h2 : d < self.m_closestDistanceCut2 ∧
        queries.GetInnerPseudoLayer w pDaughterCluster > self.m_innerLayerCut2 <;>
    by_cases h3 : d < self.m_maxClusterDistance <;>
    by_cases h4 : queries.GetHadronicEnergy w pDaughterCluster < self.m_minClusterHadEnergy ∨
        queries.GetNCaloHits w pDaughterCluster < self.m_minHitsInCluster <;>
    simp only [h0, h1, h2, h3, h4, if_true, if_false, true_or, or_true, false_or, or_false,
      true_and, and_true, false_and, and_false, Bool.false_eq_true, or_self]
  constructor
  · intro d1 d2 hle h
    rw [hiff] at h ⊢
    rcases h with h | ⟨h, hlayer⟩ | ⟨h, hlayer⟩ | ⟨h, hsmall⟩
    · exact Or.inl (lt_of_le_of_lt hle h)
    · exact Or.inr (Or.inl ⟨lt_of_le_of_lt hle h, hlayer⟩)
    · exact Or.inr (Or.inr (Or.inl ⟨lt_of_le_of_lt hle h, hlayer⟩))
    · exact Or.inr (Or.inr (Or.inr ⟨lt_of_le_of_lt hle h, hsmall⟩))
  · intro d h0 h1 h2 h3
    rw [← Bool.not_eq_true, hiff]
    rintro (h | ⟨h, -⟩ | ⟨h, -⟩ | ⟨h, -⟩)
    · exact absurd h (not_lt.2 h0)
    · exact absurd h (not_lt.2 h1)
    · exact absurd h (not_lt.2 h2)
    · exact absurd h (not_lt.2 h3)

theorem CanMergeSoftCluster_monotone_witness :
    defaultSoftAlg.CanMergeSoftCluster scriptedQueries mergingWorld cluster2 80 = true ∧
      defaultSoftAlg.CanMergeSoftCluster scriptedQueries mergingWorld cluster2 30 = true ∧
      defaultSoftAlg.CanMergeSoftCluster scriptedQueries mergingWorld cluster2 500 = false :=
  ⟨by decide!,
    (CanMergeSoftCluster_monotone scriptedQueries defaultSoftAlg mergingWorld cluster2).1 30 80
      (by norm_num) (by decide!),
    (CanMergeSoftCluster_monotone scriptedQueries defaultSoftAlg mergingWorld cluster2).2 500
      (by decide!) (by decide!) (by decide!) (by decide!)⟩

/-! ## The merges of the merging algorithms -/

theorem mergeEventsSince_eq {W : Type} (c state : MergingState W) (events : List MergeEvent)
    (h : state.trace = c.trace ++ events) : mergeEventsSince c state = events := by
  simp [mergeEventsSince, h]

/-- The loop over the parent candidates of `ConeBasedMergingAlgorithm::Run` takes its
candidates among the keys of the map, and the best parent it leaves, if any, is one of them
and is not the daughter. -/
theorem coneParentLoop_events {W F : Type} (queries : ClusterQueries W)
    (helpers : MergingHelpers W F) (self : ConeBasedMergingAlgorithm)
    (pDaughterCluster : Cluster) (parents : ClusterList)
    (entries : ClusterFitResultMap F) (best : Option Cluster × ℚ) (c : MergingState W)
    (hentries : ∀ entry ∈ entries, entry.1 ∈ parents)
    (hbest : ∀ pParentCluster, best.1 = some pParentCluster →
      pParentCluster ∈ parents ∧ pParentCluster ≠ pDaughterCluster) :
    ∃ events,
      (coneParentLoop queries helpers self pDaughterCluster entries best c).state.trace =
          c.trace ++ events ∧
        (∀ event ∈ events, ∃ pParentCluster ∈ parents,
          event = MergeEvent.parentCandidate pParentCluster pDaughterCluster) ∧
        ∀ found c1,
          coneParentLoop queries helpers self pDaughterCluster entries best c =
            Step.next found c1 →
          ∀ pParentCluster, found.1 = some pParentCluster →
            pParentCluster ∈ parents ∧ pParentCluster ≠ pDaughterCluster := by
  induction entries generalizing best c with
  | nil =>
    refine ⟨[], by simp [coneParentLoop, Step.state], by simp, ?_⟩
    intro found c1 h
    simp only [coneParentLoop] at h
    injection h with h1 h2
    subst h1
    exact hbest
  | cons entry rest ih =>
    obtain ⟨pParentCluster, mipFitResult⟩ := entry
    have hparent : pParentCluster ∈ parents := hentries _ (List.mem_cons_self _ _)
    have hrest : ∀ e ∈ rest, e.1 ∈ parents := fun e he => hentries e (List.mem_cons_of_mem _ he)
    have hstep : ∀ best1 : Option Cluster × ℚ,
        (∀ p, best1.1 = some p → p ∈ parents ∧ p ≠ pDaughterCluster) →
        ∃ events,
          (coneParentLoop queries helpers self pDaughterCluster rest best1
              { c with
                trace := c.trace ++
                  [MergeEvent.parentCandidate pParentCluster pDaughterCluster] }).state.trace =
            c.trace ++ events ∧
          (∀ event ∈ events, ∃ p ∈ parents,
            event = MergeEvent.parentCandidate p pDaughterCluster) ∧
          ∀ found c1,
            coneParentLoop queries helpers self pDaughterCluster rest best1
                { c with
                  trace := c.trace ++
                    [MergeEvent.parentCandidate pParentCluster pDaughterCluster] } =
              Step.next found c1 →
            ∀ p, found.1 = some p → p ∈ parents ∧ p ≠ pDaughterCluster := by
      intro best1 hbest1
      obtain ⟨events, htrace, hevents, hfound⟩ := ih best1
        { c with
          trace := c.trace ++ [MergeEvent.parentCandidate pParentCluster pDaughterCluster] }
        hrest hbest1
      refine ⟨MergeEvent.parentCandidate pParentCluster pDaughterCluster :: events, ?_, ?_,
        hfound⟩
      · rw [htrace]
        simp
      · intro event hevent
        rcases List.mem_cons.1 hevent with hevent | hevent
        · exact ⟨pParentCluster, hparent, hevent⟩
        · exact hevents event hevent
    simp only [coneParentLoop]
    split
    · exact hstep best hbest
    · rename_i hne
      split
      · exact hstep best hbest
      · split
        · exact hstep best hbest
        · split
          · refine ⟨[MergeEvent.parentCandidate pParentCluster pDaughterCluster], rfl, ?_, ?_⟩
            · intro event hevent
              exact ⟨pParentCluster, hparent, List.mem_singleton.1 hevent⟩
            · intro found c1 h
              cases h
          · split
            · apply hstep
              intro p hp
              injection hp with hp
              subst hp
              exact ⟨hparent, fun h => hne h.symm⟩
            · exact hstep best hbest

theorem mem_of_mem_set_none (clusterVector : ClusterVector) (index : Nat) (cluster : Cluster)
    (h : some cluster ∈ clusterVector.set index none) : some cluster ∈ clusterVector := by
  rcases List.mem_or_eq_of_mem_set h with h | h
  · exact h
  · cases h

/-- One iteration of the daughter loop of `ConeBasedMergingAlgorithm::Run`: its events take
the daughter in the slot of the iteration and the parents among the keys of the map, a merge
having a parent other than the daughter; the vector and the map it leaves hold no cluster
they did not hold; and when it calls `MergeAndDeleteClusters`, the daughter is the cluster of
its slot, which it leaves null, and the map it leaves has no entry for the daughter. -/
theorem coneDaughterIteration_events {W F : Type} (api : MergingContentApi W)
    (queries : ClusterQueries W) (helpers : MergingHelpers W F)
    (self : ConeBasedMergingAlgorithm) (index : Nat) (daughterVector : ClusterVector)
    (parentFitResultMap : ClusterFitResultMap F) (c : MergingState W) :
    ∃ events,
      (coneDaughterIteration api queries helpers self index daughterVector parentFitResultMap
          c).state.trace = c.trace ++ events ∧
        (∀ event ∈ events,
          event.within daughterVector (parentFitResultMap.map Prod.fst)) ∧
        (∀ value c1,
          coneDaughterIteration api queries helpers self index daughterVector
            parentFitResultMap c = Step.next value c1 →
          (∀ cluster, some cluster ∈ value.1 → some cluster ∈ daughterVector) ∧
            ∀ cluster ∈ value.2.map Prod.fst, cluster ∈ parentFitResultMap.map Prod.fst) ∧
        ∀ pParentCluster pDaughterCluster statusCode,
          MergeEvent.mergeAndDeleteClusters pParentCluster pDaughterCluster statusCode ∈
            events →
          daughterVector.getD index none = some pDaughterCluster ∧
            ∀ value c1,
              coneDaughterIteration api queries helpers self index daughterVector
                parentFitResultMap c = Step.next value c1 →
              value.1 = daughterVector.set index none ∧
                pDaughterCluster ∉ value.2.map Prod.fst := by
  unfold coneDaughterIteration
  cases hget : daughterVector.getD index none with
  | none =>
    refine ⟨[], by simp [Step.state], by simp, ?_, by simp⟩
    intro value c1 h
    injection h with h1 h2
    subst h1
    exact ⟨fun cluster h => h, fun cluster h => h⟩
  | some pDaughterCluster =>
    dsimp only
    have hslot : some pDaughterCluster ∈ daughterVector :=
      mem_of_getD daughterVector pDaughterCluster index hget
    obtain ⟨events, htrace, hevents, hfound⟩ := coneParentLoop_events queries helpers self
      pDaughterCluster (parentFitResultMap.map Prod.fst) parentFitResultMap
      (none, self.m_minConeFraction)
      { c with trace := c.trace ++ [MergeEvent.daughterCandidate pDaughterCluster] }
      (fun entry hentry => List.mem_map_of_mem Prod.fst hentry)
      (fun p hp => by cases hp)
    have hwithin : ∀ event ∈ MergeEvent.daughterCandidate pDaughterCluster :: events,
        event.within daughterVector (parentFitResultMap.map Prod.fst) := by
      intro event hevent
      rcases List.mem_cons.1 hevent with hevent | hevent
      · rw [hevent]
        exact hslot
      · obtain ⟨p, hp, hevent⟩ := hevents event hevent
        rw [hevent]
        exact ⟨hp, hslot⟩
    have hnomerge : ∀ p d s, MergeEvent.mergeAndDeleteClusters p d s ∉
        MergeEvent.daughterCandidate pDaughterCluster :: events := by
      intro p d s hmem
      rcases List.mem_cons.1 hmem with hmem | hmem
      · cases hmem
      · obtain ⟨p1, -, hevent⟩ := hevents _ hmem
        cases hevent
    generalize coneParentLoop queries helpers self pDaughterCluster parentFitResultMap
      (none, self.m_minConeFraction)
      { c with trace := c.trace ++ [MergeEvent.daughterCandidate pDaughterCluster] } =
      found at htrace hfound ⊢
    have hunchanged : ∀ c2 : MergingState W,
        c2.trace = c.trace ++ MergeEvent.daughterCandidate pDaughterCluster :: events →
        ∃ events1,
          (Step.next (daughterVector, parentFitResultMap) c2 :
              Step (MergingState W) (ClusterVector × ClusterFitResultMap F)).state.trace =
            c.trace ++ events1 ∧
          (∀ event ∈ events1,
            event.within daughterVector (parentFitResultMap.map Prod.fst)) ∧
          (∀ value c1,
            (Step.next (daughterVector, parentFitResultMap) c2 :
                Step (MergingState W) (ClusterVector × ClusterFitResultMap F)) =
              Step.next value c1 →
            (∀ cluster, some cluster ∈ value.1 → some cluster ∈ daughterVector) ∧
              ∀ cluster ∈ value.2.map Prod.fst,
                cluster ∈ parentFitResultMap.map Prod.fst) ∧
          ∀ p d s, MergeEvent.mergeAndDeleteClusters p d s ∈ events1 →
            some pDaughterCluster = some d ∧
              ∀ value c1,
                (Step.next (daughterVector, parentFitResultMap) c2 :
                    Step (MergingState W) (ClusterVector × ClusterFitResultMap F)) =
                  Step.next value c1 →
                value.1 = daughterVector.set index none ∧ d ∉ value.2.map Prod.fst := by
      intro c2 hc2
      refine ⟨_, hc2, hwithin, ?_, ?_⟩
      · intro value c1 h
        injection h with h1 h2
        subst h1
        exact ⟨fun cluster h => h, fun cluster h => h⟩
      · intro p d s hmem
        exact absurd hmem (hnomerge p d s)
    cases found with
    | done outcome c2 =>
      dsimp only
      have hc2 : c2.trace =
          c.trace ++ MergeEvent.daughterCandidate pDaughterCluster :: events := by
        have : c2.trace = (c.trace ++ [MergeEvent.daughterCandidate pDaughterCluster]) ++
            events := htrace
        rw [this]
        simp
      refine ⟨_, hc2, hwithin, ?_, ?_⟩
      · intro value c1 h
        cases h
      · intro p d s hmem
        exact absurd hmem (hnomerge p d s)
    | next best c2 =>
      dsimp only
      have hc2 : c2.trace =
          c.trace ++ MergeEvent.daughterCandidate pDaughterCluster :: events := by
        have : c2.trace = (c.trace ++ [MergeEvent.daughterCandidate pDaughterCluster]) ++
            events := htrace
        rw [this]
        simp
      have hbest := hfound best c2 rfl
      cases hbest1 : best.1 with
      | none => exact hunchanged c2 hc2
      | some pBestParentCluster =>
        dsimp only
        obtain ⟨hparent, hne⟩ := hbest pBestParentCluster hbest1
        split
        · exact hunchanged c2 hc2
        · have hmerge : ∀ event ∈ MergeEvent.daughterCandidate pDaughterCluster :: events ++
              [MergeEvent.mergeAndDeleteClusters pBestParentCluster pDaughterCluster
                (api.MergeAndDeleteClusters self.address pBestParentCluster pDaughterCluster
                  c2.world).1],
              event.within daughterVector (parentFitResultMap.map Prod.fst) := by
            intro event hevent
            rcases List.mem_append.1 hevent with hevent | hevent
            · exact hwithin event hevent
            · rw [List.mem_singleton.1 hevent]
              exact ⟨hparent, hslot, hne⟩
          have hd : ∀ p d s, MergeEvent.mergeAndDeleteClusters p d s ∈
              MergeEvent.daughterCandidate pDaughterCluster :: events ++
                [MergeEvent.mergeAndDeleteClusters pBestParentCluster pDaughterCluster
                  (api.MergeAndDeleteClusters self.address pBestParentCluster
                    pDaughterCluster c2.world).1] → d = pDaughterCluster := by
            intro p d s hmem
            rcases List.mem_append.1 hmem with hmem | hmem
            · exact absurd hmem (hnomerge p d s)
            · have := List.mem_singleton.1 hmem
              injection this with h1 h2 h3
          have htrace3 : c2.trace ++
              [MergeEvent.mergeAndDeleteClusters pBestParentCluster pDaughterCluster
                (api.MergeAndDeleteClusters self.address pBestParentCluster pDaughterCluster
                  c2.world).1] =
              c.trace ++ (MergeEvent.daughterCandidate pDaughterCluster :: events ++
                [MergeEvent.mergeAndDeleteClusters pBestParentCluster pDaughterCluster
                  (api.MergeAndDeleteClusters self.address pBestParentCluster
                    pDaughterCluster c2.world).1]) := by
            rw [hc2]
            simp
          split
          · refine ⟨_, htrace3, hmerge, ?_, ?_⟩
            · intro value c1 h
              cases h
            · intro p d s hmem
              rw [hd p d s hmem]
              exact ⟨rfl, fun value c1 h => by cases h⟩
          · refine ⟨_, htrace3, hmerge, ?_, ?_⟩
            · intro value c1 h
              injection h with h1 h2
              subst h1
              refine ⟨fun cluster h => mem_of_mem_set_none _ _ _ h, ?_⟩
              intro cluster hcluster
              obtain ⟨entry, hentry, hfst⟩ := List.mem_map.1 hcluster
              exact List.mem_map.2 ⟨entry, (List.mem_filter.1 hentry).1, hfst⟩
            · intro p d s hmem
              rw [hd p d s hmem]
              refine ⟨rfl, ?_⟩
              intro value c1 h
              injection h with h1 h2
              subst h1
              refine ⟨rfl, ?_⟩
              intro hmem2
              obtain ⟨entry, hentry, hfst⟩ := List.mem_map.1 hmem2
              have := (List.mem_filter.1 hentry).2
              simp [hfst] at this

theorem MergeEvent.within_mono (daughterVector vector : ClusterVector)
    (parents keys : ClusterList) (event : MergeEvent)
    (hvector : ∀ cluster, some cluster ∈ vector → some cluster ∈ daughterVector)
    (hkeys : ∀ cluster ∈ keys, cluster ∈ parents) (h : event.within vector keys) :
    event.within daughterVector parents := by
  cases event with
  | daughterCandidate d => exact hvector d h
  | parentCandidate p d => exact ⟨hkeys p h.1, hvector d h.2⟩
  | mergeAndDeleteClusters p d s => exact ⟨hkeys p h.1, hvector d h.2.1, h.2.2⟩

theorem MergeEvent.distinctClusters_of_within (daughterVector : ClusterVector)
    (parents : ClusterList) (event : MergeEvent) (h : event.within daughterVector parents) :
    event.distinctClusters = true := by
  cases event with
  | daughterCandidate d => rfl
  | parentCandidate p d => rfl
  | mergeAndDeleteClusters p d s => exact decide_eq_true h.2.2

/-- An event that takes its clusters in a vector and among parents that do not hold a cluster
does not use it. -/
theorem MergeEvent.uses_of_within (daughterVector : ClusterVector) (parents : ClusterList)
    (event : MergeEvent) (cluster : Cluster) (h : event.within daughterVector parents)
    (hvector : some cluster ∉ daughterVector) (hparents : cluster ∉ parents) :
    event.uses cluster = false := by
  cases event with
  | daughterCandidate d =>
    have hne : d ≠ cluster := fun heq => hvector (heq ▸ h)
    simp [MergeEvent.uses, hne]
  | parentCandidate p d =>
    have hp : p ≠ cluster := fun heq => hparents (heq ▸ h.1)
    have hd : d ≠ cluster := fun heq => hvector (heq ▸ h.2)
    simp [MergeEvent.uses, hp, hd]
  | mergeAndDeleteClusters p d s =>
    have hp : p ≠ cluster := fun heq => hparents (heq ▸ h.1)
    have hd : d ≠ cluster := fun heq => hvector (heq ▸ h.2.1)
    simp [MergeEvent.uses, hp, hd]

/-- The events of the daughter loop of `ConeBasedMergingAlgorithm::Run` take their daughters
in the slots of the daughter vector and their parents among the keys of the map the loop
starts from, a merge having a parent other than the daughter. -/
theorem coneDaughterLoop_events {W F : Type} (api : MergingContentApi W)
    (queries : ClusterQueries W) (helpers : MergingHelpers W F)
    (self : ConeBasedMergingAlgorithm) (indices : List Nat) (daughterVector : ClusterVector)
    (parentFitResultMap : ClusterFitResultMap F) (c : MergingState W) :
    ∃ events,
      (coneDaughterLoop api queries helpers self indices daughterVector parentFitResultMap
          c).state.trace = c.trace ++ events ∧
        ∀ event ∈ events,
          event.within daughterVector (parentFitResultMap.map Prod.fst) := by
  induction indices generalizing daughterVector parentFitResultMap c with
  | nil => exact ⟨[], by simp [coneDaughterLoop, Step.state], by simp⟩
  | cons index rest ih =>
    obtain ⟨events, htrace, hwithin, hvalue, -⟩ := coneDaughterIteration_events api queries
      helpers self index daughterVector parentFitResultMap c
    simp only [coneDaughterLoop]
    generalize coneDaughterIteration api queries helpers self index daughterVector
      parentFitResultMap c = step at htrace hvalue ⊢
    cases step with
    | done outcome c1 => exact ⟨events, htrace, hwithin⟩
    | next value c1 =>
      dsimp only
      obtain ⟨more, htrace2, hwithin2⟩ := ih value.1 value.2 c1
      obtain ⟨hvector, hkeys⟩ := hvalue value c1 rfl
      have htrace1 : c1.trace = c.trace ++ events := htrace
      refine ⟨events ++ more, ?_, ?_⟩
      · rw [htrace2, htrace1, List.append_assoc]
      · intro event hevent
        rcases List.mem_append.1 hevent with hevent | hevent
        · exact hwithin event hevent
        · exact MergeEvent.within_mono _ _ _ _ event hvector hkeys (hwithin2 event hevent)

/-- The events `ConeBasedMergingAlgorithm::Run` adds hold no merge of a cluster into
itself. -/
theorem ConeBasedMergingAlgorithm_Run_events {W F : Type} (api : MergingContentApi W)
    (queries : ClusterQueries W) (helpers : MergingHelpers W F)
    (self : ConeBasedMergingAlgorithm) (c : MergingState W) :
    ∃ events,
      (self.Run api queries helpers c).2.trace = c.trace ++ events ∧
        ∀ event ∈ events, event.distinctClusters = true := by
  unfold ConeBasedMergingAlgorithm.Run
  dsimp only
  split
  · exact ⟨[], by simp, by simp⟩
  · split
    · exact ⟨[], by simp, by simp⟩
    · obtain ⟨events, htrace, hwithin⟩ := coneDaughterLoop_events api queries helpers self
        (List.range (self.PrepareClusters api queries helpers
          (api.RunDaughterAlgorithm self.address self.m_trackClusterAssociationAlgName
            c.world).2).2.1.length).reverse
        (self.PrepareClusters api queries helpers
          (api.RunDaughterAlgorithm self.address self.m_trackClusterAssociationAlgName
            c.world).2).2.1
        (self.PrepareClusters api queries helpers
          (api.RunDaughterAlgorithm self.address self.m_trackClusterAssociationAlgName
            c.world).2).2.2
        { c with
          world := (api.RunDaughterAlgorithm self.address
            self.m_trackClusterAssociationAlgName c.world).2 }
      have hdistinct : ∀ event ∈ events, event.distinctClusters = true :=
        fun event hevent => MergeEvent.distinctClusters_of_within _ _ event
          (hwithin event hevent)
      split
      · rename_i outcome c2 hloop
        rw [hloop] at htrace
        exact ⟨events, htrace, hdistinct⟩
      · rename_i value c2 hloop
        rw [hloop] at htrace
        exact ⟨events, htrace, hdistinct⟩

/-- The loop over the parent candidates of `SoftClusterMergingAlgorithm::Run` adds no merge,
and the best parent it leaves, if any, is not the daughter. -/
theorem softParentLoop_events {W F : Type} (queries : ClusterQueries W)
    (helpers : MergingHelpers W F) (self : SoftClusterMergingAlgorithm)
    (pDaughterCluster : Cluster) (clusters : ClusterList) (best : Option Cluster × ℚ)
    (c : MergingState W)
    (hbest : ∀ pParentCluster, best.1 = some pParentCluster →
      pParentCluster ≠ pDaughterCluster) :
    ∃ events,
      (softParentLoop queries helpers self pDaughterCluster clusters best c).2.trace =
          c.trace ++ events ∧
        (∀ event ∈ events, event.distinctClusters = true) ∧
        ∀ pParentCluster,
          (softParentLoop queries helpers self pDaughterCluster clusters best c).1.1 =
            some pParentCluster →
          pParentCluster ≠ pDaughterCluster := by
  induction clusters generalizing best c with
  | nil => exact ⟨[], by simp [softParentLoop], by simp, hbest⟩
  | cons pParentCluster rest ih =>
    have hstep : ∀ best1 : Option Cluster × ℚ,
        (∀ p, best1.1 = some p → p ≠ pDaughterCluster) →
        ∃ events,
          (softParentLoop queries helpers self pDaughterCluster rest best1
              { c with
                trace := c.trace ++
                  [MergeEvent.parentCandidate pParentCluster pDaughterCluster] }).2.trace =
            c.trace ++ events ∧
          (∀ event ∈ events, event.distinctClusters = true) ∧
          ∀ p,
            (softParentLoop queries helpers self pDaughterCluster rest best1
                { c with
                  trace := c.trace ++
                    [MergeEvent.parentCandidate pParentCluster pDaughterCluster] }).1.1 =
              some p →
            p ≠ pDaughterCluster := by
      intro best1 hbest1
      obtain ⟨events, htrace, hevents, hfound⟩ := ih best1
        { c with
          trace := c.trace ++ [MergeEvent.parentCandidate pParentCluster pDaughterCluster] }
        hbest1
      refine ⟨MergeEvent.parentCandidate pParentCluster pDaughterCluster :: events, ?_, ?_,
        hfound⟩
      · rw [htrace]
        simp
      · intro event hevent
        rcases List.mem_cons.1 hevent with hevent | hevent
        · rw [hevent]
          rfl
        · exact hevents event hevent
    simp only [softParentLoop]
    split
    · exact hstep best hbest
    · rename_i hne
      split
      · exact hstep best hbest
      · split
        · exact hstep best hbest
        · split
          · apply hstep
            intro p hp
            injection hp with hp
            subst hp
            exact fun h => hne h.symm
          · exact hstep best hbest

/-- One iteration of the daughter loop of `SoftClusterMergingAlgorithm::Run` adds no merge of
a cluster into itself. -/
theorem softDaughterIteration_events {W F : Type} (api : MergingContentApi W)
    (queries : ClusterQueries W) (helpers : MergingHelpers W F)
    (self : SoftClusterMergingAlgorithm) (readClusterList : W → ClusterList)
    (pDaughterCluster : Cluster) (c : MergingState W) :
    ∃ events,
      (softDaughterIteration api queries helpers self readClusterList pDaughterCluster
          c).state.trace = c.trace ++ events ∧
        ∀ event ∈ events, event.distinctClusters = true := by
  unfold softDaughterIteration
  dsimp only
  split
  · refine ⟨[MergeEvent.daughterCandidate pDaughterCluster], rfl, ?_⟩
    intro event hevent
    rw [List.mem_singleton.1 hevent]
    rfl
  · obtain ⟨events, htrace, hevents, hfound⟩ := softParentLoop_events queries helpers self
      pDaughterCluster (readClusterList c.world) (none, FLT_MAX)
      { c with trace := c.trace ++ [MergeEvent.daughterCandidate pDaughterCluster] }
      (fun p hp => by cases hp)
    generalize softParentLoop queries helpers self pDaughterCluster (readClusterList c.world)
      (none, FLT_MAX)
      { c with trace := c.trace ++ [MergeEvent.daughterCandidate pDaughterCluster] } =
      found at htrace hfound ⊢
    obtain ⟨⟨best, closestDistance⟩, c2⟩ := found
    have hc2 : c2.trace =
        c.trace ++ MergeEvent.daughterCandidate pDaughterCluster :: events := by
      have : c2.trace = (c.trace ++ [MergeEvent.daughterCandidate pDaughterCluster]) ++
          events := htrace
      rw [this]
      simp
    have hwithin : ∀ event ∈ MergeEvent.daughterCandidate pDaughterCluster :: events,
        event.distinctClusters = true := by
      intro event hevent
      rcases List.mem_cons.1 hevent with hevent | hevent
      · rw [hevent]
        rfl
      · exact hevents event hevent
    dsimp only
    cases best with
    | none => exact ⟨_, hc2, hwithin⟩
    | some pBestParentCluster =>
      dsimp only
      have hne : pBestParentCluster ≠ pDaughterCluster := hfound pBestParentCluster rfl
      have hmerge : ∀ status, ∀ event ∈
          MergeEvent.daughterCandidate pDaughterCluster :: events ++
            [MergeEvent.mergeAndDeleteClusters pBestParentCluster pDaughterCluster status],
          event.distinctClusters = true := by
        intro status event hevent
        rcases List.mem_append.1 hevent with hevent | hevent
        · exact hwithin event hevent
        · rw [List.mem_singleton.1 hevent]
          exact decide_eq_true hne
      have htrace3 : ∀ status, c2.trace ++
          [MergeEvent.mergeAndDeleteClusters pBestParentCluster pDaughterCluster status] =
          c.trace ++ (MergeEvent.daughterCandidate pDaughterCluster :: events ++
            [MergeEvent.mergeAndDeleteClusters pBestParentCluster pDaughterCluster
              status]) := by
        intro status
        rw [hc2]
        simp
      split
      · split
        · exact ⟨_, htrace3 _, hmerge _⟩
        · exact ⟨_, htrace3 _, hmerge _⟩
      · exact ⟨_, hc2, hwithin⟩

/-- The daughter loop of `SoftClusterMergingAlgorithm::Run` adds no merge of a cluster into
itself. -/
theorem softDaughterLoop_events {W F : Type} (api : MergingContentApi W)
    (queries : ClusterQueries W) (helpers : MergingHelpers W F)
    (self : SoftClusterMergingAlgorithm) (readClusterList : W → ClusterList)
    (clusters : ClusterList) (c : MergingState W) :
    ∃ events,
      (softDaughterLoop api queries helpers self readClusterList clusters c).state.trace =
          c.trace ++ events ∧
        ∀ event ∈ events, event.distinctClusters = true := by
  induction clusters generalizing c with
  | nil => exact ⟨[], by simp [softDaughterLoop, Step.state], by simp⟩
  | cons pDaughterCluster rest ih =>
    obtain ⟨events, htrace, hevents⟩ := softDaughterIteration_events api queries helpers self
      readClusterList pDaughterCluster c
    simp only [softDaughterLoop]
    generalize softDaughterIteration api queries helpers self readClusterList
      pDaughterCluster c = step at htrace ⊢
    cases step with
    | done outcome c1 => exact ⟨events, htrace, hevents⟩
    | next value c1 =>
      dsimp only
      obtain ⟨more, htrace2, hevents2⟩ := ih c1
      have htrace1 : c1.trace = c.trace ++ events := htrace
      refine ⟨events ++ more, ?_, ?_⟩
      · rw [htrace2, htrace1, List.append_assoc]
      · intro event hevent
        rcases List.mem_append.1 hevent with hevent | hevent
        · exact hevents event hevent
        · exact hevents2 event hevent

/-- The events `SoftClusterMergingAlgorithm::Run` adds hold no merge of a cluster into
itself. -/
theorem SoftClusterMergingAlgorithm_Run_events {W F : Type} (api : MergingContentApi W)
    (queries : ClusterQueries W) (helpers : MergingHelpers W F)
    (self : SoftClusterMergingAlgorithm) (c : MergingState W) :
    ∃ events,
      (self.Run api queries helpers c).2.trace = c.trace ++ events ∧
        ∀ event ∈ events, event.distinctClusters = true := by
  unfold SoftClusterMergingAlgorithm.Run
  dsimp only
  split
  · exact ⟨[], by simp, by simp⟩
  · split
    · exact ⟨[], by simp, by simp⟩
    · obtain ⟨events, htrace, hevents⟩ := softDaughterLoop_events api queries helpers self
        (api.GetCurrentClusterList self.address
          (api.RunDaughterAlgorithm self.address self.m_trackClusterAssociationAlgName
            c.world).2).2
        ((api.GetCurrentClusterList self.address
          (api.RunDaughterAlgorithm self.address self.m_trackClusterAssociationAlgName
            c.world).2).2
          (api.RunDaughterAlgorithm self.address self.m_trackClusterAssociationAlgName
            c.world).2)
        { c with
          world := (api.RunDaughterAlgorithm self.address
            self.m_trackClusterAssociationAlgName c.world).2 }
      split
      · rename_i outcome c2 hloop
        rw [hloop] at htrace
        exact ⟨events, htrace, hevents⟩
      · rename_i value c2 hloop
        rw [hloop] at htrace
        exact ⟨events, htrace, hevents⟩

/-- C25: neither `ConeBasedMergingAlgorithm::Run` nor `SoftClusterMergingAlgorithm::Run` calls
`MergeAndDeleteClusters` with the same cluster as parent and as daughter: in the events each
of them adds, every call has a parent other than the daughter, so the failure of the merge
operation for equal arguments is not reachable from them. -/
theorem Run_merges_distinct_clusters {W F : Type} (api : MergingContentApi W)
    (queries : ClusterQueries W) (helpers : MergingHelpers W F)
    (cone : ConeBasedMergingAlgorithm) (soft : SoftClusterMergingAlgorithm)
    (c : MergingState W) :
    ((cone.Run api queries helpers c).2.trace =
          c.trace ++ mergeEventsSince c (cone.Run api queries helpers c).2 ∧
        ∀ pParentCluster pDaughterCluster statusCode,
          MergeEvent.mergeAndDeleteClusters pParentCluster pDaughterCluster statusCode ∈
            mergeEventsSince c (cone.Run api queries helpers c).2 →
          pParentCluster ≠ pDaughterCluster) ∧
      ((soft.Run api queries helpers c).2.trace =
          c.trace ++ mergeEventsSince c (soft.Run api queries helpers c).2 ∧
        ∀ pParentCluster pDaughterCluster statusCode,
          MergeEvent.mergeAndDeleteClusters pParentCluster pDaughterCluster statusCode ∈
            mergeEventsSince c (soft.Run api queries helpers c).2 →
          pParentCluster ≠ pDaughterCluster) := by
  constructor
  · obtain ⟨events, htrace, hevents⟩ :=
      ConeBasedMergingAlgorithm_Run_events api queries helpers cone c
    rw [mergeEventsSince_eq c _ events htrace]
    refine ⟨htrace, ?_⟩
    intro p d s hmem
    exact of_decide_eq_true (hevents _ hmem)
  · obtain ⟨events, htrace, hevents⟩ :=
      SoftClusterMergingAlgorithm_Run_events api queries helpers soft c
    rw [mergeEventsSince_eq c _ events htrace]
    refine ⟨htrace, ?_⟩
    intro p d s hmem
    exact of_decide_eq_true (hevents _ hmem)

theorem Run_merges_distinct_clusters_witness :
    MergeEvent.mergeAndDeleteClusters cluster1 cluster3 STATUS_CODE_SUCCESS ∈
        mergeEventsSince mergingState
          (defaultConeAlg.Run scriptedMergingApi scriptedQueries scriptedMergingHelpers
            mergingState).2 ∧
      cluster1 ≠ cluster3 ∧
      MergeEvent.mergeAndDeleteClusters cluster1 cluster2 STATUS_CODE_SUCCESS ∈
        mergeEventsSince mergingState
          (defaultSoftAlg.Run scriptedMergingApi scriptedQueries scriptedMergingHelpers
            mergingState).2 ∧
      cluster1 ≠ cluster2 :=
  ⟨by decide!,
    (Run_merges_distinct_clusters scriptedMergingApi scriptedQueries scriptedMergingHelpers
      defaultConeAlg defaultSoftAlg mergingState).1.2 cluster1 cluster3 STATUS_CODE_SUCCESS
      (by decide!),
    by decide!,
    (Run_merges_distinct_clusters scriptedMergingApi scriptedQueries scriptedMergingHelpers
      defaultConeAlg defaultSoftAlg mergingState).2.2 cluster1 cluster2 STATUS_CODE_SUCCESS
      (by decide!)⟩

/-- C26: in an iteration of the daughter loop of `ConeBasedMergingAlgorithm::Run` that begins
with each cluster in at most one slot of the daughter vector, when `MergeAndDeleteClusters`
is called for a daughter, the daughter is the cluster of the slot of the iteration; and when
the loop goes on, the iteration has set that slot to null and erased the entry of the daughter
from the parent fit result map, so that no slot of the vector and no key of the map holds the
deleted cluster, and no later iteration uses it, as daughter or as parent candidate. -/
theorem coneDaughterIteration_deleted_unused {W F : Type} (api : MergingContentApi W)
    (queries : ClusterQueries W) (helpers : MergingHelpers W F)
    (self : ConeBasedMergingAlgorithm) (index : Nat) (daughterVector : ClusterVector)
    (parentFitResultMap : ClusterFitResultMap F) (c : MergingState W)
    (pParentCluster pDaughterCluster : Cluster) (statusCode : StatusCode)
    (hdistinct : distinctSlots daughterVector)
    (hmerge : MergeEvent.mergeAndDeleteClusters pParentCluster pDaughterCluster statusCode ∈
      mergeEventsSince c
        (coneDaughterIteration api queries helpers self index daughterVector
          parentFitResultMap c).state) :
    daughterVector.getD index none = some pDaughterCluster ∧
      ∀ value c1,
        coneDaughterIteration api queries helpers self index daughterVector
          parentFitResultMap c = Step.next value c1 →
        value.1 = daughterVector.set index none ∧
          value.1.getD index none = none ∧
          some pDaughterCluster ∉ value.1 ∧
          pDaughterCluster ∉ value.2.map Prod.fst ∧
          ∀ (indices : List Nat) (c2 : MergingState W),
            ∀ event ∈ mergeEventsSince c2
                (coneDaughterLoop api queries helpers self indices value.1 value.2 c2).state,
              event.uses pDaughterCluster = false := by
  obtain ⟨events, htrace, -, -, hmerged⟩ := coneDaughterIteration_events api queries helpers
    self index daughterVector parentFitResultMap c
  rw [mergeEventsSince_eq c _ events htrace] at hmerge
  obtain ⟨hget, hnext⟩ := hmerged pParentCluster pDaughterCluster statusCode hmerge
  refine ⟨hget, ?_⟩
  intro value c1 hstep
  obtain ⟨hvector, hkeys⟩ := hnext value c1 hstep
  have hnull : value.1.getD index none = none := by
    rw [hvector, set_none_getD, if_pos rfl]
  have hslots : some pDaughterCluster ∉ value.1 := by
    intro hmem
    obtain ⟨k, hk⟩ := getD_of_mem value.1 pDaughterCluster hmem
    rw [hvector, set_none_getD] at hk
    split at hk
    · cases hk
    · rename_i hne
      exact hne (distinctSlots_eq daughterVector hdistinct index k pDaughterCluster hget hk)
  refine ⟨hvector, hnull, hslots, hkeys, ?_⟩
  intro indices c2 event hevent
  obtain ⟨more, htrace2, hwithin⟩ := coneDaughterLoop_events api queries helpers self indices
    value.1 value.2 c2
  rw [mergeEventsSince_eq c2 _ more htrace2] at hevent
  exact MergeEvent.uses_of_within _ _ event pDaughterCluster (hwithin event hevent) hslots hkeys

theorem coneDaughterIteration_deleted_unused_witness :
    distinctSlots preparedDaughterVector ∧
      coneDaughterIteration scriptedMergingApi scriptedQueries scriptedMergingHelpers
          defaultConeAlg 0 preparedDaughterVector preparedFitResultMap mergingState =
        Step.next ([none, some cluster1], [(cluster1, 10)]) mergedState ∧
      preparedDaughterVector.getD 0 none = some cluster3 ∧
      some cluster3 ∉ ([none, some cluster1] : ClusterVector) :=
  ⟨by decide!, by decide!,
    (coneDaughterIteration_deleted_unused scriptedMergingApi scriptedQueries
      scriptedMergingHelpers defaultConeAlg 0 preparedDaughterVector preparedFitResultMap
      mergingState cluster1 cluster3 STATUS_CODE_SUCCESS (by decide!) (by decide!)).1,
    ((coneDaughterIteration_deleted_unused scriptedMergingApi scriptedQueries
      scriptedMergingHelpers defaultConeAlg 0 preparedDaughterVector preparedFitResultMap
      mergingState cluster1 cluster3 STATUS_CODE_SUCCESS (by decide!) (by decide!)).2
      ([none, some cluster1], [(cluster1, 10)]) mergedState (by decide!)).2.2.1⟩

/-- The daughter vector `PrepareClusters` builds from a cluster list without repetition, as
the current cluster list is, has each cluster in one slot. -/
theorem PrepareClusters_distinctSlots {W F : Type} (api : MergingContentApi W)
    (queries : ClusterQueries W) (helpers : MergingHelpers W F)
    (self : ConeBasedMergingAlgorithm) (w : W)
    (h : ((api.GetCurrentClusterList self.address w).2 w).Nodup) :
    distinctSlots (self.PrepareClusters api queries helpers w).2.1 := by
  unfold ConeBasedMergingAlgorithm.PrepareClusters
  dsimp only
  split
  · intro j hj
    cases hj
  · have hnodup : ∀ l : ClusterList, l.Nodup →
        ((l.insertionSort
          (fun lhs rhs => SortClustersByInnerLayer queries w rhs lhs = false)).map
            some).Nodup :=
      fun l hl => ((List.perm_insertionSort _ l).nodup_iff.2 hl).map
        (Option.some_injective Cluster)
    have hvector := hnodup _ (h.filter
      (fun pCluster =>
        !decide (queries.GetNCaloHits w pCluster < self.m_minCaloHitsPerCluster) &&
          helpers.CanMergeCluster w pCluster self.m_canMergeMinMipFraction
            self.m_canMergeMaxRms))
    intro j hj k hk heq
    right
    rw [List.getD_eq_getElem _ _ hj, List.getD_eq_getElem _ _ hk] at heq
    exact (List.Nodup.getElem_inj_iff hvector).1 heq

/-- Each cluster stays in at most one slot of the daughter vector from one iteration of the
daughter loop to the next. -/
theorem coneDaughterIteration_distinctSlots {W F : Type} (api : MergingContentApi W)
    (queries : ClusterQueries W) (helpers : MergingHelpers W F)
    (self : ConeBasedMergingAlgorithm) (index : Nat) (daughterVector : ClusterVector)
    (parentFitResultMap : ClusterFitResultMap F) (c c1 : MergingState W)
    (value : ClusterVector × ClusterFitResultMap F)
    (h : coneDaughterIteration api queries helpers self index daughterVector
      parentFitResultMap c = Step.next value c1)
    (hdistinct : distinctSlots daughterVector) : distinctSlots value.1 := by
  have hslot : ∀ k cluster, value.1.getD k none = some cluster →
      daughterVector.getD k none = some cluster := by
    intro k cluster hk
    unfold coneDaughterIteration at h
    split at h
    · injection h with h1 h2
      subst h1
      exact hk
    · dsimp only at h
      split at h
      · cases h
      · split at h
        · injection h with h1 h2
          subst h1
          exact hk
        · split at h
          · injection h with h1 h2
            subst h1
            exact hk
          · split at h
            · cases h
            · injection h with h1 h2
              subst h1
              dsimp only at hk
              rw [set_none_getD] at hk
              split at hk
              · cases hk
              · exact hk
  exact distinctSlots_of_getD daughterVector value.1 hslot hdistinct

theorem Run_scopes_alternate_witness :
    (defaultAlg.Run scriptedApi scriptedHelpers threeCandidatesState).1 =
        STATUS_CODE_SUCCESS ∧
      reclusterScope false
          (defaultAlg.Run scriptedApi scriptedHelpers threeCandidatesState).2.trace =
        some false ∧
      ∃ events,
        (defaultAlg.Run scriptedApi scriptedHelpers threeCandidatesState).2.trace =
            threeCandidatesState.trace ++ events ∧
          reclusterScope false events ≠ none ∧
          ((defaultAlg.Run scriptedApi scriptedHelpers threeCandidatesState).1 =
              STATUS_CODE_SUCCESS →
            reclusterScope false events = some false) :=
  ⟨by decide!, by decide!,
    Run_scopes_alternate scriptedApi scriptedHelpers defaultAlg threeCandidatesState⟩

end pandora
